import Mathlib

/-! Mount & Blade: Warband savegame decoder.

A shallow embedding of the two decoders of the repository,
`src/main.go` (namespace `Mbw.Main`) and `src/backend/editor.go`
(namespace `Mbw.Editor`), followed by theorems about them.

The `*os.File` that every reader receives is modelled by the list of bytes
that have not been read yet. The Go program never looks at the `error`
returned by `binary.Read`; the only ways a decode stops are `log.Fatal`
(wrong magic number) and the runtime panic of `make` with a negative
length. Both are outcomes of the reader type `Rd`.

Every `Read` method of `main.go` mutates its receiver in place, so each
reader takes the receiver's previous value and returns the new one: a
field that is not read, or whose read is short, keeps its previous value.
-/

namespace Mbw

/-! ## Go runtime and library model -/

/-- One byte of the file. -/
abbrev Byte := Fin 256

/-- The unread part of the open `*os.File`. -/
abbrev File := List Byte

/-- How a reader ends: it returns (`ok`, with the value stored in its
target and the rest of the file), or the process is stopped by `log.Fatal`
(`fatal`), or by a runtime panic (`panic`). The file carried by `fatal` and
`panic` is what was still unread at that moment. -/
inductive Outcome (α : Type) where
  | ok (value : α) (file : File)
  | fatal (file : File)
  | panic (file : File)
deriving DecidableEq

/-- A reader over the file cursor. -/
abbrev Rd (α : Type) := File → Outcome α

/-- Returning a value without touching the file. -/
def Rd.pure {α : Type} (a : α) : Rd α := fun file => .ok a file

/-- Sequencing of two readers; `fatal` and `panic` stop the sequence. -/
def Rd.bind {α β : Type} (x : Rd α) (k : α → Rd β) : Rd β := fun file =>
  match x file with
  | .ok a rest => k a rest
  | .fatal rest => .fatal rest
  | .panic rest => .panic rest

instance : Monad Rd where
  pure := Rd.pure
  bind := Rd.bind

/-- The value of `log.Fatal`: the message is printed and the process exits. -/
def log.Fatal {α : Type} : Rd α := fun file => .fatal file

/-- The value of `io.ReadFull(file, buf)` with `len(buf) = n`: when `n` bytes
remain they are returned and the cursor advances by `n`; otherwise the read
fails, and the bytes that were left have been consumed. -/
def readFull (n : Nat) (file : File) : Option (List Byte) × File :=
  if n ≤ file.length then (some (file.take n), file.drop n) else (none, [])

/-- The function `binary.Read(file, binary.LittleEndian, &data)` for a target
whose encoded size is `size`: `io.ReadFull` of `size` bytes, then the target
is overwritten with the decoded bytes. On a short read `binary.Read` returns
an error and leaves the target as it was; no caller looks at the error. -/
def binary.Read {α : Type} (size : Nat) (decode : List Byte → α) (data : α) : Rd α :=
  fun file =>
    match readFull size file with
    | (some bs, rest) => .ok (decode bs) rest
    | (none, rest) => .ok data rest

/-- The function `make([]T, n)` for an `int32` length: a slice of `n` zero
values, or the runtime panic `makeslice: len out of range` when `n < 0`. The
allocation of a non-negative length is assumed to succeed: a run in which the
Go runtime cannot obtain the memory for a large count (it then ends the
process with a fatal out-of-memory error) has no outcome here, so every
statement about a returning run is a statement about runs with enough memory. -/
def make {α : Type} (zero : α) (n : Int) : Rd (List α) := fun file =>
  if n < 0 then .panic file else .ok (List.replicate n.toNat zero) file

/-- Little-endian value of a byte sequence: `b0 + 2^8*b1 + 2^16*b2 + ...`. -/
def leNat : List Byte → Nat
  | [] => 0
  | b :: bs => b.val + 256 * leNat bs

/-- Conversion `int32(u)` of an unsigned 32-bit value (two's complement). -/
def toInt32 (u : Nat) : Int := if u < 2 ^ 31 then (u : Int) else (u : Int) - 2 ^ 32

/-- Conversion `int64(u)` of an unsigned 64-bit value (two's complement). -/
def toInt64 (u : Nat) : Int := if u < 2 ^ 63 then (u : Int) else (u : Int) - 2 ^ 64

/-- A Go `int32`. -/
abbrev Int32 := Int
/-- A Go `int64`. -/
abbrev Int64 := Int
/-- A Go `uint32`. -/
abbrev UInt32 := Nat
/-- A Go `uint64`. -/
abbrev UInt64 := Nat
/-- A Go `float32`, held as its IEEE-754 bit pattern (sign bit 31, exponent bits
23 to 30, fraction bits 0 to 22): `math.Float32frombits` is a bijection between
bit patterns and values. Bit pattern 0 is 0.0. -/
abbrev Float := Nat

/-- Decoding of a `bool`: true exactly when the byte is not zero. -/
def decodeBool : List Byte → Bool
  | [] => false
  | b :: _ => b != 0

/-- Decoding of an `int32`. -/
def decodeInt32 (bs : List Byte) : Int32 := toInt32 (leNat bs)
/-- Decoding of an `int64`. -/
def decodeInt64 (bs : List Byte) : Int64 := toInt64 (leNat bs)
/-- Decoding of a `uint32`. -/
def decodeUInt32 (bs : List Byte) : UInt32 := leNat bs
/-- Decoding of a `uint64`. -/
def decodeUInt64 (bs : List Byte) : UInt64 := leNat bs
/-- Decoding of a `float32` (to its bit pattern) by the fast path of
`binary.Read`, taken for a target of type `*float32`:
`math.Float32frombits(order.Uint32(bs))`, which keeps every bit. -/
def decodeFloat (bs : List Byte) : Float := leNat bs

/-- The bit pattern of `float32(float64(x))` for the `float32` with bit pattern
`u`: the conversion to `float64` and back keeps every value that is not a NaN
and turns a signalling NaN (exponent bits all one, fraction not zero, fraction
bit 22 clear) into the quiet NaN with the same sign and payload, by setting
bit 22 (as the conversion instructions of amd64 and arm64 do). -/
def quietNaN (u : Float) : Float :=
  if (u / 2 ^ 23) % 2 ^ 8 = 255 ∧ u % 2 ^ 23 ≠ 0 ∧ u % 2 ^ 23 < 2 ^ 22 then u + 2 ^ 22 else u

/-- Decoding of a `float32` by the reflection path of `binary.Read`, taken for
a target whose type is not one of the built-in types of the fast path (the
named type `Float` of `src/main.go`, a pointer to a slice such as
`*[]float32`): the decoder calls
`v.SetFloat(float64(math.Float32frombits(d.uint32())))`, and `SetFloat` stores
`float32(x)`, so the value goes through `float64` and back. -/
def decodeFloatReflect (bs : List Byte) : Float := quietNaN (leNat bs)

/-- Decoding of a slice of `n` elements of `size` bytes each, in order. -/
def decodeSlice {α : Type} (size : Nat) (decode : List Byte → α) : Nat → List Byte → List α
  | 0, _ => []
  | n + 1, bs => decode (bs.take size) :: decodeSlice size decode n (bs.drop size)

/-- Decoding of an array `[n]T` of elements of `size` bytes each, in order. -/
def decodeArray {α : Type} (size : Nat) (decode : List Byte → α) :
    (n : Nat) → List Byte → Mathlib.Vector α n
  | 0, _ => Mathlib.Vector.nil
  | n + 1, bs => Mathlib.Vector.cons (decode (bs.take size)) (decodeArray size decode n (bs.drop size))

/-- The loop `for i := 0; i < len(xs); i++ { xs[i].Read(file) }` over a slice. -/
def readEach {α : Type} (rd : α → Rd α) : List α → Rd (List α)
  | [] => pure []
  | x :: xs => do
    let y ← rd x
    let ys ← readEach rd xs
    pure (y :: ys)

/-- The same loop over a fixed-size array `[n]T`. -/
def readArray {α : Type} (rd : α → Rd α) : {n : Nat} → Mathlib.Vector α n → Rd (Mathlib.Vector α n)
  | 0, _ => pure Mathlib.Vector.nil
  | _ + 1, v => do
    let y ← rd v.head
    let ys ← readArray rd v.tail
    pure (Mathlib.Vector.cons y ys)

/-- The call `binary.Read(file, binary.LittleEndian, &xs)` on a slice of
elements of `size` bytes each: one `io.ReadFull` of `size * len(xs)` bytes,
then every element is decoded; on a short read no element is changed. -/
def binary.ReadSlice {α : Type} (size : Nat) (decode : List Byte → α) (data : List α) :
    Rd (List α) :=
  binary.Read (size * data.length) (decodeSlice size decode data.length) data

/-- The same call on a fixed-size array `[n]T`. -/
def binary.ReadArray {α : Type} (size : Nat) (decode : List Byte → α) {n : Nat}
    (data : Mathlib.Vector α n) : Rd (Mathlib.Vector α n) :=
  binary.Read (size * n) (decodeArray size decode n) data

/-- What is left unread when a reader ends. -/
def Outcome.rest {α : Type} : Outcome α → File
  | .ok _ file => file
  | .fatal file => file
  | .panic file => file

/-- Number of bytes a reader takes from an input: the length of the input
minus the length of what is left unread when the reader ends. -/
def consumed {α : Type} (r : Rd α) (file : File) : Int :=
  (file.length : Int) - ((r file).rest.length : Int)

/-- The value of a run that returns; nothing for a run that ends in `fatal` or
`panic`. -/
def Outcome.returned {α : Type} : Outcome α → Option α
  | .ok a _ => some a
  | .fatal _ => none
  | .panic _ => none

/-- A property of every run that returns: `Q` holds of the value returned and
of the rest of the file. Nothing is said of a run that ends in `fatal` or
`panic`. -/
def Outcome.Sat {α : Type} (Q : α → File → Prop) : Outcome α → Prop
  | .ok a file => Q a file
  | .fatal _ => True
  | .panic _ => True

/-! ## Data model (declared alike in `src/main.go` and `src/backend/editor.go`) -/

/-- The Go struct `String`. `Readable` is a Go `string`, i.e. a byte sequence. -/
structure String where
  NumChars : Int32
  Chars : List Byte
  Readable : List Byte
deriving DecidableEq

structure Header where
  MagicNumber : Int32
  GameVersion : Int32
  ModuleVersion : Int32
  SavegameName : String
  PlayerName : String
  PlayerLevel : Int32
  Date : Float
deriving DecidableEq

structure Trigger where
  Status : Int32
  CheckTimer : Int64
  DelayTimer : Int64
  RearmTimer : Int64
deriving DecidableEq

structure SimpleTrigger where
  CheckTimer : Int64
deriving DecidableEq

structure Note where
  Text : String
  Value : Int32
  TableauMaterialId : Int32
  Available : Bool
deriving DecidableEq

structure Quest where
  Progression : Int32
  GiverTroopId : Int32
  Number : Int32
  StartDate : Float
  Title : String
  Text : String
  Giver : String
  Notes : Mathlib.Vector Note 16
  NumSlots : Int32
  Slots : List Int64
deriving DecidableEq

structure InfoPage where
  Notes : Mathlib.Vector Note 16
deriving DecidableEq

structure Site where
  NumSlots : Int32
  Slots : List Int64
deriving DecidableEq

structure MapTrack where
  PositionX : Float
  PositionY : Float
  PositionZ : Float
  Rotation : Float
  Age : Float
  Flags : Int32
deriving DecidableEq

structure PartyTemplate where
  NumPartiesCreated : Int32
  NumPartiesDestroyed : Int32
  NumPartiesDestroyedByPlayer : Int32
  NumSlots : Int32
  Slots : List Int64
deriving DecidableEq

structure PartyStack where
  TroopId : Int32
  NumTroops : Int32
  NumWoundedTroops : Int32
  Flags : Int32
deriving DecidableEq

structure Party where
  Id : String
  Name : String
  Flags : UInt64
  MenuId : Int32
  PartyTemplateId : Int32
  FactionId : Int32
  Personality : Int32
  DefaultBehavior : Int32
  CurrentBehavior : Int32
  DefaultBehaviorObjectId : Int32
  CurrentBehaviorObjectId : Int32
  InitialPositionX : Float
  InitialPositionY : Float
  TargetPositionX : Float
  TargetPositionY : Float
  PositionX : Float
  PositionY : Float
  PositionZ : Float
  NumStacks : Int32
  Stacks : List PartyStack
  Bearing : Float
  Renamed : Bool
  ExtraText : String
  Morale : Float
  Hunger : Float
  _unused1 : Float
  PatrolRadius : Float
  Initiative : Float
  Helpfulness : Float
  LabelVisible : Int32
  BanditAttraction : Float
  Marshall : Int32
  IgnorePlayerTimer : Int64
  BannerMapIconId : Int32
  ExtraMapIconId : Int32
  ExtraMapIconUpDownDistance : Float
  ExtraMapIconUpDownFrequency : Float
  ExtraMapIconRotateFrequency : Float
  ExtraMapIconFadeFrequency : Float
  AttachedToPartyId : Int32
  _unused2 : Int32
  IsAttached : Bool
  NumAttachedPartyIds : Int32
  AttachedPartyIds : List Int32
  NumParticleSystemIds : Int32
  ParticleSystemIds : List Int32
  Notes : Mathlib.Vector Note 16
  NumSlots : Int32
  Slots : List Int64
deriving DecidableEq

structure PartyRecord where
  Valid : Int32
  RawId : Int32
  Id : Int32
  Party : Party
deriving DecidableEq

/-! ## Zero values -/

/-- The zero value of `String`. -/
def String.zero : String := { NumChars := 0, Chars := [], Readable := [] }

/-- The zero value of `Header`. -/
def Header.zero : Header :=
  { MagicNumber := 0, GameVersion := 0, ModuleVersion := 0, SavegameName := String.zero,
    PlayerName := String.zero, PlayerLevel := 0, Date := 0 }

/-- The zero value of `Trigger`. -/
def Trigger.zero : Trigger := { Status := 0, CheckTimer := 0, DelayTimer := 0, RearmTimer := 0 }

/-- The zero value of `SimpleTrigger`. -/
def SimpleTrigger.zero : SimpleTrigger := { CheckTimer := 0 }

/-- The zero value of `Note`. -/
def Note.zero : Note := { Text := String.zero, Value := 0, TableauMaterialId := 0, Available := false }

/-- The zero value of `[16]Note`. -/
def Note.zero16 : Mathlib.Vector Note 16 := Mathlib.Vector.replicate 16 Note.zero

/-- The zero value of `Quest`. -/
def Quest.zero : Quest :=
  { Progression := 0, GiverTroopId := 0, Number := 0, StartDate := 0, Title := String.zero,
    Text := String.zero, Giver := String.zero, Notes := Note.zero16, NumSlots := 0, Slots := [] }

/-- The zero value of `InfoPage`. -/
def InfoPage.zero : InfoPage := { Notes := Note.zero16 }

/-- The zero value of `Site`. -/
def Site.zero : Site := { NumSlots := 0, Slots := [] }

/-- The zero value of `MapTrack`. -/
def MapTrack.zero : MapTrack :=
  { PositionX := 0, PositionY := 0, PositionZ := 0, Rotation := 0, Age := 0, Flags := 0 }

/-- The zero value of `PartyTemplate`. -/
def PartyTemplate.zero : PartyTemplate :=
  { NumPartiesCreated := 0, NumPartiesDestroyed := 0, NumPartiesDestroyedByPlayer := 0,
    NumSlots := 0, Slots := [] }

/-- The zero value of `PartyStack`. -/
def PartyStack.zero : PartyStack := { TroopId := 0, NumTroops := 0, NumWoundedTroops := 0, Flags := 0 }

/-- The zero value of `Party`. -/
def Party.zero : Party :=
  { Id := String.zero, Name := String.zero, Flags := 0, MenuId := 0, PartyTemplateId := 0,
    FactionId := 0, Personality := 0, DefaultBehavior := 0, CurrentBehavior := 0,
    DefaultBehaviorObjectId := 0, CurrentBehaviorObjectId := 0, InitialPositionX := 0,
    InitialPositionY := 0, TargetPositionX := 0, TargetPositionY := 0, PositionX := 0,
    PositionY := 0, PositionZ := 0, NumStacks := 0, Stacks := [], Bearing := 0, Renamed := false,
    ExtraText := String.zero, Morale := 0, Hunger := 0, _unused1 := 0, PatrolRadius := 0,
    Initiative := 0, Helpfulness := 0, LabelVisible := 0, BanditAttraction := 0, Marshall := 0,
    IgnorePlayerTimer := 0, BannerMapIconId := 0, ExtraMapIconId := 0,
    ExtraMapIconUpDownDistance := 0, ExtraMapIconUpDownFrequency := 0,
    ExtraMapIconRotateFrequency := 0, ExtraMapIconFadeFrequency := 0, AttachedToPartyId := 0,
    _unused2 := 0, IsAttached := false, NumAttachedPartyIds := 0, AttachedPartyIds := [],
    NumParticleSystemIds := 0, ParticleSystemIds := [], Notes := Note.zero16, NumSlots := 0,
    Slots := [] }

/-- The zero value of `PartyRecord`. -/
def PartyRecord.zero : PartyRecord := { Valid := 0, RawId := 0, Id := 0, Party := Party.zero }

/-- The four array counts of a `Party` are not negative. -/
def Party.countsNonneg (p : Party) : Prop :=
  0 ≤ p.NumStacks ∧ 0 ≤ p.NumAttachedPartyIds ∧ 0 ≤ p.NumParticleSystemIds ∧ 0 ≤ p.NumSlots

/-! ## `src/main.go` -/

namespace Main

structure Faction where
  NumSlots : Int32
  Slots : List Int64
  Relations : List Float
  Name : String
  Renamed : Bool
  Color : UInt32
  _unused : Int32
  Notes : Mathlib.Vector Note 16
deriving DecidableEq

structure PlayerPartyStack where
  Experience : Float
  NumUpgradeable : Int32
  TroopDnas : Mathlib.Vector Int32 32
deriving DecidableEq

structure MapEvent where
  _unused0 : String
  «Type» : Int32
  PositionX : Float
  PositionY : Float
  LandPositionX : Float
  LandPositionY : Float
  _unused1 : Float
  _unused2 : Float
  AttackerPartyId : Int32
  DefenderPartyId : Int32
  BattleSimulationTimer : Int64
  NextBattleSimulation : Float
deriving DecidableEq

structure MapEventRecord where
  Valid : Int32
  Id : Int32
  MapEvent : MapEvent
deriving DecidableEq

structure Game where
  Header : Header
  GameTime : UInt64
  RandomSeed : Int32
  SaveMode : Int32
  CombatDifficulty : Int32
  CombatDifficultyFriendlies : Int32
  ReduceCombatAi : Int32
  ReduceCampaignAi : Int32
  CombatSpeed : Int32
  DateTimer : Int64
  Hour : Int32
  Day : Int32
  Week : Int32
  Month : Int32
  Year : Int32
  _unused0 : Int32
  GlobalCloudAmount : Float
  GlobalHazeAmount : Float
  AverageDifficulty : Float
  AverageDifficultyPeriod : Float
  _unused1 : String
  _unused2 : Bool
  TutorialFlags : Int32
  DefaultPrisonerPrice : Int32
  EncounteredParty1Id : Int32
  EncounteredParty2Id : Int32
  CurrentMenuId : Int32
  CurrentSiteId : Int32
  CurrentEntryNo : Int32
  CurrentMissionTemplateId : Int32
  PartyCreationMinRandomValue : Int32
  PartyCreationMaxRandomValue : Int32
  GameLog : String
  _unused3 : Mathlib.Vector Int32 6
  _unused4 : Int64
  RestPeriod : Float
  RestTimeSpeed : Int32
  RestIsInteractive : Int32
  RestRemainAttackable : Int32
  ClassNames : Mathlib.Vector String 9
  NumGlobalVariables : Int32
  GlobalVariables : List Int64
  NumTriggers : Int32
  Triggers : List Trigger
  NumSimpleTriggers : Int32
  SimpleTriggers : List SimpleTrigger
  NumQuests : Int32
  Quests : List Quest
  NumInfoPages : Int32
  InfoPages : List InfoPage
  NumSites : Int32
  Sites : List Site
  NumFactions : Int32
  Factions : List Faction
  NumMapTracks : Int32
  MapTracks : List MapTrack
  NumPartyTemplates : Int32
  PartyTemplates : List PartyTemplate
  NumPartyRecords : Int32
  NumPartiesCreated : Int32
  PartyRecords : List PartyRecord
  PlayerPartyStackAdditionalInfo : List PlayerPartyStack
  NumMapEventRecords : Int32
  NumMapEventsCreated : Int32
  MapEventRecords : List MapEventRecord
  NumTroops : Int32
deriving DecidableEq

/-- The zero value of `Faction`. -/
def Faction.zero : Faction :=
  { NumSlots := 0, Slots := [], Relations := [], Name := String.zero, Renamed := false,
    Color := 0, _unused := 0, Notes := Note.zero16 }

/-- The value `Game{}` that `main` hands to `Game.Read`. -/
def Game.zero : Game :=
  { Header := Header.zero, GameTime := 0, RandomSeed := 0, SaveMode := 0, CombatDifficulty := 0,
    CombatDifficultyFriendlies := 0, ReduceCombatAi := 0, ReduceCampaignAi := 0,
    CombatSpeed := 0, DateTimer := 0, Hour := 0, Day := 0, Week := 0, Month := 0, Year := 0,
    _unused0 := 0, GlobalCloudAmount := 0, GlobalHazeAmount := 0, AverageDifficulty := 0,
    AverageDifficultyPeriod := 0, _unused1 := String.zero, _unused2 := false,
    TutorialFlags := 0, DefaultPrisonerPrice := 0, EncounteredParty1Id := 0,
    EncounteredParty2Id := 0, CurrentMenuId := 0, CurrentSiteId := 0, CurrentEntryNo := 0,
    CurrentMissionTemplateId := 0, PartyCreationMinRandomValue := 0,
    PartyCreationMaxRandomValue := 0, GameLog := String.zero,
    _unused3 := Mathlib.Vector.replicate 6 0, _unused4 := 0, RestPeriod := 0,
    RestTimeSpeed := 0, RestIsInteractive := 0, RestRemainAttackable := 0,
    ClassNames := Mathlib.Vector.replicate 9 String.zero, NumGlobalVariables := 0,
    GlobalVariables := [], NumTriggers := 0, Triggers := [], NumSimpleTriggers := 0,
    SimpleTriggers := [], NumQuests := 0, Quests := [], NumInfoPages := 0, InfoPages := [],
    NumSites := 0, Sites := [], NumFactions := 0, Factions := [], NumMapTracks := 0,
    MapTracks := [], NumPartyTemplates := 0, PartyTemplates := [], NumPartyRecords := 0,
    NumPartiesCreated := 0, PartyRecords := [], PlayerPartyStackAdditionalInfo := [],
    NumMapEventRecords := 0, NumMapEventsCreated := 0, MapEventRecords := [], NumTroops := 0 }

/-- The method `(b *Bool) Read`. -/
def Bool.Read (b : Bool) : Rd Bool := binary.Read 1 decodeBool b

/-- The method `(i *Int32) Read`. -/
def Int32.Read (i : Int32) : Rd Int32 := binary.Read 4 decodeInt32 i

/-- The method `(i *Int64) Read`. -/
def Int64.Read (i : Int64) : Rd Int64 := binary.Read 8 decodeInt64 i

/-- The method `(i *UInt32) Read`. -/
def UInt32.Read (i : UInt32) : Rd UInt32 := binary.Read 4 decodeUInt32 i

/-- The method `(i *UInt64) Read`. -/
def UInt64.Read (i : UInt64) : Rd UInt64 := binary.Read 8 decodeUInt64 i

/-- The method `(f *Float) Read`: `binary.Read` into a `*Float`. `Float` is a
named type, so the read takes the reflection path. -/
def Float.Read (f : Float) : Rd Float := binary.Read 4 decodeFloatReflect f

/-- The method `(s *String) Read`: the count, `make([]byte, count)`, one
`binary.Read` of the whole byte slice, then `Readable = string(Chars)`. -/
def String.Read (s : String) : Rd String := do
  let NumChars ← Int32.Read s.NumChars
  let Chars ← make (0 : Byte) NumChars
  let Chars ← binary.Read Chars.length id Chars
  pure { NumChars := NumChars, Chars := Chars, Readable := Chars }

/-- The method `(header *Header) Read`. -/
def Header.Read (header : Header) : Rd Header := do
  let MagicNumber ← Int32.Read header.MagicNumber
  (if MagicNumber ≠ 0x52445257 then log.Fatal else pure ())
  let GameVersion ← Int32.Read header.GameVersion
  let ModuleVersion ← Int32.Read header.ModuleVersion
  let SavegameName ← String.Read header.SavegameName
  let PlayerName ← String.Read header.PlayerName
  let PlayerLevel ← Int32.Read header.PlayerLevel
  let Date ← Float.Read header.Date
  pure { MagicNumber, GameVersion, ModuleVersion, SavegameName, PlayerName, PlayerLevel, Date }

/-- The method `(trigger *Trigger) Read`. -/
def Trigger.Read (trigger : Trigger) : Rd Trigger := do
  let Status ← Int32.Read trigger.Status
  let CheckTimer ← Int64.Read trigger.CheckTimer
  let DelayTimer ← Int64.Read trigger.DelayTimer
  let RearmTimer ← Int64.Read trigger.RearmTimer
  pure { Status, CheckTimer, DelayTimer, RearmTimer }

/-- The method `(simpleTrigger *SimpleTrigger) Read`. -/
def SimpleTrigger.Read (simpleTrigger : SimpleTrigger) : Rd SimpleTrigger := do
  let CheckTimer ← Int64.Read simpleTrigger.CheckTimer
  pure { CheckTimer }

/-- The method `(note *Note) Read`. -/
def Note.Read (note : Note) : Rd Note := do
  let Text ← String.Read note.Text
  let Value ← Int32.Read note.Value
  let TableauMaterialId ← Int32.Read note.TableauMaterialId
  let Available ← Bool.Read note.Available
  pure { Text, Value, TableauMaterialId, Available }

/-- The method `(quest *Quest) Read`. -/
def Quest.Read (quest : Quest) : Rd Quest := do
  let Progression ← Int32.Read quest.Progression
  let GiverTroopId ← Int32.Read quest.GiverTroopId
  let Number ← Int32.Read quest.Number
  let StartDate ← Float.Read quest.StartDate
  let Title ← String.Read quest.Title
  let Text ← String.Read quest.Text
  let Giver ← String.Read quest.Giver
  let Notes ← readArray Note.Read quest.Notes
  let NumSlots ← Int32.Read quest.NumSlots
  let Slots ← make (0 : Int64) NumSlots
  let Slots ← readEach Int64.Read Slots
  pure { Progression, GiverTroopId, Number, StartDate, Title, Text, Giver, Notes, NumSlots, Slots }

/-- The method `(infoPage *InfoPage) Read`. -/
def InfoPage.Read (infoPage : InfoPage) : Rd InfoPage := do
  let Notes ← readArray Note.Read infoPage.Notes
  pure { Notes }

/-- The method `(site *Site) Read`. -/
def Site.Read (site : Site) : Rd Site := do
  let NumSlots ← Int32.Read site.NumSlots
  let Slots ← make (0 : Int64) NumSlots
  let Slots ← readEach Int64.Read Slots
  pure { NumSlots, Slots }

/-- The method `(faction *Faction) Read`. The relations loop runs over
`len(faction.Relations)`, the slice the caller has put into the receiver. -/
def Faction.Read (faction : Faction) : Rd Faction := do
  let NumSlots ← Int32.Read faction.NumSlots
  let Slots ← make (0 : Int64) NumSlots
  let Slots ← readEach Int64.Read Slots
  let Relations ← readEach Float.Read faction.Relations
  let Name ← String.Read faction.Name
  let Renamed ← Bool.Read faction.Renamed
  let Color ← UInt32.Read faction.Color
  let _unused ← Int32.Read faction._unused
  let Notes ← readArray Note.Read faction.Notes
  pure { NumSlots, Slots, Relations, Name, Renamed, Color, _unused, Notes }

/-- The method `(mapTrack *MapTrack) Read`. -/
def MapTrack.Read (mapTrack : MapTrack) : Rd MapTrack := do
  let PositionX ← Float.Read mapTrack.PositionX
  let PositionY ← Float.Read mapTrack.PositionY
  let PositionZ ← Float.Read mapTrack.PositionZ
  let Rotation ← Float.Read mapTrack.Rotation
  let Age ← Float.Read mapTrack.Age
  let Flags ← Int32.Read mapTrack.Flags
  pure { PositionX, PositionY, PositionZ, Rotation, Age, Flags }

/-- The method `(partyTemplate *PartyTemplate) Read`. -/
def PartyTemplate.Read (partyTemplate : PartyTemplate) : Rd PartyTemplate := do
  let NumPartiesCreated ← Int32.Read partyTemplate.NumPartiesCreated
  let NumPartiesDestroyed ← Int32.Read partyTemplate.NumPartiesDestroyed
  let NumPartiesDestroyedByPlayer ← Int32.Read partyTemplate.NumPartiesDestroyedByPlayer
  let NumSlots ← Int32.Read partyTemplate.NumSlots
  let Slots ← make (0 : Int64) NumSlots
  let Slots ← readEach Int64.Read Slots
  pure { NumPartiesCreated, NumPartiesDestroyed, NumPartiesDestroyedByPlayer, NumSlots, Slots }

/-- The method `(partyStack *PartyStack) Read`. -/
def PartyStack.Read (partyStack : PartyStack) : Rd PartyStack := do
  let TroopId ← Int32.Read partyStack.TroopId
  let NumTroops ← Int32.Read partyStack.NumTroops
  let NumWoundedTroops ← Int32.Read partyStack.NumWoundedTroops
  let Flags ← Int32.Read partyStack.Flags
  pure { TroopId, NumTroops, NumWoundedTroops, Flags }

/-- The method `(party *Party) Read`. -/
def Party.Read (party : Party) (gameVersion : Int32) : Rd Party := do
  let Id ← String.Read party.Id
  let Name ← String.Read party.Name
  let Flags ← UInt64.Read party.Flags
  let MenuId ← Int32.Read party.MenuId
  let PartyTemplateId ← Int32.Read party.PartyTemplateId
  let FactionId ← Int32.Read party.FactionId
  let Personality ← Int32.Read party.Personality
  let DefaultBehavior ← Int32.Read party.DefaultBehavior
  let CurrentBehavior ← Int32.Read party.CurrentBehavior
  let DefaultBehaviorObjectId ← Int32.Read party.DefaultBehaviorObjectId
  let CurrentBehaviorObjectId ← Int32.Read party.CurrentBehaviorObjectId
  let InitialPositionX ← Float.Read party.InitialPositionX
  let InitialPositionY ← Float.Read party.InitialPositionY
  let TargetPositionX ← Float.Read party.TargetPositionX
  let TargetPositionY ← Float.Read party.TargetPositionY
  let PositionX ← Float.Read party.PositionX
  let PositionY ← Float.Read party.PositionY
  let PositionZ ← Float.Read party.PositionZ
  let NumStacks ← Int32.Read party.NumStacks
  let Stacks ← make PartyStack.zero NumStacks
  let Stacks ← readEach PartyStack.Read Stacks
  let Bearing ← Float.Read party.Bearing
  let Renamed ← Bool.Read party.Renamed
  let ExtraText ← String.Read party.ExtraText
  let Morale ← Float.Read party.Morale
  let Hunger ← Float.Read party.Hunger
  let _unused1 ← Float.Read party._unused1
  let PatrolRadius ← Float.Read party.PatrolRadius
  let Initiative ← Float.Read party.Initiative
  let Helpfulness ← Float.Read party.Helpfulness
  let LabelVisible ← Int32.Read party.LabelVisible
  let BanditAttraction ← Float.Read party.BanditAttraction
  let Marshall ←
    (if (gameVersion ≥ 900 ∧ gameVersion < 1000) ∨ gameVersion ≥ 1020 then
      Int32.Read party.Marshall
    else
      pure party.Marshall)
  let IgnorePlayerTimer ← Int64.Read party.IgnorePlayerTimer
  let BannerMapIconId ← Int32.Read party.BannerMapIconId
  let (ExtraMapIconId, ExtraMapIconUpDownDistance, ExtraMapIconUpDownFrequency,
      ExtraMapIconRotateFrequency, ExtraMapIconFadeFrequency) ←
    (if gameVersion ≥ 1137 then do
      let ExtraMapIconId ← Int32.Read party.ExtraMapIconId
      let ExtraMapIconUpDownDistance ← Float.Read party.ExtraMapIconUpDownDistance
      let ExtraMapIconUpDownFrequency ← Float.Read party.ExtraMapIconUpDownFrequency
      let ExtraMapIconRotateFrequency ← Float.Read party.ExtraMapIconRotateFrequency
      let ExtraMapIconFadeFrequency ← Float.Read party.ExtraMapIconFadeFrequency
      pure (ExtraMapIconId, ExtraMapIconUpDownDistance, ExtraMapIconUpDownFrequency,
        ExtraMapIconRotateFrequency, ExtraMapIconFadeFrequency)
    else
      pure (party.ExtraMapIconId, party.ExtraMapIconUpDownDistance,
        party.ExtraMapIconUpDownFrequency, party.ExtraMapIconRotateFrequency,
        party.ExtraMapIconFadeFrequency))
  let AttachedToPartyId ← Int32.Read party.AttachedToPartyId
  let _unused2 ←
    (if gameVersion ≥ 1162 then
      Int32.Read party._unused2
    else
      pure party._unused2)
  let IsAttached ← Bool.Read party.IsAttached
  let NumAttachedPartyIds ← Int32.Read party.NumAttachedPartyIds
  let AttachedPartyIds ← make (0 : Int32) NumAttachedPartyIds
  let AttachedPartyIds ← readEach Int32.Read AttachedPartyIds
  let NumParticleSystemIds ← Int32.Read party.NumParticleSystemIds
  let ParticleSystemIds ← make (0 : Int32) NumParticleSystemIds
  let ParticleSystemIds ← readEach Int32.Read ParticleSystemIds
  let Notes ← readArray Note.Read party.Notes
  let NumSlots ← Int32.Read party.NumSlots
  let Slots ← make (0 : Int64) NumSlots
  let Slots ← readEach Int64.Read Slots
  pure
    { Id, Name, Flags, MenuId, PartyTemplateId, FactionId, Personality, DefaultBehavior,
      CurrentBehavior, DefaultBehaviorObjectId, CurrentBehaviorObjectId, InitialPositionX,
      InitialPositionY, TargetPositionX, TargetPositionY, PositionX, PositionY, PositionZ,
      NumStacks, Stacks, Bearing, Renamed, ExtraText, Morale, Hunger, _unused1, PatrolRadius,
      Initiative, Helpfulness, LabelVisible, BanditAttraction, Marshall, IgnorePlayerTimer,
      BannerMapIconId, ExtraMapIconId, ExtraMapIconUpDownDistance, ExtraMapIconUpDownFrequency,
      ExtraMapIconRotateFrequency, ExtraMapIconFadeFrequency, AttachedToPartyId, _unused2,
      IsAttached, NumAttachedPartyIds, AttachedPartyIds, NumParticleSystemIds,
      ParticleSystemIds, Notes, NumSlots, Slots }

/-- The method `(partyRecord *PartyRecord) Read`. -/
def PartyRecord.Read (partyRecord : PartyRecord) (gameVersion : Int32) : Rd PartyRecord := do
  let Valid ← Int32.Read partyRecord.Valid
  if Valid = 1 then
    let RawId ← Int32.Read partyRecord.RawId
    let Id ← Int32.Read partyRecord.Id
    let Party ← Party.Read partyRecord.Party gameVersion
    pure { Valid, RawId, Id, Party }
  else
    pure { Valid, RawId := partyRecord.RawId, Id := partyRecord.Id, Party := partyRecord.Party }

/-- The method `(game *Game) Read`, the root decoder of `main.go`. The fields
of `Game` after `PartyRecords` are never read and keep the receiver's values. -/
def Game.Read (game : Game) : Rd Game := do
  let Header ← Header.Read game.Header
  let GameTime ← UInt64.Read game.GameTime
  let RandomSeed ← Int32.Read game.RandomSeed
  let SaveMode ← Int32.Read game.SaveMode
  let (CombatDifficulty, CombatDifficultyFriendlies, ReduceCombatAi, ReduceCampaignAi,
      CombatSpeed) ←
    (if Header.GameVersion ≥ 1137 then do
      let CombatDifficulty ← Int32.Read game.CombatDifficulty
      let CombatDifficultyFriendlies ← Int32.Read game.CombatDifficultyFriendlies
      let ReduceCombatAi ← Int32.Read game.ReduceCombatAi
      let ReduceCampaignAi ← Int32.Read game.ReduceCampaignAi
      let CombatSpeed ← Int32.Read game.CombatSpeed
      pure (CombatDifficulty, CombatDifficultyFriendlies, ReduceCombatAi, ReduceCampaignAi,
        CombatSpeed)
    else
      pure (game.CombatDifficulty, game.CombatDifficultyFriendlies, game.ReduceCombatAi,
        game.ReduceCampaignAi, game.CombatSpeed))
  let DateTimer ← Int64.Read game.DateTimer
  let Hour ← Int32.Read game.Hour
  let Day ← Int32.Read game.Day
  let Week ← Int32.Read game.Week
  let Month ← Int32.Read game.Month
  let Year ← Int32.Read game.Year
  let _unused0 ← Int32.Read game._unused0
  let GlobalCloudAmount ← Float.Read game.GlobalCloudAmount
  let GlobalHazeAmount ← Float.Read game.GlobalHazeAmount
  let AverageDifficulty ← Float.Read game.AverageDifficulty
  let AverageDifficultyPeriod ← Float.Read game.AverageDifficultyPeriod
  let _unused1 ← String.Read game._unused1
  let _unused2 ← Bool.Read game._unused2
  let TutorialFlags ← Int32.Read game.TutorialFlags
  let DefaultPrisonerPrice ← Int32.Read game.DefaultPrisonerPrice
  let EncounteredParty1Id ← Int32.Read game.EncounteredParty1Id
  let EncounteredParty2Id ← Int32.Read game.EncounteredParty2Id
  let CurrentMenuId ← Int32.Read game.CurrentMenuId
  let CurrentSiteId ← Int32.Read game.CurrentSiteId
  let CurrentEntryNo ← Int32.Read game.CurrentEntryNo
  let CurrentMissionTemplateId ← Int32.Read game.CurrentMissionTemplateId
  let PartyCreationMinRandomValue ← Int32.Read game.PartyCreationMinRandomValue
  let PartyCreationMaxRandomValue ← Int32.Read game.PartyCreationMaxRandomValue
  let GameLog ← String.Read game.GameLog
  let _unused3 ← readArray Int32.Read game._unused3
  let _unused4 ← Int64.Read game._unused4
  let RestPeriod ← Float.Read game.RestPeriod
  let RestTimeSpeed ← Int32.Read game.RestTimeSpeed
  let RestIsInteractive ← Int32.Read game.RestIsInteractive
  let RestRemainAttackable ← Int32.Read game.RestRemainAttackable
  let ClassNames ← readArray String.Read game.ClassNames
  let NumGlobalVariables ← Int32.Read game.NumGlobalVariables
  let GlobalVariables ← make (0 : Int64) NumGlobalVariables
  let GlobalVariables ← readEach Int64.Read GlobalVariables
  let NumTriggers ← Int32.Read game.NumTriggers
  let Triggers ← make Trigger.zero NumTriggers
  let Triggers ← readEach Trigger.Read Triggers
  let NumSimpleTriggers ← Int32.Read game.NumSimpleTriggers
  let SimpleTriggers ← make SimpleTrigger.zero NumSimpleTriggers
  let SimpleTriggers ← readEach SimpleTrigger.Read SimpleTriggers
  let NumQuests ← Int32.Read game.NumQuests
  let Quests ← make Quest.zero NumQuests
  let Quests ← readEach Quest.Read Quests
  let NumInfoPages ← Int32.Read game.NumInfoPages
  let InfoPages ← make InfoPage.zero NumInfoPages
  let InfoPages ← readEach InfoPage.Read InfoPages
  let NumSites ← Int32.Read game.NumSites
  let Sites ← make Site.zero NumSites
  let Sites ← readEach Site.Read Sites
  let NumFactions ← Int32.Read game.NumFactions
  let Factions ← make Faction.zero NumFactions
  let Factions ← readEach (fun faction => do
    let Relations ← make (0 : Float) NumFactions
    Faction.Read { faction with Relations := Relations }) Factions
  let NumMapTracks ← Int32.Read game.NumMapTracks
  let MapTracks ← make MapTrack.zero NumMapTracks
  let MapTracks ← readEach MapTrack.Read MapTracks
  let NumPartyTemplates ← Int32.Read game.NumPartyTemplates
  let PartyTemplates ← make PartyTemplate.zero NumPartyTemplates
  let PartyTemplates ← readEach PartyTemplate.Read PartyTemplates
  let NumPartyRecords ← Int32.Read game.NumPartyRecords
  let NumPartiesCreated ← Int32.Read game.NumPartiesCreated
  let PartyRecords ← make PartyRecord.zero NumPartyRecords
  let PartyRecords ← readEach (fun partyRecord => PartyRecord.Read partyRecord Header.GameVersion)
    PartyRecords
  pure
    { game with
      Header, GameTime, RandomSeed, SaveMode, CombatDifficulty, CombatDifficultyFriendlies,
      ReduceCombatAi, ReduceCampaignAi, CombatSpeed, DateTimer, Hour, Day, Week, Month, Year,
      _unused0, GlobalCloudAmount, GlobalHazeAmount, AverageDifficulty,
      AverageDifficultyPeriod, _unused1, _unused2, TutorialFlags, DefaultPrisonerPrice,
      EncounteredParty1Id, EncounteredParty2Id, CurrentMenuId, CurrentSiteId, CurrentEntryNo,
      CurrentMissionTemplateId, PartyCreationMinRandomValue, PartyCreationMaxRandomValue,
      GameLog, _unused3, _unused4, RestPeriod, RestTimeSpeed, RestIsInteractive,
      RestRemainAttackable, ClassNames, NumGlobalVariables, GlobalVariables, NumTriggers,
      Triggers, NumSimpleTriggers, SimpleTriggers, NumQuests, Quests, NumInfoPages, InfoPages,
      NumSites, Sites, NumFactions, Factions, NumMapTracks, MapTracks, NumPartyTemplates,
      PartyTemplates, NumPartyRecords, NumPartiesCreated, PartyRecords }

end Main

/-- The ten section counts of a `Game` are not negative. -/
def Main.Game.countsNonneg (g : Main.Game) : Prop :=
  0 ≤ g.NumGlobalVariables ∧ 0 ≤ g.NumTriggers ∧ 0 ≤ g.NumSimpleTriggers ∧ 0 ≤ g.NumQuests ∧
  0 ≤ g.NumInfoPages ∧ 0 ≤ g.NumSites ∧ 0 ≤ g.NumFactions ∧ 0 ≤ g.NumMapTracks ∧
  0 ≤ g.NumPartyTemplates ∧ 0 ≤ g.NumPartyRecords

/-- The shape of the factions section of a decoded `Game`: the count is not
negative, there are as many factions as the count says, and the relation
vector of every faction has that same length. -/
def Main.Game.factionsShape (g : Main.Game) : Prop :=
  0 ≤ g.NumFactions ∧ g.Factions.length = g.NumFactions.toNat ∧
  ∀ f ∈ g.Factions, f.Relations.length = g.NumFactions.toNat

/-! ## `src/backend/editor.go` -/

namespace Editor

structure Faction where
  NumSlots : Int32
  Slots : List Int64
  Relations : List Float
  Name : String
  Renamed : Bool
  Color : UInt32
  _unused : Int32
  Note : Mathlib.Vector Note 16
deriving DecidableEq

structure Save where
  Header : Header
  GameTime : UInt64
  RandomSeed : Int32
  SaveMode : Int32
  CombatDifficulty : Int32
  CombatDifficultyFriendlies : Int32
  ReduceCombatAi : Int32
  ReduceCampaignAi : Int32
  CombatSpeed : Int32
  DateTimer : Int64
  Hour : Int32
  Day : Int32
  Week : Int32
  Month : Int32
  Year : Int32
  _unused0 : Int32
  GlobalCloudAmount : Float
  GlobalHazeAmount : Float
  AverageDifficulty : Float
  AverageDifficultyPeriod : Float
  _unused1 : String
  _unused2 : Bool
  TutorialFlags : Int32
  DefaultPrisonerPrice : Int32
  EncounteredParty1Id : Int32
  EncounteredParty2Id : Int32
  CurrentMenuId : Int32
  CurrentSiteId : Int32
  CurrentEntryNo : Int32
  CurrentMissionTemplateId : Int32
  PartyCreationMinRandomValue : Int32
  PartyCreationMaxRandomValue : Int32
  GameLog : String
  _unused3 : Mathlib.Vector Int32 6
  _unused4 : Int64
  RestPeriod : Float
  RestTimeSpeed : Int32
  RestIsInteractive : Int32
  RestRemainAttackable : Int32
  ClassNames : Mathlib.Vector String 9
  NumGlobalVariables : Int32
  GlobalVariables : List Int64
  NumTriggers : Int32
  Triggers : List Trigger
  NumSimpleTriggers : Int32
  SimpleTriggers : List SimpleTrigger
  NumQuests : Int32
  Quests : List Quest
  NumInfoPages : Int32
  InfoPages : List InfoPage
  NumSites : Int32
  Sites : List Site
  NumFactions : Int32
  Factions : List Faction
  NumMapTracks : Int32
  MapTracks : List MapTrack
  NumPartyTemplates : Int32
  PartyTemplates : List PartyTemplate
  NumPartyRecords : Int32
  NumPartiesCreated : Int32
  PartyRecords : List PartyRecord
deriving DecidableEq

/-- The zero value of `Faction`. -/
def Faction.zero : Faction :=
  { NumSlots := 0, Slots := [], Relations := [], Name := String.zero, Renamed := false,
    Color := 0, _unused := 0, Note := Note.zero16 }

/-- The value `Save{}` that `main` starts from. -/
def Save.zero : Save :=
  { Header := Header.zero, GameTime := 0, RandomSeed := 0, SaveMode := 0, CombatDifficulty := 0,
    CombatDifficultyFriendlies := 0, ReduceCombatAi := 0, ReduceCampaignAi := 0,
    CombatSpeed := 0, DateTimer := 0, Hour := 0, Day := 0, Week := 0, Month := 0, Year := 0,
    _unused0 := 0, GlobalCloudAmount := 0, GlobalHazeAmount := 0, AverageDifficulty := 0,
    AverageDifficultyPeriod := 0, _unused1 := String.zero, _unused2 := false,
    TutorialFlags := 0, DefaultPrisonerPrice := 0, EncounteredParty1Id := 0,
    EncounteredParty2Id := 0, CurrentMenuId := 0, CurrentSiteId := 0, CurrentEntryNo := 0,
    CurrentMissionTemplateId := 0, PartyCreationMinRandomValue := 0,
    PartyCreationMaxRandomValue := 0, GameLog := String.zero,
    _unused3 := Mathlib.Vector.replicate 6 0, _unused4 := 0, RestPeriod := 0,
    RestTimeSpeed := 0, RestIsInteractive := 0, RestRemainAttackable := 0,
    ClassNames := Mathlib.Vector.replicate 9 String.zero, NumGlobalVariables := 0,
    GlobalVariables := [], NumTriggers := 0, Triggers := [], NumSimpleTriggers := 0,
    SimpleTriggers := [], NumQuests := 0, Quests := [], NumInfoPages := 0, InfoPages := [],
    NumSites := 0, Sites := [], NumFactions := 0, Factions := [], NumMapTracks := 0,
    MapTracks := [], NumPartyTemplates := 0, PartyTemplates := [], NumPartyRecords := 0,
    NumPartiesCreated := 0, PartyRecords := [] }

/-- Decoding of one `Trigger` struct (28 bytes) by `binary.Read` of `[]Trigger`:
the fields in declaration order. -/
def decodeTrigger (bs : List Byte) : Trigger :=
  { Status := decodeInt32 (bs.take 4),
    CheckTimer := decodeInt64 ((bs.drop 4).take 8),
    DelayTimer := decodeInt64 ((bs.drop 12).take 8),
    RearmTimer := decodeInt64 ((bs.drop 20).take 8) }

/-- Decoding of one `SimpleTrigger` struct (8 bytes) by `binary.Read` of
`[]SimpleTrigger`. -/
def decodeSimpleTrigger (bs : List Byte) : SimpleTrigger :=
  { CheckTimer := decodeInt64 (bs.take 8) }

/-- The function `readString(file, s, not_readable...)`. -/
def readString (s : String) (not_readable : List Bool) : Rd String := do
  let NumChars ← binary.Read 4 decodeInt32 s.NumChars
  let Chars ← make (0 : Byte) NumChars
  let Chars ← binary.Read Chars.length id Chars
  let Readable := if not_readable.length = 0 then Chars else s.Readable
  pure { NumChars := NumChars, Chars := Chars, Readable := Readable }

/-- The function `readHeader`. -/
def readHeader (header : Header) : Rd Header := do
  let MagicNumber ← binary.Read 4 decodeInt32 header.MagicNumber
  (if MagicNumber ≠ 0x52445257 then log.Fatal else pure ())
  let GameVersion ← binary.Read 4 decodeInt32 header.GameVersion
  let ModuleVersion ← binary.Read 4 decodeInt32 header.ModuleVersion
  let SavegameName ← readString header.SavegameName []
  let PlayerName ← readString header.PlayerName []
  let PlayerLevel ← binary.Read 4 decodeInt32 header.PlayerLevel
  let Date ← binary.Read 4 decodeFloat header.Date
  pure { MagicNumber, GameVersion, ModuleVersion, SavegameName, PlayerName, PlayerLevel, Date }

/-- The function `readNote`. -/
def readNote (note : Note) : Rd Note := do
  let Text ← readString note.Text []
  let Value ← binary.Read 4 decodeInt32 note.Value
  let TableauMaterialId ← binary.Read 4 decodeInt32 note.TableauMaterialId
  let Available ← binary.Read 1 decodeBool note.Available
  pure { Text, Value, TableauMaterialId, Available }

/-- The function `readQuest`. -/
def readQuest (quest : Quest) : Rd Quest := do
  let Progression ← binary.Read 4 decodeInt32 quest.Progression
  let GiverTroopId ← binary.Read 4 decodeInt32 quest.GiverTroopId
  let Number ← binary.Read 4 decodeInt32 quest.Number
  let StartDate ← binary.Read 4 decodeFloat quest.StartDate
  let Title ← readString quest.Title []
  let Text ← readString quest.Text []
  let Giver ← readString quest.Giver []
  let Notes ← readArray readNote quest.Notes
  let NumSlots ← binary.Read 4 decodeInt32 quest.NumSlots
  let Slots ← make (0 : Int64) NumSlots
  let Slots ← binary.ReadSlice 8 decodeInt64 Slots
  pure { Progression, GiverTroopId, Number, StartDate, Title, Text, Giver, Notes, NumSlots, Slots }

/-- The function `readInfoPage`. -/
def readInfoPage (infoPage : InfoPage) : Rd InfoPage := do
  let Notes ← readArray readNote infoPage.Notes
  pure { Notes }

/-- The function `readSite`. -/
def readSite (site : Site) : Rd Site := do
  let NumSlots ← binary.Read 4 decodeInt32 site.NumSlots
  let Slots ← make (0 : Int64) NumSlots
  let Slots ← binary.ReadSlice 8 decodeInt64 Slots
  pure { NumSlots, Slots }

/-- The function `readFaction`. -/
def readFaction (faction : Faction) (numFactions : Int32) : Rd Faction := do
  let NumSlots ← binary.Read 4 decodeInt32 faction.NumSlots
  let Slots ← make (0 : Int64) NumSlots
  let Slots ← binary.ReadSlice 8 decodeInt64 Slots
  let Relations ← make (0 : Float) numFactions
  let Relations ← binary.ReadSlice 4 decodeFloatReflect Relations
  let Name ← readString faction.Name []
  let Renamed ← binary.Read 1 decodeBool faction.Renamed
  let Color ← binary.Read 4 decodeUInt32 faction.Color
  let _unused ← binary.Read 4 decodeInt32 faction._unused
  let Note ← readArray readNote faction.Note
  pure { NumSlots, Slots, Relations, Name, Renamed, Color, _unused, Note }

/-- The function `readMapTrack`. -/
def readMapTrack (mapTrack : MapTrack) : Rd MapTrack := do
  let PositionX ← binary.Read 4 decodeFloat mapTrack.PositionX
  let PositionY ← binary.Read 4 decodeFloat mapTrack.PositionY
  let PositionZ ← binary.Read 4 decodeFloat mapTrack.PositionZ
  let Rotation ← binary.Read 4 decodeFloat mapTrack.Rotation
  let Age ← binary.Read 4 decodeFloat mapTrack.Age
  let Flags ← binary.Read 4 decodeInt32 mapTrack.Flags
  pure { PositionX, PositionY, PositionZ, Rotation, Age, Flags }

/-- The function `readPartyTemplate`. -/
def readPartyTemplate (partyTemplate : PartyTemplate) : Rd PartyTemplate := do
  let NumPartiesCreated ← binary.Read 4 decodeInt32 partyTemplate.NumPartiesCreated
  let NumPartiesDestroyed ← binary.Read 4 decodeInt32 partyTemplate.NumPartiesDestroyed
  let NumPartiesDestroyedByPlayer ←
    binary.Read 4 decodeInt32 partyTemplate.NumPartiesDestroyedByPlayer
  let NumSlots ← binary.Read 4 decodeInt32 partyTemplate.NumSlots
  let Slots ← make (0 : Int64) NumSlots
  let Slots ← binary.ReadSlice 8 decodeInt64 Slots
  pure { NumPartiesCreated, NumPartiesDestroyed, NumPartiesDestroyedByPlayer, NumSlots, Slots }

/-- The function `readPartyStack`. -/
def readPartyStack (partyStack : PartyStack) : Rd PartyStack := do
  let TroopId ← binary.Read 4 decodeInt32 partyStack.TroopId
  let NumTroops ← binary.Read 4 decodeInt32 partyStack.NumTroops
  let NumWoundedTroops ← binary.Read 4 decodeInt32 partyStack.NumWoundedTroops
  let Flags ← binary.Read 4 decodeInt32 partyStack.Flags
  pure { TroopId, NumTroops, NumWoundedTroops, Flags }

/-- The function `readParty`. -/
def readParty (party : Party) (gameVersion : Int32) : Rd Party := do
  let Id ← readString party.Id []
  let Name ← readString party.Name []
  let Flags ← binary.Read 8 decodeUInt64 party.Flags
  let MenuId ← binary.Read 4 decodeInt32 party.MenuId
  let PartyTemplateId ← binary.Read 4 decodeInt32 party.PartyTemplateId
  let FactionId ← binary.Read 4 decodeInt32 party.FactionId
  let Personality ← binary.Read 4 decodeInt32 party.Personality
  let DefaultBehavior ← binary.Read 4 decodeInt32 party.DefaultBehavior
  let CurrentBehavior ← binary.Read 4 decodeInt32 party.CurrentBehavior
  let DefaultBehaviorObjectId ← binary.Read 4 decodeInt32 party.DefaultBehaviorObjectId
  let CurrentBehaviorObjectId ← binary.Read 4 decodeInt32 party.CurrentBehaviorObjectId
  let InitialPositionX ← binary.Read 4 decodeFloat party.InitialPositionX
  let InitialPositionY ← binary.Read 4 decodeFloat party.InitialPositionY
  let TargetPositionX ← binary.Read 4 decodeFloat party.TargetPositionX
  let TargetPositionY ← binary.Read 4 decodeFloat party.TargetPositionY
  let PositionX ← binary.Read 4 decodeFloat party.PositionX
  let PositionY ← binary.Read 4 decodeFloat party.PositionY
  let PositionZ ← binary.Read 4 decodeFloat party.PositionZ
  let NumStacks ← binary.Read 4 decodeInt32 party.NumStacks
  let Stacks ← make PartyStack.zero NumStacks
  let Stacks ← readEach readPartyStack Stacks
  let Bearing ← binary.Read 4 decodeFloat party.Bearing
  let Renamed ← binary.Read 1 decodeBool party.Renamed
  let ExtraText ← readString party.ExtraText []
  let Morale ← binary.Read 4 decodeFloat party.Morale
  let Hunger ← binary.Read 4 decodeFloat party.Hunger
  let _unused1 ← binary.Read 4 decodeFloat party._unused1
  let PatrolRadius ← binary.Read 4 decodeFloat party.PatrolRadius
  let Initiative ← binary.Read 4 decodeFloat party.Initiative
  let Helpfulness ← binary.Read 4 decodeFloat party.Helpfulness
  let LabelVisible ← binary.Read 4 decodeInt32 party.LabelVisible
  let BanditAttraction ← binary.Read 4 decodeFloat party.BanditAttraction
  let Marshall ←
    (if (gameVersion ≥ 900 ∧ gameVersion < 1000) ∨ gameVersion ≥ 1020 then
      binary.Read 4 decodeInt32 party.Marshall
    else
      pure party.Marshall)
  let IgnorePlayerTimer ← binary.Read 8 decodeInt64 party.IgnorePlayerTimer
  let BannerMapIconId ← binary.Read 4 decodeInt32 party.BannerMapIconId
  let (ExtraMapIconId, ExtraMapIconUpDownDistance, ExtraMapIconUpDownFrequency,
      ExtraMapIconRotateFrequency, ExtraMapIconFadeFrequency) ←
    (if gameVersion > 1137 then do
      let ExtraMapIconId ← binary.Read 4 decodeInt32 party.ExtraMapIconId
      let ExtraMapIconUpDownDistance ← binary.Read 4 decodeFloat party.ExtraMapIconUpDownDistance
      let ExtraMapIconUpDownFrequency ←
        binary.Read 4 decodeFloat party.ExtraMapIconUpDownFrequency
      let ExtraMapIconRotateFrequency ←
        binary.Read 4 decodeFloat party.ExtraMapIconRotateFrequency
      let ExtraMapIconFadeFrequency ← binary.Read 4 decodeFloat party.ExtraMapIconFadeFrequency
      pure (ExtraMapIconId, ExtraMapIconUpDownDistance, ExtraMapIconUpDownFrequency,
        ExtraMapIconRotateFrequency, ExtraMapIconFadeFrequency)
    else
      pure (party.ExtraMapIconId, party.ExtraMapIconUpDownDistance,
        party.ExtraMapIconUpDownFrequency, party.ExtraMapIconRotateFrequency,
        party.ExtraMapIconFadeFrequency))
  let AttachedToPartyId ← binary.Read 4 decodeInt32 party.AttachedToPartyId
  let _unused2 ←
    (if gameVersion ≥ 1162 then
      binary.Read 4 decodeInt32 party._unused2
    else
      pure party._unused2)
  let IsAttached ← binary.Read 1 decodeBool party.IsAttached
  let NumAttachedPartyIds ← binary.Read 4 decodeInt32 party.NumAttachedPartyIds
  let AttachedPartyIds ← make (0 : Int32) NumAttachedPartyIds
  let AttachedPartyIds ← binary.ReadSlice 4 decodeInt32 AttachedPartyIds
  let NumParticleSystemIds ← binary.Read 4 decodeInt32 party.NumParticleSystemIds
  let ParticleSystemIds ← make (0 : Int32) NumParticleSystemIds
  let ParticleSystemIds ← binary.ReadSlice 4 decodeInt32 ParticleSystemIds
  let Notes ← readArray readNote party.Notes
  let NumSlots ← binary.Read 4 decodeInt32 party.NumSlots
  let Slots ← make (0 : Int64) NumSlots
  let Slots ← binary.ReadSlice 8 decodeInt64 Slots
  pure
    { Id, Name, Flags, MenuId, PartyTemplateId, FactionId, Personality, DefaultBehavior,
      CurrentBehavior, DefaultBehaviorObjectId, CurrentBehaviorObjectId, InitialPositionX,
      InitialPositionY, TargetPositionX, TargetPositionY, PositionX, PositionY, PositionZ,
      NumStacks, Stacks, Bearing, Renamed, ExtraText, Morale, Hunger, _unused1, PatrolRadius,
      Initiative, Helpfulness, LabelVisible, BanditAttraction, Marshall, IgnorePlayerTimer,
      BannerMapIconId, ExtraMapIconId, ExtraMapIconUpDownDistance, ExtraMapIconUpDownFrequency,
      ExtraMapIconRotateFrequency, ExtraMapIconFadeFrequency, AttachedToPartyId, _unused2,
      IsAttached, NumAttachedPartyIds, AttachedPartyIds, NumParticleSystemIds,
      ParticleSystemIds, Notes, NumSlots, Slots }

/-- The function `readPartyRecord`. -/
def readPartyRecord (partyRecord : PartyRecord) (gameVersion : Int32) : Rd PartyRecord := do
  let Valid ← binary.Read 4 decodeInt32 partyRecord.Valid
  if Valid = 1 then
    let RawId ← binary.Read 4 decodeInt32 partyRecord.RawId
    let Id ← binary.Read 4 decodeInt32 partyRecord.Id
    let Party ← readParty partyRecord.Party gameVersion
    pure { Valid, RawId, Id, Party }
  else
    pure { Valid, RawId := partyRecord.RawId, Id := partyRecord.Id, Party := partyRecord.Party }

/-- The decoding part of the function `main`, the root decoder of `editor.go`:
from `save := Save{}` to the end of the party-record loop. Opening the file
before it and printing the JSON after it are left out. -/
def main : Rd Save := do
  let save := Save.zero
  let Header ← readHeader save.Header
  let GameTime ← binary.Read 8 decodeUInt64 save.GameTime
  let RandomSeed ← binary.Read 4 decodeInt32 save.RandomSeed
  let SaveMode ← binary.Read 4 decodeInt32 save.SaveMode
  let (CombatDifficulty, CombatDifficultyFriendlies, ReduceCombatAi, ReduceCampaignAi,
      CombatSpeed) ←
    (if Header.GameVersion ≥ 1137 then do
      let CombatDifficulty ← binary.Read 4 decodeInt32 save.CombatDifficulty
      let CombatDifficultyFriendlies ← binary.Read 4 decodeInt32 save.CombatDifficultyFriendlies
      let ReduceCombatAi ← binary.Read 4 decodeInt32 save.ReduceCombatAi
      let ReduceCampaignAi ← binary.Read 4 decodeInt32 save.ReduceCampaignAi
      let CombatSpeed ← binary.Read 4 decodeInt32 save.CombatSpeed
      pure (CombatDifficulty, CombatDifficultyFriendlies, ReduceCombatAi, ReduceCampaignAi,
        CombatSpeed)
    else
      pure (save.CombatDifficulty, save.CombatDifficultyFriendlies, save.ReduceCombatAi,
        save.ReduceCampaignAi, save.CombatSpeed))
  let DateTimer ← binary.Read 8 decodeInt64 save.DateTimer
  let Hour ← binary.Read 4 decodeInt32 save.Hour
  let Day ← binary.Read 4 decodeInt32 save.Day
  let Week ← binary.Read 4 decodeInt32 save.Week
  let Month ← binary.Read 4 decodeInt32 save.Month
  let Year ← binary.Read 4 decodeInt32 save.Year
  let _unused0 ← binary.Read 4 decodeInt32 save._unused0
  let GlobalCloudAmount ← binary.Read 4 decodeFloat save.GlobalCloudAmount
  let GlobalHazeAmount ← binary.Read 4 decodeFloat save.GlobalHazeAmount
  let AverageDifficulty ← binary.Read 4 decodeFloat save.AverageDifficulty
  let AverageDifficultyPeriod ← binary.Read 4 decodeFloat save.AverageDifficultyPeriod
  let _unused1 ← readString save._unused1 []
  let _unused2 ← binary.Read 1 decodeBool save._unused2
  let TutorialFlags ← binary.Read 4 decodeInt32 save.TutorialFlags
  let DefaultPrisonerPrice ← binary.Read 4 decodeInt32 save.DefaultPrisonerPrice
  let EncounteredParty1Id ← binary.Read 4 decodeInt32 save.EncounteredParty1Id
  let EncounteredParty2Id ← binary.Read 4 decodeInt32 save.EncounteredParty2Id
  let CurrentMenuId ← binary.Read 4 decodeInt32 save.CurrentMenuId
  let CurrentSiteId ← binary.Read 4 decodeInt32 save.CurrentSiteId
  let CurrentEntryNo ← binary.Read 4 decodeInt32 save.CurrentEntryNo
  let CurrentMissionTemplateId ← binary.Read 4 decodeInt32 save.CurrentMissionTemplateId
  let PartyCreationMinRandomValue ← binary.Read 4 decodeInt32 save.PartyCreationMinRandomValue
  let PartyCreationMaxRandomValue ← binary.Read 4 decodeInt32 save.PartyCreationMaxRandomValue
  let GameLog ← readString save.GameLog []
  let _unused3 ← binary.ReadArray 4 decodeInt32 save._unused3
  let _unused4 ← binary.Read 8 decodeInt64 save._unused4
  let RestPeriod ← binary.Read 4 decodeFloat save.RestPeriod
  let RestTimeSpeed ← binary.Read 4 decodeInt32 save.RestTimeSpeed
  let RestIsInteractive ← binary.Read 4 decodeInt32 save.RestIsInteractive
  let RestRemainAttackable ← binary.Read 4 decodeInt32 save.RestRemainAttackable
  let ClassNames ← readArray (fun s => readString s [true]) save.ClassNames
  let NumGlobalVariables ← binary.Read 4 decodeInt32 save.NumGlobalVariables
  let GlobalVariables ← make (0 : Int64) NumGlobalVariables
  let GlobalVariables ← binary.ReadSlice 8 decodeInt64 GlobalVariables
  let NumTriggers ← binary.Read 4 decodeInt32 save.NumTriggers
  let Triggers ← make Trigger.zero NumTriggers
  let Triggers ← binary.ReadSlice 28 decodeTrigger Triggers
  let NumSimpleTriggers ← binary.Read 4 decodeInt32 save.NumSimpleTriggers
  let SimpleTriggers ← make SimpleTrigger.zero NumSimpleTriggers
  let SimpleTriggers ← binary.ReadSlice 8 decodeSimpleTrigger SimpleTriggers
  let NumQuests ← binary.Read 4 decodeInt32 save.NumQuests
  let Quests ← make Quest.zero NumQuests
  let Quests ← readEach readQuest Quests
  let NumInfoPages ← binary.Read 4 decodeInt32 save.NumInfoPages
  let InfoPages ← make InfoPage.zero NumInfoPages
  let InfoPages ← readEach readInfoPage InfoPages
  let NumSites ← binary.Read 4 decodeInt32 save.NumSites
  let Sites ← make Site.zero NumSites
  let Sites ← readEach readSite Sites
  let NumFactions ← binary.Read 4 decodeInt32 save.NumFactions
  let Factions ← make Faction.zero NumFactions
  let Factions ← readEach (fun faction => readFaction faction NumFactions) Factions
  let NumMapTracks ← binary.Read 4 decodeInt32 save.NumMapTracks
  let MapTracks ← make MapTrack.zero NumMapTracks
  let MapTracks ← readEach readMapTrack MapTracks
  let NumPartyTemplates ← binary.Read 4 decodeInt32 save.NumPartyTemplates
  let PartyTemplates ← make PartyTemplate.zero NumPartyTemplates
  let PartyTemplates ← readEach readPartyTemplate PartyTemplates
  let NumPartyRecords ← binary.Read 4 decodeInt32 save.NumPartyRecords
  let NumPartiesCreated ← binary.Read 4 decodeInt32 save.NumPartiesCreated
  let PartyRecords ← make PartyRecord.zero NumPartyRecords
  let PartyRecords ← readEach (fun partyRecord => readPartyRecord partyRecord Header.GameVersion)
    PartyRecords
  pure
    { Header, GameTime, RandomSeed, SaveMode, CombatDifficulty, CombatDifficultyFriendlies,
      ReduceCombatAi, ReduceCampaignAi, CombatSpeed, DateTimer, Hour, Day, Week, Month, Year,
      _unused0, GlobalCloudAmount, GlobalHazeAmount, AverageDifficulty,
      AverageDifficultyPeriod, _unused1, _unused2, TutorialFlags, DefaultPrisonerPrice,
      EncounteredParty1Id, EncounteredParty2Id, CurrentMenuId, CurrentSiteId, CurrentEntryNo,
      CurrentMissionTemplateId, PartyCreationMinRandomValue, PartyCreationMaxRandomValue,
      GameLog, _unused3, _unused4, RestPeriod, RestTimeSpeed, RestIsInteractive,
      RestRemainAttackable, ClassNames, NumGlobalVariables, GlobalVariables, NumTriggers,
      Triggers, NumSimpleTriggers, SimpleTriggers, NumQuests, Quests, NumInfoPages, InfoPages,
      NumSites, Sites, NumFactions, Factions, NumMapTracks, MapTracks, NumPartyTemplates,
      PartyTemplates, NumPartyRecords, NumPartiesCreated, PartyRecords }

/-- The ten section counts of a `Save` are not negative. -/
def Save.countsNonneg (g : Save) : Prop :=
  0 ≤ g.NumGlobalVariables ∧ 0 ≤ g.NumTriggers ∧ 0 ≤ g.NumSimpleTriggers ∧ 0 ≤ g.NumQuests ∧
  0 ≤ g.NumInfoPages ∧ 0 ≤ g.NumSites ∧ 0 ≤ g.NumFactions ∧ 0 ≤ g.NumMapTracks ∧
  0 ≤ g.NumPartyTemplates ∧ 0 ≤ g.NumPartyRecords

/-- The shape of the factions section of a decoded `Save`: the count is not
negative, there are as many factions as the count says, and the relation
vector of every faction has that same length. -/
def Save.factionsShape (g : Save) : Prop :=
  0 ≤ g.NumFactions ∧ g.Factions.length = g.NumFactions.toNat ∧
  ∀ f ∈ g.Factions, f.Relations.length = g.NumFactions.toNat

end Editor

/-! ## Sample files -/

/-- A save of game version 0 whose texts are all empty and whose section
counts are all zero, except `NumFactions = 2` (at offset 249); the two faction
records (233 bytes each) are all zero, so each declares `NumSlots = 0`. -/
def twoFactionsInput : File :=
  [0x57, 0x52, 0x44, 0x52] ++ List.replicate 245 0 ++ [2, 0, 0, 0] ++ List.replicate 482 0

/-- What `Game.Read` decodes from `twoFactionsInput`. -/
def Main.twoFactionsGame : Main.Game :=
  { Main.Game.zero with
    Header := { Header.zero with MagicNumber := 0x52445257 }
    NumFactions := 2
    Factions := [{ Main.Faction.zero with Relations := [0, 0] },
                 { Main.Faction.zero with Relations := [0, 0] }] }

/-- What the `main` of `editor.go` decodes from `twoFactionsInput`. -/
def Editor.twoFactionsSave : Editor.Save :=
  { Editor.Save.zero with
    Header := { Header.zero with MagicNumber := 0x52445257 }
    NumFactions := 2
    Factions := [{ Editor.Faction.zero with Relations := [0, 0] },
                 { Editor.Faction.zero with Relations := [0, 0] }] }

/-- A file that ends inside the payload of the header's `SavegameName`: magic,
game version 1162, module version 1, the count 5, and only 2 of the 5 bytes. -/
def truncatedNameInput : File :=
  [0x57, 0x52, 0x44, 0x52, 0x8a, 0x04, 0, 0, 1, 0, 0, 0, 5, 0, 0, 0, 0x41, 0x42]

/-- The header that both header readers return for `truncatedNameInput`. -/
def truncatedNameHeader : Header :=
  { MagicNumber := 0x52445257, GameVersion := 1162, ModuleVersion := 1,
    SavegameName := { NumChars := 5, Chars := [0, 0, 0, 0, 0], Readable := [0, 0, 0, 0, 0] },
    PlayerName := String.zero, PlayerLevel := 0, Date := 0 }

/-! ## File layouts

Descriptions of well-formed stretches of a file, used to state where each
field of a record is read from: an image holds the bytes of every field of
one record, `bytes` lays them out in file order, and the function named after
the record gives the value those bytes decode to. -/

/-- A run of `n` bytes of a file. -/
abbrev Bytes (n : Nat) := Mathlib.Vector Byte n

/-- The bytes of a sequence of fixed-size elements, in order. -/
def Bytes.concat {n : Nat} : List (Bytes n) → List Byte
  | [] => []
  | b :: bs => b.toList ++ Bytes.concat bs

/-- A length-prefixed text in a file: the four count bytes and the payload. -/
structure TextImage where
  count : Bytes 4
  chars : List Byte

/-- The bytes of a text, in file order. -/
def TextImage.bytes (t : TextImage) : List Byte := t.count.toList ++ t.chars

/-- The count of a text image is the length of its payload. -/
def TextImage.wf (t : TextImage) : Prop := decodeInt32 t.count.toList = t.chars.length

/-- The text that a text image decodes to (decode mode). -/
def TextImage.text (t : TextImage) : String :=
  { NumChars := t.chars.length, Chars := t.chars, Readable := t.chars }

/-- A note in a file: text, value, material id, availability byte. -/
structure NoteImage where
  Text : TextImage
  Value : Bytes 4
  TableauMaterialId : Bytes 4
  Available : Byte

/-- The bytes of a note, in file order. -/
def NoteImage.bytes (n : NoteImage) : List Byte :=
  n.Text.bytes ++ n.Value.toList ++ n.TableauMaterialId.toList ++ [n.Available]

/-- The note that a note image decodes to. -/
def NoteImage.note (n : NoteImage) : Note :=
  { Text := n.Text.text, Value := decodeInt32 n.Value.toList,
    TableauMaterialId := decodeInt32 n.TableauMaterialId.toList,
    Available := decodeBool [n.Available] }

/-- The bytes of consecutive notes, with nothing before or between them. -/
def NoteImage.block : List NoteImage → List Byte
  | [] => []
  | n :: ns => n.bytes ++ NoteImage.block ns

/-- The sum of the text lengths of a list of notes. -/
def NoteImage.textLength : List NoteImage → Nat
  | [] => 0
  | n :: ns => n.Text.chars.length + NoteImage.textLength ns

/-- A count-prefixed array of fixed-size scalars in a file. -/
structure ArrayImage (k : Nat) where
  count : Bytes 4
  elems : List (Bytes k)

/-- The bytes of an array, in file order: the count, then the elements. -/
def ArrayImage.bytes {k : Nat} (a : ArrayImage k) : List Byte :=
  a.count.toList ++ Bytes.concat a.elems

/-- The count of an array image is its number of elements. -/
def ArrayImage.wf {k : Nat} (a : ArrayImage k) : Prop :=
  decodeInt32 a.count.toList = a.elems.length

/-- The elements an array image decodes to. -/
def ArrayImage.values {k : Nat} {α : Type} (decode : List Byte → α) (a : ArrayImage k) :
    List α :=
  a.elems.map (fun e => decode e.toList)

/-- A site in a file: its slot array. -/
structure SiteImage where
  Slots : ArrayImage 8

/-- The bytes of a site, in file order. -/
def SiteImage.bytes (i : SiteImage) : List Byte := i.Slots.bytes

/-- The site that a site image decodes to. -/
def SiteImage.site (i : SiteImage) : Site :=
  { NumSlots := i.Slots.elems.length, Slots := i.Slots.values decodeInt64 }

/-- A faction in a file. The relations have no count of their own. -/
structure FactionImage where
  Slots : ArrayImage 8
  Relations : List (Bytes 4)
  Name : TextImage
  Renamed : Byte
  Color : Bytes 4
  _unused : Bytes 4
  Notes : Mathlib.Vector NoteImage 16

/-- The bytes of a faction, in file order. -/
def FactionImage.bytes (i : FactionImage) : List Byte :=
  i.Slots.bytes ++ Bytes.concat i.Relations ++ i.Name.bytes ++ [i.Renamed] ++ i.Color.toList ++
    i._unused.toList ++ NoteImage.block i.Notes.toList

/-- Every count of a faction image is the length of what it counts. -/
def FactionImage.wf (i : FactionImage) : Prop :=
  i.Slots.wf ∧ i.Name.wf ∧ ∀ n ∈ i.Notes.toList, n.Text.wf

/-- The `Faction` of `main.go` that a faction image decodes to. -/
def FactionImage.mainFaction (i : FactionImage) : Main.Faction :=
  { NumSlots := i.Slots.elems.length, Slots := i.Slots.values decodeInt64,
    Relations := i.Relations.map (fun e => decodeFloatReflect e.toList), Name := i.Name.text,
    Renamed := decodeBool [i.Renamed], Color := decodeUInt32 i.Color.toList,
    _unused := decodeInt32 i._unused.toList, Notes := i.Notes.map NoteImage.note }

/-- The `Faction` of `editor.go` that a faction image decodes to. -/
def FactionImage.editorFaction (i : FactionImage) : Editor.Faction :=
  { NumSlots := i.Slots.elems.length, Slots := i.Slots.values decodeInt64,
    Relations := i.Relations.map (fun e => decodeFloatReflect e.toList), Name := i.Name.text,
    Renamed := decodeBool [i.Renamed], Color := decodeUInt32 i.Color.toList,
    _unused := decodeInt32 i._unused.toList, Note := i.Notes.map NoteImage.note }

/-- A quest in a file. -/
structure QuestImage where
  Progression : Bytes 4
  GiverTroopId : Bytes 4
  Number : Bytes 4
  StartDate : Bytes 4
  Title : TextImage
  Text : TextImage
  Giver : TextImage
  Notes : Mathlib.Vector NoteImage 16
  Slots : ArrayImage 8

/-- The bytes of a quest, in file order. -/
def QuestImage.bytes (i : QuestImage) : List Byte :=
  i.Progression.toList ++ i.GiverTroopId.toList ++ i.Number.toList ++ i.StartDate.toList ++
    i.Title.bytes ++ i.Text.bytes ++ i.Giver.bytes ++ NoteImage.block i.Notes.toList ++
    i.Slots.bytes

/-- The bytes of a quest from `Progression` to the last note: what stands before
the count of its slots. -/
def QuestImage.beforeSlots (i : QuestImage) : List Byte :=
  i.Progression.toList ++ i.GiverTroopId.toList ++ i.Number.toList ++ i.StartDate.toList ++
    i.Title.bytes ++ i.Text.bytes ++ i.Giver.bytes ++ NoteImage.block i.Notes.toList

/-- Every count of a quest image is the length of what it counts. -/
def QuestImage.wf (i : QuestImage) : Prop :=
  i.Title.wf ∧ i.Text.wf ∧ i.Giver.wf ∧ (∀ n ∈ i.Notes.toList, n.Text.wf) ∧ i.Slots.wf

/-- The quest that a quest image decodes to when its float is decoded by `fd`. -/
def QuestImage.questWith (fd : List Byte → Float) (i : QuestImage) : Quest :=
  { Progression := decodeInt32 i.Progression.toList,
    GiverTroopId := decodeInt32 i.GiverTroopId.toList, Number := decodeInt32 i.Number.toList,
    StartDate := fd i.StartDate.toList, Title := i.Title.text, Text := i.Text.text,
    Giver := i.Giver.text, Notes := i.Notes.map NoteImage.note,
    NumSlots := i.Slots.elems.length, Slots := i.Slots.values decodeInt64 }

/-- The quest that `Quest.Read` of `src/main.go` decodes a quest image to. -/
def QuestImage.mainQuest (i : QuestImage) : Quest := i.questWith decodeFloatReflect

/-- The quest that `readQuest` of `src/backend/editor.go` decodes a quest image to. -/
def QuestImage.editorQuest (i : QuestImage) : Quest := i.questWith decodeFloat

/-- A party stack in a file. -/
structure StackImage where
  TroopId : Bytes 4
  NumTroops : Bytes 4
  NumWoundedTroops : Bytes 4
  Flags : Bytes 4

/-- The bytes of a party stack, in file order. -/
def StackImage.bytes (i : StackImage) : List Byte :=
  i.TroopId.toList ++ i.NumTroops.toList ++ i.NumWoundedTroops.toList ++ i.Flags.toList

/-- The party stack that a stack image decodes to. -/
def StackImage.stack (i : StackImage) : PartyStack :=
  { TroopId := decodeInt32 i.TroopId.toList, NumTroops := decodeInt32 i.NumTroops.toList,
    NumWoundedTroops := decodeInt32 i.NumWoundedTroops.toList,
    Flags := decodeInt32 i.Flags.toList }

/-- The bytes of consecutive party stacks. -/
def StackImage.block : List StackImage → List Byte
  | [] => []
  | i :: is => i.bytes ++ StackImage.block is

/-- A party in a file. `Marshall`, the five `ExtraMapIcon` fields and `_unused2`
are in the file only for some game versions; see `PartyImage.bytes`. -/
structure PartyImage where
  Id : TextImage
  Name : TextImage
  Flags : Bytes 8
  MenuId : Bytes 4
  PartyTemplateId : Bytes 4
  FactionId : Bytes 4
  Personality : Bytes 4
  DefaultBehavior : Bytes 4
  CurrentBehavior : Bytes 4
  DefaultBehaviorObjectId : Bytes 4
  CurrentBehaviorObjectId : Bytes 4
  InitialPositionX : Bytes 4
  InitialPositionY : Bytes 4
  TargetPositionX : Bytes 4
  TargetPositionY : Bytes 4
  PositionX : Bytes 4
  PositionY : Bytes 4
  PositionZ : Bytes 4
  NumStacks : Bytes 4
  Stacks : List StackImage
  Bearing : Bytes 4
  Renamed : Byte
  ExtraText : TextImage
  Morale : Bytes 4
  Hunger : Bytes 4
  _unused1 : Bytes 4
  PatrolRadius : Bytes 4
  Initiative : Bytes 4
  Helpfulness : Bytes 4
  LabelVisible : Bytes 4
  BanditAttraction : Bytes 4
  Marshall : Bytes 4
  IgnorePlayerTimer : Bytes 8
  BannerMapIconId : Bytes 4
  ExtraMapIconId : Bytes 4
  ExtraMapIconUpDownDistance : Bytes 4
  ExtraMapIconUpDownFrequency : Bytes 4
  ExtraMapIconRotateFrequency : Bytes 4
  ExtraMapIconFadeFrequency : Bytes 4
  AttachedToPartyId : Bytes 4
  _unused2 : Bytes 4
  IsAttached : Byte
  AttachedPartyIds : ArrayImage 4
  ParticleSystemIds : ArrayImage 4
  Notes : Mathlib.Vector NoteImage 16
  Slots : ArrayImage 8

/-- The bytes of a party from `Id` to `BanditAttraction`, in file order. -/
def PartyImage.head (i : PartyImage) : List Byte :=
  i.Id.bytes ++ i.Name.bytes ++ i.Flags.toList ++ i.MenuId.toList ++ i.PartyTemplateId.toList ++
    i.FactionId.toList ++ i.Personality.toList ++ i.DefaultBehavior.toList ++
    i.CurrentBehavior.toList ++ i.DefaultBehaviorObjectId.toList ++
    i.CurrentBehaviorObjectId.toList ++ i.InitialPositionX.toList ++
    i.InitialPositionY.toList ++ i.TargetPositionX.toList ++ i.TargetPositionY.toList ++
    i.PositionX.toList ++ i.PositionY.toList ++ i.PositionZ.toList ++ i.NumStacks.toList ++
    StackImage.block i.Stacks ++ i.Bearing.toList ++ [i.Renamed] ++ i.ExtraText.bytes ++
    i.Morale.toList ++ i.Hunger.toList ++ i._unused1.toList ++ i.PatrolRadius.toList ++
    i.Initiative.toList ++ i.Helpfulness.toList ++ i.LabelVisible.toList ++
    i.BanditAttraction.toList

/-- The bytes of the five extended map-icon fields, in file order. -/
def PartyImage.extra (i : PartyImage) : List Byte :=
  i.ExtraMapIconId.toList ++ i.ExtraMapIconUpDownDistance.toList ++
    i.ExtraMapIconUpDownFrequency.toList ++ i.ExtraMapIconRotateFrequency.toList ++
    i.ExtraMapIconFadeFrequency.toList

/-- The bytes of a party from `IsAttached` to the last slot, in file order. -/
def PartyImage.tail (i : PartyImage) : List Byte :=
  [i.IsAttached] ++ i.AttachedPartyIds.bytes ++ i.ParticleSystemIds.bytes ++
    NoteImage.block i.Notes.toList ++ i.Slots.bytes

/-- The bytes of a party after `AttachedToPartyId`: `_unused2` when `r`, then
`IsAttached` and what follows. -/
def PartyImage.afterAttached (r : Bool) (i : PartyImage) : List Byte :=
  (if r then i._unused2.toList else []) ++ i.tail

/-- The bytes of a party after `BannerMapIconId`: the five extended map-icon
fields when `e`, then `AttachedToPartyId` and what follows. -/
def PartyImage.afterBanner (e r : Bool) (i : PartyImage) : List Byte :=
  (if e then i.extra else []) ++ i.AttachedToPartyId.toList ++ i.afterAttached r

/-- The bytes of a party after `BanditAttraction`: `Marshall` when `m`, then
`IgnorePlayerTimer`, `BannerMapIconId` and what follows. -/
def PartyImage.afterBandit (m e r : Bool) (i : PartyImage) : List Byte :=
  (if m then i.Marshall.toList else []) ++ i.IgnorePlayerTimer.toList ++
    i.BannerMapIconId.toList ++ i.afterBanner e r

/-- The bytes of a party, in file order, for a file that holds `Marshall` when
`m`, the five extended map-icon fields when `e` and `_unused2` when `r`. -/
def PartyImage.bytes (m e r : Bool) (i : PartyImage) : List Byte :=
  i.head ++ i.afterBandit m e r

/-- The bytes of a party from `Id` to `PositionZ`: what stands before the count
of its stacks. -/
def PartyImage.beforeStacks (i : PartyImage) : List Byte :=
  i.Id.bytes ++ i.Name.bytes ++ i.Flags.toList ++ i.MenuId.toList ++ i.PartyTemplateId.toList ++
    i.FactionId.toList ++ i.Personality.toList ++ i.DefaultBehavior.toList ++
    i.CurrentBehavior.toList ++ i.DefaultBehaviorObjectId.toList ++
    i.CurrentBehaviorObjectId.toList ++ i.InitialPositionX.toList ++
    i.InitialPositionY.toList ++ i.TargetPositionX.toList ++ i.TargetPositionY.toList ++
    i.PositionX.toList ++ i.PositionY.toList ++ i.PositionZ.toList

/-- The bytes of a party from `Id` to `IsAttached`: what stands before the count
of its attached party ids, for a file that holds `Marshall` when `m`, the five
extended map-icon fields when `e` and `_unused2` when `r`. -/
def PartyImage.beforeAttached (m e r : Bool) (i : PartyImage) : List Byte :=
  i.head ++ (if m then i.Marshall.toList else []) ++ i.IgnorePlayerTimer.toList ++
    i.BannerMapIconId.toList ++ (if e then i.extra else []) ++ i.AttachedToPartyId.toList ++
    (if r then i._unused2.toList else []) ++ [i.IsAttached]

/-- The condition of the spec's decision table for the `Marshall` field. -/
def marshallPresent (v : Int32) : Bool := decide ((v ≥ 900 ∧ v < 1000) ∨ v ≥ 1020)

/-- The condition of the spec's decision table for the extended map-icon
fields, with the boundary the spec says to implement (`≥ 1137`). -/
def extraMapIconPresent (v : Int32) : Bool := decide (v ≥ 1137)

/-- The condition of the spec's decision table for the reserved int32. -/
def reservedPresent (v : Int32) : Bool := decide (v ≥ 1162)

/-- Every count of a party image is the length of what it counts. -/
def PartyImage.wf (i : PartyImage) : Prop :=
  i.Id.wf ∧ i.Name.wf ∧ decodeInt32 i.NumStacks.toList = i.Stacks.length ∧ i.ExtraText.wf ∧
  i.AttachedPartyIds.wf ∧ i.ParticleSystemIds.wf ∧ (∀ n ∈ i.Notes.toList, n.Text.wf) ∧
  i.Slots.wf

/-- The party that a party image decodes to when the file holds `Marshall` when
`m`, the extended map-icon fields when `e` and `_unused2` when `r`, and floats
are decoded by `fd`; a field that is not in the file keeps the value it has in
`old`. -/
def PartyImage.partyWith (fd : List Byte → Float) (m e r : Bool) (old : Party)
    (i : PartyImage) : Party :=
  { Id := i.Id.text, Name := i.Name.text, Flags := decodeUInt64 i.Flags.toList,
    MenuId := decodeInt32 i.MenuId.toList,
    PartyTemplateId := decodeInt32 i.PartyTemplateId.toList,
    FactionId := decodeInt32 i.FactionId.toList,
    Personality := decodeInt32 i.Personality.toList,
    DefaultBehavior := decodeInt32 i.DefaultBehavior.toList,
    CurrentBehavior := decodeInt32 i.CurrentBehavior.toList,
    DefaultBehaviorObjectId := decodeInt32 i.DefaultBehaviorObjectId.toList,
    CurrentBehaviorObjectId := decodeInt32 i.CurrentBehaviorObjectId.toList,
    InitialPositionX := fd i.InitialPositionX.toList,
    InitialPositionY := fd i.InitialPositionY.toList,
    TargetPositionX := fd i.TargetPositionX.toList,
    TargetPositionY := fd i.TargetPositionY.toList,
    PositionX := fd i.PositionX.toList, PositionY := fd i.PositionY.toList,
    PositionZ := fd i.PositionZ.toList, NumStacks := i.Stacks.length,
    Stacks := i.Stacks.map StackImage.stack, Bearing := fd i.Bearing.toList,
    Renamed := decodeBool [i.Renamed], ExtraText := i.ExtraText.text,
    Morale := fd i.Morale.toList, Hunger := fd i.Hunger.toList,
    _unused1 := fd i._unused1.toList,
    PatrolRadius := fd i.PatrolRadius.toList,
    Initiative := fd i.Initiative.toList,
    Helpfulness := fd i.Helpfulness.toList,
    LabelVisible := decodeInt32 i.LabelVisible.toList,
    BanditAttraction := fd i.BanditAttraction.toList,
    Marshall := if m then decodeInt32 i.Marshall.toList else old.Marshall,
    IgnorePlayerTimer := decodeInt64 i.IgnorePlayerTimer.toList,
    BannerMapIconId := decodeInt32 i.BannerMapIconId.toList,
    ExtraMapIconId := if e then decodeInt32 i.ExtraMapIconId.toList else old.ExtraMapIconId,
    ExtraMapIconUpDownDistance :=
      if e then fd i.ExtraMapIconUpDownDistance.toList
      else old.ExtraMapIconUpDownDistance,
    ExtraMapIconUpDownFrequency :=
      if e then fd i.ExtraMapIconUpDownFrequency.toList
      else old.ExtraMapIconUpDownFrequency,
    ExtraMapIconRotateFrequency :=
      if e then fd i.ExtraMapIconRotateFrequency.toList
      else old.ExtraMapIconRotateFrequency,
    ExtraMapIconFadeFrequency :=
      if e then fd i.ExtraMapIconFadeFrequency.toList
      else old.ExtraMapIconFadeFrequency,
    AttachedToPartyId := decodeInt32 i.AttachedToPartyId.toList,
    _unused2 := if r then decodeInt32 i._unused2.toList else old._unused2,
    IsAttached := decodeBool [i.IsAttached],
    NumAttachedPartyIds := i.AttachedPartyIds.elems.length,
    AttachedPartyIds := i.AttachedPartyIds.values decodeInt32,
    NumParticleSystemIds := i.ParticleSystemIds.elems.length,
    ParticleSystemIds := i.ParticleSystemIds.values decodeInt32,
    Notes := i.Notes.map NoteImage.note, NumSlots := i.Slots.elems.length,
    Slots := i.Slots.values decodeInt64 }

/-- The party that `Party.Read` of `src/main.go` decodes a party image to. -/
def PartyImage.mainParty (m e r : Bool) (old : Party) (i : PartyImage) : Party :=
  i.partyWith decodeFloatReflect m e r old

/-- The party that `readParty` of `src/backend/editor.go` decodes a party image
to. -/
def PartyImage.editorParty (m e r : Bool) (old : Party) (i : PartyImage) : Party :=
  i.partyWith decodeFloat m e r old

/-! ## Sample layouts -/

/-- A note with the two-byte text "ok", value 7, material id -1, available. -/
def sampleNote : NoteImage :=
  { Text := { count := ⟨[2, 0, 0, 0], rfl⟩, chars := [0x6f, 0x6b] },
    Value := ⟨[7, 0, 0, 0], rfl⟩, TableauMaterialId := ⟨[0xff, 0xff, 0xff, 0xff], rfl⟩,
    Available := 1 }

/-- A note with an empty text and every other byte zero. -/
def emptyNote : NoteImage :=
  { Text := { count := ⟨[0, 0, 0, 0], rfl⟩, chars := [] },
    Value := ⟨[0, 0, 0, 0], rfl⟩, TableauMaterialId := ⟨[0, 0, 0, 0], rfl⟩, Available := 0 }

/-- Sixteen notes: `sampleNote` first, then fifteen empty notes. -/
def sampleNotes : Mathlib.Vector NoteImage 16 :=
  Mathlib.Vector.cons sampleNote (Mathlib.Vector.replicate 15 emptyNote)

/-- A faction with one slot (5), two relations, an empty name and sixteen empty
notes. -/
def sampleFaction : FactionImage :=
  { Slots := { count := ⟨[1, 0, 0, 0], rfl⟩, elems := [⟨[5, 0, 0, 0, 0, 0, 0, 0], rfl⟩] },
    Relations := [⟨[0, 0, 0x80, 0x3f], rfl⟩, ⟨[0, 0, 0, 0xbf], rfl⟩],
    Name := { count := ⟨[0, 0, 0, 0], rfl⟩, chars := [] },
    Renamed := 1, Color := ⟨[0x33, 0x22, 0x11, 0xff], rfl⟩, _unused := ⟨[0, 0, 0, 0], rfl⟩,
    Notes := Mathlib.Vector.replicate 16 emptyNote }

/-- The empty text: count 0 and no payload. -/
def emptyText : TextImage := { count := ⟨[0, 0, 0, 0], rfl⟩, chars := [] }

/-- The empty array: count 0 and no element. -/
def emptyArray (k : Nat) : ArrayImage k := { count := ⟨[0, 0, 0, 0], rfl⟩, elems := [] }

/-- A run of `n` zero bytes. -/
def zeroBytes (n : Nat) : Bytes n := Mathlib.Vector.replicate n 0

/-- A quest whose scalars are zero, whose texts and slot array are empty and
whose notes are `sampleNotes`. -/
def sampleQuest : QuestImage :=
  { Progression := zeroBytes 4, GiverTroopId := zeroBytes 4, Number := zeroBytes 4,
    StartDate := zeroBytes 4, Title := emptyText, Text := emptyText, Giver := emptyText,
    Notes := sampleNotes, Slots := emptyArray 8 }

/-- A party whose scalars are zero and whose texts, arrays and notes are empty,
except for the bytes 1,2,3,4 in `ExtraMapIconId`, 9,9,9,9 in `Marshall`,
21,22,23,24 in `AttachedToPartyId` and 5,5,5,5 in `_unused2`. -/
def sampleParty : PartyImage :=
  { Id := emptyText, Name := emptyText, Flags := zeroBytes 8, MenuId := zeroBytes 4,
    PartyTemplateId := zeroBytes 4, FactionId := zeroBytes 4, Personality := zeroBytes 4,
    DefaultBehavior := zeroBytes 4, CurrentBehavior := zeroBytes 4,
    DefaultBehaviorObjectId := zeroBytes 4, CurrentBehaviorObjectId := zeroBytes 4,
    InitialPositionX := zeroBytes 4, InitialPositionY := zeroBytes 4,
    TargetPositionX := zeroBytes 4, TargetPositionY := zeroBytes 4, PositionX := zeroBytes 4,
    PositionY := zeroBytes 4, PositionZ := zeroBytes 4, NumStacks := zeroBytes 4, Stacks := [],
    Bearing := zeroBytes 4, Renamed := 0, ExtraText := emptyText, Morale := zeroBytes 4,
    Hunger := zeroBytes 4, _unused1 := zeroBytes 4, PatrolRadius := zeroBytes 4,
    Initiative := zeroBytes 4, Helpfulness := zeroBytes 4, LabelVisible := zeroBytes 4,
    BanditAttraction := zeroBytes 4, Marshall := ⟨[9, 9, 9, 9], rfl⟩,
    IgnorePlayerTimer := ⟨[0x11, 0, 0, 0, 0, 0, 0, 0], rfl⟩, BannerMapIconId := zeroBytes 4,
    ExtraMapIconId := ⟨[1, 2, 3, 4], rfl⟩, ExtraMapIconUpDownDistance := zeroBytes 4,
    ExtraMapIconUpDownFrequency := zeroBytes 4, ExtraMapIconRotateFrequency := zeroBytes 4,
    ExtraMapIconFadeFrequency := zeroBytes 4, AttachedToPartyId := ⟨[21, 22, 23, 24], rfl⟩,
    _unused2 := ⟨[5, 5, 5, 5], rfl⟩, IsAttached := 1, AttachedPartyIds := emptyArray 4,
    ParticleSystemIds := emptyArray 4, Notes := Mathlib.Vector.replicate 16 emptyNote,
    Slots := emptyArray 8 }

/-- A 400-byte input that is zero except for the byte at offset 142. In a party
with empty texts and no stacks, read with `Marshall`, `BannerMapIconId` ends
at offset 137; offset 142 is then the low byte of `NumAttachedPartyIds` when
`AttachedToPartyId` is read at offset 137, and lies inside
`ExtraMapIconUpDownDistance` when the five extended map-icon fields are read
first. -/
def shiftedCountInput : File :=
  List.replicate 142 0 ++ [1] ++ List.replicate 257 0

/-- A 289-byte save whose game version has the low bytes `v0`, `v1`: magic,
version, 20 zero bytes to the end of the 28-byte header, 16 zero bytes for
`GameTime`, `RandomSeed` and `SaveMode`, then at offset 44 the int32 values 1,
2, 3, 4, 5 and the int64 value 9, and zeros to the end. -/
def difficultySample (v0 v1 : Byte) : File :=
  [0x57, 0x52, 0x44, 0x52, v0, v1, 0, 0] ++ List.replicate 36 0 ++
    [1, 0, 0, 0, 2, 0, 0, 0, 3, 0, 0, 0, 4, 0, 0, 0, 5, 0, 0, 0, 9, 0, 0, 0, 0, 0, 0, 0] ++
    List.replicate 217 0

/-! ## Counts and collection lengths -/

/-- The slot array of a quest has as many elements as its count says. -/
def Quest.slotsMatch (q : Quest) : Prop := (q.Slots.length : Int) = q.NumSlots

/-- The slot array of a site has as many elements as its count says. -/
def Site.slotsMatch (s : Site) : Prop := (s.Slots.length : Int) = s.NumSlots

/-- The slot array of a party template has as many elements as its count says. -/
def PartyTemplate.slotsMatch (t : PartyTemplate) : Prop := (t.Slots.length : Int) = t.NumSlots

/-- The slot array of a faction of `main.go` has as many elements as its count
says. -/
def Main.Faction.slotsMatch (f : Main.Faction) : Prop := (f.Slots.length : Int) = f.NumSlots

/-- The slot array of a faction of `editor.go` has as many elements as its
count says. -/
def Editor.Faction.slotsMatch (f : Editor.Faction) : Prop :=
  (f.Slots.length : Int) = f.NumSlots

/-- The slot array and the stack array of a party have as many elements as
their counts say. -/
def Party.arraysMatch (p : Party) : Prop :=
  (p.Slots.length : Int) = p.NumSlots ∧ (p.Stacks.length : Int) = p.NumStacks

/-- Every section of a `Game` has as many records as its count says, and so
have the slot arrays of its records and the stack arrays of its parties. -/
def Main.Game.sectionsMatch (g : Main.Game) : Prop :=
  ((g.GlobalVariables.length : Int) = g.NumGlobalVariables ∧
    (g.Triggers.length : Int) = g.NumTriggers ∧
    (g.SimpleTriggers.length : Int) = g.NumSimpleTriggers ∧
    (g.Quests.length : Int) = g.NumQuests ∧
    (g.InfoPages.length : Int) = g.NumInfoPages ∧
    (g.Sites.length : Int) = g.NumSites ∧
    (g.Factions.length : Int) = g.NumFactions ∧
    (g.MapTracks.length : Int) = g.NumMapTracks ∧
    (g.PartyTemplates.length : Int) = g.NumPartyTemplates ∧
    (g.PartyRecords.length : Int) = g.NumPartyRecords) ∧
  (∀ q ∈ g.Quests, q.slotsMatch) ∧ (∀ s ∈ g.Sites, s.slotsMatch) ∧
  (∀ f ∈ g.Factions, f.slotsMatch) ∧ (∀ t ∈ g.PartyTemplates, t.slotsMatch) ∧
  (∀ r ∈ g.PartyRecords, r.Party.arraysMatch)

/-- Every section of a `Save` has as many records as its count says, and so
have the slot arrays of its records and the stack arrays of its parties. -/
def Editor.Save.sectionsMatch (g : Editor.Save) : Prop :=
  ((g.GlobalVariables.length : Int) = g.NumGlobalVariables ∧
    (g.Triggers.length : Int) = g.NumTriggers ∧
    (g.SimpleTriggers.length : Int) = g.NumSimpleTriggers ∧
    (g.Quests.length : Int) = g.NumQuests ∧
    (g.InfoPages.length : Int) = g.NumInfoPages ∧
    (g.Sites.length : Int) = g.NumSites ∧
    (g.Factions.length : Int) = g.NumFactions ∧
    (g.MapTracks.length : Int) = g.NumMapTracks ∧
    (g.PartyTemplates.length : Int) = g.NumPartyTemplates ∧
    (g.PartyRecords.length : Int) = g.NumPartyRecords) ∧
  (∀ q ∈ g.Quests, q.slotsMatch) ∧ (∀ s ∈ g.Sites, s.slotsMatch) ∧
  (∀ f ∈ g.Factions, f.slotsMatch) ∧ (∀ t ∈ g.PartyTemplates, t.slotsMatch) ∧
  (∀ r ∈ g.PartyRecords, r.Party.arraysMatch)

/-- A save of game version 0 with empty texts and empty sections up to the
party templates (261 bytes), then `NumPartyRecords = 2`, `NumPartiesCreated = 7`,
a first wrapper with `Valid = 1`, `RawId = 3`, `Id = 4` and an all-zero party of
358 bytes, and a second wrapper with `Valid = 0`: 643 bytes. -/
def twoRecordsInput : File :=
  [0x57, 0x52, 0x44, 0x52] ++ List.replicate 257 0 ++ [2, 0, 0, 0] ++ [7, 0, 0, 0] ++
    [1, 0, 0, 0] ++ [3, 0, 0, 0] ++ [4, 0, 0, 0] ++ List.replicate 358 0 ++ [0, 0, 0, 0]

/-- The party records that both root decoders return for `twoRecordsInput`. -/
def twoRecords : List PartyRecord :=
  [{ Valid := 1, RawId := 3, Id := 4, Party := Party.zero }, PartyRecord.zero]

/-- What `Game.Read` decodes from `twoRecordsInput`. -/
def Main.twoRecordsGame : Main.Game :=
  { Main.Game.zero with
    Header := { Header.zero with MagicNumber := 0x52445257 }
    NumPartyRecords := 2
    NumPartiesCreated := 7
    PartyRecords := twoRecords }

/-- What the `main` of `editor.go` decodes from `twoRecordsInput`. -/
def Editor.twoRecordsSave : Editor.Save :=
  { Editor.Save.zero with
    Header := { Header.zero with MagicNumber := 0x52445257 }
    NumPartyRecords := 2
    NumPartiesCreated := 7
    PartyRecords := twoRecords }

/-! ## Runs that leave bytes unread -/

/-- A reader is framed when every run of it that returns with at least one byte
left unread has read a prefix of its input and nothing else: the input is that
prefix followed by the unread bytes, and the reader returns the same value on
the prefix followed by any other bytes, leaving exactly those bytes unread. -/
def Framed {α : Type} (r : Rd α) : Prop :=
  ∀ file a rest, r file = .ok a rest → rest ≠ [] →
    ∃ p, file = p ++ rest ∧ ∀ t, r (p ++ t) = .ok a t

/-- The second reader agrees with the first when every run of the first that
returns leaves a suffix of its input unread and, if that suffix is not empty,
the second returns the same value and leaves the same bytes unread. -/
def Agree {α : Type} (r1 r2 : Rd α) : Prop :=
  ∀ file a rest, r1 file = .ok a rest →
    (∃ p, file = p ++ rest) ∧ (rest ≠ [] → r2 file = .ok a rest)

/-- The second reader agrees with the first up to `q` when every run of the
first that returns leaves a suffix of its input unread and, if that suffix is
not empty, the second returns, leaves the same bytes unread, and the two values
are equal after `q` has been applied to both. -/
def AgreeUpTo {α : Type} (q : α → α) (r1 r2 : Rd α) : Prop :=
  ∀ file a rest, r1 file = .ok a rest →
    (∃ p, file = p ++ rest) ∧ (rest ≠ [] → ∃ b, r2 file = .ok b rest ∧ q a = q b)

/-- The five extended map-icon values with the four `float32` among them passed
through `quietNaN`. -/
def quietFive (t : Int32 × Float × Float × Float × Float) :
    Int32 × Float × Float × Float × Float :=
  (t.1, quietNaN t.2.1, quietNaN t.2.2.1, quietNaN t.2.2.2.1, quietNaN t.2.2.2.2)

/-- A party with every `float32` field passed through `quietNaN`; all other
fields are unchanged. -/
def Party.quiet (p : Party) : Party :=
  { p with
    InitialPositionX := quietNaN p.InitialPositionX,
    InitialPositionY := quietNaN p.InitialPositionY,
    TargetPositionX := quietNaN p.TargetPositionX,
    TargetPositionY := quietNaN p.TargetPositionY,
    PositionX := quietNaN p.PositionX,
    PositionY := quietNaN p.PositionY,
    PositionZ := quietNaN p.PositionZ,
    Bearing := quietNaN p.Bearing,
    Morale := quietNaN p.Morale,
    Hunger := quietNaN p.Hunger,
    _unused1 := quietNaN p._unused1,
    PatrolRadius := quietNaN p.PatrolRadius,
    Initiative := quietNaN p.Initiative,
    Helpfulness := quietNaN p.Helpfulness,
    BanditAttraction := quietNaN p.BanditAttraction,
    ExtraMapIconUpDownDistance := quietNaN p.ExtraMapIconUpDownDistance,
    ExtraMapIconUpDownFrequency := quietNaN p.ExtraMapIconUpDownFrequency,
    ExtraMapIconRotateFrequency := quietNaN p.ExtraMapIconRotateFrequency,
    ExtraMapIconFadeFrequency := quietNaN p.ExtraMapIconFadeFrequency }

/-- A reader ends in the block `E` when every run of it that returns a value `b`
has read a prefix `pre` of its input and has then run `E b` on the bytes `m0`
that follow, returning `b`; and, as long as `m0` is not empty, the reader run
on `pre` followed by any other bytes `t` is `E b` run on `t`. -/
def EndsIn {β : Type} (E : β → Rd β) (r : Rd β) : Prop :=
  ∀ file b rest, r file = .ok b rest →
    ∃ pre m0, file = pre ++ m0 ∧ E b m0 = .ok b rest ∧
      (m0 ≠ [] → ∀ t, r (pre ++ t) = E b t)

/-- The last statements of `Game.Read` of `src/main.go`, from the read of
`NumPartyTemplates` to the end, in a decode with receiver `game` that has
produced the tree `g` up to there: the party templates (count, `make`, loop),
then the record count `NumPartyRecords`, the counter `NumPartiesCreated`,
`make`, the loop over the party records with the `GameVersion` of the header
of `g`, and the five fields put into the tree. -/
def Main.Game.entitySection (game g : Main.Game) : Rd Main.Game := do
  let NumPartyTemplates ← Main.Int32.Read game.NumPartyTemplates
  let PartyTemplates ← make PartyTemplate.zero NumPartyTemplates
  let PartyTemplates ← readEach Main.PartyTemplate.Read PartyTemplates
  let NumPartyRecords ← Main.Int32.Read game.NumPartyRecords
  let NumPartiesCreated ← Main.Int32.Read game.NumPartiesCreated
  let PartyRecords ← make PartyRecord.zero NumPartyRecords
  let PartyRecords ← readEach
    (fun partyRecord => Main.PartyRecord.Read partyRecord g.Header.GameVersion) PartyRecords
  pure { g with NumPartyTemplates, PartyTemplates, NumPartyRecords, NumPartiesCreated,
                PartyRecords }

/-- The last statements of `main` of `src/backend/editor.go`, from the read of
`NumPartyTemplates` to the end, in a decode that has produced the tree `s` up
to there. -/
def Editor.entitySection (s : Editor.Save) : Rd Editor.Save := do
  let NumPartyTemplates ← binary.Read 4 decodeInt32 Editor.Save.zero.NumPartyTemplates
  let PartyTemplates ← make PartyTemplate.zero NumPartyTemplates
  let PartyTemplates ← readEach Editor.readPartyTemplate PartyTemplates
  let NumPartyRecords ← binary.Read 4 decodeInt32 Editor.Save.zero.NumPartyRecords
  let NumPartiesCreated ← binary.Read 4 decodeInt32 Editor.Save.zero.NumPartiesCreated
  let PartyRecords ← make PartyRecord.zero NumPartyRecords
  let PartyRecords ← readEach
    (fun partyRecord => Editor.readPartyRecord partyRecord s.Header.GameVersion) PartyRecords
  pure { s with NumPartyTemplates, PartyTemplates, NumPartyRecords, NumPartiesCreated,
                PartyRecords }

/-- A reader survives truncation when, for every run of it that returns, the
run on the first `n` bytes of the same input returns as well, for every `n`:
either with the same value, leaving a prefix of what the full run left, or
with the input used up. -/
def Cut {α : Type} (r : Rd α) : Prop :=
  ∀ file a rest, r file = .ok a rest → ∀ n, ∃ b rest1, r (file.take n) = .ok b rest1 ∧
    ((b = a ∧ ∃ m, rest1 = rest.take m) ∨ rest1 = [])

/-- A reader returns on the exhausted input. -/
def Exh {α : Type} (r : Rd α) : Prop := ∃ a, r [] = .ok a []

/-- The same as `Cut` for the truncations to `k` or more bytes only: the root
decoders survive a truncation that keeps the four bytes of the magic number. -/
def CutFrom {α : Type} (k : Nat) (r : Rd α) : Prop :=
  ∀ file a rest, r file = .ok a rest → ∀ n, k ≤ n → ∃ b rest1, r (file.take n) = .ok b rest1 ∧
    ((b = a ∧ ∃ m, rest1 = rest.take m) ∨ rest1 = [])

/-! ## The mirror encoder of a note (written from the specification) -/

/-- The `n` low bytes of a natural number, least significant byte first. -/
def leBytes : Nat → Nat → List Byte
  | 0, _ => []
  | n + 1, u => ⟨u % 256, Nat.mod_lt u (by decide)⟩ :: leBytes n (u / 256)

/-- The mirror encoding of an `int32`: four bytes, little-endian, two's
complement. -/
def encodeInt32 (i : Int32) : List Byte := leBytes 4 (i % 2 ^ 32).toNat

/-- The mirror encoding of a `bool`: one byte, 1 or 0. -/
def encodeBool (b : Bool) : List Byte := [if b then 1 else 0]

/-- The mirror encoding of a text: `NumChars`, then the bytes of `Chars`. -/
def encodeString (s : String) : List Byte := encodeInt32 s.NumChars ++ s.Chars

/-- The mirror encoding of a note: the text, `Value`, `TableauMaterialId`, each
an `int32`, then one byte for `Available`. -/
def encodeNote (n : Note) : List Byte :=
  encodeString n.Text ++ encodeInt32 n.Value ++ encodeInt32 n.TableauMaterialId ++
    encodeBool n.Available

/-- The availability byte that the mirror encoder writes for a note whose
availability byte in the file is `b`. -/
def normalBool (b : Byte) : Byte := if b = 0 then 0 else 1

/-! ## Further sample inputs -/

/-- The party `sampleParty` with one attached party id (7), two particle system
ids (8 and 9) and two slots (1 and 2). -/
def arraysParty : PartyImage :=
  { sampleParty with
    AttachedPartyIds := { count := ⟨[1, 0, 0, 0], rfl⟩, elems := [⟨[7, 0, 0, 0], rfl⟩] },
    ParticleSystemIds :=
      { count := ⟨[2, 0, 0, 0], rfl⟩, elems := [⟨[8, 0, 0, 0], rfl⟩, ⟨[9, 0, 0, 0], rfl⟩] },
    Slots :=
      { count := ⟨[2, 0, 0, 0], rfl⟩,
        elems := [⟨[1, 0, 0, 0, 0, 0, 0, 0], rfl⟩, ⟨[2, 0, 0, 0, 0, 0, 0, 0], rfl⟩] } }

/-- The party `sampleParty` with the signalling NaN 0x7f800001 (bytes 01 00 80
7f) as `BanditAttraction`. -/
def nanParty : PartyImage :=
  { sampleParty with BanditAttraction := ⟨[0x01, 0x00, 0x80, 0x7f], rfl⟩ }

/-- A note whose availability byte is 2: empty text, value 7, material id -1,
followed by the byte 0x41. -/
def availableTwoInput : File := [0, 0, 0, 0, 7, 0, 0, 0, 0xff, 0xff, 0xff, 0xff, 2, 0x41]

/-- A 271-byte save of game version 0 in which every count is zero and every
text is empty, except the first class name (at offset 189), which has count 2
and the payload bytes 0x61, 0x62. -/
def classNameInput : File :=
  [0x57, 0x52, 0x44, 0x52] ++ List.replicate 185 0 ++ [2, 0, 0, 0, 0x61, 0x62] ++
    List.replicate 76 0

/-! ## The minimal save -/

/-- The bytes of `n` zero counts (or of `n` empty texts): `4 * n` zero bytes. -/
def zeroCounts : Nat → List Byte
  | 0 => []
  | n + 1 => (zeroBytes 4).toList ++ zeroCounts n

/-- A minimal save in a file: the bytes of every scalar field of a save whose
texts are all empty and whose ten section counts are all zero. -/
structure MinimalImage where
  GameVersion : Bytes 4
  ModuleVersion : Bytes 4
  PlayerLevel : Bytes 4
  Date : Bytes 4
  GameTime : Bytes 8
  RandomSeed : Bytes 4
  SaveMode : Bytes 4
  CombatDifficulty : Bytes 4
  CombatDifficultyFriendlies : Bytes 4
  ReduceCombatAi : Bytes 4
  ReduceCampaignAi : Bytes 4
  CombatSpeed : Bytes 4
  DateTimer : Bytes 8
  Hour : Bytes 4
  Day : Bytes 4
  Week : Bytes 4
  Month : Bytes 4
  Year : Bytes 4
  _unused0 : Bytes 4
  GlobalCloudAmount : Bytes 4
  GlobalHazeAmount : Bytes 4
  AverageDifficulty : Bytes 4
  AverageDifficultyPeriod : Bytes 4
  _unused2 : Byte
  TutorialFlags : Bytes 4
  DefaultPrisonerPrice : Bytes 4
  EncounteredParty1Id : Bytes 4
  EncounteredParty2Id : Bytes 4
  CurrentMenuId : Bytes 4
  CurrentSiteId : Bytes 4
  CurrentEntryNo : Bytes 4
  CurrentMissionTemplateId : Bytes 4
  PartyCreationMinRandomValue : Bytes 4
  PartyCreationMaxRandomValue : Bytes 4
  _unused3 : Mathlib.Vector (Bytes 4) 6
  _unused4 : Bytes 8
  RestPeriod : Bytes 4
  RestTimeSpeed : Bytes 4
  RestIsInteractive : Bytes 4
  RestRemainAttackable : Bytes 4
  NumPartiesCreated : Bytes 4

/-- The 28 bytes of the header of a minimal save: the magic number, the two
versions, two empty texts, `PlayerLevel` and `Date`. -/
def MinimalImage.headerBytes (i : MinimalImage) : List Byte :=
  [0x57, 0x52, 0x44, 0x52] ++ i.GameVersion.toList ++ i.ModuleVersion.toList ++
    (zeroBytes 4).toList ++ (zeroBytes 4).toList ++ i.PlayerLevel.toList ++ i.Date.toList

/-- The 20 bytes of the five difficulty fields. -/
def MinimalImage.difficulty (i : MinimalImage) : List Byte :=
  i.CombatDifficulty.toList ++ i.CombatDifficultyFriendlies.toList ++ i.ReduceCombatAi.toList ++
    i.ReduceCampaignAi.toList ++ i.CombatSpeed.toList

/-- The bytes of a minimal save from `DateTimer` to `RestRemainAttackable`, with
the empty texts `_unused1` and `GameLog` in their places. -/
def MinimalImage.scalars (i : MinimalImage) : List Byte :=
  i.DateTimer.toList ++ i.Hour.toList ++ i.Day.toList ++ i.Week.toList ++ i.Month.toList ++
    i.Year.toList ++ i._unused0.toList ++ i.GlobalCloudAmount.toList ++
    i.GlobalHazeAmount.toList ++ i.AverageDifficulty.toList ++
    i.AverageDifficultyPeriod.toList ++ (zeroBytes 4).toList ++ [i._unused2] ++
    i.TutorialFlags.toList ++ i.DefaultPrisonerPrice.toList ++ i.EncounteredParty1Id.toList ++
    i.EncounteredParty2Id.toList ++ i.CurrentMenuId.toList ++ i.CurrentSiteId.toList ++
    i.CurrentEntryNo.toList ++ i.CurrentMissionTemplateId.toList ++
    i.PartyCreationMinRandomValue.toList ++ i.PartyCreationMaxRandomValue.toList ++
    (zeroBytes 4).toList ++ Bytes.concat i._unused3.toList ++ i._unused4.toList ++
    i.RestPeriod.toList ++ i.RestTimeSpeed.toList ++ i.RestIsInteractive.toList ++
    i.RestRemainAttackable.toList

/-- The bytes of a minimal save after `RestRemainAttackable`: nine empty class
names, the nine zero counts from `NumGlobalVariables` to `NumPartyTemplates`,
the zero `NumPartyRecords`, and `NumPartiesCreated`. -/
def MinimalImage.sections (i : MinimalImage) : List Byte :=
  zeroCounts 9 ++ zeroCounts 9 ++ (zeroBytes 4).toList ++ i.NumPartiesCreated.toList

/-- The bytes of a minimal save from the magic number to the nine empty class
names: what stands before the first section count (`NumGlobalVariables`), for a
file that holds the five difficulty fields when `d`. -/
def MinimalImage.beforeSections (d : Bool) (i : MinimalImage) : List Byte :=
  i.headerBytes ++ i.GameTime.toList ++ i.RandomSeed.toList ++ i.SaveMode.toList ++
    (if d then i.difficulty else []) ++ i.scalars ++ zeroCounts 9

/-- The bytes of a minimal save, in file order, for a file that holds the five
difficulty fields when `d`. -/
def MinimalImage.bytes (d : Bool) (i : MinimalImage) : List Byte :=
  i.headerBytes ++ i.GameTime.toList ++ i.RandomSeed.toList ++ i.SaveMode.toList ++
    (if d then i.difficulty else []) ++ i.scalars ++ i.sections

/-- The header that a minimal save decodes to when its float is decoded by
`fd`. -/
def MinimalImage.header (fd : List Byte → Float) (i : MinimalImage) : Header :=
  { MagicNumber := 0x52445257, GameVersion := decodeInt32 i.GameVersion.toList,
    ModuleVersion := decodeInt32 i.ModuleVersion.toList, SavegameName := String.zero,
    PlayerName := String.zero, PlayerLevel := decodeInt32 i.PlayerLevel.toList,
    Date := fd i.Date.toList }

/-- The tree that `Game.Read` of `src/main.go` decodes a minimal save to, from
the receiver `old`: a field that is not in the file keeps the value it has in
`old`. -/
def MinimalImage.game (d : Bool) (old : Main.Game) (i : MinimalImage) : Main.Game :=
  { old with
    Header := i.header decodeFloatReflect, GameTime := decodeUInt64 i.GameTime.toList,
    RandomSeed := decodeInt32 i.RandomSeed.toList, SaveMode := decodeInt32 i.SaveMode.toList,
    CombatDifficulty := if d then decodeInt32 i.CombatDifficulty.toList else old.CombatDifficulty,
    CombatDifficultyFriendlies :=
      if d then decodeInt32 i.CombatDifficultyFriendlies.toList else old.CombatDifficultyFriendlies,
    ReduceCombatAi := if d then decodeInt32 i.ReduceCombatAi.toList else old.ReduceCombatAi,
    ReduceCampaignAi := if d then decodeInt32 i.ReduceCampaignAi.toList else old.ReduceCampaignAi,
    CombatSpeed := if d then decodeInt32 i.CombatSpeed.toList else old.CombatSpeed,
    DateTimer := decodeInt64 i.DateTimer.toList, Hour := decodeInt32 i.Hour.toList,
    Day := decodeInt32 i.Day.toList, Week := decodeInt32 i.Week.toList,
    Month := decodeInt32 i.Month.toList, Year := decodeInt32 i.Year.toList,
    _unused0 := decodeInt32 i._unused0.toList,
    GlobalCloudAmount := decodeFloatReflect i.GlobalCloudAmount.toList,
    GlobalHazeAmount := decodeFloatReflect i.GlobalHazeAmount.toList,
    AverageDifficulty := decodeFloatReflect i.AverageDifficulty.toList,
    AverageDifficultyPeriod := decodeFloatReflect i.AverageDifficultyPeriod.toList,
    _unused1 := String.zero, _unused2 := decodeBool [i._unused2],
    TutorialFlags := decodeInt32 i.TutorialFlags.toList,
    DefaultPrisonerPrice := decodeInt32 i.DefaultPrisonerPrice.toList,
    EncounteredParty1Id := decodeInt32 i.EncounteredParty1Id.toList,
    EncounteredParty2Id := decodeInt32 i.EncounteredParty2Id.toList,
    CurrentMenuId := decodeInt32 i.CurrentMenuId.toList,
    CurrentSiteId := decodeInt32 i.CurrentSiteId.toList,
    CurrentEntryNo := decodeInt32 i.CurrentEntryNo.toList,
    CurrentMissionTemplateId := decodeInt32 i.CurrentMissionTemplateId.toList,
    PartyCreationMinRandomValue := decodeInt32 i.PartyCreationMinRandomValue.toList,
    PartyCreationMaxRandomValue := decodeInt32 i.PartyCreationMaxRandomValue.toList,
    GameLog := String.zero, _unused3 := i._unused3.map (fun e => decodeInt32 e.toList),
    _unused4 := decodeInt64 i._unused4.toList,
    RestPeriod := decodeFloatReflect i.RestPeriod.toList,
    RestTimeSpeed := decodeInt32 i.RestTimeSpeed.toList,
    RestIsInteractive := decodeInt32 i.RestIsInteractive.toList,
    RestRemainAttackable := decodeInt32 i.RestRemainAttackable.toList,
    ClassNames := Mathlib.Vector.replicate 9 String.zero, NumGlobalVariables := 0,
    GlobalVariables := [], NumTriggers := 0, Triggers := [], NumSimpleTriggers := 0,
    SimpleTriggers := [], NumQuests := 0, Quests := [], NumInfoPages := 0, InfoPages := [],
    NumSites := 0, Sites := [], NumFactions := 0, Factions := [], NumMapTracks := 0,
    MapTracks := [], NumPartyTemplates := 0, PartyTemplates := [], NumPartyRecords := 0,
    NumPartiesCreated := decodeInt32 i.NumPartiesCreated.toList, PartyRecords := [] }

/-- The tree that `main` of `src/backend/editor.go` decodes a minimal save to. -/
def MinimalImage.save (d : Bool) (i : MinimalImage) : Editor.Save :=
  { Editor.Save.zero with
    Header := i.header decodeFloat, GameTime := decodeUInt64 i.GameTime.toList,
    RandomSeed := decodeInt32 i.RandomSeed.toList, SaveMode := decodeInt32 i.SaveMode.toList,
    CombatDifficulty :=
      if d then decodeInt32 i.CombatDifficulty.toList else Editor.Save.zero.CombatDifficulty,
    CombatDifficultyFriendlies :=
      if d then decodeInt32 i.CombatDifficultyFriendlies.toList
      else Editor.Save.zero.CombatDifficultyFriendlies,
    ReduceCombatAi :=
      if d then decodeInt32 i.ReduceCombatAi.toList else Editor.Save.zero.ReduceCombatAi,
    ReduceCampaignAi :=
      if d then decodeInt32 i.ReduceCampaignAi.toList else Editor.Save.zero.ReduceCampaignAi,
    CombatSpeed := if d then decodeInt32 i.CombatSpeed.toList else Editor.Save.zero.CombatSpeed,
    DateTimer := decodeInt64 i.DateTimer.toList, Hour := decodeInt32 i.Hour.toList,
    Day := decodeInt32 i.Day.toList, Week := decodeInt32 i.Week.toList,
    Month := decodeInt32 i.Month.toList, Year := decodeInt32 i.Year.toList,
    _unused0 := decodeInt32 i._unused0.toList,
    GlobalCloudAmount := decodeFloat i.GlobalCloudAmount.toList,
    GlobalHazeAmount := decodeFloat i.GlobalHazeAmount.toList,
    AverageDifficulty := decodeFloat i.AverageDifficulty.toList,
    AverageDifficultyPeriod := decodeFloat i.AverageDifficultyPeriod.toList,
    _unused1 := String.zero, _unused2 := decodeBool [i._unused2],
    TutorialFlags := decodeInt32 i.TutorialFlags.toList,
    DefaultPrisonerPrice := decodeInt32 i.DefaultPrisonerPrice.toList,
    EncounteredParty1Id := decodeInt32 i.EncounteredParty1Id.toList,
    EncounteredParty2Id := decodeInt32 i.EncounteredParty2Id.toList,
    CurrentMenuId := decodeInt32 i.CurrentMenuId.toList,
    CurrentSiteId := decodeInt32 i.CurrentSiteId.toList,
    CurrentEntryNo := decodeInt32 i.CurrentEntryNo.toList,
    CurrentMissionTemplateId := decodeInt32 i.CurrentMissionTemplateId.toList,
    PartyCreationMinRandomValue := decodeInt32 i.PartyCreationMinRandomValue.toList,
    PartyCreationMaxRandomValue := decodeInt32 i.PartyCreationMaxRandomValue.toList,
    GameLog := String.zero, _unused3 := i._unused3.map (fun e => decodeInt32 e.toList),
    _unused4 := decodeInt64 i._unused4.toList, RestPeriod := decodeFloat i.RestPeriod.toList,
    RestTimeSpeed := decodeInt32 i.RestTimeSpeed.toList,
    RestIsInteractive := decodeInt32 i.RestIsInteractive.toList,
    RestRemainAttackable := decodeInt32 i.RestRemainAttackable.toList,
    ClassNames := Mathlib.Vector.replicate 9 String.zero, NumGlobalVariables := 0,
    GlobalVariables := [], NumTriggers := 0, Triggers := [], NumSimpleTriggers := 0,
    SimpleTriggers := [], NumQuests := 0, Quests := [], NumInfoPages := 0, InfoPages := [],
    NumSites := 0, Sites := [], NumFactions := 0, Factions := [], NumMapTracks := 0,
    MapTracks := [], NumPartyTemplates := 0, PartyTemplates := [], NumPartyRecords := 0,
    NumPartiesCreated := decodeInt32 i.NumPartiesCreated.toList, PartyRecords := [] }

/-- The minimal save of game version 0 in which every byte after the magic
number is zero. -/
def zeroMinimal : MinimalImage :=
  { GameVersion := zeroBytes 4, ModuleVersion := zeroBytes 4, PlayerLevel := zeroBytes 4,
    Date := zeroBytes 4, GameTime := zeroBytes 8, RandomSeed := zeroBytes 4,
    SaveMode := zeroBytes 4, CombatDifficulty := zeroBytes 4,
    CombatDifficultyFriendlies := zeroBytes 4, ReduceCombatAi := zeroBytes 4,
    ReduceCampaignAi := zeroBytes 4, CombatSpeed := zeroBytes 4, DateTimer := zeroBytes 8,
    Hour := zeroBytes 4, Day := zeroBytes 4, Week := zeroBytes 4, Month := zeroBytes 4,
    Year := zeroBytes 4, _unused0 := zeroBytes 4, GlobalCloudAmount := zeroBytes 4,
    GlobalHazeAmount := zeroBytes 4, AverageDifficulty := zeroBytes 4,
    AverageDifficultyPeriod := zeroBytes 4, _unused2 := 0, TutorialFlags := zeroBytes 4,
    DefaultPrisonerPrice := zeroBytes 4, EncounteredParty1Id := zeroBytes 4,
    EncounteredParty2Id := zeroBytes 4, CurrentMenuId := zeroBytes 4,
    CurrentSiteId := zeroBytes 4, CurrentEntryNo := zeroBytes 4,
    CurrentMissionTemplateId := zeroBytes 4, PartyCreationMinRandomValue := zeroBytes 4,
    PartyCreationMaxRandomValue := zeroBytes 4,
    _unused3 := Mathlib.Vector.replicate 6 (zeroBytes 4), _unused4 := zeroBytes 8,
    RestPeriod := zeroBytes 4, RestTimeSpeed := zeroBytes 4, RestIsInteractive := zeroBytes 4,
    RestRemainAttackable := zeroBytes 4, NumPartiesCreated := zeroBytes 4 }

/-- One field of `k` bytes as a decoder sees it in a truncated file: the
field itself when all its bytes are present (`c`), else `k` zero bytes, which
every decoder of this file maps to the zero value. -/
def Bytes.keep {k : Nat} (c : Prop) [Decidable c] (v : Bytes k) : Bytes k :=
  if c then v else zeroBytes k

/-- An array of fields of `k` bytes each, read one element at a time, when
only the first `m` bytes of the array are present: the elements that are
present in full are kept, the others are zero. -/
def Bytes.cutEach {k : Nat} (m : Nat) :
    {n : Nat} → Mathlib.Vector (Bytes k) n → Mathlib.Vector (Bytes k) n
  | 0, _ => Mathlib.Vector.nil
  | _ + 1, v => Mathlib.Vector.cons (Bytes.keep (k ≤ m) v.head) (Bytes.cutEach (m - k) v.tail)

/-- The minimal save `i` with every field zeroed that does not lie in full
within the first `n` bytes of the file `i.bytes d`: a field of `k` bytes at
offset `o` is kept when `k ≤ n - o`. The fields after `SaveMode` stand 20
bytes later when the file holds the five difficulty fields (`d`). The array
`_unused3` is cut element by element when `each` (the loop of `main.go`) and
kept or zeroed as a whole otherwise (the one bulk read of `editor.go`). -/
def MinimalImage.cut (each d : Bool) (n : Nat) (i : MinimalImage) : MinimalImage :=
  let e := if d then 20 else 0
  { GameVersion := Bytes.keep (4 ≤ n - 4) i.GameVersion,
    ModuleVersion := Bytes.keep (4 ≤ n - 8) i.ModuleVersion,
    PlayerLevel := Bytes.keep (4 ≤ n - 20) i.PlayerLevel,
    Date := Bytes.keep (4 ≤ n - 24) i.Date,
    GameTime := Bytes.keep (8 ≤ n - 28) i.GameTime,
    RandomSeed := Bytes.keep (4 ≤ n - 36) i.RandomSeed,
    SaveMode := Bytes.keep (4 ≤ n - 40) i.SaveMode,
    CombatDifficulty := Bytes.keep (4 ≤ n - 44) i.CombatDifficulty,
    CombatDifficultyFriendlies := Bytes.keep (4 ≤ n - 48) i.CombatDifficultyFriendlies,
    ReduceCombatAi := Bytes.keep (4 ≤ n - 52) i.ReduceCombatAi,
    ReduceCampaignAi := Bytes.keep (4 ≤ n - 56) i.ReduceCampaignAi,
    CombatSpeed := Bytes.keep (4 ≤ n - 60) i.CombatSpeed,
    DateTimer := Bytes.keep (8 ≤ n - (44 + e)) i.DateTimer,
    Hour := Bytes.keep (4 ≤ n - (52 + e)) i.Hour,
    Day := Bytes.keep (4 ≤ n - (56 + e)) i.Day,
    Week := Bytes.keep (4 ≤ n - (60 + e)) i.Week,
    Month := Bytes.keep (4 ≤ n - (64 + e)) i.Month,
    Year := Bytes.keep (4 ≤ n - (68 + e)) i.Year,
    _unused0 := Bytes.keep (4 ≤ n - (72 + e)) i._unused0,
    GlobalCloudAmount := Bytes.keep (4 ≤ n - (76 + e)) i.GlobalCloudAmount,
    GlobalHazeAmount := Bytes.keep (4 ≤ n - (80 + e)) i.GlobalHazeAmount,
    AverageDifficulty := Bytes.keep (4 ≤ n - (84 + e)) i.AverageDifficulty,
    AverageDifficultyPeriod := Bytes.keep (4 ≤ n - (88 + e)) i.AverageDifficultyPeriod,
    _unused2 := if 1 ≤ n - (96 + e) then i._unused2 else 0,
    TutorialFlags := Bytes.keep (4 ≤ n - (97 + e)) i.TutorialFlags,
    DefaultPrisonerPrice := Bytes.keep (4 ≤ n - (101 + e)) i.DefaultPrisonerPrice,
    EncounteredParty1Id := Bytes.keep (4 ≤ n - (105 + e)) i.EncounteredParty1Id,
    EncounteredParty2Id := Bytes.keep (4 ≤ n - (109 + e)) i.EncounteredParty2Id,
    CurrentMenuId := Bytes.keep (4 ≤ n - (113 + e)) i.CurrentMenuId,
    CurrentSiteId := Bytes.keep (4 ≤ n - (117 + e)) i.CurrentSiteId,
    CurrentEntryNo := Bytes.keep (4 ≤ n - (121 + e)) i.CurrentEntryNo,
    CurrentMissionTemplateId := Bytes.keep (4 ≤ n - (125 + e)) i.CurrentMissionTemplateId,
    PartyCreationMinRandomValue := Bytes.keep (4 ≤ n - (129 + e)) i.PartyCreationMinRandomValue,
    PartyCreationMaxRandomValue := Bytes.keep (4 ≤ n - (133 + e)) i.PartyCreationMaxRandomValue,
    _unused3 :=
      if each then Bytes.cutEach (n - (141 + e)) i._unused3
      else if 24 ≤ n - (141 + e) then i._unused3 else Mathlib.Vector.replicate 6 (zeroBytes 4),
    _unused4 := Bytes.keep (8 ≤ n - (165 + e)) i._unused4,
    RestPeriod := Bytes.keep (4 ≤ n - (173 + e)) i.RestPeriod,
    RestTimeSpeed := Bytes.keep (4 ≤ n - (177 + e)) i.RestTimeSpeed,
    RestIsInteractive := Bytes.keep (4 ≤ n - (181 + e)) i.RestIsInteractive,
    RestRemainAttackable := Bytes.keep (4 ≤ n - (185 + e)) i.RestRemainAttackable,
    NumPartiesCreated := Bytes.keep (4 ≤ n - (265 + e)) i.NumPartiesCreated }

/-- A minimal save of game version 1162 (the five difficulty fields are in the
file) with `Hour` 7 and `Day` 9 and every other field zero: `Hour` stands at
the offsets 72 to 75 of the file and `Day` at 76 to 79. -/
def hourMinimal : MinimalImage :=
  { zeroMinimal with
    GameVersion := ⟨[0x8a, 0x04, 0, 0], rfl⟩, Hour := ⟨[7, 0, 0, 0], rfl⟩,
    Day := ⟨[9, 0, 0, 0], rfl⟩ }

/-! ## Theorems -/

set_option maxRecDepth 100000

@[simp] theorem bind_run {α β : Type} (x : Rd α) (k : α → Rd β) (file : File) :
    (x >>= k) file = Rd.bind x k file := rfl

@[simp] theorem pure_run {α : Type} (a : α) (file : File) :
    (pure a : Rd α) file = .ok a file := rfl

theorem readFull_append (bs rest : File) : readFull bs.length (bs ++ rest) = (some bs, rest) := by
  simp [readFull]

theorem readFull_short {n : Nat} {file : File} (h : file.length < n) : readFull n file = (none, []) := by
  simp [readFull, Nat.not_le.mpr h]

theorem binaryRead_append {α : Type} (size : Nat) (decode : List Byte → α) (data : α)
    (bs rest : File) (h : bs.length = size) :
    binary.Read size decode data (bs ++ rest) = .ok (decode bs) rest := by
  subst h
  simp [binary.Read, readFull_append]

theorem binaryRead_short {α : Type} (size : Nat) (decode : List Byte → α) (data : α)
    (file : File) (h : file.length < size) :
    binary.Read size decode data file = .ok data [] := by
  simp [binary.Read, readFull_short h]

theorem binaryRead_cons4 {α : Type} (decode : List Byte → α) (data : α) (b0 b1 b2 b3 : Byte)
    (rest : File) :
    binary.Read 4 decode data (b0 :: b1 :: b2 :: b3 :: rest) = .ok (decode [b0, b1, b2, b3]) rest :=
  binaryRead_append 4 decode data [b0, b1, b2, b3] rest rfl

theorem binaryRead_cons8 {α : Type} (decode : List Byte → α) (data : α)
    (b0 b1 b2 b3 b4 b5 b6 b7 : Byte) (rest : File) :
    binary.Read 8 decode data (b0 :: b1 :: b2 :: b3 :: b4 :: b5 :: b6 :: b7 :: rest) =
      .ok (decode [b0, b1, b2, b3, b4, b5, b6, b7]) rest :=
  binaryRead_append 8 decode data [b0, b1, b2, b3, b4, b5, b6, b7] rest rfl

theorem binaryRead_cons1 {α : Type} (decode : List Byte → α) (data : α) (b0 : Byte)
    (rest : File) :
    binary.Read 1 decode data (b0 :: rest) = .ok (decode [b0]) rest :=
  binaryRead_append 1 decode data [b0] rest rfl

theorem make_natCast {α : Type} (zero : α) (n : Nat) (file : File) :
    make zero (n : Int) file = .ok (List.replicate n zero) file := by
  simp [make]

theorem make_neg {α : Type} (zero : α) (n : Int) (file : File) (h : n < 0) :
    make zero n file = .panic file := by
  simp [make, h]

theorem mainStringRead_ok (s : String) (cnt chars rest : File) (hcnt : cnt.length = 4)
    (h : decodeInt32 cnt = chars.length) :
    Main.String.Read s (cnt ++ (chars ++ rest)) =
      .ok { NumChars := chars.length, Chars := chars, Readable := chars } rest := by
  simp [Main.String.Read, Main.Int32.Read, Rd.bind, binaryRead_append, hcnt, h, make_natCast]

theorem editorReadString_ok (s : String) (nr : List Bool) (cnt chars rest : File)
    (hcnt : cnt.length = 4) (h : decodeInt32 cnt = chars.length) :
    Editor.readString s nr (cnt ++ (chars ++ rest)) =
      .ok { NumChars := chars.length, Chars := chars,
            Readable := if nr.length = 0 then chars else s.Readable } rest := by
  simp [Editor.readString, Rd.bind, binaryRead_append, hcnt, h, make_natCast]

/-- Claim C1: in both header readers, when the first four bytes of the input,
read as a little-endian int32, are not 0x52445257, the reader stops in
`log.Fatal` and what is left unread is everything after those four bytes:
exactly four bytes are consumed and no field after the magic number is read. -/
theorem header_magic_mismatch_aborts (header : Header) (b0 b1 b2 b3 : Byte) (rest : File)
    (h : decodeInt32 [b0, b1, b2, b3] ≠ 0x52445257) :
    Main.Header.Read header (b0 :: b1 :: b2 :: b3 :: rest) = .fatal rest ∧
    Editor.readHeader header (b0 :: b1 :: b2 :: b3 :: rest) = .fatal rest ∧
    consumed (Main.Header.Read header) (b0 :: b1 :: b2 :: b3 :: rest) = 4 ∧
    consumed (Editor.readHeader header) (b0 :: b1 :: b2 :: b3 :: rest) = 4 := by
  have h1 : Main.Header.Read header (b0 :: b1 :: b2 :: b3 :: rest) = .fatal rest := by
    simp [Main.Header.Read, Main.Int32.Read, Rd.bind, binaryRead_cons4, h, log.Fatal]
  have h2 : Editor.readHeader header (b0 :: b1 :: b2 :: b3 :: rest) = .fatal rest := by
    simp [Editor.readHeader, Rd.bind, binaryRead_cons4, h, log.Fatal]
  refine ⟨h1, h2, ?_, ?_⟩
  · simp [consumed, h1, Outcome.rest]; omega
  · simp [consumed, h2, Outcome.rest]; omega

theorem header_magic_mismatch_aborts_witness :
    decodeInt32 [0x57, 0x52, 0x44, 0x53] ≠ 0x52445257 ∧
    Main.Header.Read Header.zero [0x57, 0x52, 0x44, 0x53, 0x8a, 0x04, 0, 0] = .fatal [0x8a, 0x04, 0, 0] ∧
    Editor.readHeader Header.zero [0x57, 0x52, 0x44, 0x53, 0x8a, 0x04, 0, 0] = .fatal [0x8a, 0x04, 0, 0] :=
  ⟨by decide,
   (header_magic_mismatch_aborts Header.zero 0x57 0x52 0x44 0x53 [0x8a, 0x04, 0, 0] (by decide)).1,
   (header_magic_mismatch_aborts Header.zero 0x57 0x52 0x44 0x53 [0x8a, 0x04, 0, 0] (by decide)).2.1⟩


theorem leNat4 (b0 b1 b2 b3 : Byte) :
    leNat [b0, b1, b2, b3] = b0.val + 2 ^ 8 * b1.val + 2 ^ 16 * b2.val + 2 ^ 24 * b3.val := by
  simp [leNat]; omega

theorem leNat8 (b0 b1 b2 b3 b4 b5 b6 b7 : Byte) :
    leNat [b0, b1, b2, b3, b4, b5, b6, b7] =
      b0.val + 2 ^ 8 * b1.val + 2 ^ 16 * b2.val + 2 ^ 24 * b3.val + 2 ^ 32 * b4.val +
        2 ^ 40 * b5.val + 2 ^ 48 * b6.val + 2 ^ 56 * b7.val := by
  simp [leNat]; omega

/-- Claim C3: the primitive readers, and where `Float.Read` of `src/main.go`
departs from the claim. With enough bytes at the cursor, `Bool.Read` takes 1
byte, `Int32.Read`, `UInt32.Read` and `Float.Read` take 4 and `Int64.Read`,
`UInt64.Read` take 8, whatever follows (no padding); the value is the
little-endian one, `b0 + 2^8*b1 + 2^16*b2 + ...`, in two's complement for the
signed types and true exactly when the byte is not zero for a bool. The integer
and bool readers are the `binary.Read` calls that `editor.go` writes in line.
For a float, the `binary.Read` of `editor.go` into a `*float32` yields the
little-endian bit pattern, but `Float.Read` of `main.go` yields that bit
pattern passed through `float64` and back: on the four bytes 01 00 80 7f (the
signalling NaN 0x7f800001) it returns 0x7fc00001, while `editor.go` returns
0x7f800001. -/
theorem primitive_readers_little_endian (b0 b1 b2 b3 b4 b5 b6 b7 : Byte) (rest : File)
    (ob : Bool) (oi : Int) (un : Nat) :
    Main.Bool.Read ob (b0 :: rest) = .ok (decide (b0 ≠ 0)) rest ∧
    Main.Int32.Read oi (b0 :: b1 :: b2 :: b3 :: rest) =
      .ok (toInt32 (b0.val + 2 ^ 8 * b1.val + 2 ^ 16 * b2.val + 2 ^ 24 * b3.val)) rest ∧
    Main.UInt32.Read un (b0 :: b1 :: b2 :: b3 :: rest) =
      .ok (b0.val + 2 ^ 8 * b1.val + 2 ^ 16 * b2.val + 2 ^ 24 * b3.val) rest ∧
    Main.Float.Read un (b0 :: b1 :: b2 :: b3 :: rest) =
      .ok (quietNaN (b0.val + 2 ^ 8 * b1.val + 2 ^ 16 * b2.val + 2 ^ 24 * b3.val)) rest ∧
    binary.Read 4 decodeFloat un (b0 :: b1 :: b2 :: b3 :: rest) =
      .ok (b0.val + 2 ^ 8 * b1.val + 2 ^ 16 * b2.val + 2 ^ 24 * b3.val) rest ∧
    Main.Int64.Read oi (b0 :: b1 :: b2 :: b3 :: b4 :: b5 :: b6 :: b7 :: rest) =
      .ok (toInt64 (b0.val + 2 ^ 8 * b1.val + 2 ^ 16 * b2.val + 2 ^ 24 * b3.val +
        2 ^ 32 * b4.val + 2 ^ 40 * b5.val + 2 ^ 48 * b6.val + 2 ^ 56 * b7.val)) rest ∧
    Main.UInt64.Read un (b0 :: b1 :: b2 :: b3 :: b4 :: b5 :: b6 :: b7 :: rest) =
      .ok (b0.val + 2 ^ 8 * b1.val + 2 ^ 16 * b2.val + 2 ^ 24 * b3.val +
        2 ^ 32 * b4.val + 2 ^ 40 * b5.val + 2 ^ 48 * b6.val + 2 ^ 56 * b7.val) rest ∧
    consumed (Main.Bool.Read ob) (b0 :: rest) = 1 ∧
    consumed (Main.Int32.Read oi) (b0 :: b1 :: b2 :: b3 :: rest) = 4 ∧
    consumed (Main.UInt32.Read un) (b0 :: b1 :: b2 :: b3 :: rest) = 4 ∧
    consumed (Main.Float.Read un) (b0 :: b1 :: b2 :: b3 :: rest) = 4 ∧
    consumed (Main.Int64.Read oi) (b0 :: b1 :: b2 :: b3 :: b4 :: b5 :: b6 :: b7 :: rest) = 8 ∧
    consumed (Main.UInt64.Read un) (b0 :: b1 :: b2 :: b3 :: b4 :: b5 :: b6 :: b7 :: rest) = 8 ∧
    (Main.Bool.Read = binary.Read 1 decodeBool ∧ Main.Int32.Read = binary.Read 4 decodeInt32 ∧
      Main.UInt32.Read = binary.Read 4 decodeUInt32 ∧
      Main.Int64.Read = binary.Read 8 decodeInt64 ∧
      Main.UInt64.Read = binary.Read 8 decodeUInt64) ∧
    Main.Float.Read 0 [0x01, 0x00, 0x80, 0x7f] = .ok 0x7fc00001 [] ∧
    binary.Read 4 decodeFloat 0 [0x01, 0x00, 0x80, 0x7f] = .ok 0x7f800001 [] ∧
    leNat [0x01, 0x00, 0x80, 0x7f] = 0x7f800001 ∧
    Main.Float.Read 0 [0x00, 0x00, 0x80, 0x3f] = .ok 0x3f800000 [] := by
  have e1 : Main.Bool.Read ob (b0 :: rest) = .ok (decide (b0 ≠ 0)) rest := by
    rw [Main.Bool.Read, binaryRead_cons1]
    by_cases hb : b0 = 0 <;> simp [decodeBool, hb]
  have e2 : Main.Int32.Read oi (b0 :: b1 :: b2 :: b3 :: rest) =
      .ok (toInt32 (b0.val + 2 ^ 8 * b1.val + 2 ^ 16 * b2.val + 2 ^ 24 * b3.val)) rest := by
    rw [Main.Int32.Read, binaryRead_cons4, decodeInt32, leNat4]
  have e3 : Main.UInt32.Read un (b0 :: b1 :: b2 :: b3 :: rest) =
      .ok (b0.val + 2 ^ 8 * b1.val + 2 ^ 16 * b2.val + 2 ^ 24 * b3.val) rest := by
    rw [Main.UInt32.Read, binaryRead_cons4, decodeUInt32, leNat4]
  have e4 : Main.Float.Read un (b0 :: b1 :: b2 :: b3 :: rest) =
      .ok (quietNaN (b0.val + 2 ^ 8 * b1.val + 2 ^ 16 * b2.val + 2 ^ 24 * b3.val)) rest := by
    rw [Main.Float.Read, binaryRead_cons4, decodeFloatReflect, leNat4]
  have e4r : binary.Read 4 decodeFloat un (b0 :: b1 :: b2 :: b3 :: rest) =
      .ok (b0.val + 2 ^ 8 * b1.val + 2 ^ 16 * b2.val + 2 ^ 24 * b3.val) rest := by
    rw [binaryRead_cons4, decodeFloat, leNat4]
  have e5 : Main.Int64.Read oi (b0 :: b1 :: b2 :: b3 :: b4 :: b5 :: b6 :: b7 :: rest) =
      .ok (toInt64 (b0.val + 2 ^ 8 * b1.val + 2 ^ 16 * b2.val + 2 ^ 24 * b3.val +
        2 ^ 32 * b4.val + 2 ^ 40 * b5.val + 2 ^ 48 * b6.val + 2 ^ 56 * b7.val)) rest := by
    rw [Main.Int64.Read, binaryRead_cons8, decodeInt64, leNat8]
  have e6 : Main.UInt64.Read un (b0 :: b1 :: b2 :: b3 :: b4 :: b5 :: b6 :: b7 :: rest) =
      .ok (b0.val + 2 ^ 8 * b1.val + 2 ^ 16 * b2.val + 2 ^ 24 * b3.val +
        2 ^ 32 * b4.val + 2 ^ 40 * b5.val + 2 ^ 48 * b6.val + 2 ^ 56 * b7.val) rest := by
    rw [Main.UInt64.Read, binaryRead_cons8, decodeUInt64, leNat8]
  refine ⟨e1, e2, e3, e4, e4r, e5, e6, ?_, ?_, ?_, ?_, ?_, ?_, ⟨rfl, rfl, rfl, rfl, rfl⟩,
    by decide, by decide, by decide, by decide⟩
  · simp [consumed, e1, Outcome.rest]
  · simp [consumed, e2, Outcome.rest]; omega
  · simp [consumed, e3, Outcome.rest]; omega
  · simp [consumed, e4, Outcome.rest]; omega
  · simp [consumed, e5, Outcome.rest]; omega
  · simp [consumed, e6, Outcome.rest]; omega


theorem decodeInt32_magic : decodeInt32 [0x57, 0x52, 0x44, 0x52] = 0x52445257 := by decide

/-- Claim C2: in both header readers, an input made of the magic bytes
0x57,0x52,0x44,0x52, four bytes of game version, four of module version, a
count and that many bytes of save name, a count and that many bytes of player
name, four bytes of player level and four of date decodes to exactly these
fields in this order, and 28 + len(SavegameName) + len(PlayerName) bytes are
consumed. The date is the float32 of its four bytes as each reader decodes a
float: `decodeFloatReflect` in `src/main.go` (a signalling NaN comes out
quieted), `decodeFloat` (the raw bit pattern) in `src/backend/editor.go`. -/
theorem header_decode_layout (header : Header) (v mv n1 name1 n2 name2 lvl date rest : File)
    (hv : v.length = 4) (hmv : mv.length = 4) (hn1 : n1.length = 4) (hn2 : n2.length = 4)
    (hlvl : lvl.length = 4) (hdate : date.length = 4)
    (h1 : decodeInt32 n1 = name1.length) (h2 : decodeInt32 n2 = name2.length) :
    Main.Header.Read header
        ([0x57, 0x52, 0x44, 0x52] ++ v ++ mv ++ n1 ++ name1 ++ n2 ++ name2 ++ lvl ++ date ++ rest) =
      .ok { MagicNumber := 0x52445257, GameVersion := decodeInt32 v,
            ModuleVersion := decodeInt32 mv,
            SavegameName := { NumChars := name1.length, Chars := name1, Readable := name1 },
            PlayerName := { NumChars := name2.length, Chars := name2, Readable := name2 },
            PlayerLevel := decodeInt32 lvl, Date := decodeFloatReflect date } rest ∧
    Editor.readHeader header
        ([0x57, 0x52, 0x44, 0x52] ++ v ++ mv ++ n1 ++ name1 ++ n2 ++ name2 ++ lvl ++ date ++ rest) =
      .ok { MagicNumber := 0x52445257, GameVersion := decodeInt32 v,
            ModuleVersion := decodeInt32 mv,
            SavegameName := { NumChars := name1.length, Chars := name1, Readable := name1 },
            PlayerName := { NumChars := name2.length, Chars := name2, Readable := name2 },
            PlayerLevel := decodeInt32 lvl, Date := decodeFloat date } rest ∧
    consumed (Main.Header.Read header)
        ([0x57, 0x52, 0x44, 0x52] ++ v ++ mv ++ n1 ++ name1 ++ n2 ++ name2 ++ lvl ++ date ++ rest) =
      28 + name1.length + name2.length ∧
    consumed (Editor.readHeader header)
        ([0x57, 0x52, 0x44, 0x52] ++ v ++ mv ++ n1 ++ name1 ++ n2 ++ name2 ++ lvl ++ date ++ rest) =
      28 + name1.length + name2.length := by
  have e1 : Main.Header.Read header
        ([0x57, 0x52, 0x44, 0x52] ++ v ++ mv ++ n1 ++ name1 ++ n2 ++ name2 ++ lvl ++ date ++ rest) =
      .ok { MagicNumber := 0x52445257, GameVersion := decodeInt32 v,
            ModuleVersion := decodeInt32 mv,
            SavegameName := { NumChars := name1.length, Chars := name1, Readable := name1 },
            PlayerName := { NumChars := name2.length, Chars := name2, Readable := name2 },
            PlayerLevel := decodeInt32 lvl, Date := decodeFloatReflect date } rest := by
    simp only [List.append_assoc, List.cons_append, List.nil_append]
    simp [Main.Header.Read, Main.Int32.Read, Main.Float.Read, Rd.bind, binaryRead_cons4,
      binaryRead_append, mainStringRead_ok, decodeInt32_magic, hv, hmv, hn1, hn2, hlvl, hdate,
      h1, h2]
  have e2 : Editor.readHeader header
        ([0x57, 0x52, 0x44, 0x52] ++ v ++ mv ++ n1 ++ name1 ++ n2 ++ name2 ++ lvl ++ date ++ rest) =
      .ok { MagicNumber := 0x52445257, GameVersion := decodeInt32 v,
            ModuleVersion := decodeInt32 mv,
            SavegameName := { NumChars := name1.length, Chars := name1, Readable := name1 },
            PlayerName := { NumChars := name2.length, Chars := name2, Readable := name2 },
            PlayerLevel := decodeInt32 lvl, Date := decodeFloat date } rest := by
    simp only [List.append_assoc, List.cons_append, List.nil_append]
    simp [Editor.readHeader, Rd.bind, binaryRead_cons4,
      binaryRead_append, editorReadString_ok, decodeInt32_magic, hv, hmv, hn1, hn2, hlvl, hdate,
      h1, h2]
  refine ⟨e1, e2, ?_, ?_⟩
  · simp only [consumed, e1, Outcome.rest]; simp [hv, hmv, hn1, hn2, hlvl, hdate]; omega
  · simp only [consumed, e2, Outcome.rest]; simp [hv, hmv, hn1, hn2, hlvl, hdate]; omega

theorem header_decode_layout_witness :
    Main.Header.Read Header.zero
        [0x57, 0x52, 0x44, 0x52, 0x8a, 0x04, 0, 0, 1, 0, 0, 0, 0, 0, 0, 0, 0, 0, 0, 0,
         0, 0, 0, 0, 0, 0, 0, 0] =
      .ok { MagicNumber := 0x52445257, GameVersion := 1162, ModuleVersion := 1,
            SavegameName := { NumChars := 0, Chars := [], Readable := [] },
            PlayerName := { NumChars := 0, Chars := [], Readable := [] },
            PlayerLevel := 0, Date := 0 } [] ∧
    Editor.readHeader Header.zero
        [0x57, 0x52, 0x44, 0x52, 0x8a, 0x04, 0, 0, 1, 0, 0, 0, 0, 0, 0, 0, 0, 0, 0, 0,
         0, 0, 0, 0, 0, 0, 0, 0] =
      .ok { MagicNumber := 0x52445257, GameVersion := 1162, ModuleVersion := 1,
            SavegameName := { NumChars := 0, Chars := [], Readable := [] },
            PlayerName := { NumChars := 0, Chars := [], Readable := [] },
            PlayerLevel := 0, Date := 0 } [] :=
  ⟨(header_decode_layout Header.zero [0x8a, 0x04, 0, 0] [1, 0, 0, 0] [0, 0, 0, 0] []
      [0, 0, 0, 0] [] [0, 0, 0, 0] [0, 0, 0, 0] [] rfl rfl rfl rfl rfl rfl
      (by decide) (by decide)).1,
   (header_decode_layout Header.zero [0x8a, 0x04, 0, 0] [1, 0, 0, 0] [0, 0, 0, 0] []
      [0, 0, 0, 0] [] [0, 0, 0, 0] [0, 0, 0, 0] [] rfl rfl rfl rfl rfl rfl
      (by decide) (by decide)).2.1⟩


/-- Claim C4: the text reader of both implementations, on an input that starts
with a 4-byte count `n >= 0` followed by at least `n` bytes, sets `NumChars = n`
and `Chars` to exactly those `n` bytes in order, and consumes `4 + n` bytes. -/
theorem text_reader_consumes_count (s : String) (nr : List Bool) (cnt chars rest : File)
    (hcnt : cnt.length = 4) (h : decodeInt32 cnt = chars.length) :
    Main.String.Read s (cnt ++ chars ++ rest) =
      .ok { NumChars := chars.length, Chars := chars, Readable := chars } rest ∧
    Editor.readString s nr (cnt ++ chars ++ rest) =
      .ok { NumChars := chars.length, Chars := chars,
            Readable := if nr.length = 0 then chars else s.Readable } rest ∧
    consumed (Main.String.Read s) (cnt ++ chars ++ rest) = 4 + chars.length ∧
    consumed (Editor.readString s nr) (cnt ++ chars ++ rest) = 4 + chars.length := by
  have e1 := mainStringRead_ok s cnt chars rest hcnt h
  have e2 := editorReadString_ok s nr cnt chars rest hcnt h
  rw [List.append_assoc]
  refine ⟨e1, e2, ?_, ?_⟩
  · simp only [consumed, e1, Outcome.rest]; simp [hcnt]; omega
  · simp only [consumed, e2, Outcome.rest]; simp [hcnt]; omega

theorem text_reader_consumes_count_witness :
    Main.String.Read String.zero [3, 0, 0, 0, 0x61, 0x62, 0x63, 0xff] =
      .ok { NumChars := 3, Chars := [0x61, 0x62, 0x63], Readable := [0x61, 0x62, 0x63] } [0xff] ∧
    Editor.readString String.zero [true] [3, 0, 0, 0, 0x61, 0x62, 0x63, 0xff] =
      .ok { NumChars := 3, Chars := [0x61, 0x62, 0x63], Readable := [] } [0xff] ∧
    consumed (Main.String.Read String.zero) [3, 0, 0, 0, 0x61, 0x62, 0x63, 0xff] = 7 :=
  ⟨(text_reader_consumes_count String.zero [true] [3, 0, 0, 0] [0x61, 0x62, 0x63] [0xff] rfl
      (by decide)).1,
   (text_reader_consumes_count String.zero [true] [3, 0, 0, 0] [0x61, 0x62, 0x63] [0xff] rfl
      (by decide)).2.1,
   (text_reader_consumes_count String.zero [true] [3, 0, 0, 0] [0x61, 0x62, 0x63] [0xff] rfl
      (by decide)).2.2.1⟩

theorem binaryRead_cases {α : Type} (size : Nat) (decode : List Byte → α) (data : α)
    (file : File) :
    (size ≤ file.length ∧
      binary.Read size decode data file = .ok (decode (file.take size)) (file.drop size)) ∨
    (file.length < size ∧ binary.Read size decode data file = .ok data []) := by
  by_cases h : size ≤ file.length
  · left; exact ⟨h, by simp [binary.Read, readFull, h]⟩
  · right; exact ⟨Nat.lt_of_not_le h, by simp [binary.Read, readFull, h]⟩

theorem binaryRead_bytes_length (chars : List Byte) (file : File) (v : List Byte) (rest : File)
    (h : binary.Read chars.length id chars file = .ok v rest) : v.length = chars.length := by
  rcases binaryRead_cases chars.length id chars file with ⟨hle, e⟩ | ⟨_, e⟩
  · rw [e] at h; cases h; simp [hle]
  · rw [e] at h; cases h; rfl

theorem make_ok {α : Type} (zero : α) (n : Int) (file : File) (v : List α) (rest : File)
    (h : make zero n file = .ok v rest) : 0 ≤ n ∧ v = List.replicate n.toNat zero ∧ rest = file := by
  unfold make at h
  split at h
  · cases h
  · cases h; exact ⟨by omega, rfl, rfl⟩

theorem bind_ok {α β : Type} (x : Rd α) (k : α → Rd β) (file : File) (b : β) (rest : File)
    (h : Rd.bind x k file = .ok b rest) :
    ∃ a mid, x file = .ok a mid ∧ k a mid = .ok b rest := by
  unfold Rd.bind at h
  split at h
  · next a mid e => exact ⟨a, mid, e, h⟩
  · cases h
  · cases h

theorem mainStringRead_inv (s s' : String) (file rest : File)
    (h : Main.String.Read s file = .ok s' rest) :
    (s'.Chars.length : Int) = s'.NumChars ∧ s'.Readable = s'.Chars := by
  simp only [Main.String.Read, bind_run] at h
  obtain ⟨n, f1, _, h1⟩ := bind_ok _ _ _ _ _ h
  obtain ⟨c0, f2, hm, h2⟩ := bind_ok _ _ _ _ _ h1
  obtain ⟨c1, f3, hr, h3⟩ := bind_ok _ _ _ _ _ h2
  obtain ⟨hn, hc0, _⟩ := make_ok _ _ _ _ _ hm
  have hl := binaryRead_bytes_length _ _ _ _ hr
  simp only [pure_run] at h3
  cases h3
  simp only [hl, hc0, List.length_replicate]
  exact ⟨by omega, trivial⟩

theorem editorReadString_inv (s s' : String) (nr : List Bool) (file rest : File)
    (h : Editor.readString s nr file = .ok s' rest) :
    (s'.Chars.length : Int) = s'.NumChars := by
  simp only [Editor.readString, bind_run] at h
  obtain ⟨n, f1, _, h1⟩ := bind_ok _ _ _ _ _ h
  obtain ⟨c0, f2, hm, h2⟩ := bind_ok _ _ _ _ _ h1
  obtain ⟨c1, f3, hr, h3⟩ := bind_ok _ _ _ _ _ h2
  obtain ⟨hn, hc0, _⟩ := make_ok _ _ _ _ _ hm
  have hl := binaryRead_bytes_length _ _ _ _ hr
  simp only [pure_run] at h3
  cases h3
  simp only [hl, hc0, List.length_replicate]
  omega

/-- Claim C5: whenever the text reader of either implementation returns, on any
input and from any previous value of the target, `len(Chars) = NumChars`; and
a count of 0 gives a text of no bytes and consumes only the four count bytes. -/
theorem text_length_equals_count (s s' : String) (nr : List Bool) (file rest : File) :
    (Main.String.Read s file = .ok s' rest → (s'.Chars.length : Int) = s'.NumChars) ∧
    (Editor.readString s nr file = .ok s' rest → (s'.Chars.length : Int) = s'.NumChars) ∧
    Main.String.Read s ([0, 0, 0, 0] ++ file) =
      .ok { NumChars := 0, Chars := [], Readable := [] } file ∧
    Editor.readString s [] ([0, 0, 0, 0] ++ file) =
      .ok { NumChars := 0, Chars := [], Readable := [] } file ∧
    consumed (Main.String.Read s) ([0, 0, 0, 0] ++ file) = 4 ∧
    consumed (Editor.readString s []) ([0, 0, 0, 0] ++ file) = 4 := by
  have e1 : Main.String.Read s ([0, 0, 0, 0] ++ file) =
      .ok { NumChars := 0, Chars := [], Readable := [] } file := by
    simpa using mainStringRead_ok s [0, 0, 0, 0] [] file rfl (by decide)
  have e2 : Editor.readString s [] ([0, 0, 0, 0] ++ file) =
      .ok { NumChars := 0, Chars := [], Readable := [] } file := by
    simpa using editorReadString_ok s [] [0, 0, 0, 0] [] file rfl (by decide)
  refine ⟨fun h => (mainStringRead_inv s s' file rest h).1,
    editorReadString_inv s s' nr file rest, e1, e2, ?_, ?_⟩
  · simp only [consumed, e1, Outcome.rest]; simp; omega
  · simp only [consumed, e2, Outcome.rest]; simp; omega

theorem text_length_equals_count_witness :
    Main.String.Read String.zero [5, 0, 0, 0, 0x41, 0x42] =
      .ok { NumChars := 5, Chars := [0, 0, 0, 0, 0], Readable := [0, 0, 0, 0, 0] } [] ∧
    Editor.readString String.zero [] [2, 0, 0, 0, 0x41, 0x42, 0x43] =
      .ok { NumChars := 2, Chars := [0x41, 0x42], Readable := [0x41, 0x42] } [0x43] ∧
    (([0, 0, 0, 0, 0] : List Byte).length : Int) = 5 ∧
    (([0x41, 0x42] : List Byte).length : Int) = 2 :=
  ⟨by decide, by decide,
   (text_length_equals_count String.zero
      { NumChars := 5, Chars := [0, 0, 0, 0, 0], Readable := [0, 0, 0, 0, 0] } []
      [5, 0, 0, 0, 0x41, 0x42] []).1 (by decide),
   (text_length_equals_count String.zero
      { NumChars := 2, Chars := [0x41, 0x42], Readable := [0x41, 0x42] } []
      [2, 0, 0, 0, 0x41, 0x42, 0x43] [0x43]).2.1 (by decide)⟩

/-! ### Properties of every returning run -/

theorem sat_bind_keep {α β : Type} {x : Rd α} {k : α → Rd β} {file : File}
    {Q : β → File → Prop}
    (h : ∀ a mid, x file = .ok a mid → (k a mid).Sat Q) : ((x >>= k) file).Sat Q := by
  simp only [bind_run, Rd.bind]
  cases e : x file with
  | ok a mid => exact h a mid e
  | fatal mid => trivial
  | panic mid => trivial

theorem sat_pure {α : Type} {a : α} {file : File} {Q : α → File → Prop} (h : Q a file) :
    ((pure a : Rd α) file).Sat Q := h

theorem sat_elim {α : Type} {o : Outcome α} {Q : α → File → Prop} {a : α} {rest : File}
    (h : o.Sat Q) (e : o = .ok a rest) : Q a rest := by
  subst e; exact h

theorem make_nonneg {α : Type} {zero : α} {n : Int} {file : File} {v : List α} {rest : File}
    (h : make zero n file = .ok v rest) : 0 ≤ n := (make_ok _ _ _ _ _ h).1

theorem make_length {α : Type} {zero : α} {n : Int} {file : File} {v : List α} {rest : File}
    (h : make zero n file = .ok v rest) : v.length = n.toNat := by
  rw [(make_ok _ _ _ _ _ h).2.1, List.length_replicate]

/-! ### Negative counts -/

theorem main_string_count (s : String) (file : File) :
    (Main.String.Read s file).Sat (fun r _ => 0 ≤ r.NumChars) := by
  unfold Main.String.Read
  repeat (apply sat_bind_keep; intro _ _ _)
  apply sat_pure
  dsimp only
  apply make_nonneg; assumption

theorem editor_string_count (s : String) (nr : List Bool) (file : File) :
    (Editor.readString s nr file).Sat (fun r _ => 0 ≤ r.NumChars) := by
  unfold Editor.readString
  repeat (apply sat_bind_keep; intro _ _ _)
  apply sat_pure
  dsimp only
  apply make_nonneg; assumption

theorem main_quest_count (quest : Quest) (file : File) :
    (Main.Quest.Read quest file).Sat (fun r _ => 0 ≤ r.NumSlots) := by
  unfold Main.Quest.Read
  repeat (apply sat_bind_keep; intro _ _ _)
  apply sat_pure
  dsimp only
  apply make_nonneg; assumption

theorem editor_quest_count (quest : Quest) (file : File) :
    (Editor.readQuest quest file).Sat (fun r _ => 0 ≤ r.NumSlots) := by
  unfold Editor.readQuest
  repeat (apply sat_bind_keep; intro _ _ _)
  apply sat_pure
  dsimp only
  apply make_nonneg; assumption

theorem main_site_count (site : Site) (file : File) :
    (Main.Site.Read site file).Sat (fun r _ => 0 ≤ r.NumSlots) := by
  unfold Main.Site.Read
  repeat (apply sat_bind_keep; intro _ _ _)
  apply sat_pure
  dsimp only
  apply make_nonneg; assumption

theorem editor_site_count (site : Site) (file : File) :
    (Editor.readSite site file).Sat (fun r _ => 0 ≤ r.NumSlots) := by
  unfold Editor.readSite
  repeat (apply sat_bind_keep; intro _ _ _)
  apply sat_pure
  dsimp only
  apply make_nonneg; assumption

theorem main_faction_count (faction : Main.Faction) (file : File) :
    (Main.Faction.Read faction file).Sat (fun r _ => 0 ≤ r.NumSlots) := by
  unfold Main.Faction.Read
  repeat (apply sat_bind_keep; intro _ _ _)
  apply sat_pure
  dsimp only
  apply make_nonneg; assumption

theorem editor_faction_count (faction : Editor.Faction) (n : Int32) (file : File) :
    (Editor.readFaction faction n file).Sat (fun r _ => 0 ≤ r.NumSlots ∧ 0 ≤ n) := by
  unfold Editor.readFaction
  repeat (apply sat_bind_keep; intro _ _ _)
  apply sat_pure
  dsimp only
  constructor <;> (apply make_nonneg; assumption)

theorem main_template_count (partyTemplate : PartyTemplate) (file : File) :
    (Main.PartyTemplate.Read partyTemplate file).Sat (fun r _ => 0 ≤ r.NumSlots) := by
  unfold Main.PartyTemplate.Read
  repeat (apply sat_bind_keep; intro _ _ _)
  apply sat_pure
  dsimp only
  apply make_nonneg; assumption

theorem editor_template_count (partyTemplate : PartyTemplate) (file : File) :
    (Editor.readPartyTemplate partyTemplate file).Sat (fun r _ => 0 ≤ r.NumSlots) := by
  unfold Editor.readPartyTemplate
  repeat (apply sat_bind_keep; intro _ _ _)
  apply sat_pure
  dsimp only
  apply make_nonneg; assumption

theorem main_party_counts (party : Party) (v : Int32) (file : File) :
    (Main.Party.Read party v file).Sat (fun p _ => p.countsNonneg) := by
  unfold Main.Party.Read
  iterate 35 (apply sat_bind_keep; intro _ _ _)
  apply sat_bind_keep; rintro ⟨_, _, _, _, _⟩ _ _
  dsimp only
  repeat (apply sat_bind_keep; intro _ _ _)
  apply sat_pure
  dsimp only [Party.countsNonneg]
  refine ⟨?_, ?_, ?_, ?_⟩ <;> (apply make_nonneg; assumption)

theorem editor_party_counts (party : Party) (v : Int32) (file : File) :
    (Editor.readParty party v file).Sat (fun p _ => p.countsNonneg) := by
  unfold Editor.readParty
  iterate 35 (apply sat_bind_keep; intro _ _ _)
  apply sat_bind_keep; rintro ⟨_, _, _, _, _⟩ _ _
  dsimp only
  repeat (apply sat_bind_keep; intro _ _ _)
  apply sat_pure
  dsimp only [Party.countsNonneg]
  refine ⟨?_, ?_, ?_, ?_⟩ <;> (apply make_nonneg; assumption)

theorem main_game_counts (game : Main.Game) (file : File) :
    (Main.Game.Read game file).Sat (fun g _ => g.countsNonneg) := by
  unfold Main.Game.Read
  iterate 4 (apply sat_bind_keep; intro _ _ _)
  apply sat_bind_keep; rintro ⟨_, _, _, _, _⟩ _ _
  dsimp only
  repeat (apply sat_bind_keep; intro _ _ _)
  apply sat_pure
  dsimp only [Main.Game.countsNonneg]
  refine ⟨?_, ?_, ?_, ?_, ?_, ?_, ?_, ?_, ?_, ?_⟩ <;> (apply make_nonneg; assumption)

theorem editor_main_counts (file : File) :
    (Editor.main file).Sat (fun g _ => g.countsNonneg) := by
  unfold Editor.main
  dsimp only
  iterate 4 (apply sat_bind_keep; intro _ _ _)
  apply sat_bind_keep; rintro ⟨_, _, _, _, _⟩ _ _
  dsimp only
  repeat (apply sat_bind_keep; intro _ _ _)
  apply sat_pure
  dsimp only [Editor.Save.countsNonneg]
  refine ⟨?_, ?_, ?_, ?_, ?_, ?_, ?_, ?_, ?_, ?_⟩ <;> (apply make_nonneg; assumption)


/-! ### Readers that start at a negative count; the entity wrapper -/

theorem main_string_neg (s : String) (cnt rest : File) (hcnt : cnt.length = 4)
    (hneg : decodeInt32 cnt < 0) : Main.String.Read s (cnt ++ rest) = .panic rest := by
  simp [Main.String.Read, Main.Int32.Read, Rd.bind, binaryRead_append, hcnt, make_neg, hneg]

theorem editor_string_neg (s : String) (nr : List Bool) (cnt rest : File) (hcnt : cnt.length = 4)
    (hneg : decodeInt32 cnt < 0) : Editor.readString s nr (cnt ++ rest) = .panic rest := by
  simp [Editor.readString, Rd.bind, binaryRead_append, hcnt, make_neg, hneg]

theorem main_site_neg (site : Site) (cnt rest : File) (hcnt : cnt.length = 4)
    (hneg : decodeInt32 cnt < 0) : Main.Site.Read site (cnt ++ rest) = .panic rest := by
  simp [Main.Site.Read, Main.Int32.Read, Rd.bind, binaryRead_append, hcnt, make_neg, hneg]

theorem editor_site_neg (site : Site) (cnt rest : File) (hcnt : cnt.length = 4)
    (hneg : decodeInt32 cnt < 0) : Editor.readSite site (cnt ++ rest) = .panic rest := by
  simp [Editor.readSite, Rd.bind, binaryRead_append, hcnt, make_neg, hneg]

theorem main_faction_neg (faction : Main.Faction) (cnt rest : File) (hcnt : cnt.length = 4)
    (hneg : decodeInt32 cnt < 0) : Main.Faction.Read faction (cnt ++ rest) = .panic rest := by
  simp [Main.Faction.Read, Main.Int32.Read, Rd.bind, binaryRead_append, hcnt, make_neg, hneg]

theorem editor_faction_neg (faction : Editor.Faction) (n : Int32) (cnt rest : File)
    (hcnt : cnt.length = 4) (hneg : decodeInt32 cnt < 0) :
    Editor.readFaction faction n (cnt ++ rest) = .panic rest := by
  simp [Editor.readFaction, Rd.bind, binaryRead_append, hcnt, make_neg, hneg]

theorem main_template_neg (partyTemplate : PartyTemplate) (c1 c2 c3 cnt rest : File)
    (h1 : c1.length = 4) (h2 : c2.length = 4) (h3 : c3.length = 4) (hcnt : cnt.length = 4)
    (hneg : decodeInt32 cnt < 0) :
    Main.PartyTemplate.Read partyTemplate (c1 ++ (c2 ++ (c3 ++ (cnt ++ rest)))) = .panic rest := by
  simp [Main.PartyTemplate.Read, Main.Int32.Read, Rd.bind, binaryRead_append, h1, h2, h3, hcnt,
    make_neg, hneg]

theorem editor_template_neg (partyTemplate : PartyTemplate) (c1 c2 c3 cnt rest : File)
    (h1 : c1.length = 4) (h2 : c2.length = 4) (h3 : c3.length = 4) (hcnt : cnt.length = 4)
    (hneg : decodeInt32 cnt < 0) :
    Editor.readPartyTemplate partyTemplate (c1 ++ (c2 ++ (c3 ++ (cnt ++ rest)))) = .panic rest := by
  simp [Editor.readPartyTemplate, Rd.bind, binaryRead_append, h1, h2, h3, hcnt, make_neg, hneg]

theorem main_record_invalid (partyRecord : PartyRecord) (v : Int32) (flag rest : File)
    (hflag : flag.length = 4) (h : decodeInt32 flag ≠ 1) :
    Main.PartyRecord.Read partyRecord v (flag ++ rest) =
      .ok { partyRecord with Valid := decodeInt32 flag } rest := by
  simp [Main.PartyRecord.Read, Main.Int32.Read, Rd.bind, binaryRead_append, hflag, h]

theorem editor_record_invalid (partyRecord : PartyRecord) (v : Int32) (flag rest : File)
    (hflag : flag.length = 4) (h : decodeInt32 flag ≠ 1) :
    Editor.readPartyRecord partyRecord v (flag ++ rest) =
      .ok { partyRecord with Valid := decodeInt32 flag } rest := by
  simp [Editor.readPartyRecord, Rd.bind, binaryRead_append, hflag, h]

/-- The result of the wrapper once the payload reader has run. -/
theorem main_record_valid (partyRecord : PartyRecord) (v : Int32) (raw id rest : File)
    (hraw : raw.length = 4) (hid : id.length = 4) :
    Main.PartyRecord.Read partyRecord v ([1, 0, 0, 0] ++ (raw ++ (id ++ rest))) =
      match Main.Party.Read partyRecord.Party v rest with
      | .ok party file =>
        .ok { Valid := 1, RawId := decodeInt32 raw, Id := decodeInt32 id, Party := party } file
      | .fatal file => .fatal file
      | .panic file => .panic file := by
  have e : decodeInt32 [1, 0, 0, 0] = 1 := by decide
  simp only [Main.PartyRecord.Read, Main.Int32.Read, bind_run, Rd.bind, List.cons_append,
    List.nil_append, binaryRead_cons4, e, if_true, binaryRead_append _ _ _ _ _ hraw,
    binaryRead_append _ _ _ _ _ hid]
  cases Main.Party.Read partyRecord.Party v rest <;> rfl

theorem editor_record_valid (partyRecord : PartyRecord) (v : Int32) (raw id rest : File)
    (hraw : raw.length = 4) (hid : id.length = 4) :
    Editor.readPartyRecord partyRecord v ([1, 0, 0, 0] ++ (raw ++ (id ++ rest))) =
      match Editor.readParty partyRecord.Party v rest with
      | .ok party file =>
        .ok { Valid := 1, RawId := decodeInt32 raw, Id := decodeInt32 id, Party := party } file
      | .fatal file => .fatal file
      | .panic file => .panic file := by
  have e : decodeInt32 [1, 0, 0, 0] = 1 := by decide
  simp only [Editor.readPartyRecord, bind_run, Rd.bind, List.cons_append,
    List.nil_append, binaryRead_cons4, e, if_true, binaryRead_append _ _ _ _ _ hraw,
    binaryRead_append _ _ _ _ _ hid]
  cases Editor.readParty partyRecord.Party v rest <;> rfl


/-- Claim C8: the entity wrapper of both implementations, for every game version
and every input whose first int32 is not 1, consumes the four flag bytes only
and changes nothing but `Valid`: from a zero record, `RawId`, `Id` and `Party`
stay zero. -/
theorem party_record_invalid_reads_flag_only (partyRecord : PartyRecord) (v : Int32)
    (flag rest : File) (hflag : flag.length = 4) (h : decodeInt32 flag ≠ 1) :
    Main.PartyRecord.Read partyRecord v (flag ++ rest) =
      .ok { Valid := decodeInt32 flag, RawId := partyRecord.RawId, Id := partyRecord.Id,
            Party := partyRecord.Party } rest ∧
    Editor.readPartyRecord partyRecord v (flag ++ rest) =
      .ok { Valid := decodeInt32 flag, RawId := partyRecord.RawId, Id := partyRecord.Id,
            Party := partyRecord.Party } rest ∧
    Main.PartyRecord.Read PartyRecord.zero v (flag ++ rest) =
      .ok { Valid := decodeInt32 flag, RawId := 0, Id := 0, Party := Party.zero } rest ∧
    Editor.readPartyRecord PartyRecord.zero v (flag ++ rest) =
      .ok { Valid := decodeInt32 flag, RawId := 0, Id := 0, Party := Party.zero } rest ∧
    consumed (Main.PartyRecord.Read partyRecord v) (flag ++ rest) = 4 ∧
    consumed (Editor.readPartyRecord partyRecord v) (flag ++ rest) = 4 := by
  have e1 := main_record_invalid partyRecord v flag rest hflag h
  have e2 := editor_record_invalid partyRecord v flag rest hflag h
  refine ⟨e1, e2, main_record_invalid PartyRecord.zero v flag rest hflag h,
    editor_record_invalid PartyRecord.zero v flag rest hflag h, ?_, ?_⟩
  · simp only [consumed, e1, Outcome.rest]; simp [hflag]
  · simp only [consumed, e2, Outcome.rest]; simp [hflag]

theorem party_record_invalid_reads_flag_only_witness :
    decodeInt32 [2, 0, 0, 0] ≠ 1 ∧
    Main.PartyRecord.Read PartyRecord.zero 1162 [2, 0, 0, 0, 9, 9, 9, 9, 9] =
      .ok { Valid := 2, RawId := 0, Id := 0, Party := Party.zero } [9, 9, 9, 9, 9] ∧
    Editor.readPartyRecord PartyRecord.zero 1162 [2, 0, 0, 0, 9, 9, 9, 9, 9] =
      .ok { Valid := 2, RawId := 0, Id := 0, Party := Party.zero } [9, 9, 9, 9, 9] :=
  have w := party_record_invalid_reads_flag_only PartyRecord.zero 1162 [2, 0, 0, 0]
    [9, 9, 9, 9, 9] rfl (by decide)
  ⟨by decide, w.2.2.1, w.2.2.2.1⟩

/-- Claim C9: the entity wrapper of both implementations, for every game version
`v` and every input that starts with the flag 1, reads `RawId` from bytes 4..8,
`Id` from bytes 8..12 and then the party exactly as the party reader decodes it
from offset 12 at the same version; it consumes 12 bytes more than the party
reader does. -/
theorem party_record_valid_reads_payload (partyRecord : PartyRecord) (v : Int32)
    (raw id rest : File) (hraw : raw.length = 4) (hid : id.length = 4) :
    (Main.PartyRecord.Read partyRecord v ([1, 0, 0, 0] ++ raw ++ id ++ rest) =
      match Main.Party.Read partyRecord.Party v rest with
      | .ok party file =>
        .ok { Valid := 1, RawId := decodeInt32 raw, Id := decodeInt32 id, Party := party } file
      | .fatal file => .fatal file
      | .panic file => .panic file) ∧
    (Editor.readPartyRecord partyRecord v ([1, 0, 0, 0] ++ raw ++ id ++ rest) =
      match Editor.readParty partyRecord.Party v rest with
      | .ok party file =>
        .ok { Valid := 1, RawId := decodeInt32 raw, Id := decodeInt32 id, Party := party } file
      | .fatal file => .fatal file
      | .panic file => .panic file) ∧
    consumed (Main.PartyRecord.Read partyRecord v) ([1, 0, 0, 0] ++ raw ++ id ++ rest) =
      12 + consumed (Main.Party.Read partyRecord.Party v) rest ∧
    consumed (Editor.readPartyRecord partyRecord v) ([1, 0, 0, 0] ++ raw ++ id ++ rest) =
      12 + consumed (Editor.readParty partyRecord.Party v) rest := by
  have e1 := main_record_valid partyRecord v raw id rest hraw hid
  have e2 := editor_record_valid partyRecord v raw id rest hraw hid
  simp only [List.append_assoc]
  refine ⟨e1, e2, ?_, ?_⟩
  · simp only [consumed, e1]
    cases Main.Party.Read partyRecord.Party v rest <;>
      (simp [Outcome.rest, hraw, hid]; omega)
  · simp only [consumed, e2]
    cases Editor.readParty partyRecord.Party v rest <;>
      (simp [Outcome.rest, hraw, hid]; omega)


theorem party_record_valid_reads_payload_witness :
    Main.PartyRecord.Read PartyRecord.zero 1162
        ([1, 0, 0, 0] ++ [7, 0, 0, 0] ++ [9, 0, 0, 0] ++ List.replicate 386 0) =
      .ok { Valid := 1, RawId := 7, Id := 9, Party := Party.zero } [] ∧
    Editor.readPartyRecord PartyRecord.zero 1162
        ([1, 0, 0, 0] ++ [7, 0, 0, 0] ++ [9, 0, 0, 0] ++ List.replicate 386 0) =
      .ok { Valid := 1, RawId := 7, Id := 9, Party := Party.zero } [] ∧
    consumed (Main.PartyRecord.Read PartyRecord.zero 1162)
        ([1, 0, 0, 0] ++ [7, 0, 0, 0] ++ [9, 0, 0, 0] ++ List.replicate 386 0) = 12 + 386 ∧
    consumed (Editor.readPartyRecord PartyRecord.zero 1162)
        ([1, 0, 0, 0] ++ [7, 0, 0, 0] ++ [9, 0, 0, 0] ++ List.replicate 386 0) = 12 + 386 :=
  have w := party_record_valid_reads_payload PartyRecord.zero 1162 [7, 0, 0, 0] [9, 0, 0, 0]
    (List.replicate 386 0) rfl rfl
  have p1 : Main.Party.Read Party.zero 1162 (List.replicate 386 0) = .ok Party.zero [] := by
    decide!
  have p2 : Editor.readParty Party.zero 1162 (List.replicate 386 0) = .ok Party.zero [] := by
    decide!
  have c1 : consumed (Main.Party.Read Party.zero 1162) (List.replicate 386 0) = 386 := by
    decide!
  have c2 : consumed (Editor.readParty Party.zero 1162) (List.replicate 386 0) = 386 := by
    decide!
  ⟨w.1.trans (by rw [show PartyRecord.zero.Party = Party.zero from rfl, p1]; rfl),
   w.2.1.trans (by rw [show PartyRecord.zero.Party = Party.zero from rfl, p2]; rfl),
   w.2.2.1.trans (by rw [show PartyRecord.zero.Party = Party.zero from rfl, c1]),
   w.2.2.2.trans (by rw [show PartyRecord.zero.Party = Party.zero from rfl, c2])⟩

/-! ### Faction relation vectors -/

theorem sat_mono {α : Type} {o : Outcome α} {P Q : α → File → Prop} (h : o.Sat P)
    (hPQ : ∀ a file, P a file → Q a file) : o.Sat Q := by
  cases o with
  | ok a file => exact hPQ a file h
  | fatal file => trivial
  | panic file => trivial

theorem sat_of_eq {α : Type} {o : Outcome α} {Q : α → File → Prop}
    (h : ∀ a rest, o = .ok a rest → Q a rest) : o.Sat Q := by
  cases o with
  | ok a file => exact h a file rfl
  | fatal file => trivial
  | panic file => trivial

theorem readEach_sat {α : Type} {rd : α → Rd α} {P : α → Prop}
    (h : ∀ x file, (rd x file).Sat (fun y _ => P y)) (xs : List α) (file : File) :
    (readEach rd xs file).Sat (fun ys _ => ys.length = xs.length ∧ ∀ y ∈ ys, P y) := by
  induction xs generalizing file with
  | nil =>
    simp only [readEach]
    apply sat_pure
    simp
  | cons x xs ih =>
    simp only [readEach]
    apply sat_bind_keep; intro y mid hy
    apply sat_bind_keep; intro ys mid2 hys
    apply sat_pure
    have hP := sat_elim (h x file) hy
    have hI := sat_elim (ih mid) hys
    refine ⟨by simp [hI.1], ?_⟩
    intro z hz
    rcases List.mem_cons.mp hz with rfl | hz
    · exact hP
    · exact hI.2 z hz

theorem readEach_length {α : Type} {rd : α → Rd α} {xs ys : List α} {file rest : File}
    (h : readEach rd xs file = .ok ys rest) : ys.length = xs.length :=
  (sat_elim (readEach_sat (P := fun _ => True) (fun _ _ => sat_of_eq (fun _ _ _ => trivial))
    xs file) h).1

theorem decodeSlice_length {α : Type} (size : Nat) (decode : List Byte → α) (n : Nat)
    (bs : List Byte) : (decodeSlice size decode n bs).length = n := by
  induction n generalizing bs with
  | zero => rfl
  | succ n ih => simp [decodeSlice, ih]

theorem readSlice_length {α : Type} {size : Nat} {decode : List Byte → α} {data v : List α}
    {file rest : File} (h : binary.ReadSlice size decode data file = .ok v rest) :
    v.length = data.length := by
  unfold binary.ReadSlice at h
  rcases binaryRead_cases (size * data.length) (decodeSlice size decode data.length) data file
    with ⟨_, e⟩ | ⟨_, e⟩
  · rw [e] at h; cases h; exact decodeSlice_length _ _ _ _
  · rw [e] at h; cases h; rfl

theorem main_faction_relations (faction : Main.Faction) (file : File) :
    (Main.Faction.Read faction file).Sat
      (fun r _ => r.Relations.length = faction.Relations.length) := by
  unfold Main.Faction.Read
  repeat (apply sat_bind_keep; intro _ _ _)
  apply sat_pure
  dsimp only
  apply @readEach_length Float Main.Float.Read; assumption

theorem editor_faction_relations (faction : Editor.Faction) (n : Int32) (file : File) :
    (Editor.readFaction faction n file).Sat (fun r _ => r.Relations.length = n.toNat) := by
  unfold Editor.readFaction
  iterate 3 (apply sat_bind_keep; intro _ _ _)
  apply sat_bind_keep; intro rel0 _ hm
  apply sat_bind_keep; intro rel _ hr
  repeat (apply sat_bind_keep; intro _ _ _)
  apply sat_pure
  dsimp only
  rw [readSlice_length hr, make_length hm]

theorem main_game_factions (game : Main.Game) (file : File) :
    (Main.Game.Read game file).Sat (fun g _ => g.factionsShape) := by
  unfold Main.Game.Read
  iterate 4 (apply sat_bind_keep; intro _ _ _)
  apply sat_bind_keep; rintro ⟨_, _, _, _, _⟩ _ _
  dsimp only
  iterate 49 (apply sat_bind_keep; intro _ _ _)
  apply sat_bind_keep; intro n _ _
  apply sat_bind_keep; intro fs0 midf hm
  apply sat_bind_keep; intro fs _ hr
  repeat (apply sat_bind_keep; intro _ _ _)
  apply sat_pure
  dsimp only [Main.Game.factionsShape]
  have hsat := @readEach_sat Main.Faction (fun faction => do
      let Relations ← make (0 : Float) n
      Main.Faction.Read { faction with Relations := Relations })
    (fun f => f.Relations.length = n.toNat) (by
      intro x f
      apply sat_bind_keep; intro rel mid2 hrel
      have := main_faction_relations { x with Relations := rel } mid2
      exact sat_mono this (fun a _ ha => Eq.trans ha (make_length hrel))) fs0 midf
  have := sat_elim hsat hr
  exact ⟨make_nonneg hm, by rw [this.1, make_length hm], this.2⟩

theorem editor_main_factions (file : File) :
    (Editor.main file).Sat (fun g _ => g.factionsShape) := by
  unfold Editor.main
  dsimp only
  iterate 4 (apply sat_bind_keep; intro _ _ _)
  apply sat_bind_keep; rintro ⟨_, _, _, _, _⟩ _ _
  dsimp only
  iterate 49 (apply sat_bind_keep; intro _ _ _)
  apply sat_bind_keep; intro n _ _
  apply sat_bind_keep; intro fs0 midf hm
  apply sat_bind_keep; intro fs _ hr
  repeat (apply sat_bind_keep; intro _ _ _)
  apply sat_pure
  dsimp only [Editor.Save.factionsShape]
  have hsat := @readEach_sat Editor.Faction (fun faction => Editor.readFaction faction n)
    (fun f => f.Relations.length = n.toNat)
    (fun x f => editor_faction_relations x n f) fs0 midf
  have := sat_elim hsat hr
  exact ⟨make_nonneg hm, by rw [this.1, make_length hm], this.2⟩


/-! ### Short reads -/

theorem bind_of_ok {α β : Type} {x : Rd α} {k : α → Rd β} {file mid : File} {a : α}
    (h : x file = .ok a mid) : (x >>= k) file = k a mid := by
  simp only [bind_run, Rd.bind, h]

theorem main_game_header_only (hdr : Header) (file : File)
    (h : Main.Header.Read Header.zero file = .ok hdr []) :
    Main.Game.Read Main.Game.zero file = .ok { Main.Game.zero with Header := hdr } [] := by
  have h' : Main.Header.Read Main.Game.zero.Header file = .ok hdr [] := h
  unfold Main.Game.Read
  rw [bind_of_ok h']
  by_cases hv : hdr.GameVersion ≥ 1137
  · simp only [hv, if_true]
    rfl
  · simp only [hv, if_false]
    rfl

theorem editor_main_header_only (hdr : Header) (file : File)
    (h : Editor.readHeader Header.zero file = .ok hdr []) :
    Editor.main file = .ok { Editor.Save.zero with Header := hdr } [] := by
  have h' : Editor.readHeader Editor.Save.zero.Header file = .ok hdr [] := h
  unfold Editor.main
  dsimp only
  rw [bind_of_ok h']
  by_cases hv : hdr.GameVersion ≥ 1137
  · simp only [hv, if_true]
    rfl
  · simp only [hv, if_false]
    rfl


theorem main_string_short (s : String) (cnt payload : File) (n : Nat) (hcnt : cnt.length = 4)
    (hn : decodeInt32 cnt = n) (hp : payload.length < n) :
    Main.String.Read s (cnt ++ payload) =
      .ok { NumChars := n, Chars := List.replicate n 0, Readable := List.replicate n 0 } [] := by
  have e : binary.Read (List.replicate n (0 : Byte)).length id (List.replicate n 0) payload =
      .ok (List.replicate n 0) [] := binaryRead_short _ _ _ _ (by simpa using hp)
  have e0 := binaryRead_append 4 decodeInt32 s.NumChars cnt payload hcnt
  simp only [Main.String.Read, Main.Int32.Read, bind_run, Rd.bind, e0, hn, make_natCast, e,
    pure_run]

theorem editor_string_short (s : String) (cnt payload : File) (n : Nat) (hcnt : cnt.length = 4)
    (hn : decodeInt32 cnt = n) (hp : payload.length < n) :
    Editor.readString s [] (cnt ++ payload) =
      .ok { NumChars := n, Chars := List.replicate n 0, Readable := List.replicate n 0 } [] := by
  have e : binary.Read (List.replicate n (0 : Byte)).length id (List.replicate n 0) payload =
      .ok (List.replicate n 0) [] := binaryRead_short _ _ _ _ (by simpa using hp)
  have e0 := binaryRead_append 4 decodeInt32 s.NumChars cnt payload hcnt
  simp only [Editor.readString, bind_run, Rd.bind, e0, hn, make_natCast, e, pure_run,
    List.length_nil, if_true]

theorem main_header_short_name (v mv cnt payload : File) (n : Nat) (hv : v.length = 4)
    (hmv : mv.length = 4) (hcnt : cnt.length = 4) (hn : decodeInt32 cnt = n)
    (hp : payload.length < n) :
    Main.Header.Read Header.zero ([0x57, 0x52, 0x44, 0x52] ++ (v ++ (mv ++ (cnt ++ payload)))) =
      .ok { MagicNumber := 0x52445257, GameVersion := decodeInt32 v,
            ModuleVersion := decodeInt32 mv,
            SavegameName :=
              { NumChars := n, Chars := List.replicate n 0, Readable := List.replicate n 0 },
            PlayerName := String.zero, PlayerLevel := 0, Date := 0 } [] := by
  have e1 : Main.String.Read String.zero [] = .ok String.zero [] := by decide
  have e2 : binary.Read 4 decodeInt32 (0 : Int32) [] = .ok 0 [] := by decide
  have e3 : Main.Float.Read 0 [] = .ok 0 [] := by decide
  simp only [Main.Header.Read, bind_run, Rd.bind, List.cons_append, List.nil_append,
    Main.Int32.Read, binaryRead_cons4, decodeInt32_magic, ne_eq, not_true_eq_false, if_false,
    pure_run, binaryRead_append _ _ _ _ _ hv, binaryRead_append _ _ _ _ _ hmv, Header.zero]
  simp only [main_string_short _ cnt payload n hcnt hn hp]
  simp only [e1, e2, e3]

theorem editor_header_short_name (v mv cnt payload : File) (n : Nat) (hv : v.length = 4)
    (hmv : mv.length = 4) (hcnt : cnt.length = 4) (hn : decodeInt32 cnt = n)
    (hp : payload.length < n) :
    Editor.readHeader Header.zero ([0x57, 0x52, 0x44, 0x52] ++ (v ++ (mv ++ (cnt ++ payload)))) =
      .ok { MagicNumber := 0x52445257, GameVersion := decodeInt32 v,
            ModuleVersion := decodeInt32 mv,
            SavegameName :=
              { NumChars := n, Chars := List.replicate n 0, Readable := List.replicate n 0 },
            PlayerName := String.zero, PlayerLevel := 0, Date := 0 } [] := by
  have e1 : Editor.readString String.zero [] [] = .ok String.zero [] := by decide
  have e2 : binary.Read 4 decodeInt32 (0 : Int32) [] = .ok 0 [] := by decide
  have e3 : binary.Read 4 decodeFloat (0 : Float) [] = .ok 0 [] := by decide
  simp only [Editor.readHeader, bind_run, Rd.bind, List.cons_append, List.nil_append,
    binaryRead_cons4, decodeInt32_magic, ne_eq, not_true_eq_false, if_false,
    pure_run, binaryRead_append _ _ _ _ _ hv, binaryRead_append _ _ _ _ _ hmv, Header.zero]
  simp only [editor_string_short _ cnt payload n hcnt hn hp]
  simp only [e1, e2, e3]



/-- Claim C7, as stated, fails: on a file that ends inside the payload of the
header's `SavegameName` (count 5, two bytes present) both root decoders return
a tree instead of failing, and the name holds five zero bytes. -/
theorem truncated_name_decode_returns :
    Main.Game.Read Main.Game.zero truncatedNameInput =
      .ok { Main.Game.zero with Header := truncatedNameHeader } [] ∧
    Editor.main truncatedNameInput =
      .ok { Editor.Save.zero with Header := truncatedNameHeader } [] ∧
    truncatedNameHeader.SavegameName.Chars = [0, 0, 0, 0, 0] := by
  decide

/-- Claim C10: whenever either root decoder returns, `NumFactions` is not
negative, `Factions` has `NumFactions` entries, and the `Relations` of every
faction has length `NumFactions`, whatever the faction's own `NumSlots`. -/
theorem faction_relations_sized_by_faction_count (game g : Main.Game) (s : Editor.Save)
    (file rest rest' : File) :
    (Main.Game.Read game file = .ok g rest →
      0 ≤ g.NumFactions ∧ g.Factions.length = g.NumFactions.toNat ∧
      ∀ f ∈ g.Factions, f.Relations.length = g.NumFactions.toNat) ∧
    (Editor.main file = .ok s rest' →
      0 ≤ s.NumFactions ∧ s.Factions.length = s.NumFactions.toNat ∧
      ∀ f ∈ s.Factions, f.Relations.length = s.NumFactions.toNat) :=
  ⟨fun h => sat_elim (main_game_factions game file) h,
   fun h => sat_elim (editor_main_factions file) h⟩

theorem faction_relations_sized_by_faction_count_witness :
    Main.Game.Read Main.Game.zero twoFactionsInput = .ok Main.twoFactionsGame [] ∧
    Editor.main twoFactionsInput = .ok Editor.twoFactionsSave [] ∧
    Main.twoFactionsGame.NumFactions = 2 ∧ Editor.twoFactionsSave.NumFactions = 2 ∧
    Main.twoFactionsGame.Factions.length = 2 ∧ Editor.twoFactionsSave.Factions.length = 2 ∧
    Main.twoFactionsGame.Factions.map (fun f => f.Relations.length) = [2, 2] ∧
    Editor.twoFactionsSave.Factions.map (fun f => f.Relations.length) = [2, 2] ∧
    Main.twoFactionsGame.Factions.map (fun f => (f.NumSlots, f.Slots.length)) = [(0, 0), (0, 0)] ∧
    Editor.twoFactionsSave.Factions.map (fun f => (f.NumSlots, f.Slots.length)) =
      [(0, 0), (0, 0)] :=
  have e1 : Main.Game.Read Main.Game.zero twoFactionsInput = .ok Main.twoFactionsGame [] := by
    decide!
  have e2 : Editor.main twoFactionsInput = .ok Editor.twoFactionsSave [] := by decide!
  have w := faction_relations_sized_by_faction_count Main.Game.zero Main.twoFactionsGame
    Editor.twoFactionsSave twoFactionsInput [] []
  ⟨e1, e2, rfl, rfl, (w.1 e1).2.1, (w.2 e2).2.1, by decide, by decide, by decide, by decide⟩

/-! ### Layouts of texts, notes and arrays -/

theorem binaryRead_vec {α : Type} {n : Nat} (decode : List Byte → α) (data : α) (v : Bytes n)
    (rest : File) : binary.Read n decode data (v.toList ++ rest) = .ok (decode v.toList) rest :=
  binaryRead_append n decode data v.toList rest v.toList_length

theorem main_text_layout (s : String) (t : TextImage) (rest : File) (h : t.wf) :
    Main.String.Read s (t.bytes ++ rest) = .ok t.text rest := by
  unfold TextImage.bytes
  rw [List.append_assoc]
  exact mainStringRead_ok s t.count.toList t.chars rest t.count.toList_length h

theorem editor_text_layout (s : String) (t : TextImage) (rest : File) (h : t.wf) :
    Editor.readString s [] (t.bytes ++ rest) = .ok t.text rest := by
  unfold TextImage.bytes
  rw [List.append_assoc]
  exact editorReadString_ok s [] t.count.toList t.chars rest t.count.toList_length h

theorem main_note_layout (note : Note) (n : NoteImage) (rest : File) (h : n.Text.wf) :
    Main.Note.Read note (n.bytes ++ rest) = .ok n.note rest := by
  simp only [Main.Note.Read, NoteImage.bytes, List.append_assoc, bind_run, Rd.bind,
    main_text_layout _ _ _ h, Main.Int32.Read, Main.Bool.Read, binaryRead_vec, pure_run,
    List.singleton_append, binaryRead_cons1, NoteImage.note]

theorem editor_note_layout (note : Note) (n : NoteImage) (rest : File) (h : n.Text.wf) :
    Editor.readNote note (n.bytes ++ rest) = .ok n.note rest := by
  simp only [Editor.readNote, NoteImage.bytes, List.append_assoc, bind_run, Rd.bind,
    editor_text_layout _ _ _ h, binaryRead_vec, pure_run,
    List.singleton_append, binaryRead_cons1, NoteImage.note]

theorem readArray_layout {α β : Type} (rd : α → Rd α) (bytes : β → List Byte) (value : β → α)
    (block : List β → List Byte) (ok : β → Prop)
    (hnil : block [] = []) (hcons : ∀ b bs, block (b :: bs) = bytes b ++ block bs)
    (hrd : ∀ a b rest, ok b → rd a (bytes b ++ rest) = .ok (value b) rest) :
    ∀ (n : Nat) (old : Mathlib.Vector α n) (imgs : Mathlib.Vector β n) (rest : File),
      (∀ b ∈ imgs.toList, ok b) →
      readArray rd old (block imgs.toList ++ rest) = .ok (imgs.map value) rest := by
  intro n
  induction n with
  | zero =>
    intro old imgs rest _
    rw [imgs.eq_nil]
    simp [readArray, hnil, Mathlib.Vector.map_nil]
  | succ n ih =>
    intro old imgs rest h
    obtain ⟨b, bs, rfl⟩ := imgs.exists_eq_cons
    have hb : ok b := h b (by simp [Mathlib.Vector.toList_cons])
    have hbs : ∀ x ∈ bs.toList, ok x := fun x hx => h x (by simp [Mathlib.Vector.toList_cons, hx])
    simp only [readArray, Mathlib.Vector.toList_cons, hcons, List.append_assoc, bind_run,
      Rd.bind, hrd _ _ _ hb, ih _ _ _ hbs, pure_run, Mathlib.Vector.map_cons]

theorem main_notes_layout {n : Nat} (old : Mathlib.Vector Note n)
    (imgs : Mathlib.Vector NoteImage n) (rest : File) (h : ∀ i ∈ imgs.toList, i.Text.wf) :
    readArray Main.Note.Read old (NoteImage.block imgs.toList ++ rest) =
      .ok (imgs.map NoteImage.note) rest :=
  readArray_layout Main.Note.Read NoteImage.bytes NoteImage.note NoteImage.block
    (fun i => i.Text.wf) rfl (fun _ _ => rfl) main_note_layout n old imgs rest h

theorem editor_notes_layout {n : Nat} (old : Mathlib.Vector Note n)
    (imgs : Mathlib.Vector NoteImage n) (rest : File) (h : ∀ i ∈ imgs.toList, i.Text.wf) :
    readArray Editor.readNote old (NoteImage.block imgs.toList ++ rest) =
      .ok (imgs.map NoteImage.note) rest :=
  readArray_layout Editor.readNote NoteImage.bytes NoteImage.note NoteImage.block
    (fun i => i.Text.wf) rfl (fun _ _ => rfl) editor_note_layout n old imgs rest h

theorem readEach_layout {α β : Type} (rd : α → Rd α) (bytes : β → List Byte) (value : β → α)
    (block : List β → List Byte)
    (hnil : block [] = []) (hcons : ∀ b bs, block (b :: bs) = bytes b ++ block bs)
    (hrd : ∀ a b rest, rd a (bytes b ++ rest) = .ok (value b) rest) :
    ∀ (old : List α) (imgs : List β) (rest : File), old.length = imgs.length →
      readEach rd old (block imgs ++ rest) = .ok (imgs.map value) rest := by
  intro old
  induction old with
  | nil =>
    intro imgs rest h
    cases imgs with
    | nil => simp [readEach, hnil]
    | cons b bs => simp at h
  | cons a as ih =>
    intro imgs rest h
    cases imgs with
    | nil => simp at h
    | cons b bs =>
      have hl : as.length = bs.length := by simpa using h
      simp only [readEach, hcons, List.append_assoc, bind_run, Rd.bind, hrd, ih _ _ hl,
        pure_run, List.map_cons]

theorem readEach_scalars {α : Type} {k : Nat} (decode : List Byte → α) (old : List α)
    (elems : List (Bytes k)) (rest : File) (h : old.length = elems.length) :
    readEach (binary.Read k decode) old (Bytes.concat elems ++ rest) =
      .ok (elems.map (fun e => decode e.toList)) rest :=
  readEach_layout (binary.Read k decode) (fun (e : Bytes k) => e.toList)
    (fun e => decode e.toList) Bytes.concat rfl (fun _ _ => rfl)
    (fun a b r => binaryRead_vec decode a b r) old elems rest h

theorem concat_length {k : Nat} (elems : List (Bytes k)) :
    (Bytes.concat elems).length = k * elems.length := by
  induction elems with
  | nil => rfl
  | cons e es ih => simp only [Bytes.concat, List.length_append, ih, List.length_cons,
      Mathlib.Vector.toList_length, Nat.mul_succ]; omega

theorem decodeSlice_concat {α : Type} {k : Nat} (decode : List Byte → α)
    (elems : List (Bytes k)) :
    decodeSlice k decode elems.length (Bytes.concat elems) =
      elems.map (fun e => decode e.toList) := by
  induction elems with
  | nil => rfl
  | cons e es ih =>
    simp only [List.length_cons, decodeSlice, Bytes.concat, List.map_cons]
    rw [List.take_left' e.toList_length, List.drop_left' e.toList_length, ih]

theorem readSlice_scalars {α : Type} {k : Nat} (decode : List Byte → α) (old : List α)
    (elems : List (Bytes k)) (rest : File) (h : old.length = elems.length) :
    binary.ReadSlice k decode old (Bytes.concat elems ++ rest) =
      .ok (elems.map (fun e => decode e.toList)) rest := by
  unfold binary.ReadSlice
  rw [binaryRead_append _ _ _ _ _ (by rw [concat_length, h]), h, decodeSlice_concat]

/-! ### Layouts of records -/

theorem readEach_int64 (old : List Int64) (elems : List (Bytes 8)) (rest : File)
    (h : old.length = elems.length) :
    readEach Main.Int64.Read old (Bytes.concat elems ++ rest) =
      .ok (elems.map (fun e => decodeInt64 e.toList)) rest :=
  readEach_scalars decodeInt64 old elems rest h

theorem readEach_int32 (old : List Int32) (elems : List (Bytes 4)) (rest : File)
    (h : old.length = elems.length) :
    readEach Main.Int32.Read old (Bytes.concat elems ++ rest) =
      .ok (elems.map (fun e => decodeInt32 e.toList)) rest :=
  readEach_scalars decodeInt32 old elems rest h

theorem readEach_float (old : List Float) (elems : List (Bytes 4)) (rest : File)
    (h : old.length = elems.length) :
    readEach Main.Float.Read old (Bytes.concat elems ++ rest) =
      .ok (elems.map (fun e => decodeFloatReflect e.toList)) rest :=
  readEach_scalars decodeFloatReflect old elems rest h

theorem main_site_layout (site : Site) (i : SiteImage) (rest : File) (h : i.Slots.wf) :
    Main.Site.Read site (i.bytes ++ rest) = .ok i.site rest := by
  have hw : decodeInt32 i.Slots.count.toList = i.Slots.elems.length := h
  simp only [Main.Site.Read, SiteImage.bytes, ArrayImage.bytes, List.append_assoc, bind_run,
    Rd.bind, Main.Int32.Read, Main.Int64.Read, binaryRead_vec, hw, make_natCast, pure_run,
    readEach_int64 _ _ _ (List.length_replicate _ _), SiteImage.site, ArrayImage.values]

theorem editor_site_layout (site : Site) (i : SiteImage) (rest : File) (h : i.Slots.wf) :
    Editor.readSite site (i.bytes ++ rest) = .ok i.site rest := by
  have hw : decodeInt32 i.Slots.count.toList = i.Slots.elems.length := h
  simp only [Editor.readSite, SiteImage.bytes, ArrayImage.bytes, List.append_assoc, bind_run,
    Rd.bind, binaryRead_vec, hw, make_natCast, pure_run,
    readSlice_scalars _ _ _ _ (List.length_replicate _ _), SiteImage.site, ArrayImage.values]

theorem main_faction_layout (faction : Main.Faction) (i : FactionImage) (rest : File)
    (h : i.wf) (hrel : faction.Relations.length = i.Relations.length) :
    Main.Faction.Read faction (i.bytes ++ rest) = .ok i.mainFaction rest := by
  obtain ⟨hs, hn, hnotes⟩ := h
  have hw : decodeInt32 i.Slots.count.toList = i.Slots.elems.length := hs
  simp only [Main.Faction.Read, FactionImage.bytes, ArrayImage.bytes, List.append_assoc,
    bind_run, Rd.bind, Main.Int32.Read, Main.Int64.Read, Main.Float.Read, Main.UInt32.Read,
    Main.Bool.Read, binaryRead_vec, hw, make_natCast, pure_run,
    readEach_int64 _ _ _ (List.length_replicate _ _), readEach_float _ _ _ hrel,
    main_text_layout _ _ _ hn, List.singleton_append, List.cons_append, List.nil_append, binaryRead_cons1,
    main_notes_layout _ _ _ hnotes, FactionImage.mainFaction, ArrayImage.values]

theorem editor_faction_layout (faction : Editor.Faction) (i : FactionImage) (rest : File)
    (h : i.wf) :
    Editor.readFaction faction i.Relations.length (i.bytes ++ rest) =
      .ok i.editorFaction rest := by
  obtain ⟨hs, hn, hnotes⟩ := h
  have hw : decodeInt32 i.Slots.count.toList = i.Slots.elems.length := hs
  simp only [Editor.readFaction, FactionImage.bytes, ArrayImage.bytes, List.append_assoc,
    bind_run, Rd.bind, binaryRead_vec, hw, make_natCast, pure_run,
    readSlice_scalars _ _ _ _ (List.length_replicate _ _),
    editor_text_layout _ _ _ hn, List.singleton_append, List.cons_append, List.nil_append, binaryRead_cons1,
    editor_notes_layout _ _ _ hnotes, FactionImage.editorFaction, ArrayImage.values]

theorem main_quest_layout (quest : Quest) (i : QuestImage) (rest : File) (h : i.wf) :
    Main.Quest.Read quest (i.bytes ++ rest) = .ok i.mainQuest rest := by
  obtain ⟨h1, h2, h3, hnotes, hs⟩ := h
  have hw : decodeInt32 i.Slots.count.toList = i.Slots.elems.length := hs
  simp only [Main.Quest.Read, QuestImage.bytes, ArrayImage.bytes, List.append_assoc,
    bind_run, Rd.bind, Main.Int32.Read, Main.Int64.Read, Main.Float.Read,
    binaryRead_vec, hw, make_natCast, pure_run,
    readEach_int64 _ _ _ (List.length_replicate _ _),
    main_text_layout _ _ _ h1, main_text_layout _ _ _ h2, main_text_layout _ _ _ h3,
    main_notes_layout _ _ _ hnotes, QuestImage.mainQuest, QuestImage.questWith, ArrayImage.values]

theorem editor_quest_layout (quest : Quest) (i : QuestImage) (rest : File) (h : i.wf) :
    Editor.readQuest quest (i.bytes ++ rest) = .ok i.editorQuest rest := by
  obtain ⟨h1, h2, h3, hnotes, hs⟩ := h
  have hw : decodeInt32 i.Slots.count.toList = i.Slots.elems.length := hs
  simp only [Editor.readQuest, QuestImage.bytes, ArrayImage.bytes, List.append_assoc,
    bind_run, Rd.bind, binaryRead_vec, hw, make_natCast, pure_run,
    readSlice_scalars _ _ _ _ (List.length_replicate _ _),
    editor_text_layout _ _ _ h1, editor_text_layout _ _ _ h2, editor_text_layout _ _ _ h3,
    editor_notes_layout _ _ _ hnotes, QuestImage.editorQuest, QuestImage.questWith, ArrayImage.values]

theorem main_stack_layout (partyStack : PartyStack) (i : StackImage) (rest : File) :
    Main.PartyStack.Read partyStack (i.bytes ++ rest) = .ok i.stack rest := by
  simp only [Main.PartyStack.Read, StackImage.bytes, List.append_assoc, bind_run, Rd.bind,
    Main.Int32.Read, binaryRead_vec, pure_run, StackImage.stack]

theorem editor_stack_layout (partyStack : PartyStack) (i : StackImage) (rest : File) :
    Editor.readPartyStack partyStack (i.bytes ++ rest) = .ok i.stack rest := by
  simp only [Editor.readPartyStack, StackImage.bytes, List.append_assoc, bind_run, Rd.bind,
    binaryRead_vec, pure_run, StackImage.stack]

theorem main_stacks_layout (old : List PartyStack) (imgs : List StackImage) (rest : File)
    (h : old.length = imgs.length) :
    readEach Main.PartyStack.Read old (StackImage.block imgs ++ rest) =
      .ok (imgs.map StackImage.stack) rest :=
  readEach_layout Main.PartyStack.Read StackImage.bytes StackImage.stack StackImage.block rfl
    (fun _ _ => rfl) main_stack_layout old imgs rest h

theorem editor_stacks_layout (old : List PartyStack) (imgs : List StackImage) (rest : File)
    (h : old.length = imgs.length) :
    readEach Editor.readPartyStack old (StackImage.block imgs ++ rest) =
      .ok (imgs.map StackImage.stack) rest :=
  readEach_layout Editor.readPartyStack StackImage.bytes StackImage.stack StackImage.block rfl
    (fun _ _ => rfl) editor_stack_layout old imgs rest h

set_option maxHeartbeats 1000000

theorem main_party_layout (old : Party) (v : Int32) (i : PartyImage) (rest : File) (h : i.wf) :
    Main.Party.Read old v
        (i.bytes (decide ((v ≥ 900 ∧ v < 1000) ∨ v ≥ 1020)) (decide (v ≥ 1137))
          (decide (v ≥ 1162)) ++ rest) =
      .ok (i.mainParty (decide ((v ≥ 900 ∧ v < 1000) ∨ v ≥ 1020)) (decide (v ≥ 1137))
          (decide (v ≥ 1162)) old) rest := by
  obtain ⟨h1, h2, hst, h3, ha, hp, hnotes, hs⟩ := h
  have ha' : decodeInt32 i.AttachedPartyIds.count.toList = i.AttachedPartyIds.elems.length := ha
  have hp' : decodeInt32 i.ParticleSystemIds.count.toList = i.ParticleSystemIds.elems.length :=
    hp
  have hs' : decodeInt32 i.Slots.count.toList = i.Slots.elems.length := hs
  by_cases hm : (v ≥ 900 ∧ v < 1000) ∨ v ≥ 1020 <;> by_cases he : v ≥ 1137 <;>
    by_cases hr : v ≥ 1162 <;>
  simp only [Main.Party.Read, PartyImage.bytes, PartyImage.afterBandit, PartyImage.afterBanner,
    PartyImage.afterAttached, PartyImage.head, PartyImage.extra, PartyImage.tail, ArrayImage.bytes, List.append_assoc, bind_run, Rd.bind, hm, he, hr,
    decide_True, decide_False, Bool.false_eq_true, if_true, if_false, Main.Int32.Read, Main.Int64.Read,
    Main.UInt64.Read, Main.Float.Read, Main.Bool.Read, binaryRead_vec, hst, ha', hp', hs',
    make_natCast, pure_run, readEach_int64 _ _ _ (List.length_replicate _ _),
    readEach_int32 _ _ _ (List.length_replicate _ _),
    main_stacks_layout _ _ _ (List.length_replicate _ _),
    main_text_layout _ _ _ h1, main_text_layout _ _ _ h2, main_text_layout _ _ _ h3,
    List.singleton_append, List.cons_append, List.nil_append, binaryRead_cons1,
    main_notes_layout _ _ _ hnotes, PartyImage.mainParty, PartyImage.partyWith, ArrayImage.values]

theorem editor_party_layout (old : Party) (v : Int32) (i : PartyImage) (rest : File)
    (h : i.wf) :
    Editor.readParty old v
        (i.bytes (decide ((v ≥ 900 ∧ v < 1000) ∨ v ≥ 1020)) (decide (v > 1137))
          (decide (v ≥ 1162)) ++ rest) =
      .ok (i.editorParty (decide ((v ≥ 900 ∧ v < 1000) ∨ v ≥ 1020)) (decide (v > 1137))
          (decide (v ≥ 1162)) old) rest := by
  obtain ⟨h1, h2, hst, h3, ha, hp, hnotes, hs⟩ := h
  have ha' : decodeInt32 i.AttachedPartyIds.count.toList = i.AttachedPartyIds.elems.length := ha
  have hp' : decodeInt32 i.ParticleSystemIds.count.toList = i.ParticleSystemIds.elems.length :=
    hp
  have hs' : decodeInt32 i.Slots.count.toList = i.Slots.elems.length := hs
  by_cases hm : (v ≥ 900 ∧ v < 1000) ∨ v ≥ 1020 <;> by_cases he : v > 1137 <;>
    by_cases hr : v ≥ 1162 <;>
  simp only [Editor.readParty, PartyImage.bytes, PartyImage.afterBandit, PartyImage.afterBanner,
    PartyImage.afterAttached, PartyImage.head, PartyImage.extra, PartyImage.tail, ArrayImage.bytes, List.append_assoc, bind_run, Rd.bind, hm, he, hr,
    decide_True, decide_False, Bool.false_eq_true, if_true, if_false, binaryRead_vec, hst, ha',
    hp', hs', make_natCast, pure_run, readSlice_scalars _ _ _ _ (List.length_replicate _ _),
    editor_stacks_layout _ _ _ (List.length_replicate _ _),
    editor_text_layout _ _ _ h1, editor_text_layout _ _ _ h2, editor_text_layout _ _ _ h3,
    List.singleton_append, List.cons_append, List.nil_append, binaryRead_cons1,
    editor_notes_layout _ _ _ hnotes, PartyImage.editorParty, PartyImage.partyWith, ArrayImage.values]

theorem main_infopage_layout (infoPage : InfoPage) (imgs : Mathlib.Vector NoteImage 16)
    (rest : File) (h : ∀ n ∈ imgs.toList, n.Text.wf) :
    Main.InfoPage.Read infoPage (NoteImage.block imgs.toList ++ rest) =
      .ok { Notes := imgs.map NoteImage.note } rest := by
  simp only [Main.InfoPage.Read, bind_run, Rd.bind, main_notes_layout _ _ _ h, pure_run]

theorem editor_infopage_layout (infoPage : InfoPage) (imgs : Mathlib.Vector NoteImage 16)
    (rest : File) (h : ∀ n ∈ imgs.toList, n.Text.wf) :
    Editor.readInfoPage infoPage (NoteImage.block imgs.toList ++ rest) =
      .ok { Notes := imgs.map NoteImage.note } rest := by
  simp only [Editor.readInfoPage, bind_run, Rd.bind, editor_notes_layout _ _ _ h, pure_run]

theorem consumed_of_ok {α : Type} {r : Rd α} {bs rest : File} {a : α}
    (h : r (bs ++ rest) = .ok a rest) : consumed r (bs ++ rest) = bs.length := by
  simp only [consumed, h, Outcome.rest, List.length_append]
  push_cast
  omega

theorem text_bytes_length (t : TextImage) : t.bytes.length = 4 + t.chars.length := by
  simp [TextImage.bytes]

theorem note_bytes_length (n : NoteImage) : n.bytes.length = 13 + n.Text.chars.length := by
  simp [NoteImage.bytes, TextImage.bytes]; omega

theorem note_block_length (ns : List NoteImage) :
    (NoteImage.block ns).length = 13 * ns.length + NoteImage.textLength ns := by
  induction ns with
  | nil => rfl
  | cons n ns ih =>
    simp only [NoteImage.block, List.length_append, note_bytes_length, ih, List.length_cons,
      NoteImage.textLength]
    omega

theorem array_bytes_length {k : Nat} (a : ArrayImage k) :
    a.bytes.length = 4 + k * a.elems.length := by
  simp [ArrayImage.bytes, concat_length]

/-! ### Offsets -/

theorem exists_elems (k : Nat) : ∀ (n : Nat) (file : File), k * n ≤ file.length →
    ∃ elems : List (Bytes k), elems.length = n ∧ file = Bytes.concat elems ++ file.drop (k * n) := by
  intro n
  induction n with
  | zero => intro file _; exact ⟨[], rfl, by simp [Bytes.concat]⟩
  | succ n ih =>
    intro file h
    have hk : k ≤ file.length := by
      have : k * (n + 1) = k * n + k := Nat.mul_succ k n
      omega
    have hn : k * n ≤ (file.drop k).length := by
      have : k * (n + 1) = k * n + k := Nat.mul_succ k n
      simp only [List.length_drop]; omega
    obtain ⟨es, hes, he⟩ := ih (file.drop k) hn
    refine ⟨⟨file.take k, by simp [hk]⟩ :: es, by simp [hes], ?_⟩
    have hd : (file.drop k).drop (k * n) = file.drop (k * (n + 1)) := by
      rw [List.drop_drop, Nat.mul_succ, Nat.add_comm]
    rw [hd] at he
    show file = (file.take k ++ Bytes.concat es) ++ file.drop (k * (n + 1))
    rw [List.append_assoc, ← he, List.take_append_drop]

theorem concat_segment {k : Nat} (elems : List (Bytes k)) (rest : File) :
    ∀ (j : Nat) (e : Bytes k), elems[j]? = some e →
      ((Bytes.concat elems ++ rest).drop (k * j)).take k = e.toList := by
  induction elems with
  | nil => intro j e h; simp at h
  | cons x xs ih =>
    intro j e h
    cases j with
    | zero =>
      simp only [List.getElem?_cons_zero, Option.some.injEq] at h
      subst h
      simp only [Bytes.concat, Nat.mul_zero, List.drop_zero, List.append_assoc]
      exact List.take_left' x.toList_length
    | succ j =>
      simp only [List.getElem?_cons_succ] at h
      have hd : k * (j + 1) = x.toList.length + k * j := by
        rw [x.toList_length, Nat.mul_succ, Nat.add_comm]
      simp only [Bytes.concat, List.append_assoc, hd, List.drop_append]
      exact ih j e h

theorem values_eq_range {α : Type} {k : Nat} (decode : List Byte → α) (elems : List (Bytes k))
    (rest : File) :
    elems.map (fun e => decode e.toList) =
      (List.range elems.length).map
        (fun j => decode (((Bytes.concat elems ++ rest).drop (k * j)).take k)) := by
  apply List.ext_getElem?
  intro j
  simp only [List.getElem?_map, List.getElem?_range']
  by_cases hj : j < elems.length
  · have he : elems[j]? = some elems[j] := List.getElem?_eq_getElem hj
    rw [he, List.getElem?_range hj]
    simp only [Option.map_some']
    rw [concat_segment elems rest j _ he]
  · have hn : elems[j]? = none := List.getElem?_eq_none (Nat.le_of_not_lt hj)
    have hr : (List.range elems.length)[j]? = none :=
      List.getElem?_eq_none (by simpa using Nat.le_of_not_lt hj)
    rw [hn, hr]; rfl

theorem site_of_file (file : File) (n : Nat) (hlen : 4 + 8 * n ≤ file.length)
    (hcnt : decodeInt32 (file.take 4) = n) :
    ∃ i : SiteImage, i.Slots.wf ∧ file = i.bytes ++ file.drop (4 + 8 * n) ∧
      i.site = { NumSlots := n,
                 Slots := (List.range n).map
                   (fun j => decodeInt64 ((file.drop (4 + 8 * j)).take 8)) } := by
  have h4 : 4 ≤ file.length := by omega
  have h8 : 8 * n ≤ (file.drop 4).length := by simp only [List.length_drop]; omega
  obtain ⟨es, hes, he⟩ := exists_elems 8 n (file.drop 4) h8
  have hdd : (file.drop 4).drop (8 * n) = file.drop (4 + 8 * n) := by
    rw [List.drop_drop, Nat.add_comm]
  rw [hdd] at he
  refine ⟨{ Slots := { count := ⟨file.take 4, by simp [h4]⟩, elems := es } }, ?_, ?_, ?_⟩
  · show decodeInt32 (file.take 4) = ((es.length : Nat) : Int)
    rw [hcnt, hes]
  · show file = (file.take 4 ++ Bytes.concat es) ++ file.drop (4 + 8 * n)
    rw [List.append_assoc, ← he, List.take_append_drop]
  · show ({ NumSlots := ((es.length : Nat) : Int),
            Slots := es.map (fun e => decodeInt64 e.toList) } : Site) = _
    rw [values_eq_range decodeInt64 es (file.drop (4 + 8 * n)), ← he, hes]
    congr 2
    funext j
    rw [List.drop_drop, Nat.add_comm]

/-- Claim C18: the site reader of both implementations, for every count `n >= 0`
and every input of at least `4 + 8*n` bytes whose first int32 is `n`, sets
`NumSlots = n`, returns exactly `n` slots, slot `j` being the little-endian
int64 of the 8 bytes at offset `4 + 8*j`, and consumes exactly `4 + 8*n`
bytes. -/
theorem site_reader_slot_array (site : Site) (file : File) (n : Nat)
    (hlen : 4 + 8 * n ≤ file.length) (hcnt : decodeInt32 (file.take 4) = n) :
    Main.Site.Read site file =
      .ok { NumSlots := n,
            Slots := (List.range n).map (fun j => decodeInt64 ((file.drop (4 + 8 * j)).take 8)) }
        (file.drop (4 + 8 * n)) ∧
    Editor.readSite site file =
      .ok { NumSlots := n,
            Slots := (List.range n).map (fun j => decodeInt64 ((file.drop (4 + 8 * j)).take 8)) }
        (file.drop (4 + 8 * n)) ∧
    ((List.range n).map (fun j => decodeInt64 ((file.drop (4 + 8 * j)).take 8))).length = n ∧
    consumed (Main.Site.Read site) file = 4 + 8 * n ∧
    consumed (Editor.readSite site) file = 4 + 8 * n := by
  obtain ⟨i, hw, hf, hs⟩ := site_of_file file n hlen hcnt
  have e1 : Main.Site.Read site file = .ok i.site (file.drop (4 + 8 * n)) := by
    conv_lhs => rw [hf]
    exact main_site_layout site i _ hw
  have e2 : Editor.readSite site file = .ok i.site (file.drop (4 + 8 * n)) := by
    conv_lhs => rw [hf]
    exact editor_site_layout site i _ hw
  rw [hs] at e1 e2
  refine ⟨e1, e2, by simp, ?_, ?_⟩
  · simp only [consumed, e1, Outcome.rest, List.length_drop]; omega
  · simp only [consumed, e2, Outcome.rest, List.length_drop]; omega

theorem site_reader_slot_array_witness :
    Main.Site.Read Site.zero
        [2, 0, 0, 0, 1, 0, 0, 0, 0, 0, 0, 0, 0xff, 0xff, 0xff, 0xff, 0xff, 0xff, 0xff, 0xff, 0x41] =
      .ok { NumSlots := 2, Slots := [1, -1] } [0x41] ∧
    Editor.readSite Site.zero
        [2, 0, 0, 0, 1, 0, 0, 0, 0, 0, 0, 0, 0xff, 0xff, 0xff, 0xff, 0xff, 0xff, 0xff, 0xff, 0x41] =
      .ok { NumSlots := 2, Slots := [1, -1] } [0x41] ∧
    consumed (Main.Site.Read Site.zero)
        [2, 0, 0, 0, 1, 0, 0, 0, 0, 0, 0, 0, 0xff, 0xff, 0xff, 0xff, 0xff, 0xff, 0xff, 0xff, 0x41] =
      4 + 8 * 2 :=
  have w := site_reader_slot_array Site.zero
    [2, 0, 0, 0, 1, 0, 0, 0, 0, 0, 0, 0, 0xff, 0xff, 0xff, 0xff, 0xff, 0xff, 0xff, 0xff, 0x41] 2
    (by decide) (by decide)
  ⟨w.1.trans (by decide), w.2.1.trans (by decide), w.2.2.2.1⟩

theorem drop_append_len (a b : List Byte) (n k : Nat) (h : a.length = n) :
    (a ++ b).drop (n + k) = b.drop k := by
  subst h
  exact List.drop_append k

theorem concat_segment_end {k : Nat} (elems : List (Bytes k)) (rest : File) :
    (Bytes.concat elems ++ rest).drop (k * elems.length) = rest := by
  rw [← concat_length elems]
  exact List.drop_left _ _

theorem faction_bytes_length (i : FactionImage) :
    i.bytes.length =
      225 + 8 * i.Slots.elems.length + 4 * i.Relations.length + i.Name.chars.length +
        NoteImage.textLength i.Notes.toList := by
  simp only [FactionImage.bytes, List.length_append, array_bytes_length, concat_length,
    text_bytes_length, note_block_length, List.length_singleton, Mathlib.Vector.toList_length]
  omega

/-- Claim C11: the faction reader, given the total faction count `N` (the length
of the receiver's `Relations` in `main.go`, the parameter in `editor.go`), reads
the int32 slot count `s`, then `s` int64 slots, then `N` float32 relations from
the `4*N` bytes that follow the slots, relation `j` at offset `4 + 8*s + 4*j`,
with no count of their own (both readers decode a relation through the
reflection path of `binary.Read`, `decodeFloatReflect`: the little-endian bit
pattern, a signalling NaN quieted), then the count of `Name` from the four bytes at
offset `4 + 8*s + 4*N`, then `Renamed`, `Color`, the reserved int32 and 16
notes. It consumes `225 + 8*s + 4*N` bytes plus the lengths of the name and of
the note texts, hence exactly `225 + 8*s + 4*N` when these are empty. -/
theorem faction_reader_layout (mf : Main.Faction) (ef : Editor.Faction) (i : FactionImage)
    (rest : File) (h : i.wf) (hrel : mf.Relations.length = i.Relations.length) :
    Main.Faction.Read mf (i.bytes ++ rest) = .ok i.mainFaction rest ∧
    Editor.readFaction ef i.Relations.length (i.bytes ++ rest) = .ok i.editorFaction rest ∧
    i.bytes =
      i.Slots.count.toList ++ Bytes.concat i.Slots.elems ++ Bytes.concat i.Relations ++
        i.Name.count.toList ++ i.Name.chars ++ [i.Renamed] ++ i.Color.toList ++
        i._unused.toList ++ NoteImage.block i.Notes.toList ∧
    (i.mainFaction.Slots.length = i.Slots.elems.length ∧
      i.mainFaction.Relations.length = i.Relations.length ∧
      i.editorFaction.Relations.length = i.Relations.length) ∧
    (∀ j e, i.Relations[j]? = some e →
      ((i.bytes ++ rest).drop (4 + 8 * i.Slots.elems.length + 4 * j)).take 4 = e.toList ∧
      i.mainFaction.Relations[j]? = some (decodeFloatReflect e.toList) ∧
      i.editorFaction.Relations[j]? = some (decodeFloatReflect e.toList)) ∧
    ((i.bytes ++ rest).drop (4 + 8 * i.Slots.elems.length + 4 * i.Relations.length)).take 4 =
      i.Name.count.toList ∧
    consumed (Main.Faction.Read mf) (i.bytes ++ rest) =
      225 + 8 * i.Slots.elems.length + 4 * i.Relations.length + i.Name.chars.length +
        NoteImage.textLength i.Notes.toList ∧
    consumed (Editor.readFaction ef i.Relations.length) (i.bytes ++ rest) =
      225 + 8 * i.Slots.elems.length + 4 * i.Relations.length + i.Name.chars.length +
        NoteImage.textLength i.Notes.toList ∧
    (i.Name.chars = [] → NoteImage.textLength i.Notes.toList = 0 →
      consumed (Main.Faction.Read mf) (i.bytes ++ rest) =
        225 + 8 * i.Slots.elems.length + 4 * i.Relations.length ∧
      consumed (Editor.readFaction ef i.Relations.length) (i.bytes ++ rest) =
        225 + 8 * i.Slots.elems.length + 4 * i.Relations.length) := by
  have e1 := main_faction_layout mf i rest h hrel
  have e2 := editor_faction_layout ef i rest h
  have c1 := consumed_of_ok e1
  have c2 := consumed_of_ok e2
  rw [faction_bytes_length] at c1 c2
  have hb : i.bytes ++ rest =
      i.Slots.count.toList ++ (Bytes.concat i.Slots.elems ++ (Bytes.concat i.Relations ++
        (i.Name.count.toList ++ (i.Name.chars ++ ([i.Renamed] ++ (i.Color.toList ++
        (i._unused.toList ++ (NoteImage.block i.Notes.toList ++ rest)))))))) := by
    simp only [FactionImage.bytes, ArrayImage.bytes, TextImage.bytes, List.append_assoc]
  have hoff : ∀ k, (i.bytes ++ rest).drop (4 + 8 * i.Slots.elems.length + k) =
      (Bytes.concat i.Relations ++
        (i.Name.count.toList ++ (i.Name.chars ++ ([i.Renamed] ++ (i.Color.toList ++
        (i._unused.toList ++ (NoteImage.block i.Notes.toList ++ rest))))))).drop k := by
    intro k
    rw [hb, Nat.add_assoc, drop_append_len _ _ 4 _ i.Slots.count.toList_length,
      drop_append_len _ _ _ _ (concat_length i.Slots.elems)]
  refine ⟨e1, e2, ?_, ⟨?_, ?_, ?_⟩, ?_, ?_, ?_, ?_, ?_⟩
  · simp only [FactionImage.bytes, ArrayImage.bytes, TextImage.bytes, List.append_assoc]
  · simp [FactionImage.mainFaction, ArrayImage.values]
  · simp [FactionImage.mainFaction]
  · simp [FactionImage.editorFaction]
  · intro j e he
    refine ⟨?_, ?_, ?_⟩
    · rw [hoff, concat_segment _ _ j e he]
    · simp [FactionImage.mainFaction, List.getElem?_map, he]
    · simp [FactionImage.editorFaction, List.getElem?_map, he]
  · rw [hoff, concat_segment_end]
    exact List.take_left' i.Name.count.toList_length
  · exact_mod_cast c1
  · exact_mod_cast c2
  · intro hn ht
    rw [hn, ht] at c1 c2
    exact ⟨by simpa using c1, by simpa using c2⟩

theorem sampleFaction_wf : sampleFaction.wf := by
  refine ⟨by unfold ArrayImage.wf; decide, by unfold TextImage.wf; decide, ?_⟩
  intro n hn
  have : n = emptyNote := by
    simp only [sampleFaction, Mathlib.Vector.replicate, Mathlib.Vector.toList] at hn
    exact List.eq_of_mem_replicate hn
  subst this
  unfold TextImage.wf
  decide

theorem faction_reader_layout_witness :
    sampleFaction.wf ∧
    sampleFaction.bytes ++ [0x41] =
      [1, 0, 0, 0, 5, 0, 0, 0, 0, 0, 0, 0, 0, 0, 0x80, 0x3f, 0, 0, 0, 0xbf, 0, 0, 0, 0, 1,
        0x33, 0x22, 0x11, 0xff, 0, 0, 0, 0] ++ List.replicate 208 0 ++ [0x41] ∧
    Main.Faction.Read { Main.Faction.zero with Relations := [0, 0] }
        (sampleFaction.bytes ++ [0x41]) = .ok sampleFaction.mainFaction [0x41] ∧
    Editor.readFaction Editor.Faction.zero 2 (sampleFaction.bytes ++ [0x41]) =
      .ok sampleFaction.editorFaction [0x41] ∧
    sampleFaction.mainFaction.Slots = [5] ∧
    sampleFaction.mainFaction.Relations = [0x3f800000, 0xbf000000] ∧
    consumed (Main.Faction.Read { Main.Faction.zero with Relations := [0, 0] })
      (sampleFaction.bytes ++ [0x41]) = 225 + 8 * 1 + 4 * 2 ∧
    consumed (Editor.readFaction Editor.Faction.zero 2) (sampleFaction.bytes ++ [0x41]) =
      225 + 8 * 1 + 4 * 2 :=
  have w := faction_reader_layout { Main.Faction.zero with Relations := [0, 0] }
    Editor.Faction.zero sampleFaction [0x41] sampleFaction_wf rfl
  ⟨sampleFaction_wf, by decide, w.1, w.2.1, by decide, by decide,
    (w.2.2.2.2.2.2.2.2 rfl (by decide)).1, (w.2.2.2.2.2.2.2.2 rfl (by decide)).2⟩

theorem decodeBool_singleton (b : Byte) : decodeBool [b] = decide (b ≠ 0) := by
  by_cases hb : b = 0 <;> simp [decodeBool, hb]

/-- Claim C17: a note is a length-prefixed text, then `Value` (int32), then
`TableauMaterialId` (int32), then `Available` (one byte), and takes
`13 + len(text)` bytes; the info-page reader reads exactly 16 notes with no
count before them and takes `208 +` the sum of the 16 text lengths; the quest,
faction and party readers read the same block of 16 notes, at the place of
their `Notes` field. All of it holds for both implementations. -/
theorem note_block_of_sixteen (note : Note) (n : NoteImage) (infoPage : InfoPage)
    (notes : Mathlib.Vector NoteImage 16) (quest : Quest) (qi : QuestImage)
    (mf : Main.Faction) (ef : Editor.Faction) (fi : FactionImage) (party : Party) (v : Int32)
    (pi : PartyImage) (rest : File)
    (hn : n.Text.wf) (hnotes : ∀ x ∈ notes.toList, x.Text.wf) (hq : qi.wf) (hf : fi.wf)
    (hrel : mf.Relations.length = fi.Relations.length) (hp : pi.wf) :
    (Main.Note.Read note
        (n.Text.count.toList ++ n.Text.chars ++ n.Value.toList ++ n.TableauMaterialId.toList ++
          [n.Available] ++ rest) =
      .ok { Text := { NumChars := n.Text.chars.length, Chars := n.Text.chars,
                      Readable := n.Text.chars },
            Value := decodeInt32 n.Value.toList,
            TableauMaterialId := decodeInt32 n.TableauMaterialId.toList,
            Available := decide (n.Available ≠ 0) } rest ∧
      Editor.readNote note
        (n.Text.count.toList ++ n.Text.chars ++ n.Value.toList ++ n.TableauMaterialId.toList ++
          [n.Available] ++ rest) =
      .ok { Text := { NumChars := n.Text.chars.length, Chars := n.Text.chars,
                      Readable := n.Text.chars },
            Value := decodeInt32 n.Value.toList,
            TableauMaterialId := decodeInt32 n.TableauMaterialId.toList,
            Available := decide (n.Available ≠ 0) } rest ∧
      consumed (Main.Note.Read note) (n.bytes ++ rest) = 13 + n.Text.chars.length ∧
      consumed (Editor.readNote note) (n.bytes ++ rest) = 13 + n.Text.chars.length) ∧
    (Main.InfoPage.Read infoPage (NoteImage.block notes.toList ++ rest) =
        .ok { Notes := notes.map NoteImage.note } rest ∧
      Editor.readInfoPage infoPage (NoteImage.block notes.toList ++ rest) =
        .ok { Notes := notes.map NoteImage.note } rest ∧
      consumed (Main.InfoPage.Read infoPage) (NoteImage.block notes.toList ++ rest) =
        208 + NoteImage.textLength notes.toList ∧
      consumed (Editor.readInfoPage infoPage) (NoteImage.block notes.toList ++ rest) =
        208 + NoteImage.textLength notes.toList) ∧
    (Main.Quest.Read quest
        (qi.Progression.toList ++ qi.GiverTroopId.toList ++ qi.Number.toList ++
          qi.StartDate.toList ++ qi.Title.bytes ++ qi.Text.bytes ++ qi.Giver.bytes ++
          NoteImage.block qi.Notes.toList ++ qi.Slots.bytes ++ rest) = .ok qi.mainQuest rest ∧
      Editor.readQuest quest
        (qi.Progression.toList ++ qi.GiverTroopId.toList ++ qi.Number.toList ++
          qi.StartDate.toList ++ qi.Title.bytes ++ qi.Text.bytes ++ qi.Giver.bytes ++
          NoteImage.block qi.Notes.toList ++ qi.Slots.bytes ++ rest) = .ok qi.editorQuest rest ∧
      qi.mainQuest.Notes = qi.Notes.map NoteImage.note ∧
      qi.editorQuest.Notes = qi.Notes.map NoteImage.note) ∧
    (Main.Faction.Read mf
        (fi.Slots.bytes ++ Bytes.concat fi.Relations ++ fi.Name.bytes ++ [fi.Renamed] ++
          fi.Color.toList ++ fi._unused.toList ++ NoteImage.block fi.Notes.toList ++ rest) =
        .ok fi.mainFaction rest ∧
      Editor.readFaction ef fi.Relations.length
        (fi.Slots.bytes ++ Bytes.concat fi.Relations ++ fi.Name.bytes ++ [fi.Renamed] ++
          fi.Color.toList ++ fi._unused.toList ++ NoteImage.block fi.Notes.toList ++ rest) =
        .ok fi.editorFaction rest ∧
      fi.mainFaction.Notes = fi.Notes.map NoteImage.note ∧
      fi.editorFaction.Note = fi.Notes.map NoteImage.note) ∧
    (Main.Party.Read party v
        (pi.head ++ pi.afterBandit (marshallPresent v) (decide (v ≥ 1137)) (reservedPresent v) ++
          rest) =
        .ok (pi.mainParty (marshallPresent v) (decide (v ≥ 1137)) (reservedPresent v) party) rest ∧
      Editor.readParty party v
        (pi.head ++ pi.afterBandit (marshallPresent v) (decide (v > 1137)) (reservedPresent v) ++
          rest) =
        .ok (pi.editorParty (marshallPresent v) (decide (v > 1137)) (reservedPresent v) party) rest ∧
      (∀ m e r, (pi.mainParty m e r party).Notes = pi.Notes.map NoteImage.note ∧
        (pi.editorParty m e r party).Notes = pi.Notes.map NoteImage.note ∧
        pi.afterBandit m e r =
          (if m then pi.Marshall.toList else []) ++ pi.IgnorePlayerTimer.toList ++
            pi.BannerMapIconId.toList ++ (if e then pi.extra else []) ++
            pi.AttachedToPartyId.toList ++ (if r then pi._unused2.toList else []) ++
            [pi.IsAttached] ++ pi.AttachedPartyIds.bytes ++ pi.ParticleSystemIds.bytes ++
            NoteImage.block pi.Notes.toList ++ pi.Slots.bytes)) := by
  have n1 := main_note_layout note n rest hn
  have n2 := editor_note_layout note n rest hn
  have hnb : n.Text.count.toList ++ n.Text.chars ++ n.Value.toList ++
      n.TableauMaterialId.toList ++ [n.Available] ++ rest = n.bytes ++ rest := by
    simp only [NoteImage.bytes, TextImage.bytes, List.append_assoc]
  have hnv : n.note =
      { Text := { NumChars := n.Text.chars.length, Chars := n.Text.chars,
                  Readable := n.Text.chars },
        Value := decodeInt32 n.Value.toList,
        TableauMaterialId := decodeInt32 n.TableauMaterialId.toList,
        Available := decide (n.Available ≠ 0) } := by
    simp only [NoteImage.note, TextImage.text, decodeBool_singleton]
  have p1 := main_infopage_layout infoPage notes rest hnotes
  have p2 := editor_infopage_layout infoPage notes rest hnotes
  have hbl : (NoteImage.block notes.toList).length = 208 + NoteImage.textLength notes.toList := by
    rw [note_block_length, Mathlib.Vector.toList_length]
  refine ⟨⟨?_, ?_, ?_, ?_⟩, ⟨p1, p2, ?_, ?_⟩, ⟨?_, ?_, rfl, rfl⟩, ⟨?_, ?_, rfl, rfl⟩, ?_, ?_, ?_⟩
  · rw [hnb, ← hnv]; exact n1
  · rw [hnb, ← hnv]; exact n2
  · rw [consumed_of_ok n1, note_bytes_length]; push_cast; rfl
  · rw [consumed_of_ok n2, note_bytes_length]; push_cast; rfl
  · rw [consumed_of_ok p1, hbl]; push_cast; rfl
  · rw [consumed_of_ok p2, hbl]; push_cast; rfl
  · simpa only [QuestImage.bytes, List.append_assoc] using main_quest_layout quest qi rest hq
  · simpa only [QuestImage.bytes, List.append_assoc] using editor_quest_layout quest qi rest hq
  · simpa only [FactionImage.bytes, List.append_assoc] using
      main_faction_layout mf fi rest hf hrel
  · simpa only [FactionImage.bytes, List.append_assoc] using editor_faction_layout ef fi rest hf
  · exact main_party_layout party v pi rest hp
  · exact editor_party_layout party v pi rest hp
  · intro m e r
    refine ⟨rfl, rfl, ?_⟩
    simp only [PartyImage.afterBandit, PartyImage.afterBanner, PartyImage.afterAttached,
      PartyImage.tail, List.append_assoc]

theorem emptyNotes_wf (k : Nat) :
    ∀ n ∈ (Mathlib.Vector.replicate k emptyNote).toList, n.Text.wf := by
  intro n hn
  have : n = emptyNote := by
    simp only [Mathlib.Vector.replicate, Mathlib.Vector.toList] at hn
    exact List.eq_of_mem_replicate hn
  subst this
  unfold TextImage.wf
  decide

theorem sampleNotes_wf : ∀ n ∈ sampleNotes.toList, n.Text.wf := by
  intro n hn
  simp only [sampleNotes, Mathlib.Vector.toList_cons, List.mem_cons] at hn
  rcases hn with rfl | hn
  · unfold TextImage.wf; decide
  · exact emptyNotes_wf 15 n hn

theorem emptyText_wf : emptyText.wf := by unfold TextImage.wf; decide

theorem emptyArray_wf (k : Nat) : (emptyArray k).wf := by
  show decodeInt32 [0, 0, 0, 0] = ((0 : Nat) : Int)
  decide

theorem sampleQuest_wf : sampleQuest.wf :=
  ⟨emptyText_wf, emptyText_wf, emptyText_wf, sampleNotes_wf, emptyArray_wf 8⟩

theorem sampleParty_wf : sampleParty.wf :=
  ⟨emptyText_wf, emptyText_wf, by decide, emptyText_wf, emptyArray_wf 4, emptyArray_wf 4,
    emptyNotes_wf 16, emptyArray_wf 8⟩

theorem note_block_of_sixteen_witness :
    Main.Note.Read Note.zero [2, 0, 0, 0, 0x6f, 0x6b, 7, 0, 0, 0, 0xff, 0xff, 0xff, 0xff, 1, 0x41] =
      .ok { Text := { NumChars := 2, Chars := [0x6f, 0x6b], Readable := [0x6f, 0x6b] },
            Value := 7, TableauMaterialId := -1, Available := true } [0x41] ∧
    consumed (Main.Note.Read Note.zero) (sampleNote.bytes ++ [0x41]) = 13 + 2 ∧
    NoteImage.block sampleNotes.toList ++ [0x41] =
      [2, 0, 0, 0, 0x6f, 0x6b, 7, 0, 0, 0, 0xff, 0xff, 0xff, 0xff, 1] ++
        List.replicate 195 0 ++ [0x41] ∧
    Main.InfoPage.Read InfoPage.zero (NoteImage.block sampleNotes.toList ++ [0x41]) =
      .ok { Notes := sampleNotes.map NoteImage.note } [0x41] ∧
    Editor.readInfoPage InfoPage.zero (NoteImage.block sampleNotes.toList ++ [0x41]) =
      .ok { Notes := sampleNotes.map NoteImage.note } [0x41] ∧
    consumed (Main.InfoPage.Read InfoPage.zero) (NoteImage.block sampleNotes.toList ++ [0x41]) =
      208 + 2 :=
  have w := note_block_of_sixteen Note.zero sampleNote InfoPage.zero sampleNotes Quest.zero
    sampleQuest { Main.Faction.zero with Relations := [0, 0] } Editor.Faction.zero sampleFaction
    Party.zero 1162 sampleParty [0x41] (by unfold TextImage.wf; decide) sampleNotes_wf
    sampleQuest_wf sampleFaction_wf rfl sampleParty_wf
  ⟨w.1.1, w.1.2.2.1, by decide, w.2.1.1, w.2.1.2.1, w.2.1.2.2.1⟩

theorem after_banner_length (e r : Bool) (i : PartyImage) :
    (i.afterBanner e r).length =
      (if e then 20 else 0) + 4 + (if r then 4 else 0) + i.tail.length := by
  cases e <;> cases r <;>
    simp [PartyImage.afterBanner, PartyImage.afterAttached, PartyImage.extra] <;> omega

/-- Claim C12: in both party readers and for every version `v`, the `Marshall`
int32 is read exactly when `(v >= 900 and v < 1000) or v >= 1020`. When it
is, its four bytes stand between `BanditAttraction` (the end of `head`) and
`IgnorePlayerTimer`; when it is not, `IgnorePlayerTimer` directly follows
`BanditAttraction`, four bytes fewer are consumed and `Marshall` keeps its
previous value, 0 for a fresh party. It is absent at 899, 1000 and 1019 and
present at 900, 999 and 1020. -/
theorem marshall_gate (party : Party) (v : Int32) (i : PartyImage) (rest : File) (h : i.wf) :
    (marshallPresent v = true ↔ (v ≥ 900 ∧ v < 1000) ∨ v ≥ 1020) ∧
    (marshallPresent v = true →
      Main.Party.Read party v
          (i.head ++ i.Marshall.toList ++ i.IgnorePlayerTimer.toList ++
            i.BannerMapIconId.toList ++ i.afterBanner (decide (v ≥ 1137)) (decide (v ≥ 1162)) ++
            rest) =
        .ok (i.mainParty true (decide (v ≥ 1137)) (decide (v ≥ 1162)) party) rest ∧
      Editor.readParty party v
          (i.head ++ i.Marshall.toList ++ i.IgnorePlayerTimer.toList ++
            i.BannerMapIconId.toList ++ i.afterBanner (decide (v > 1137)) (decide (v ≥ 1162)) ++
            rest) =
        .ok (i.editorParty true (decide (v > 1137)) (decide (v ≥ 1162)) party) rest) ∧
    (marshallPresent v = false →
      Main.Party.Read party v
          (i.head ++ i.IgnorePlayerTimer.toList ++
            i.BannerMapIconId.toList ++ i.afterBanner (decide (v ≥ 1137)) (decide (v ≥ 1162)) ++
            rest) =
        .ok (i.mainParty false (decide (v ≥ 1137)) (decide (v ≥ 1162)) party) rest ∧
      Editor.readParty party v
          (i.head ++ i.IgnorePlayerTimer.toList ++
            i.BannerMapIconId.toList ++ i.afterBanner (decide (v > 1137)) (decide (v ≥ 1162)) ++
            rest) =
        .ok (i.editorParty false (decide (v > 1137)) (decide (v ≥ 1162)) party) rest) ∧
    (∀ e r, (i.mainParty true e r party).Marshall = decodeInt32 i.Marshall.toList ∧
      (i.mainParty false e r party).Marshall = party.Marshall ∧
      (i.mainParty false e r Party.zero).Marshall = 0 ∧
      (i.mainParty true e r party).IgnorePlayerTimer = decodeInt64 i.IgnorePlayerTimer.toList ∧
      (i.mainParty false e r party).IgnorePlayerTimer = decodeInt64 i.IgnorePlayerTimer.toList ∧
      (i.mainParty true e r party).BanditAttraction =
        decodeFloatReflect i.BanditAttraction.toList ∧
      (i.editorParty true e r party).Marshall = decodeInt32 i.Marshall.toList ∧
      (i.editorParty false e r party).Marshall = party.Marshall ∧
      (i.editorParty false e r Party.zero).Marshall = 0 ∧
      (i.editorParty true e r party).IgnorePlayerTimer = decodeInt64 i.IgnorePlayerTimer.toList ∧
      (i.editorParty false e r party).IgnorePlayerTimer = decodeInt64 i.IgnorePlayerTimer.toList ∧
      (i.editorParty true e r party).BanditAttraction = decodeFloat i.BanditAttraction.toList ∧
      (i.bytes true e r).length = (i.bytes false e r).length + 4) ∧
    (marshallPresent 899 = false ∧ marshallPresent 1000 = false ∧ marshallPresent 1019 = false ∧
      marshallPresent 900 = true ∧ marshallPresent 999 = true ∧ marshallPresent 1020 = true) := by
  have e1 := main_party_layout party v i rest h
  have e2 := editor_party_layout party v i rest h
  refine ⟨by simp [marshallPresent], ?_, ?_, ?_, by decide⟩
  · intro hm
    have hm' : decide ((v ≥ 900 ∧ v < 1000) ∨ v ≥ 1020) = true := hm
    rw [hm'] at e1 e2
    constructor
    · simpa only [PartyImage.bytes, PartyImage.afterBandit, if_true, List.append_assoc] using e1
    · simpa only [PartyImage.bytes, PartyImage.afterBandit, if_true, List.append_assoc] using e2
  · intro hm
    have hm' : decide ((v ≥ 900 ∧ v < 1000) ∨ v ≥ 1020) = false := hm
    rw [hm'] at e1 e2
    constructor
    · simpa only [PartyImage.bytes, PartyImage.afterBandit, Bool.false_eq_true, if_false,
        List.nil_append, List.append_assoc] using e1
    · simpa only [PartyImage.bytes, PartyImage.afterBandit, Bool.false_eq_true, if_false,
        List.nil_append, List.append_assoc] using e2
  · intro e r
    refine ⟨rfl, rfl, rfl, rfl, rfl, rfl, rfl, rfl, rfl, rfl, rfl, rfl, ?_⟩
    simp [PartyImage.bytes, PartyImage.afterBandit]
    omega

theorem marshall_gate_witness :
    sampleParty.wf ∧
    (Main.Party.Read Party.zero 1020
          (sampleParty.head ++ sampleParty.Marshall.toList ++
            sampleParty.IgnorePlayerTimer.toList ++ sampleParty.BannerMapIconId.toList ++
            sampleParty.afterBanner (decide ((1020 : Int32) ≥ 1137))
              (decide ((1020 : Int32) ≥ 1162)) ++ [0x41]) =
        .ok (sampleParty.mainParty true (decide ((1020 : Int32) ≥ 1137))
          (decide ((1020 : Int32) ≥ 1162)) Party.zero) [0x41] ∧
      Editor.readParty Party.zero 1020
          (sampleParty.head ++ sampleParty.Marshall.toList ++
            sampleParty.IgnorePlayerTimer.toList ++ sampleParty.BannerMapIconId.toList ++
            sampleParty.afterBanner (decide ((1020 : Int32) > 1137))
              (decide ((1020 : Int32) ≥ 1162)) ++ [0x41]) =
        .ok (sampleParty.editorParty true (decide ((1020 : Int32) > 1137))
          (decide ((1020 : Int32) ≥ 1162)) Party.zero) [0x41]) ∧
    (Main.Party.Read Party.zero 1019
          (sampleParty.head ++ sampleParty.IgnorePlayerTimer.toList ++
            sampleParty.BannerMapIconId.toList ++
            sampleParty.afterBanner (decide ((1019 : Int32) ≥ 1137))
              (decide ((1019 : Int32) ≥ 1162)) ++ [0x41]) =
        .ok (sampleParty.mainParty false (decide ((1019 : Int32) ≥ 1137))
          (decide ((1019 : Int32) ≥ 1162)) Party.zero) [0x41] ∧
      Editor.readParty Party.zero 1019
          (sampleParty.head ++ sampleParty.IgnorePlayerTimer.toList ++
            sampleParty.BannerMapIconId.toList ++
            sampleParty.afterBanner (decide ((1019 : Int32) > 1137))
              (decide ((1019 : Int32) ≥ 1162)) ++ [0x41]) =
        .ok (sampleParty.editorParty false (decide ((1019 : Int32) > 1137))
          (decide ((1019 : Int32) ≥ 1162)) Party.zero) [0x41]) ∧
    (sampleParty.mainParty true false false Party.zero).Marshall = 151587081 ∧
    (sampleParty.mainParty false false false Party.zero).Marshall = 0 ∧
    (sampleParty.mainParty true false false Party.zero).IgnorePlayerTimer = 17 ∧
    (sampleParty.mainParty false false false Party.zero).IgnorePlayerTimer = 17 ∧
    (sampleParty.editorParty true false false Party.zero).Marshall = 151587081 ∧
    (sampleParty.editorParty false false false Party.zero).Marshall = 0 ∧
    (sampleParty.editorParty true false false Party.zero).IgnorePlayerTimer = 17 ∧
    (sampleParty.editorParty false false false Party.zero).IgnorePlayerTimer = 17 ∧
    (sampleParty.bytes true false false).length = 362 ∧
    (sampleParty.bytes false false false).length = 358 :=
  ⟨sampleParty_wf,
    (marshall_gate Party.zero 1020 sampleParty [0x41] sampleParty_wf).2.1 (by decide),
    (marshall_gate Party.zero 1019 sampleParty [0x41] sampleParty_wf).2.2.1 (by decide),
    by decide, by decide, by decide, by decide, by decide, by decide, by decide, by decide,
    by decide, by decide⟩

/-! ### One input read at two versions -/

theorem bind_vec {α β : Type} {n : Nat} (decode : List Byte → α) (data : α) (v : Bytes n)
    (rest : File) (k : α → Rd β) :
    (binary.Read n decode data >>= k) (v.toList ++ rest) = k (decode v.toList) rest :=
  bind_of_ok (binaryRead_vec _ _ _ _)

theorem bind_pure_run {α β : Type} (a : α) (k : α → Rd β) (file : File) :
    ((pure a : Rd α) >>= k) file = k a file :=
  bind_of_ok (pure_run _ _)

theorem main_party_with_extra (party : Party) (v : Int32) (i : PartyImage) (Y : File)
    (h1 : i.Id.wf) (h2 : i.Name.wf) (hst : decodeInt32 i.NumStacks.toList = i.Stacks.length)
    (h3 : i.ExtraText.wf) (hm : (v ≥ 900 ∧ v < 1000) ∨ v ≥ 1020) (he : v ≥ 1137) :
    ∀ p rest, Main.Party.Read party v
        (i.head ++ i.Marshall.toList ++ i.IgnorePlayerTimer.toList ++
          i.BannerMapIconId.toList ++ i.extra ++ i.AttachedToPartyId.toList ++ Y) =
          .ok p rest →
      p.BannerMapIconId = decodeInt32 i.BannerMapIconId.toList ∧
      p.ExtraMapIconId = decodeInt32 i.ExtraMapIconId.toList ∧
      p.ExtraMapIconUpDownDistance = decodeFloatReflect i.ExtraMapIconUpDownDistance.toList ∧
      p.ExtraMapIconUpDownFrequency = decodeFloatReflect i.ExtraMapIconUpDownFrequency.toList ∧
      p.ExtraMapIconRotateFrequency = decodeFloatReflect i.ExtraMapIconRotateFrequency.toList ∧
      p.ExtraMapIconFadeFrequency = decodeFloatReflect i.ExtraMapIconFadeFrequency.toList ∧
      p.AttachedToPartyId = decodeInt32 i.AttachedToPartyId.toList := by
  intro p rest' e
  simp only [Main.Party.Read, PartyImage.head, PartyImage.extra, List.append_assoc, if_pos hm,
    if_pos he, Main.Int32.Read, Main.Int64.Read, Main.UInt64.Read,
    Main.Float.Read, Main.Bool.Read, List.singleton_append,
    List.cons_append, List.nil_append] at e
  rw [bind_of_ok (main_text_layout _ _ _ h1), bind_of_ok (main_text_layout _ _ _ h2)] at e
  iterate 17 rw [bind_vec] at e
  rw [hst, bind_of_ok (make_natCast _ _ _),
    bind_of_ok (main_stacks_layout _ _ _ (List.length_replicate _ _)), bind_vec,
    bind_of_ok (binaryRead_cons1 _ _ _ _), bind_of_ok (main_text_layout _ _ _ h3)] at e
  iterate 11 rw [bind_vec] at e
  obtain ⟨d, mid, hd, e⟩ := bind_ok _ _ _ _ _ e
  iterate 5 rw [bind_vec] at hd
  cases hd
  rw [bind_vec] at e
  iterate 12 (obtain ⟨_, _, _, e⟩ := bind_ok _ _ _ _ _ e)
  cases e
  exact ⟨rfl, rfl, rfl, rfl, rfl, rfl, rfl⟩

theorem main_party_without_extra (party : Party) (v : Int32) (i : PartyImage) (Y : File)
    (h1 : i.Id.wf) (h2 : i.Name.wf) (hst : decodeInt32 i.NumStacks.toList = i.Stacks.length)
    (h3 : i.ExtraText.wf) (hm : (v ≥ 900 ∧ v < 1000) ∨ v ≥ 1020) (he : ¬ v ≥ 1137) :
    ∀ p rest, Main.Party.Read party v
        (i.head ++ i.Marshall.toList ++ i.IgnorePlayerTimer.toList ++
          i.BannerMapIconId.toList ++ i.extra ++ i.AttachedToPartyId.toList ++ Y) =
          .ok p rest →
      p.BannerMapIconId = decodeInt32 i.BannerMapIconId.toList ∧
      p.ExtraMapIconId = party.ExtraMapIconId ∧
      p.ExtraMapIconUpDownDistance = party.ExtraMapIconUpDownDistance ∧
      p.ExtraMapIconUpDownFrequency = party.ExtraMapIconUpDownFrequency ∧
      p.ExtraMapIconRotateFrequency = party.ExtraMapIconRotateFrequency ∧
      p.ExtraMapIconFadeFrequency = party.ExtraMapIconFadeFrequency ∧
      p.AttachedToPartyId = decodeInt32 i.ExtraMapIconId.toList := by
  intro p rest' e
  simp only [Main.Party.Read, PartyImage.head, PartyImage.extra, List.append_assoc, if_pos hm,
    if_neg he, Main.Int32.Read, Main.Int64.Read, Main.UInt64.Read,
    Main.Float.Read, Main.Bool.Read, List.singleton_append,
    List.cons_append, List.nil_append] at e
  rw [bind_of_ok (main_text_layout _ _ _ h1), bind_of_ok (main_text_layout _ _ _ h2)] at e
  iterate 17 rw [bind_vec] at e
  rw [hst, bind_of_ok (make_natCast _ _ _),
    bind_of_ok (main_stacks_layout _ _ _ (List.length_replicate _ _)), bind_vec,
    bind_of_ok (binaryRead_cons1 _ _ _ _), bind_of_ok (main_text_layout _ _ _ h3)] at e
  iterate 11 rw [bind_vec] at e
  rw [bind_pure_run, bind_vec] at e
  generalize i.ExtraMapIconUpDownDistance.toList ++
    (i.ExtraMapIconUpDownFrequency.toList ++
      (i.ExtraMapIconRotateFrequency.toList ++
        (i.ExtraMapIconFadeFrequency.toList ++ (i.AttachedToPartyId.toList ++ Y)))) = Z at e
  iterate 12 (obtain ⟨_, _, _, e⟩ := bind_ok _ _ _ _ _ e)
  cases e
  exact ⟨rfl, rfl, rfl, rfl, rfl, rfl, rfl⟩

theorem editor_party_with_extra (party : Party) (v : Int32) (i : PartyImage) (Y : File)
    (h1 : i.Id.wf) (h2 : i.Name.wf) (hst : decodeInt32 i.NumStacks.toList = i.Stacks.length)
    (h3 : i.ExtraText.wf) (hm : (v ≥ 900 ∧ v < 1000) ∨ v ≥ 1020) (he : v > 1137) :
    ∀ p rest, Editor.readParty party v
        (i.head ++ i.Marshall.toList ++ i.IgnorePlayerTimer.toList ++
          i.BannerMapIconId.toList ++ i.extra ++ i.AttachedToPartyId.toList ++ Y) =
          .ok p rest →
      p.BannerMapIconId = decodeInt32 i.BannerMapIconId.toList ∧
      p.ExtraMapIconId = decodeInt32 i.ExtraMapIconId.toList ∧
      p.ExtraMapIconUpDownDistance = decodeFloat i.ExtraMapIconUpDownDistance.toList ∧
      p.ExtraMapIconUpDownFrequency = decodeFloat i.ExtraMapIconUpDownFrequency.toList ∧
      p.ExtraMapIconRotateFrequency = decodeFloat i.ExtraMapIconRotateFrequency.toList ∧
      p.ExtraMapIconFadeFrequency = decodeFloat i.ExtraMapIconFadeFrequency.toList ∧
      p.AttachedToPartyId = decodeInt32 i.AttachedToPartyId.toList := by
  intro p rest' e
  simp only [Editor.readParty, PartyImage.head, PartyImage.extra, List.append_assoc, if_pos hm,
    if_pos he, List.singleton_append,
    List.cons_append, List.nil_append] at e
  rw [bind_of_ok (editor_text_layout _ _ _ h1), bind_of_ok (editor_text_layout _ _ _ h2)] at e
  iterate 17 rw [bind_vec] at e
  rw [hst, bind_of_ok (make_natCast _ _ _),
    bind_of_ok (editor_stacks_layout _ _ _ (List.length_replicate _ _)), bind_vec,
    bind_of_ok (binaryRead_cons1 _ _ _ _), bind_of_ok (editor_text_layout _ _ _ h3)] at e
  iterate 11 rw [bind_vec] at e
  obtain ⟨d, mid, hd, e⟩ := bind_ok _ _ _ _ _ e
  iterate 5 rw [bind_vec] at hd
  cases hd
  rw [bind_vec] at e
  iterate 12 (obtain ⟨_, _, _, e⟩ := bind_ok _ _ _ _ _ e)
  cases e
  exact ⟨rfl, rfl, rfl, rfl, rfl, rfl, rfl⟩

theorem editor_party_without_extra (party : Party) (v : Int32) (i : PartyImage) (Y : File)
    (h1 : i.Id.wf) (h2 : i.Name.wf) (hst : decodeInt32 i.NumStacks.toList = i.Stacks.length)
    (h3 : i.ExtraText.wf) (hm : (v ≥ 900 ∧ v < 1000) ∨ v ≥ 1020) (he : ¬ v > 1137) :
    ∀ p rest, Editor.readParty party v
        (i.head ++ i.Marshall.toList ++ i.IgnorePlayerTimer.toList ++
          i.BannerMapIconId.toList ++ i.extra ++ i.AttachedToPartyId.toList ++ Y) =
          .ok p rest →
      p.BannerMapIconId = decodeInt32 i.BannerMapIconId.toList ∧
      p.ExtraMapIconId = party.ExtraMapIconId ∧
      p.ExtraMapIconUpDownDistance = party.ExtraMapIconUpDownDistance ∧
      p.ExtraMapIconUpDownFrequency = party.ExtraMapIconUpDownFrequency ∧
      p.ExtraMapIconRotateFrequency = party.ExtraMapIconRotateFrequency ∧
      p.ExtraMapIconFadeFrequency = party.ExtraMapIconFadeFrequency ∧
      p.AttachedToPartyId = decodeInt32 i.ExtraMapIconId.toList := by
  intro p rest' e
  simp only [Editor.readParty, PartyImage.head, PartyImage.extra, List.append_assoc, if_pos hm,
    if_neg he, List.singleton_append,
    List.cons_append, List.nil_append] at e
  rw [bind_of_ok (editor_text_layout _ _ _ h1), bind_of_ok (editor_text_layout _ _ _ h2)] at e
  iterate 17 rw [bind_vec] at e
  rw [hst, bind_of_ok (make_natCast _ _ _),
    bind_of_ok (editor_stacks_layout _ _ _ (List.length_replicate _ _)), bind_vec,
    bind_of_ok (binaryRead_cons1 _ _ _ _), bind_of_ok (editor_text_layout _ _ _ h3)] at e
  iterate 11 rw [bind_vec] at e
  rw [bind_pure_run, bind_vec] at e
  generalize i.ExtraMapIconUpDownDistance.toList ++
    (i.ExtraMapIconUpDownFrequency.toList ++
      (i.ExtraMapIconRotateFrequency.toList ++
        (i.ExtraMapIconFadeFrequency.toList ++ (i.AttachedToPartyId.toList ++ Y)))) = Z at e
  iterate 12 (obtain ⟨_, _, _, e⟩ := bind_ok _ _ _ _ _ e)
  cases e
  exact ⟨rfl, rfl, rfl, rfl, rfl, rfl, rfl⟩

/-- Claim C13: in both party readers, at version 1136 the five extended
map-icon fields are not read (they keep their previous values, 0 for a fresh
party) and `AttachedToPartyId` is read from the four bytes directly after
`BannerMapIconId`; at version 1138 the five fields are read from the 20 bytes
after `BannerMapIconId` and `AttachedToPartyId` from the four bytes after
those. This holds both for the record layouts of the two versions and for
one and the same input decoded at the two versions. -/
theorem extended_map_icon_boundary (party : Party) (i : PartyImage) (rest Y : File)
    (h : i.wf) :
    (Main.Party.Read party 1136
        (i.head ++ i.Marshall.toList ++ i.IgnorePlayerTimer.toList ++ i.BannerMapIconId.toList ++
          i.AttachedToPartyId.toList ++ i.tail ++ rest) =
        .ok (i.mainParty true false false party) rest ∧
      Editor.readParty party 1136
        (i.head ++ i.Marshall.toList ++ i.IgnorePlayerTimer.toList ++ i.BannerMapIconId.toList ++
          i.AttachedToPartyId.toList ++ i.tail ++ rest) =
        .ok (i.editorParty true false false party) rest) ∧
    (Main.Party.Read party 1138
        (i.head ++ i.Marshall.toList ++ i.IgnorePlayerTimer.toList ++ i.BannerMapIconId.toList ++
          i.extra ++ i.AttachedToPartyId.toList ++ i.tail ++ rest) =
        .ok (i.mainParty true true false party) rest ∧
      Editor.readParty party 1138
        (i.head ++ i.Marshall.toList ++ i.IgnorePlayerTimer.toList ++ i.BannerMapIconId.toList ++
          i.extra ++ i.AttachedToPartyId.toList ++ i.tail ++ rest) =
        .ok (i.editorParty true true false party) rest) ∧
    (i.extra.length = 20 ∧
      (i.mainParty true false false party).ExtraMapIconId = party.ExtraMapIconId ∧
      (i.mainParty true false false party).ExtraMapIconUpDownDistance =
        party.ExtraMapIconUpDownDistance ∧
      (i.mainParty true false false party).ExtraMapIconUpDownFrequency =
        party.ExtraMapIconUpDownFrequency ∧
      (i.mainParty true false false party).ExtraMapIconRotateFrequency =
        party.ExtraMapIconRotateFrequency ∧
      (i.mainParty true false false party).ExtraMapIconFadeFrequency =
        party.ExtraMapIconFadeFrequency ∧
      (i.mainParty true false false Party.zero).ExtraMapIconId = 0 ∧
      (i.mainParty true false false Party.zero).ExtraMapIconUpDownDistance = 0 ∧
      (i.mainParty true false false Party.zero).ExtraMapIconUpDownFrequency = 0 ∧
      (i.mainParty true false false Party.zero).ExtraMapIconRotateFrequency = 0 ∧
      (i.mainParty true false false Party.zero).ExtraMapIconFadeFrequency = 0 ∧
      (i.mainParty true false false party).AttachedToPartyId =
        decodeInt32 i.AttachedToPartyId.toList ∧
      (i.mainParty true true false party).ExtraMapIconId = decodeInt32 i.ExtraMapIconId.toList ∧
      (i.mainParty true true false party).ExtraMapIconUpDownDistance =
        decodeFloatReflect i.ExtraMapIconUpDownDistance.toList ∧
      (i.mainParty true true false party).ExtraMapIconUpDownFrequency =
        decodeFloatReflect i.ExtraMapIconUpDownFrequency.toList ∧
      (i.mainParty true true false party).ExtraMapIconRotateFrequency =
        decodeFloatReflect i.ExtraMapIconRotateFrequency.toList ∧
      (i.mainParty true true false party).ExtraMapIconFadeFrequency =
        decodeFloatReflect i.ExtraMapIconFadeFrequency.toList ∧
      (i.mainParty true true false party).AttachedToPartyId =
        decodeInt32 i.AttachedToPartyId.toList ∧
      (i.editorParty true false false party).ExtraMapIconId = party.ExtraMapIconId ∧
      (i.editorParty true false false party).ExtraMapIconUpDownDistance =
        party.ExtraMapIconUpDownDistance ∧
      (i.editorParty true false false party).ExtraMapIconUpDownFrequency =
        party.ExtraMapIconUpDownFrequency ∧
      (i.editorParty true false false party).ExtraMapIconRotateFrequency =
        party.ExtraMapIconRotateFrequency ∧
      (i.editorParty true false false party).ExtraMapIconFadeFrequency =
        party.ExtraMapIconFadeFrequency ∧
      (i.editorParty true false false Party.zero).ExtraMapIconId = 0 ∧
      (i.editorParty true false false Party.zero).ExtraMapIconUpDownDistance = 0 ∧
      (i.editorParty true false false Party.zero).ExtraMapIconUpDownFrequency = 0 ∧
      (i.editorParty true false false Party.zero).ExtraMapIconRotateFrequency = 0 ∧
      (i.editorParty true false false Party.zero).ExtraMapIconFadeFrequency = 0 ∧
      (i.editorParty true false false party).AttachedToPartyId =
        decodeInt32 i.AttachedToPartyId.toList ∧
      (i.editorParty true true false party).ExtraMapIconId = decodeInt32 i.ExtraMapIconId.toList ∧
      (i.editorParty true true false party).ExtraMapIconUpDownDistance =
        decodeFloat i.ExtraMapIconUpDownDistance.toList ∧
      (i.editorParty true true false party).ExtraMapIconUpDownFrequency =
        decodeFloat i.ExtraMapIconUpDownFrequency.toList ∧
      (i.editorParty true true false party).ExtraMapIconRotateFrequency =
        decodeFloat i.ExtraMapIconRotateFrequency.toList ∧
      (i.editorParty true true false party).ExtraMapIconFadeFrequency =
        decodeFloat i.ExtraMapIconFadeFrequency.toList ∧
      (i.editorParty true true false party).AttachedToPartyId =
        decodeInt32 i.AttachedToPartyId.toList) ∧
    (∀ p rest1, Main.Party.Read party 1136
        (i.head ++ i.Marshall.toList ++ i.IgnorePlayerTimer.toList ++ i.BannerMapIconId.toList ++
          i.extra ++ i.AttachedToPartyId.toList ++ Y) = .ok p rest1 →
        p.BannerMapIconId = decodeInt32 i.BannerMapIconId.toList ∧
        p.ExtraMapIconId = party.ExtraMapIconId ∧
        p.ExtraMapIconUpDownDistance = party.ExtraMapIconUpDownDistance ∧
        p.ExtraMapIconUpDownFrequency = party.ExtraMapIconUpDownFrequency ∧
        p.ExtraMapIconRotateFrequency = party.ExtraMapIconRotateFrequency ∧
        p.ExtraMapIconFadeFrequency = party.ExtraMapIconFadeFrequency ∧
        p.AttachedToPartyId = decodeInt32 i.ExtraMapIconId.toList) ∧
    (∀ p rest1, Editor.readParty party 1136
        (i.head ++ i.Marshall.toList ++ i.IgnorePlayerTimer.toList ++ i.BannerMapIconId.toList ++
          i.extra ++ i.AttachedToPartyId.toList ++ Y) = .ok p rest1 →
        p.BannerMapIconId = decodeInt32 i.BannerMapIconId.toList ∧
        p.ExtraMapIconId = party.ExtraMapIconId ∧
        p.ExtraMapIconUpDownDistance = party.ExtraMapIconUpDownDistance ∧
        p.ExtraMapIconUpDownFrequency = party.ExtraMapIconUpDownFrequency ∧
        p.ExtraMapIconRotateFrequency = party.ExtraMapIconRotateFrequency ∧
        p.ExtraMapIconFadeFrequency = party.ExtraMapIconFadeFrequency ∧
        p.AttachedToPartyId = decodeInt32 i.ExtraMapIconId.toList) ∧
    (∀ p rest1, Main.Party.Read party 1138
        (i.head ++ i.Marshall.toList ++ i.IgnorePlayerTimer.toList ++ i.BannerMapIconId.toList ++
          i.extra ++ i.AttachedToPartyId.toList ++ Y) = .ok p rest1 →
        p.BannerMapIconId = decodeInt32 i.BannerMapIconId.toList ∧
        p.ExtraMapIconId = decodeInt32 i.ExtraMapIconId.toList ∧
        p.ExtraMapIconUpDownDistance = decodeFloatReflect i.ExtraMapIconUpDownDistance.toList ∧
        p.ExtraMapIconUpDownFrequency = decodeFloatReflect i.ExtraMapIconUpDownFrequency.toList ∧
        p.ExtraMapIconRotateFrequency = decodeFloatReflect i.ExtraMapIconRotateFrequency.toList ∧
        p.ExtraMapIconFadeFrequency = decodeFloatReflect i.ExtraMapIconFadeFrequency.toList ∧
        p.AttachedToPartyId = decodeInt32 i.AttachedToPartyId.toList) ∧
    (∀ p rest1, Editor.readParty party 1138
        (i.head ++ i.Marshall.toList ++ i.IgnorePlayerTimer.toList ++ i.BannerMapIconId.toList ++
          i.extra ++ i.AttachedToPartyId.toList ++ Y) = .ok p rest1 →
        p.BannerMapIconId = decodeInt32 i.BannerMapIconId.toList ∧
        p.ExtraMapIconId = decodeInt32 i.ExtraMapIconId.toList ∧
        p.ExtraMapIconUpDownDistance = decodeFloat i.ExtraMapIconUpDownDistance.toList ∧
        p.ExtraMapIconUpDownFrequency = decodeFloat i.ExtraMapIconUpDownFrequency.toList ∧
        p.ExtraMapIconRotateFrequency = decodeFloat i.ExtraMapIconRotateFrequency.toList ∧
        p.ExtraMapIconFadeFrequency = decodeFloat i.ExtraMapIconFadeFrequency.toList ∧
        p.AttachedToPartyId = decodeInt32 i.AttachedToPartyId.toList) :=
  have m36 := main_party_layout party 1136 i rest h
  have e36 := editor_party_layout party 1136 i rest h
  have m38 := main_party_layout party 1138 i rest h
  have e38 := editor_party_layout party 1138 i rest h
  ⟨⟨by simpa [PartyImage.bytes, PartyImage.afterBandit, PartyImage.afterBanner,
        PartyImage.afterAttached] using m36,
      by simpa [PartyImage.bytes, PartyImage.afterBandit, PartyImage.afterBanner,
        PartyImage.afterAttached] using e36⟩,
    ⟨by simpa [PartyImage.bytes, PartyImage.afterBandit, PartyImage.afterBanner,
        PartyImage.afterAttached] using m38,
      by simpa [PartyImage.bytes, PartyImage.afterBandit, PartyImage.afterBanner,
        PartyImage.afterAttached] using e38⟩,
    ⟨by simp [PartyImage.extra], rfl, rfl, rfl, rfl, rfl, rfl, rfl, rfl, rfl, rfl, rfl, rfl,
      rfl, rfl, rfl, rfl, rfl, rfl, rfl, rfl, rfl, rfl, rfl, rfl, rfl, rfl, rfl, rfl, rfl,
      rfl, rfl, rfl, rfl, rfl⟩,
    main_party_without_extra party 1136 i Y h.1 h.2.1 h.2.2.1 h.2.2.2.1 (by decide) (by decide),
    editor_party_without_extra party 1136 i Y h.1 h.2.1 h.2.2.1 h.2.2.2.1 (by decide) (by decide),
    main_party_with_extra party 1138 i Y h.1 h.2.1 h.2.2.1 h.2.2.2.1 (by decide) (by decide),
    editor_party_with_extra party 1138 i Y h.1 h.2.1 h.2.2.1 h.2.2.2.1 (by decide) (by decide)⟩

theorem extended_map_icon_boundary_witness :
    sampleParty.wf ∧
    (Main.Party.Read Party.zero 1138
        (sampleParty.head ++ sampleParty.Marshall.toList ++
          sampleParty.IgnorePlayerTimer.toList ++ sampleParty.BannerMapIconId.toList ++
          sampleParty.extra ++ sampleParty.AttachedToPartyId.toList ++ sampleParty.tail ++
          [0x41]) =
        .ok (sampleParty.mainParty true true false Party.zero) [0x41] ∧
      Editor.readParty Party.zero 1138
        (sampleParty.head ++ sampleParty.Marshall.toList ++
          sampleParty.IgnorePlayerTimer.toList ++ sampleParty.BannerMapIconId.toList ++
          sampleParty.extra ++ sampleParty.AttachedToPartyId.toList ++ sampleParty.tail ++
          [0x41]) =
        .ok (sampleParty.editorParty true true false Party.zero) [0x41]) ∧
    (Main.Party.Read Party.zero 1136 (sampleParty.bytes true true false)).returned.map
        (fun p => (p.ExtraMapIconId, p.AttachedToPartyId)) = some (0, 67305985) ∧
    (Editor.readParty Party.zero 1136 (sampleParty.bytes true true false)).returned.map
        (fun p => (p.ExtraMapIconId, p.AttachedToPartyId)) = some (0, 67305985) ∧
    (Main.Party.Read Party.zero 1138 (sampleParty.bytes true true false)).returned.map
        (fun p => (p.ExtraMapIconId, p.AttachedToPartyId)) = some (67305985, 404166165) ∧
    (Editor.readParty Party.zero 1138 (sampleParty.bytes true true false)).returned.map
        (fun p => (p.ExtraMapIconId, p.AttachedToPartyId)) = some (67305985, 404166165) ∧
    decodeInt32 sampleParty.ExtraMapIconId.toList = 67305985 ∧
    decodeInt32 sampleParty.AttachedToPartyId.toList = 404166165 :=
  ⟨sampleParty_wf,
    (extended_map_icon_boundary Party.zero sampleParty [0x41] sampleParty.tail
      sampleParty_wf).2.1,
    by decide!, by decide!, by decide!, by decide!, by decide, by decide⟩

theorem bind_at {α β : Type} (n o : Nat) (decode : List Byte → α) (data : α) (k : α → Rd β)
    (X : File) (h : o + n ≤ X.length) :
    (binary.Read n decode data >>= k) (X.drop o) =
      k (decode ((X.drop o).take n)) (X.drop (o + n)) := by
  rcases binaryRead_cases n decode data (X.drop o) with ⟨_, e⟩ | ⟨hlt, _⟩
  · rw [bind_of_ok e, List.drop_drop]
  · rw [List.length_drop] at hlt
    omega

theorem main_party_shifted (party : Party) (i : PartyImage) (X : File)
    (h1 : i.Id.wf) (h2 : i.Name.wf) (hst : decodeInt32 i.NumStacks.toList = i.Stacks.length)
    (h3 : i.ExtraText.wf) (hX : 29 ≤ X.length) :
    ∀ p rest, Main.Party.Read party 1137
        (i.head ++ i.Marshall.toList ++ i.IgnorePlayerTimer.toList ++
          i.BannerMapIconId.toList ++ X) = .ok p rest →
      p.ExtraMapIconId = decodeInt32 (X.take 4) ∧
      p.ExtraMapIconUpDownDistance = decodeFloatReflect ((X.drop 4).take 4) ∧
      p.ExtraMapIconUpDownFrequency = decodeFloatReflect ((X.drop 8).take 4) ∧
      p.ExtraMapIconRotateFrequency = decodeFloatReflect ((X.drop 12).take 4) ∧
      p.ExtraMapIconFadeFrequency = decodeFloatReflect ((X.drop 16).take 4) ∧
      p.AttachedToPartyId = decodeInt32 ((X.drop 20).take 4) ∧
      p.IsAttached = decodeBool ((X.drop 24).take 1) ∧
      p.NumAttachedPartyIds = decodeInt32 ((X.drop 25).take 4) := by
  intro p rest' e
  have hm : ((1137 : Int32) ≥ 900 ∧ (1137 : Int32) < 1000) ∨ (1137 : Int32) ≥ 1020 := by decide
  have he : (1137 : Int32) ≥ 1137 := by decide
  have hr : ¬ (1137 : Int32) ≥ 1162 := by decide
  simp only [Main.Party.Read, PartyImage.head, List.append_assoc, if_pos hm,
    if_pos he, if_neg hr, Main.Int32.Read, Main.Int64.Read, Main.UInt64.Read,
    Main.Float.Read, Main.Bool.Read, List.singleton_append,
    List.cons_append, List.nil_append] at e
  rw [bind_of_ok (main_text_layout _ _ _ h1), bind_of_ok (main_text_layout _ _ _ h2)] at e
  iterate 17 rw [bind_vec] at e
  rw [hst, bind_of_ok (make_natCast _ _ _),
    bind_of_ok (main_stacks_layout _ _ _ (List.length_replicate _ _)), bind_vec,
    bind_of_ok (binaryRead_cons1 _ _ _ _), bind_of_ok (main_text_layout _ _ _ h3)] at e
  iterate 11 rw [bind_vec] at e
  rw [← List.drop_zero X] at e
  obtain ⟨d, mid, hd, e⟩ := bind_ok _ _ _ _ _ e
  rw [bind_at 4 0 _ _ _ X (by omega), bind_at 4 _ _ _ _ X (by omega),
    bind_at 4 _ _ _ _ X (by omega), bind_at 4 _ _ _ _ X (by omega),
    bind_at 4 _ _ _ _ X (by omega)] at hd
  cases hd
  rw [bind_at 4 _ _ _ _ X (by omega), bind_pure_run, bind_at 1 _ _ _ _ X (by omega),
    bind_at 4 _ _ _ _ X (by omega)] at e
  iterate 9 (obtain ⟨_, _, _, e⟩ := bind_ok _ _ _ _ _ e)
  cases e
  exact ⟨rfl, rfl, rfl, rfl, rfl, rfl, rfl, rfl⟩

theorem editor_party_shifted (party : Party) (i : PartyImage) (X : File)
    (h1 : i.Id.wf) (h2 : i.Name.wf) (hst : decodeInt32 i.NumStacks.toList = i.Stacks.length)
    (h3 : i.ExtraText.wf) (hX : 9 ≤ X.length) :
    ∀ p rest, Editor.readParty party 1137
        (i.head ++ i.Marshall.toList ++ i.IgnorePlayerTimer.toList ++
          i.BannerMapIconId.toList ++ X) = .ok p rest →
      p.ExtraMapIconId = party.ExtraMapIconId ∧
      p.ExtraMapIconUpDownDistance = party.ExtraMapIconUpDownDistance ∧
      p.ExtraMapIconUpDownFrequency = party.ExtraMapIconUpDownFrequency ∧
      p.ExtraMapIconRotateFrequency = party.ExtraMapIconRotateFrequency ∧
      p.ExtraMapIconFadeFrequency = party.ExtraMapIconFadeFrequency ∧
      p.AttachedToPartyId = decodeInt32 (X.take 4) ∧
      p.IsAttached = decodeBool ((X.drop 4).take 1) ∧
      p.NumAttachedPartyIds = decodeInt32 ((X.drop 5).take 4) := by
  intro p rest' e
  have hm : ((1137 : Int32) ≥ 900 ∧ (1137 : Int32) < 1000) ∨ (1137 : Int32) ≥ 1020 := by decide
  have he : ¬ (1137 : Int32) > 1137 := by decide
  have hr : ¬ (1137 : Int32) ≥ 1162 := by decide
  simp only [Editor.readParty, PartyImage.head, List.append_assoc, if_pos hm,
    if_neg he, if_neg hr, List.singleton_append,
    List.cons_append, List.nil_append] at e
  rw [bind_of_ok (editor_text_layout _ _ _ h1), bind_of_ok (editor_text_layout _ _ _ h2)] at e
  iterate 17 rw [bind_vec] at e
  rw [hst, bind_of_ok (make_natCast _ _ _),
    bind_of_ok (editor_stacks_layout _ _ _ (List.length_replicate _ _)), bind_vec,
    bind_of_ok (binaryRead_cons1 _ _ _ _), bind_of_ok (editor_text_layout _ _ _ h3)] at e
  iterate 11 rw [bind_vec] at e
  rw [← List.drop_zero X] at e
  rw [bind_pure_run, bind_at 4 0 _ _ _ X (by omega), bind_pure_run,
    bind_at 1 _ _ _ _ X (by omega), bind_at 4 _ _ _ _ X (by omega)] at e
  iterate 9 (obtain ⟨_, _, _, e⟩ := bind_ok _ _ _ _ _ e)
  cases e
  exact ⟨rfl, rfl, rfl, rfl, rfl, rfl, rfl, rfl⟩

/-- Claim C14, as stated, fails: on one and the same 400-byte input at version
1137 both party readers return without a short read (bytes are left over),
`Party.Read` of `src/main.go` after 382 bytes and `readParty` of
`src/backend/editor.go` after 366 bytes: the difference is 16 bytes, not 20,
because `readParty` takes `NumAttachedPartyIds` from bytes that `Party.Read`
takes as part of `ExtraMapIconUpDownDistance`. -/
theorem same_input_difference_is_not_twenty :
    shiftedCountInput.length = 400 ∧
    (Main.Party.Read Party.zero 1137 shiftedCountInput).returned.map
        (fun p => (p.NumAttachedPartyIds, p.AttachedPartyIds, p.ExtraMapIconUpDownDistance)) =
      some (0, [], 256) ∧
    (Editor.readParty Party.zero 1137 shiftedCountInput).returned.map
        (fun p => (p.NumAttachedPartyIds, p.AttachedPartyIds, p.ExtraMapIconUpDownDistance)) =
      some (1, [0], 0) ∧
    consumed (Main.Party.Read Party.zero 1137) shiftedCountInput = 382 ∧
    consumed (Editor.readParty Party.zero 1137) shiftedCountInput = 366 ∧
    (Main.Party.Read Party.zero 1137 shiftedCountInput).rest.length = 18 ∧
    (Editor.readParty Party.zero 1137 shiftedCountInput).rest.length = 34 := by
  decide!

/-- Claim C14, amended: the two party readers disagree at exactly version 1137.
For every version `v`, `Party.Read` of `src/main.go` decodes the layout with
the five extended map-icon fields exactly when `v >= 1137` and `readParty` of
`src/backend/editor.go` exactly when `v > 1137`, and the two conditions differ
only at `v = 1137`. At version 1137 the layout `Party.Read` decodes holds the
20 bytes of the five fields between `BannerMapIconId` and `AttachedToPartyId`
and is 20 bytes longer than the layout `readParty` decodes to the same values
of all other fields (of all fields that are not `float32`, and of the
`float32` fields up to each reader's decoding of a float). On one and the same
input `Party.Read` takes the five fields from the 20 bytes after
`BannerMapIconId` and `AttachedToPartyId` from the four bytes after them, while
`readParty` leaves the five fields unchanged and takes `AttachedToPartyId` from
the first four of those 20 bytes. More precisely, on one and the same input
that goes on for at least 29 bytes `X` after `BannerMapIconId`, `Party.Read`
takes `AttachedToPartyId` from offset 20 of `X`, `IsAttached` from offset 24
and `NumAttachedPartyIds` from offset 25, and `readParty` takes them from
offsets 0, 4 and 5: these three fields are taken from offsets 20 bytes apart.
The fields after them follow arrays whose lengths are the counts read, which
the two readers take from different bytes, so nothing is said of their
offsets or of the number of bytes consumed on one and the same input. -/
theorem extended_map_icon_gate_differs_at_1137 (party : Party) (i : PartyImage)
    (rest Y : File) (h : i.wf) :
    (∀ v : Int32, (decide (v ≥ 1137) ≠ decide (v > 1137)) ↔ v = 1137) ∧
    (∀ v : Int32,
      Main.Party.Read party v
          (i.bytes (marshallPresent v) (decide (v ≥ 1137)) (reservedPresent v) ++ rest) =
        .ok (i.mainParty (marshallPresent v) (decide (v ≥ 1137)) (reservedPresent v) party) rest ∧
      Editor.readParty party v
          (i.bytes (marshallPresent v) (decide (v > 1137)) (reservedPresent v) ++ rest) =
        .ok (i.editorParty (marshallPresent v) (decide (v > 1137)) (reservedPresent v) party)
          rest) ∧
    (Main.Party.Read party 1137
        (i.head ++ i.Marshall.toList ++ i.IgnorePlayerTimer.toList ++ i.BannerMapIconId.toList ++
          i.extra ++ i.AttachedToPartyId.toList ++ i.tail ++ rest) =
        .ok (i.mainParty true true false party) rest ∧
      Editor.readParty party 1137
        (i.head ++ i.Marshall.toList ++ i.IgnorePlayerTimer.toList ++ i.BannerMapIconId.toList ++
          i.AttachedToPartyId.toList ++ i.tail ++ rest) =
        .ok (i.editorParty true false false party) rest ∧
      consumed (Main.Party.Read party 1137)
        (i.head ++ i.Marshall.toList ++ i.IgnorePlayerTimer.toList ++ i.BannerMapIconId.toList ++
          i.extra ++ i.AttachedToPartyId.toList ++ i.tail ++ rest) =
        consumed (Editor.readParty party 1137)
          (i.head ++ i.Marshall.toList ++ i.IgnorePlayerTimer.toList ++
            i.BannerMapIconId.toList ++ i.AttachedToPartyId.toList ++ i.tail ++ rest) + 20) ∧
    (∀ p rest1, Main.Party.Read party 1137
        (i.head ++ i.Marshall.toList ++ i.IgnorePlayerTimer.toList ++ i.BannerMapIconId.toList ++
          i.extra ++ i.AttachedToPartyId.toList ++ Y) = .ok p rest1 →
        p.BannerMapIconId = decodeInt32 i.BannerMapIconId.toList ∧
        p.ExtraMapIconId = decodeInt32 i.ExtraMapIconId.toList ∧
        p.ExtraMapIconUpDownDistance = decodeFloatReflect i.ExtraMapIconUpDownDistance.toList ∧
        p.ExtraMapIconUpDownFrequency = decodeFloatReflect i.ExtraMapIconUpDownFrequency.toList ∧
        p.ExtraMapIconRotateFrequency = decodeFloatReflect i.ExtraMapIconRotateFrequency.toList ∧
        p.ExtraMapIconFadeFrequency = decodeFloatReflect i.ExtraMapIconFadeFrequency.toList ∧
        p.AttachedToPartyId = decodeInt32 i.AttachedToPartyId.toList) ∧
    (∀ p rest1, Editor.readParty party 1137
        (i.head ++ i.Marshall.toList ++ i.IgnorePlayerTimer.toList ++ i.BannerMapIconId.toList ++
          i.extra ++ i.AttachedToPartyId.toList ++ Y) = .ok p rest1 →
        p.BannerMapIconId = decodeInt32 i.BannerMapIconId.toList ∧
        p.ExtraMapIconId = party.ExtraMapIconId ∧
        p.ExtraMapIconUpDownDistance = party.ExtraMapIconUpDownDistance ∧
        p.ExtraMapIconUpDownFrequency = party.ExtraMapIconUpDownFrequency ∧
        p.ExtraMapIconRotateFrequency = party.ExtraMapIconRotateFrequency ∧
        p.ExtraMapIconFadeFrequency = party.ExtraMapIconFadeFrequency ∧
        p.AttachedToPartyId = decodeInt32 i.ExtraMapIconId.toList) ∧
    (∀ X : File, 29 ≤ X.length →
      (∀ p rest1, Main.Party.Read party 1137
          (i.head ++ i.Marshall.toList ++ i.IgnorePlayerTimer.toList ++
            i.BannerMapIconId.toList ++ X) = .ok p rest1 →
        p.ExtraMapIconId = decodeInt32 (X.take 4) ∧
        p.ExtraMapIconUpDownDistance = decodeFloatReflect ((X.drop 4).take 4) ∧
        p.ExtraMapIconUpDownFrequency = decodeFloatReflect ((X.drop 8).take 4) ∧
        p.ExtraMapIconRotateFrequency = decodeFloatReflect ((X.drop 12).take 4) ∧
        p.ExtraMapIconFadeFrequency = decodeFloatReflect ((X.drop 16).take 4) ∧
        p.AttachedToPartyId = decodeInt32 ((X.drop 20).take 4) ∧
        p.IsAttached = decodeBool ((X.drop 24).take 1) ∧
        p.NumAttachedPartyIds = decodeInt32 ((X.drop 25).take 4)) ∧
      (∀ p rest1, Editor.readParty party 1137
          (i.head ++ i.Marshall.toList ++ i.IgnorePlayerTimer.toList ++
            i.BannerMapIconId.toList ++ X) = .ok p rest1 →
        p.ExtraMapIconId = party.ExtraMapIconId ∧
        p.ExtraMapIconUpDownDistance = party.ExtraMapIconUpDownDistance ∧
        p.ExtraMapIconUpDownFrequency = party.ExtraMapIconUpDownFrequency ∧
        p.ExtraMapIconRotateFrequency = party.ExtraMapIconRotateFrequency ∧
        p.ExtraMapIconFadeFrequency = party.ExtraMapIconFadeFrequency ∧
        p.AttachedToPartyId = decodeInt32 (X.take 4) ∧
        p.IsAttached = decodeBool ((X.drop 4).take 1) ∧
        p.NumAttachedPartyIds = decodeInt32 ((X.drop 5).take 4))) := by
  have m37 : Main.Party.Read party 1137
        (i.head ++ i.Marshall.toList ++ i.IgnorePlayerTimer.toList ++ i.BannerMapIconId.toList ++
          i.extra ++ i.AttachedToPartyId.toList ++ i.tail ++ rest) =
        .ok (i.mainParty true true false party) rest := by
    simpa [PartyImage.bytes, PartyImage.afterBandit, PartyImage.afterBanner,
      PartyImage.afterAttached] using main_party_layout party 1137 i rest h
  have e37 : Editor.readParty party 1137
        (i.head ++ i.Marshall.toList ++ i.IgnorePlayerTimer.toList ++ i.BannerMapIconId.toList ++
          i.AttachedToPartyId.toList ++ i.tail ++ rest) =
        .ok (i.editorParty true false false party) rest := by
    simpa [PartyImage.bytes, PartyImage.afterBandit, PartyImage.afterBanner,
      PartyImage.afterAttached] using editor_party_layout party 1137 i rest h
  refine ⟨?_, fun v => ⟨main_party_layout party v i rest h, editor_party_layout party v i rest h⟩,
    ⟨m37, e37, ?_⟩,
    main_party_with_extra party 1137 i Y h.1 h.2.1 h.2.2.1 h.2.2.2.1 (by decide) (by decide),
    editor_party_without_extra party 1137 i Y h.1 h.2.1 h.2.2.1 h.2.2.2.1 (by decide)
      (by decide),
    fun X hX => ⟨main_party_shifted party i X h.1 h.2.1 h.2.2.1 h.2.2.2.1 hX,
      editor_party_shifted party i X h.1 h.2.1 h.2.2.1 h.2.2.2.1 (by omega)⟩⟩
  · intro v
    constructor
    · intro hne
      by_contra hv
      apply hne
      have hiff : v ≥ 1137 ↔ v > 1137 := by
        constructor
        · intro hge
          exact lt_of_le_of_ne hge (fun heq => hv heq.symm)
        · intro hgt
          exact le_of_lt hgt
      exact decide_eq_decide.2 hiff
    · rintro rfl
      decide
  · rw [consumed_of_ok m37, consumed_of_ok e37]
    simp [PartyImage.extra]
    omega

theorem extended_map_icon_gate_differs_at_1137_witness :
    sampleParty.wf ∧
    (Main.Party.Read Party.zero 1137
        (sampleParty.head ++ sampleParty.Marshall.toList ++
          sampleParty.IgnorePlayerTimer.toList ++ sampleParty.BannerMapIconId.toList ++
          sampleParty.extra ++ sampleParty.AttachedToPartyId.toList ++ sampleParty.tail ++
          [0x41]) =
        .ok (sampleParty.mainParty true true false Party.zero) [0x41] ∧
      Editor.readParty Party.zero 1137
        (sampleParty.head ++ sampleParty.Marshall.toList ++
          sampleParty.IgnorePlayerTimer.toList ++ sampleParty.BannerMapIconId.toList ++
          sampleParty.AttachedToPartyId.toList ++ sampleParty.tail ++ [0x41]) =
        .ok (sampleParty.editorParty true false false Party.zero) [0x41] ∧
      consumed (Main.Party.Read Party.zero 1137)
        (sampleParty.head ++ sampleParty.Marshall.toList ++
          sampleParty.IgnorePlayerTimer.toList ++ sampleParty.BannerMapIconId.toList ++
          sampleParty.extra ++ sampleParty.AttachedToPartyId.toList ++ sampleParty.tail ++
          [0x41]) =
        consumed (Editor.readParty Party.zero 1137)
          (sampleParty.head ++ sampleParty.Marshall.toList ++
            sampleParty.IgnorePlayerTimer.toList ++ sampleParty.BannerMapIconId.toList ++
            sampleParty.AttachedToPartyId.toList ++ sampleParty.tail ++ [0x41]) + 20) ∧
    (Main.Party.Read Party.zero 1137 (sampleParty.bytes true true false)).returned.map
        (fun p => (p.ExtraMapIconId, p.AttachedToPartyId, p.IsAttached,
          p.NumAttachedPartyIds)) = some (67305985, 404166165, true, 0) ∧
    (Editor.readParty Party.zero 1137 (sampleParty.bytes true true false)).returned.map
        (fun p => (p.ExtraMapIconId, p.AttachedToPartyId, p.IsAttached,
          p.NumAttachedPartyIds)) = some (0, 67305985, false, 0) ∧
    (sampleParty.bytes true true false).length = 382 ∧
    (sampleParty.bytes true false false).length = 362 :=
  ⟨sampleParty_wf,
    (extended_map_icon_gate_differs_at_1137 Party.zero sampleParty [0x41] sampleParty.tail
      sampleParty_wf).2.2.1,
    by decide!, by decide!, by decide, by decide⟩

/-- Claim C15: in both party readers and for every version `v`, the reserved
int32 `_unused2` is read exactly when `v >= 1162`. When it is, its four bytes
stand between `AttachedToPartyId` and the `IsAttached` byte (the first byte of
`tail`); when it is not, `IsAttached` is the byte directly after
`AttachedToPartyId`, four bytes fewer are consumed and `_unused2` keeps its
previous value. It is absent at 1161 and present at 1162. -/
theorem reserved_field_gate (party : Party) (v : Int32) (i : PartyImage) (rest : File)
    (h : i.wf) :
    (reservedPresent v = true ↔ v ≥ 1162) ∧
    (reservedPresent v = true →
      Main.Party.Read party v
          (i.head ++ i.Marshall.toList ++ i.IgnorePlayerTimer.toList ++
            i.BannerMapIconId.toList ++ i.extra ++ i.AttachedToPartyId.toList ++
            i._unused2.toList ++ i.tail ++ rest) =
        .ok (i.mainParty true true true party) rest ∧
      Editor.readParty party v
          (i.head ++ i.Marshall.toList ++ i.IgnorePlayerTimer.toList ++
            i.BannerMapIconId.toList ++ i.extra ++ i.AttachedToPartyId.toList ++
            i._unused2.toList ++ i.tail ++ rest) =
        .ok (i.editorParty true true true party) rest) ∧
    (reservedPresent v = false →
      Main.Party.Read party v
          (i.head ++ (if marshallPresent v then i.Marshall.toList else []) ++
            i.IgnorePlayerTimer.toList ++ i.BannerMapIconId.toList ++
            (if v ≥ 1137 then i.extra else []) ++ i.AttachedToPartyId.toList ++
            i.tail ++ rest) =
        .ok (i.mainParty (marshallPresent v) (decide (v ≥ 1137)) false party) rest ∧
      Editor.readParty party v
          (i.head ++ (if marshallPresent v then i.Marshall.toList else []) ++
            i.IgnorePlayerTimer.toList ++ i.BannerMapIconId.toList ++
            (if v > 1137 then i.extra else []) ++ i.AttachedToPartyId.toList ++
            i.tail ++ rest) =
        .ok (i.editorParty (marshallPresent v) (decide (v > 1137)) false party) rest) ∧
    (i.tail = i.IsAttached :: (i.AttachedPartyIds.bytes ++ i.ParticleSystemIds.bytes ++
        NoteImage.block i.Notes.toList ++ i.Slots.bytes) ∧
      ∀ m e, (i.mainParty m e true party)._unused2 = decodeInt32 i._unused2.toList ∧
        (i.mainParty m e false party)._unused2 = party._unused2 ∧
        (i.mainParty m e true party).AttachedToPartyId = decodeInt32 i.AttachedToPartyId.toList ∧
        (i.mainParty m e false party).AttachedToPartyId = decodeInt32 i.AttachedToPartyId.toList ∧
        (i.mainParty m e true party).IsAttached = decodeBool [i.IsAttached] ∧
        (i.mainParty m e false party).IsAttached = decodeBool [i.IsAttached] ∧
        (i.editorParty m e true party)._unused2 = decodeInt32 i._unused2.toList ∧
        (i.editorParty m e false party)._unused2 = party._unused2 ∧
        (i.editorParty m e true party).AttachedToPartyId = decodeInt32 i.AttachedToPartyId.toList ∧
        (i.editorParty m e false party).AttachedToPartyId = decodeInt32 i.AttachedToPartyId.toList ∧
        (i.editorParty m e true party).IsAttached = decodeBool [i.IsAttached] ∧
        (i.editorParty m e false party).IsAttached = decodeBool [i.IsAttached] ∧
        (i.bytes m e true).length = (i.bytes m e false).length + 4) ∧
    (reservedPresent 1161 = false ∧ reservedPresent 1162 = true) := by
  have e1 := main_party_layout party v i rest h
  have e2 := editor_party_layout party v i rest h
  refine ⟨by simp [reservedPresent], ?_, ?_, ⟨?_, ?_⟩, by decide⟩
  · intro hr
    have hr' : decide (v ≥ 1162) = true := hr
    have h1162 : v ≥ 1162 := of_decide_eq_true hr'
    have hm : decide ((v ≥ 900 ∧ v < 1000) ∨ v ≥ 1020) = true :=
      decide_eq_true (Or.inr (le_trans (by decide : (1020 : Int32) ≤ 1162) h1162))
    have he : decide (v ≥ 1137) = true :=
      decide_eq_true (le_trans (by decide : (1137 : Int32) ≤ 1162) h1162)
    have he' : decide (v > 1137) = true :=
      decide_eq_true (lt_of_lt_of_le (by decide : (1137 : Int32) < 1162) h1162)
    rw [hm, he, hr'] at e1
    rw [hm, he', hr'] at e2
    constructor
    · simpa only [PartyImage.bytes, PartyImage.afterBandit, PartyImage.afterBanner,
        PartyImage.afterAttached, if_true, List.append_assoc] using e1
    · simpa only [PartyImage.bytes, PartyImage.afterBandit, PartyImage.afterBanner,
        PartyImage.afterAttached, if_true, List.append_assoc] using e2
  · intro hr
    have hr' : decide (v ≥ 1162) = false := hr
    rw [hr'] at e1 e2
    constructor
    · simpa only [PartyImage.bytes, PartyImage.afterBandit, PartyImage.afterBanner,
        PartyImage.afterAttached, marshallPresent, Bool.false_eq_true, if_false,
        decide_eq_true_eq, List.nil_append, List.append_assoc] using e1
    · simpa only [PartyImage.bytes, PartyImage.afterBandit, PartyImage.afterBanner,
        PartyImage.afterAttached, marshallPresent, Bool.false_eq_true, if_false,
        decide_eq_true_eq, List.nil_append, List.append_assoc] using e2
  · simp [PartyImage.tail]
  · intro m e
    refine ⟨rfl, rfl, rfl, rfl, rfl, rfl, rfl, rfl, rfl, rfl, rfl, rfl, ?_⟩
    simp [PartyImage.bytes, PartyImage.afterBandit, PartyImage.afterBanner,
      PartyImage.afterAttached]
    omega

theorem reserved_field_gate_witness :
    sampleParty.wf ∧
    (Main.Party.Read Party.zero 1162
          (sampleParty.head ++ sampleParty.Marshall.toList ++
            sampleParty.IgnorePlayerTimer.toList ++ sampleParty.BannerMapIconId.toList ++
            sampleParty.extra ++ sampleParty.AttachedToPartyId.toList ++
            sampleParty._unused2.toList ++ sampleParty.tail ++ [0x41]) =
        .ok (sampleParty.mainParty true true true Party.zero) [0x41] ∧
      Editor.readParty Party.zero 1162
          (sampleParty.head ++ sampleParty.Marshall.toList ++
            sampleParty.IgnorePlayerTimer.toList ++ sampleParty.BannerMapIconId.toList ++
            sampleParty.extra ++ sampleParty.AttachedToPartyId.toList ++
            sampleParty._unused2.toList ++ sampleParty.tail ++ [0x41]) =
        .ok (sampleParty.editorParty true true true Party.zero) [0x41]) ∧
    (Main.Party.Read Party.zero 1161
          (sampleParty.head ++
            (if marshallPresent 1161 then sampleParty.Marshall.toList else []) ++
            sampleParty.IgnorePlayerTimer.toList ++ sampleParty.BannerMapIconId.toList ++
            (if (1161 : Int32) ≥ 1137 then sampleParty.extra else []) ++
            sampleParty.AttachedToPartyId.toList ++ sampleParty.tail ++ [0x41]) =
        .ok (sampleParty.mainParty (marshallPresent 1161) (decide ((1161 : Int32) ≥ 1137)) false
          Party.zero) [0x41] ∧
      Editor.readParty Party.zero 1161
          (sampleParty.head ++
            (if marshallPresent 1161 then sampleParty.Marshall.toList else []) ++
            sampleParty.IgnorePlayerTimer.toList ++ sampleParty.BannerMapIconId.toList ++
            (if (1161 : Int32) > 1137 then sampleParty.extra else []) ++
            sampleParty.AttachedToPartyId.toList ++ sampleParty.tail ++ [0x41]) =
        .ok (sampleParty.editorParty (marshallPresent 1161) (decide ((1161 : Int32) > 1137)) false
          Party.zero) [0x41]) ∧
    (sampleParty.mainParty true true true Party.zero)._unused2 = 84215045 ∧
    (sampleParty.mainParty true true false Party.zero)._unused2 = 0 ∧
    (sampleParty.mainParty true true true Party.zero).IsAttached = true ∧
    (sampleParty.editorParty true true true Party.zero)._unused2 = 84215045 ∧
    (sampleParty.editorParty true true false Party.zero)._unused2 = 0 ∧
    (sampleParty.editorParty true true true Party.zero).IsAttached = true ∧
    (sampleParty.bytes true true true).length = 386 ∧
    (sampleParty.bytes true true false).length = 382 :=
  ⟨sampleParty_wf,
    (reserved_field_gate Party.zero 1162 sampleParty [0x41] sampleParty_wf).2.1 (by decide),
    (reserved_field_gate Party.zero 1161 sampleParty [0x41] sampleParty_wf).2.2.1 (by decide),
    by decide, by decide, by decide, by decide, by decide, by decide, by decide, by decide⟩

/-! ### The root-level difficulty block -/

theorem count_of_readEach {α : Type} {rd : α → Rd α} {zero : α} {n : Int} {xs ys : List α}
    {f1 m1 f2 m2 : File} (hr : readEach rd xs f2 = .ok ys m2)
    (hm : make zero n f1 = .ok xs m1) : (ys.length : Int) = n := by
  rw [readEach_length hr, make_length hm]
  exact Int.toNat_of_nonneg (make_nonneg hm)

theorem count_of_readSlice {α : Type} {size : Nat} {decode : List Byte → α} {zero : α} {n : Int}
    {xs ys : List α} {f1 m1 f2 m2 : File} (hr : binary.ReadSlice size decode xs f2 = .ok ys m2)
    (hm : make zero n f1 = .ok xs m1) : (ys.length : Int) = n := by
  rw [readSlice_length hr, make_length hm]
  exact Int.toNat_of_nonneg (make_nonneg hm)

theorem readEach_all {α : Type} {rd : α → Rd α} {P : α → Prop}
    (h : ∀ x file, (rd x file).Sat (fun y _ => P y)) {xs ys : List α} {file rest : File}
    (hr : readEach rd xs file = .ok ys rest) : ∀ y ∈ ys, P y :=
  (sat_elim (readEach_sat h xs file) hr).2

theorem readEach_all_of {α : Type} {rd : α → Rd α} {P0 P : α → Prop}
    (h : ∀ x file, P0 x → (rd x file).Sat (fun y _ => P y)) :
    ∀ (xs : List α) (file : File), (∀ x ∈ xs, P0 x) →
      (readEach rd xs file).Sat (fun ys _ => ∀ y ∈ ys, P y) := by
  intro xs
  induction xs with
  | nil =>
    intro file _
    simp only [readEach]
    apply sat_pure
    simp
  | cons x xs ih =>
    intro file hxs
    simp only [readEach]
    apply sat_bind_keep; intro y mid hy
    apply sat_bind_keep; intro ys mid2 hys
    apply sat_pure
    intro z hz
    rcases List.mem_cons.1 hz with rfl | hz
    · exact sat_elim (h x file (hxs x (List.mem_cons_self _ _))) hy
    · exact sat_elim (ih mid (fun x1 hx1 => hxs x1 (List.mem_cons_of_mem _ hx1))) hys z hz

theorem main_quest_slots (quest : Quest) (file : File) :
    (Main.Quest.Read quest file).Sat (fun q _ => q.slotsMatch) := by
  unfold Main.Quest.Read
  repeat (apply sat_bind_keep; intro _ _ _)
  apply sat_pure
  apply count_of_readEach <;> assumption

theorem editor_quest_slots (quest : Quest) (file : File) :
    (Editor.readQuest quest file).Sat (fun q _ => q.slotsMatch) := by
  unfold Editor.readQuest
  repeat (apply sat_bind_keep; intro _ _ _)
  apply sat_pure
  apply count_of_readSlice <;> assumption

theorem main_site_slots (site : Site) (file : File) :
    (Main.Site.Read site file).Sat (fun s _ => s.slotsMatch) := by
  unfold Main.Site.Read
  repeat (apply sat_bind_keep; intro _ _ _)
  apply sat_pure
  apply count_of_readEach <;> assumption

theorem editor_site_slots (site : Site) (file : File) :
    (Editor.readSite site file).Sat (fun s _ => s.slotsMatch) := by
  unfold Editor.readSite
  repeat (apply sat_bind_keep; intro _ _ _)
  apply sat_pure
  apply count_of_readSlice <;> assumption

theorem main_faction_slots (faction : Main.Faction) (file : File) :
    (Main.Faction.Read faction file).Sat (fun f _ => f.slotsMatch) := by
  unfold Main.Faction.Read
  repeat (apply sat_bind_keep; intro _ _ _)
  apply sat_pure
  apply count_of_readEach <;> assumption

theorem editor_faction_slots (faction : Editor.Faction) (n : Int32) (file : File) :
    (Editor.readFaction faction n file).Sat (fun f _ => f.slotsMatch) := by
  unfold Editor.readFaction
  repeat (apply sat_bind_keep; intro _ _ _)
  apply sat_pure
  apply count_of_readSlice <;> assumption

theorem main_template_slots (partyTemplate : PartyTemplate) (file : File) :
    (Main.PartyTemplate.Read partyTemplate file).Sat (fun t _ => t.slotsMatch) := by
  unfold Main.PartyTemplate.Read
  repeat (apply sat_bind_keep; intro _ _ _)
  apply sat_pure
  apply count_of_readEach <;> assumption

theorem editor_template_slots (partyTemplate : PartyTemplate) (file : File) :
    (Editor.readPartyTemplate partyTemplate file).Sat (fun t _ => t.slotsMatch) := by
  unfold Editor.readPartyTemplate
  repeat (apply sat_bind_keep; intro _ _ _)
  apply sat_pure
  apply count_of_readSlice <;> assumption

theorem main_party_arrays (party : Party) (v : Int32) (file : File) :
    (Main.Party.Read party v file).Sat (fun p _ => p.arraysMatch) := by
  unfold Main.Party.Read
  iterate 35 (apply sat_bind_keep; intro _ _ _)
  apply sat_bind_keep; rintro ⟨_, _, _, _, _⟩ _ _
  dsimp only
  repeat (apply sat_bind_keep; intro _ _ _)
  apply sat_pure
  constructor
  · apply count_of_readEach <;> assumption
  · apply count_of_readEach <;> assumption

theorem editor_party_arrays (party : Party) (v : Int32) (file : File) :
    (Editor.readParty party v file).Sat (fun p _ => p.arraysMatch) := by
  unfold Editor.readParty
  iterate 35 (apply sat_bind_keep; intro _ _ _)
  apply sat_bind_keep; rintro ⟨_, _, _, _, _⟩ _ _
  dsimp only
  repeat (apply sat_bind_keep; intro _ _ _)
  apply sat_pure
  constructor
  · apply count_of_readSlice <;> assumption
  · apply count_of_readEach <;> assumption

theorem main_record_arrays (v : Int32) (partyRecord : PartyRecord) (file : File)
    (h : partyRecord.Party.arraysMatch) :
    (Main.PartyRecord.Read partyRecord v file).Sat (fun r _ => r.Party.arraysMatch) := by
  unfold Main.PartyRecord.Read
  apply sat_bind_keep; intro valid mid _
  by_cases hv : valid = 1
  · rw [if_pos hv]
    iterate 2 (apply sat_bind_keep; intro _ _ _)
    apply sat_bind_keep; intro p mid2 hp
    apply sat_pure
    exact sat_elim (main_party_arrays _ _ _) hp
  · rw [if_neg hv]
    apply sat_pure
    exact h

theorem editor_record_arrays (v : Int32) (partyRecord : PartyRecord) (file : File)
    (h : partyRecord.Party.arraysMatch) :
    (Editor.readPartyRecord partyRecord v file).Sat (fun r _ => r.Party.arraysMatch) := by
  unfold Editor.readPartyRecord
  apply sat_bind_keep; intro valid mid _
  by_cases hv : valid = 1
  · rw [if_pos hv]
    iterate 2 (apply sat_bind_keep; intro _ _ _)
    apply sat_bind_keep; intro p mid2 hp
    apply sat_pure
    exact sat_elim (editor_party_arrays _ _ _) hp
  · rw [if_neg hv]
    apply sat_pure
    exact h

theorem records_arrays_of_make {rd : PartyRecord → Rd PartyRecord}
    (h : ∀ x file, x.Party.arraysMatch → (rd x file).Sat (fun r _ => r.Party.arraysMatch))
    {n : Int} {xs ys : List PartyRecord} {f1 m1 f2 m2 : File}
    (hr : readEach rd xs f2 = .ok ys m2) (hm : make PartyRecord.zero n f1 = .ok xs m1) :
    ∀ r ∈ ys, r.Party.arraysMatch := by
  have hz : ∀ x ∈ xs, x.Party.arraysMatch := by
    intro x hx
    rw [(make_ok _ _ _ _ _ hm).2.1] at hx
    rw [List.eq_of_mem_replicate hx]
    exact ⟨rfl, rfl⟩
  exact sat_elim (readEach_all_of h xs f2 hz) hr

theorem main_game_sections (game : Main.Game) (file : File) :
    (Main.Game.Read game file).Sat (fun g _ => g.sectionsMatch) := by
  unfold Main.Game.Read
  iterate 4 (apply sat_bind_keep; intro _ _ _)
  apply sat_bind_keep; rintro ⟨_, _, _, _, _⟩ _ _
  dsimp only
  iterate 49 (apply sat_bind_keep; intro _ _ _)
  apply sat_bind_keep; intro n _ _
  apply sat_bind_keep; intro fs0 midf hm
  apply sat_bind_keep; intro fs _ hr
  repeat (apply sat_bind_keep; intro _ _ _)
  apply sat_pure
  refine ⟨⟨?_, ?_, ?_, ?_, ?_, ?_, ?_, ?_, ?_, ?_⟩, ?_, ?_, ?_, ?_, ?_⟩
  iterate 10 (apply count_of_readEach <;> assumption)
  · apply readEach_all main_quest_slots; assumption
  · apply readEach_all main_site_slots; assumption
  · refine readEach_all (P := fun f => f.slotsMatch) ?_ hr
    intro x f
    apply sat_bind_keep; intro rel mid2 _
    exact main_faction_slots _ _
  · apply readEach_all main_template_slots; assumption
  · apply records_arrays_of_make (main_record_arrays _) <;> assumption

theorem editor_main_sections (file : File) :
    (Editor.main file).Sat (fun g _ => g.sectionsMatch) := by
  unfold Editor.main
  dsimp only
  iterate 4 (apply sat_bind_keep; intro _ _ _)
  apply sat_bind_keep; rintro ⟨_, _, _, _, _⟩ _ _
  dsimp only
  iterate 49 (apply sat_bind_keep; intro _ _ _)
  apply sat_bind_keep; intro n _ _
  apply sat_bind_keep; intro fs0 midf hm
  apply sat_bind_keep; intro fs _ hr
  repeat (apply sat_bind_keep; intro _ _ _)
  apply sat_pure
  refine ⟨⟨?_, ?_, ?_, ?_, ?_, ?_, ?_, ?_, ?_, ?_⟩, ?_, ?_, ?_, ?_, ?_⟩
  iterate 3 (apply count_of_readSlice <;> assumption)
  iterate 7 (apply count_of_readEach <;> assumption)
  · apply readEach_all editor_quest_slots; assumption
  · apply readEach_all editor_site_slots; assumption
  · exact readEach_all (P := fun f => f.slotsMatch) (fun x f => editor_faction_slots x n f) hr
  · apply readEach_all editor_template_slots; assumption
  · apply records_arrays_of_make (editor_record_arrays _) <;> assumption

/-- Claim C19: on every input on which a root decoder returns, the decoded root
has in each of its ten sections (global variables, triggers, simple triggers,
quests, info pages, sites, factions, map tracks, party templates, party
records) exactly as many records as the section count says, every quest, site,
faction and party template has as many slots as its `NumSlots`, and the party
of every party record has as many slots as its `NumSlots` and as many stacks as
its `NumStacks`; for `Game.Read` of `main.go` and for `main` of `editor.go`. -/
theorem section_counts_match_lengths (game : Main.Game) (file : File) :
    (Main.Game.Read game file).Sat (fun g _ => g.sectionsMatch) ∧
    (Editor.main file).Sat (fun s _ => s.sectionsMatch) :=
  ⟨main_game_sections game file, editor_main_sections file⟩

/-! ### The entity section of the root decoders -/

theorem binaryRead_two {α β : Type} (d1 : List Byte → α) (d2 : List Byte → β) (x1 a : α)
    (x2 b : β) (m0 m1 m2 : File) (h1 : binary.Read 4 d1 x1 m0 = .ok a m1)
    (h2 : binary.Read 4 d2 x2 m1 = .ok b m2) (hlen : 8 ≤ m0.length) :
    a = d1 (m0.take 4) ∧ b = d2 ((m0.drop 4).take 4) ∧ m2 = m0.drop 8 := by
  rcases binaryRead_cases 4 d1 x1 m0 with ⟨_, e1⟩ | ⟨hlt, _⟩
  · rw [e1] at h1
    cases h1
    rcases binaryRead_cases 4 d2 x2 (m0.drop 4) with ⟨_, e2⟩ | ⟨hlt, _⟩
    · rw [e2] at h2
      cases h2
      exact ⟨rfl, rfl, by rw [List.drop_drop]⟩
    · simp only [List.length_drop] at hlt
      omega
  · omega

theorem readEach_cons_inv {α : Type} {rd : α → Rd α} {xs : List α} {file rest : File} {y : α}
    {ys : List α} (h : readEach rd xs file = .ok (y :: ys) rest) :
    ∃ x xs1 mid, xs = x :: xs1 ∧ rd x file = .ok y mid ∧ readEach rd xs1 mid = .ok ys rest := by
  cases xs with
  | nil => simp [readEach] at h
  | cons x xs1 =>
    simp only [readEach] at h
    obtain ⟨y1, mid, hy, h⟩ := bind_ok _ _ _ _ _ h
    obtain ⟨ys1, mid2, hys, h⟩ := bind_ok _ _ _ _ _ h
    cases h
    exact ⟨x, xs1, mid, rfl, hy, hys⟩

theorem readEach_replicate_head {α : Type} {rd : α → Rd α} {zero : α} {n : Nat}
    {file rest : File} {y : α} {ys : List α}
    (h : readEach rd (List.replicate n zero) file = .ok (y :: ys) rest) :
    ∃ mid, rd zero file = .ok y mid ∧
      readEach rd (List.replicate (n - 1) zero) mid = .ok ys rest := by
  obtain ⟨x, xs1, mid, hx, hy, hys⟩ := readEach_cons_inv h
  cases n with
  | zero => simp at hx
  | succ k =>
    rw [List.replicate_succ] at hx
    cases hx
    exact ⟨mid, hy, by simpa using hys⟩

theorem main_game_entity_section (game : Main.Game) (file : File) :
    (Main.Game.Read game file).Sat (fun g rest => ∃ hmid tpl0 ft m0 m1 m2,
      Main.Header.Read game.Header file = .ok g.Header hmid ∧
      readEach Main.PartyTemplate.Read tpl0 ft = .ok g.PartyTemplates m0 ∧
      Main.Int32.Read game.NumPartyRecords m0 = .ok g.NumPartyRecords m1 ∧
      Main.Int32.Read game.NumPartiesCreated m1 = .ok g.NumPartiesCreated m2 ∧
      0 ≤ g.NumPartyRecords ∧
      readEach (fun partyRecord => Main.PartyRecord.Read partyRecord g.Header.GameVersion)
        (List.replicate g.NumPartyRecords.toNat PartyRecord.zero) m2 = .ok g.PartyRecords rest ∧
      g.PartyRecords.length = g.NumPartyRecords.toNat) := by
  unfold Main.Game.Read
  apply sat_bind_keep; intro hdr hmid hh
  iterate 3 (apply sat_bind_keep; intro _ _ _)
  apply sat_bind_keep; rintro ⟨_, _, _, _, _⟩ _ _
  dsimp only
  iterate 56 (apply sat_bind_keep; intro _ _ _)
  apply sat_bind_keep; intro tpl0 ft _
  apply sat_bind_keep; intro tpls m0 htp
  apply sat_bind_keep; intro n m1 hn
  apply sat_bind_keep; intro c m2 hc
  apply sat_bind_keep; intro rs0 m2a hmk
  apply sat_bind_keep; intro rs m3 hrs
  apply sat_pure
  obtain ⟨hn0, hrs0, hm2⟩ := make_ok _ _ _ _ _ hmk
  subst hrs0 hm2
  refine ⟨hmid, tpl0, ft, m0, m1, m2a, hh, htp, hn, hc, hn0, hrs, ?_⟩
  show rs.length = n.toNat
  rw [readEach_length hrs, List.length_replicate]

theorem editor_main_entity_section (file : File) :
    (Editor.main file).Sat (fun g rest => ∃ hmid tpl0 ft m0 m1 m2,
      Editor.readHeader Editor.Save.zero.Header file = .ok g.Header hmid ∧
      readEach Editor.readPartyTemplate tpl0 ft = .ok g.PartyTemplates m0 ∧
      binary.Read 4 decodeInt32 Editor.Save.zero.NumPartyRecords m0 =
        .ok g.NumPartyRecords m1 ∧
      binary.Read 4 decodeInt32 Editor.Save.zero.NumPartiesCreated m1 =
        .ok g.NumPartiesCreated m2 ∧
      0 ≤ g.NumPartyRecords ∧
      readEach (fun partyRecord => Editor.readPartyRecord partyRecord g.Header.GameVersion)
        (List.replicate g.NumPartyRecords.toNat PartyRecord.zero) m2 = .ok g.PartyRecords rest ∧
      g.PartyRecords.length = g.NumPartyRecords.toNat) := by
  unfold Editor.main
  dsimp only
  apply sat_bind_keep; intro hdr hmid hh
  iterate 3 (apply sat_bind_keep; intro _ _ _)
  apply sat_bind_keep; rintro ⟨_, _, _, _, _⟩ _ _
  dsimp only
  iterate 56 (apply sat_bind_keep; intro _ _ _)
  apply sat_bind_keep; intro tpl0 ft _
  apply sat_bind_keep; intro tpls m0 htp
  apply sat_bind_keep; intro n m1 hn
  apply sat_bind_keep; intro c m2 hc
  apply sat_bind_keep; intro rs0 m2a hmk
  apply sat_bind_keep; intro rs m3 hrs
  apply sat_pure
  obtain ⟨hn0, hrs0, hm2⟩ := make_ok _ _ _ _ _ hmk
  subst hrs0 hm2
  refine ⟨hmid, tpl0, ft, m0, m1, m2a, hh, htp, hn, hc, hn0, hrs, ?_⟩
  show rs.length = n.toNat
  rw [readEach_length hrs, List.length_replicate]

/-! ### The reserved int32 of a party in both readers -/

theorem main_party_reserved_read (party : Party) (v : Int32) (i : PartyImage) (b : Byte)
    (Y : File) (h1 : i.Id.wf) (h2 : i.Name.wf)
    (hst : decodeInt32 i.NumStacks.toList = i.Stacks.length) (h3 : i.ExtraText.wf)
    (hr : v ≥ 1162) :
    ∀ p rest, Main.Party.Read party v
        (i.head ++ i.Marshall.toList ++ i.IgnorePlayerTimer.toList ++
          i.BannerMapIconId.toList ++ i.extra ++ i.AttachedToPartyId.toList ++
          i._unused2.toList ++ [b] ++ Y) = .ok p rest →
      p.AttachedToPartyId = decodeInt32 i.AttachedToPartyId.toList ∧
      p._unused2 = decodeInt32 i._unused2.toList ∧ p.IsAttached = decodeBool [b] := by
  have hm : (v ≥ 900 ∧ v < 1000) ∨ v ≥ 1020 :=
    Or.inr (le_trans (by decide : (1020 : Int32) ≤ 1162) hr)
  have he : v ≥ 1137 := le_trans (by decide : (1137 : Int32) ≤ 1162) hr
  intro p rest1 e
  simp only [Main.Party.Read, PartyImage.head, PartyImage.extra, List.append_assoc, if_pos hm,
    if_pos he, if_pos hr, Main.Int32.Read, Main.Int64.Read, Main.UInt64.Read,
    Main.Float.Read, Main.Bool.Read, List.singleton_append,
    List.cons_append, List.nil_append] at e
  rw [bind_of_ok (main_text_layout _ _ _ h1), bind_of_ok (main_text_layout _ _ _ h2)] at e
  iterate 17 rw [bind_vec] at e
  rw [hst, bind_of_ok (make_natCast _ _ _),
    bind_of_ok (main_stacks_layout _ _ _ (List.length_replicate _ _)), bind_vec,
    bind_of_ok (binaryRead_cons1 _ _ _ _), bind_of_ok (main_text_layout _ _ _ h3)] at e
  iterate 11 rw [bind_vec] at e
  obtain ⟨d, mid, hd, e⟩ := bind_ok _ _ _ _ _ e
  iterate 5 rw [bind_vec] at hd
  cases hd
  rw [bind_vec, bind_vec, bind_of_ok (binaryRead_cons1 _ _ _ _)] at e
  refine @sat_elim _ _ (fun p _ =>
    p.AttachedToPartyId = decodeInt32 i.AttachedToPartyId.toList ∧
    p._unused2 = decodeInt32 i._unused2.toList ∧ p.IsAttached = decodeBool [b]) _ _ ?_ e
  repeat (apply sat_bind_keep; intro _ _ _)
  apply sat_pure
  exact ⟨rfl, rfl, rfl⟩

theorem editor_party_reserved_read (party : Party) (v : Int32) (i : PartyImage) (b : Byte)
    (Y : File) (h1 : i.Id.wf) (h2 : i.Name.wf)
    (hst : decodeInt32 i.NumStacks.toList = i.Stacks.length) (h3 : i.ExtraText.wf)
    (hr : v ≥ 1162) :
    ∀ p rest, Editor.readParty party v
        (i.head ++ i.Marshall.toList ++ i.IgnorePlayerTimer.toList ++
          i.BannerMapIconId.toList ++ i.extra ++ i.AttachedToPartyId.toList ++
          i._unused2.toList ++ [b] ++ Y) = .ok p rest →
      p.AttachedToPartyId = decodeInt32 i.AttachedToPartyId.toList ∧
      p._unused2 = decodeInt32 i._unused2.toList ∧ p.IsAttached = decodeBool [b] := by
  have hm : (v ≥ 900 ∧ v < 1000) ∨ v ≥ 1020 :=
    Or.inr (le_trans (by decide : (1020 : Int32) ≤ 1162) hr)
  have he : v > 1137 := lt_of_lt_of_le (by decide : (1137 : Int32) < 1162) hr
  intro p rest1 e
  simp only [Editor.readParty, PartyImage.head, PartyImage.extra, List.append_assoc, if_pos hm,
    if_pos he, if_pos hr, List.singleton_append, List.cons_append, List.nil_append] at e
  rw [bind_of_ok (editor_text_layout _ _ _ h1), bind_of_ok (editor_text_layout _ _ _ h2)] at e
  iterate 17 rw [bind_vec] at e
  rw [hst, bind_of_ok (make_natCast _ _ _),
    bind_of_ok (editor_stacks_layout _ _ _ (List.length_replicate _ _)), bind_vec,
    bind_of_ok (binaryRead_cons1 _ _ _ _), bind_of_ok (editor_text_layout _ _ _ h3)] at e
  iterate 11 rw [bind_vec] at e
  obtain ⟨d, mid, hd, e⟩ := bind_ok _ _ _ _ _ e
  iterate 5 rw [bind_vec] at hd
  cases hd
  rw [bind_vec, bind_vec, bind_of_ok (binaryRead_cons1 _ _ _ _)] at e
  refine @sat_elim _ _ (fun p _ =>
    p.AttachedToPartyId = decodeInt32 i.AttachedToPartyId.toList ∧
    p._unused2 = decodeInt32 i._unused2.toList ∧ p.IsAttached = decodeBool [b]) _ _ ?_ e
  repeat (apply sat_bind_keep; intro _ _ _)
  apply sat_pure
  exact ⟨rfl, rfl, rfl⟩

theorem main_party_reserved_kept (party : Party) (v : Int32) (file : File) (hr : ¬ v ≥ 1162) :
    (Main.Party.Read party v file).Sat (fun p _ => p._unused2 = party._unused2) := by
  unfold Main.Party.Read
  iterate 35 (apply sat_bind_keep; intro _ _ _)
  apply sat_bind_keep; rintro ⟨_, _, _, _, _⟩ _ _
  dsimp only
  apply sat_bind_keep; intro _ _ _
  rw [if_neg hr]
  apply sat_bind_keep; intro u mid hu
  cases hu
  repeat (apply sat_bind_keep; intro _ _ _)
  apply sat_pure
  rfl

theorem editor_party_reserved_kept (party : Party) (v : Int32) (file : File) (hr : ¬ v ≥ 1162) :
    (Editor.readParty party v file).Sat (fun p _ => p._unused2 = party._unused2) := by
  unfold Editor.readParty
  iterate 35 (apply sat_bind_keep; intro _ _ _)
  apply sat_bind_keep; rintro ⟨_, _, _, _, _⟩ _ _
  dsimp only
  apply sat_bind_keep; intro _ _ _
  rw [if_neg hr]
  apply sat_bind_keep; intro u mid hu
  cases hu
  repeat (apply sat_bind_keep; intro _ _ _)
  apply sat_pure
  rfl

/-- Claim C24, as stated, fails: at version 1162 both party readers read the
reserved int32. On the same 387 bytes, with the four bytes 5, 5, 5, 5 between
`AttachedToPartyId` and `IsAttached`, `Party.Read` of `src/main.go` and
`readParty` of `src/backend/editor.go` both return, from a fresh party, a party
whose `_unused2` is 84215045 (the little-endian value of those four bytes), and
both take 386 bytes. -/
theorem reserved_field_read_by_both_readers :
    Main.Party.Read Party.zero 1162 (sampleParty.bytes true true true ++ [0x41]) =
      .ok (sampleParty.mainParty true true true Party.zero) [0x41] ∧
    Editor.readParty Party.zero 1162 (sampleParty.bytes true true true ++ [0x41]) =
      .ok (sampleParty.editorParty true true true Party.zero) [0x41] ∧
    (sampleParty.mainParty true true true Party.zero)._unused2 = 84215045 ∧
    (sampleParty.editorParty true true true Party.zero)._unused2 = 84215045 ∧
    Party.zero._unused2 = 0 ∧
    sampleParty._unused2.toList = [5, 5, 5, 5] ∧
    consumed (Main.Party.Read Party.zero 1162) (sampleParty.bytes true true true ++ [0x41]) =
      386 ∧
    consumed (Editor.readParty Party.zero 1162) (sampleParty.bytes true true true ++ [0x41]) =
      386 := by
  decide!

/-- Claim C24, amended: the reserved int32 of a party is in both
implementations, under the same condition. For every version `v >= 1162`, on
one and the same input both `Party.Read` and `readParty` decode `_unused2` from
the four bytes after `AttachedToPartyId` and `IsAttached` from the byte after
them, and both decode the record layout that holds these four bytes to the same
party. For every version below 1162 and every input, neither reader reads the
field: `_unused2` keeps its previous value. -/
theorem reserved_field_in_both_readers (party : Party) (v : Int32) (i : PartyImage)
    (b : Byte) (rest Y file : File) (h : i.wf) :
    (v ≥ 1162 →
      (∀ p rest1, Main.Party.Read party v
          (i.head ++ i.Marshall.toList ++ i.IgnorePlayerTimer.toList ++
            i.BannerMapIconId.toList ++ i.extra ++ i.AttachedToPartyId.toList ++
            i._unused2.toList ++ [b] ++ Y) = .ok p rest1 →
        p.AttachedToPartyId = decodeInt32 i.AttachedToPartyId.toList ∧
        p._unused2 = decodeInt32 i._unused2.toList ∧ p.IsAttached = decodeBool [b]) ∧
      (∀ p rest1, Editor.readParty party v
          (i.head ++ i.Marshall.toList ++ i.IgnorePlayerTimer.toList ++
            i.BannerMapIconId.toList ++ i.extra ++ i.AttachedToPartyId.toList ++
            i._unused2.toList ++ [b] ++ Y) = .ok p rest1 →
        p.AttachedToPartyId = decodeInt32 i.AttachedToPartyId.toList ∧
        p._unused2 = decodeInt32 i._unused2.toList ∧ p.IsAttached = decodeBool [b]) ∧
      Main.Party.Read party v (i.bytes true true true ++ rest) =
        .ok (i.mainParty true true true party) rest ∧
      Editor.readParty party v (i.bytes true true true ++ rest) =
        .ok (i.editorParty true true true party) rest ∧
      (i.mainParty true true true party)._unused2 = decodeInt32 i._unused2.toList ∧
      (i.editorParty true true true party)._unused2 = decodeInt32 i._unused2.toList) ∧
    (¬ v ≥ 1162 →
      (Main.Party.Read party v file).Sat (fun p _ => p._unused2 = party._unused2) ∧
      (Editor.readParty party v file).Sat (fun p _ => p._unused2 = party._unused2)) := by
  constructor
  · intro hr
    have hm : decide ((v ≥ 900 ∧ v < 1000) ∨ v ≥ 1020) = true :=
      decide_eq_true (Or.inr (le_trans (by decide : (1020 : Int32) ≤ 1162) hr))
    have he : decide (v ≥ 1137) = true :=
      decide_eq_true (le_trans (by decide : (1137 : Int32) ≤ 1162) hr)
    have he1 : decide (v > 1137) = true :=
      decide_eq_true (lt_of_lt_of_le (by decide : (1137 : Int32) < 1162) hr)
    have hr1 : decide (v ≥ 1162) = true := decide_eq_true hr
    have e1 := main_party_layout party v i rest h
    have e2 := editor_party_layout party v i rest h
    rw [hm, he, hr1] at e1
    rw [hm, he1, hr1] at e2
    exact ⟨main_party_reserved_read party v i b Y h.1 h.2.1 h.2.2.1 h.2.2.2.1 hr,
      editor_party_reserved_read party v i b Y h.1 h.2.1 h.2.2.1 h.2.2.2.1 hr, e1, e2, rfl, rfl⟩
  · intro hr
    exact ⟨main_party_reserved_kept party v file hr, editor_party_reserved_kept party v file hr⟩

theorem reserved_field_in_both_readers_witness :
    sampleParty.wf ∧
    (Main.Party.Read Party.zero 1162 (sampleParty.bytes true true true ++ [0x41]) =
        .ok (sampleParty.mainParty true true true Party.zero) [0x41] ∧
      Editor.readParty Party.zero 1162 (sampleParty.bytes true true true ++ [0x41]) =
        .ok (sampleParty.editorParty true true true Party.zero) [0x41] ∧
      (sampleParty.mainParty true true true Party.zero)._unused2 =
        decodeInt32 sampleParty._unused2.toList ∧
      (sampleParty.editorParty true true true Party.zero)._unused2 =
        decodeInt32 sampleParty._unused2.toList) ∧
    (Main.Party.Read Party.zero 1161 (sampleParty.bytes true true false ++ [0x41])).returned.map
        (fun p => (p.AttachedToPartyId, p._unused2)) = some (404166165, 0) ∧
    (Editor.readParty Party.zero 1161
        (sampleParty.bytes true true false ++ [0x41])).returned.map
        (fun p => (p.AttachedToPartyId, p._unused2)) = some (404166165, 0) ∧
    decodeInt32 sampleParty._unused2.toList = 84215045 :=
  ⟨sampleParty_wf,
    ((reserved_field_in_both_readers Party.zero 1162 sampleParty 1 [0x41] [] [] sampleParty_wf).1
      (by decide)).2.2,
    by decide!, by decide!, by decide⟩

/-! ### The size of a party -/

theorem stack_block_length (imgs : List StackImage) :
    (StackImage.block imgs).length = 16 * imgs.length := by
  induction imgs with
  | nil => rfl
  | cons s ss ih =>
    simp only [StackImage.block, StackImage.bytes, List.length_append, ih, List.length_cons,
      Mathlib.Vector.toList_length]
    omega

theorem party_bytes_length (m e r : Bool) (i : PartyImage) :
    (i.bytes m e r).length =
      358 + i.Id.chars.length + i.Name.chars.length + i.ExtraText.chars.length +
        16 * i.Stacks.length + 4 * i.AttachedPartyIds.elems.length +
        4 * i.ParticleSystemIds.elems.length + NoteImage.textLength i.Notes.toList +
        8 * i.Slots.elems.length + (if m then 4 else 0) + (if e then 20 else 0) +
        (if r then 4 else 0) := by
  cases m <;> cases e <;> cases r <;>
  · simp only [PartyImage.bytes, PartyImage.head, PartyImage.afterBandit, PartyImage.afterBanner,
      PartyImage.afterAttached, PartyImage.extra, PartyImage.tail, List.length_append,
      array_bytes_length, text_bytes_length, note_block_length, stack_block_length,
      List.length_singleton, Mathlib.Vector.toList_length, List.length_nil, if_true, if_false,
      Bool.false_eq_true]
    omega

/-- Claim C25: for every version `v` and every party laid out in the file with
counts equal to the lengths of what they count, followed by any bytes,
`Party.Read` of `src/main.go` returns the party and consumes exactly
`358 + len(Id) + len(Name) + len(ExtraText) + 16*NumStacks + 4*NumAttachedPartyIds +
4*NumParticleSystemIds + (sum of the 16 note text lengths) + 8*NumSlots + m + e + r`
bytes, where `m = 4` when `(900 <= v < 1000) or v >= 1020`, `e = 20` when
`v >= 1137`, `r = 4` when `v >= 1162`, each condition on its own. With empty
texts and zero counts this is `358 + m + e + r`: 358 at 899 and 1000, 362 at
1136, 382 at 1137, 386 at 1162. -/
theorem party_size (party : Party) (v : Int32) (i : PartyImage) (rest : File) (h : i.wf) :
    Main.Party.Read party v
        (i.bytes (marshallPresent v) (extraMapIconPresent v) (reservedPresent v) ++ rest) =
      .ok (i.mainParty (marshallPresent v) (extraMapIconPresent v) (reservedPresent v) party)
        rest ∧
    consumed (Main.Party.Read party v)
        (i.bytes (marshallPresent v) (extraMapIconPresent v) (reservedPresent v) ++ rest) =
      358 + i.Id.chars.length + i.Name.chars.length + i.ExtraText.chars.length +
        16 * i.Stacks.length + 4 * i.AttachedPartyIds.elems.length +
        4 * i.ParticleSystemIds.elems.length + NoteImage.textLength i.Notes.toList +
        8 * i.Slots.elems.length +
        (if (v ≥ 900 ∧ v < 1000) ∨ v ≥ 1020 then 4 else 0) + (if v ≥ 1137 then 20 else 0) +
        (if v ≥ 1162 then 4 else 0) ∧
    (∀ m e r,
      (i.mainParty m e r party).Id.Chars.length = i.Id.chars.length ∧
      (i.mainParty m e r party).Name.Chars.length = i.Name.chars.length ∧
      (i.mainParty m e r party).ExtraText.Chars.length = i.ExtraText.chars.length ∧
      (i.mainParty m e r party).NumStacks = i.Stacks.length ∧
      (i.mainParty m e r party).NumAttachedPartyIds = i.AttachedPartyIds.elems.length ∧
      (i.mainParty m e r party).NumParticleSystemIds = i.ParticleSystemIds.elems.length ∧
      (i.mainParty m e r party).NumSlots = i.Slots.elems.length ∧
      (i.mainParty m e r party).Notes.toList.map (fun n => n.Text.Chars.length) =
        i.Notes.toList.map (fun n => n.Text.chars.length)) ∧
    (i.Id.chars = [] → i.Name.chars = [] → i.ExtraText.chars = [] → i.Stacks = [] →
      i.AttachedPartyIds.elems = [] → i.ParticleSystemIds.elems = [] →
      NoteImage.textLength i.Notes.toList = 0 → i.Slots.elems = [] →
      consumed (Main.Party.Read party v)
          (i.bytes (marshallPresent v) (extraMapIconPresent v) (reservedPresent v) ++ rest) =
        358 + (if (v ≥ 900 ∧ v < 1000) ∨ v ≥ 1020 then 4 else 0) +
          (if v ≥ 1137 then 20 else 0) + (if v ≥ 1162 then 4 else 0)) := by
  have e1 : Main.Party.Read party v
        (i.bytes (marshallPresent v) (extraMapIconPresent v) (reservedPresent v) ++ rest) =
      .ok (i.mainParty (marshallPresent v) (extraMapIconPresent v) (reservedPresent v) party)
        rest := main_party_layout party v i rest h
  have c1 := consumed_of_ok e1
  rw [party_bytes_length] at c1
  have hm : ((if marshallPresent v = true then 4 else 0 : Nat) : Int) =
      if (v ≥ 900 ∧ v < 1000) ∨ v ≥ 1020 then 4 else 0 := by
    by_cases hc : (v ≥ 900 ∧ v < 1000) ∨ v ≥ 1020 <;> simp [marshallPresent, hc]
  have he : ((if extraMapIconPresent v = true then 20 else 0 : Nat) : Int) =
      if v ≥ 1137 then 20 else 0 := by
    by_cases hc : v ≥ 1137 <;> simp [extraMapIconPresent, hc]
  have hr : ((if reservedPresent v = true then 4 else 0 : Nat) : Int) =
      if v ≥ 1162 then 4 else 0 := by
    by_cases hc : v ≥ 1162 <;> simp [reservedPresent, hc]
  have c2 : consumed (Main.Party.Read party v)
        (i.bytes (marshallPresent v) (extraMapIconPresent v) (reservedPresent v) ++ rest) =
      358 + i.Id.chars.length + i.Name.chars.length + i.ExtraText.chars.length +
        16 * i.Stacks.length + 4 * i.AttachedPartyIds.elems.length +
        4 * i.ParticleSystemIds.elems.length + NoteImage.textLength i.Notes.toList +
        8 * i.Slots.elems.length +
        (if (v ≥ 900 ∧ v < 1000) ∨ v ≥ 1020 then 4 else 0) + (if v ≥ 1137 then 20 else 0) +
        (if v ≥ 1162 then 4 else 0) := by
    rw [c1, ← hm, ← he, ← hr]
    push_cast
    rfl
  refine ⟨e1, c2, ?_, ?_⟩
  · intro m e r
    refine ⟨rfl, rfl, rfl, rfl, rfl, rfl, rfl, ?_⟩
    simp [PartyImage.mainParty, PartyImage.partyWith, NoteImage.note, TextImage.text, Mathlib.Vector.toList_map]
  · intro a1 a2 a3 a4 a5 a6 a7 a8
    rw [c2, a1, a2, a3, a4, a5, a6, a7, a8]
    simp

theorem party_size_witness :
    sampleParty.wf ∧
    consumed (Main.Party.Read Party.zero 899)
        (sampleParty.bytes (marshallPresent 899) (extraMapIconPresent 899)
          (reservedPresent 899) ++ [0x41]) = 358 ∧
    consumed (Main.Party.Read Party.zero 1000)
        (sampleParty.bytes (marshallPresent 1000) (extraMapIconPresent 1000)
          (reservedPresent 1000) ++ [0x41]) = 358 ∧
    consumed (Main.Party.Read Party.zero 1136)
        (sampleParty.bytes (marshallPresent 1136) (extraMapIconPresent 1136)
          (reservedPresent 1136) ++ [0x41]) = 362 ∧
    consumed (Main.Party.Read Party.zero 1137)
        (sampleParty.bytes (marshallPresent 1137) (extraMapIconPresent 1137)
          (reservedPresent 1137) ++ [0x41]) = 382 ∧
    consumed (Main.Party.Read Party.zero 1162)
        (sampleParty.bytes (marshallPresent 1162) (extraMapIconPresent 1162)
          (reservedPresent 1162) ++ [0x41]) = 386 ∧
    consumed (Main.Party.Read Party.zero 900)
        (sampleParty.bytes (marshallPresent 900) (extraMapIconPresent 900)
          (reservedPresent 900) ++ [0x41]) = 362 :=
  ⟨sampleParty_wf,
    ((party_size Party.zero 899 sampleParty [0x41] sampleParty_wf).2.2.2 rfl rfl rfl rfl rfl rfl
      (by decide) rfl).trans (by decide),
    ((party_size Party.zero 1000 sampleParty [0x41] sampleParty_wf).2.2.2 rfl rfl rfl rfl rfl
      rfl (by decide) rfl).trans (by decide),
    ((party_size Party.zero 1136 sampleParty [0x41] sampleParty_wf).2.2.2 rfl rfl rfl rfl rfl
      rfl (by decide) rfl).trans (by decide),
    ((party_size Party.zero 1137 sampleParty [0x41] sampleParty_wf).2.2.2 rfl rfl rfl rfl rfl
      rfl (by decide) rfl).trans (by decide),
    ((party_size Party.zero 1162 sampleParty [0x41] sampleParty_wf).2.2.2 rfl rfl rfl rfl rfl
      rfl (by decide) rfl).trans (by decide),
    ((party_size Party.zero 900 sampleParty [0x41] sampleParty_wf).2.2.2 rfl rfl rfl rfl rfl
      rfl (by decide) rfl).trans (by decide)⟩

/-! ### Runs that leave bytes unread -/

theorem framed_pure {α : Type} (a : α) : Framed (pure a : Rd α) := by
  intro file b rest h _
  cases h
  exact ⟨[], rfl, fun t => rfl⟩

theorem framed_fatal {α : Type} : Framed (log.Fatal : Rd α) := by
  intro file b rest h _
  cases h

theorem framed_make {α : Type} (zero : α) (n : Int) : Framed (make zero n) := by
  intro file b rest h _
  obtain ⟨hn, hb, hr⟩ := make_ok _ _ _ _ _ h
  subst hb hr
  refine ⟨[], rfl, fun t => ?_⟩
  simp [make, Int.not_lt.2 hn]

theorem framed_binaryRead {α : Type} (size : Nat) (decode : List Byte → α) (data : α) :
    Framed (binary.Read size decode data) := by
  intro file b rest h hne
  rcases binaryRead_cases size decode data file with ⟨hle, e⟩ | ⟨_, e⟩
  · rw [e] at h
    cases h
    refine ⟨file.take size, (List.take_append_drop size file).symm, fun t => ?_⟩
    have hl : (file.take size).length = size := by simp [hle]
    have := binaryRead_append size decode data (file.take size) t hl
    exact this
  · rw [e] at h
    cases h
    exact absurd rfl hne

theorem framed_bind {α β : Type} {x : Rd α} {k : α → Rd β} (hx : Framed x)
    (hk : ∀ a, Framed (k a)) : Framed (x >>= k) := by
  intro file b rest h hne
  obtain ⟨a, mid, ha, hb⟩ := bind_ok _ _ _ _ _ h
  obtain ⟨q, hq, hqt⟩ := hk a mid b rest hb hne
  have hmid : mid ≠ [] := by
    rw [hq]
    intro hc
    exact hne (List.append_eq_nil.1 hc).2
  obtain ⟨p, hp, hpt⟩ := hx file a mid ha hmid
  refine ⟨p ++ q, by rw [hp, hq, List.append_assoc], fun t => ?_⟩
  rw [List.append_assoc, bind_of_ok (hpt (q ++ t))]
  exact hqt t

theorem framed_ite {α : Type} {c : Prop} [Decidable c] {x y : Rd α} (hx : Framed x)
    (hy : Framed y) : Framed (if c then x else y) := by
  by_cases h : c
  · rw [if_pos h]; exact hx
  · rw [if_neg h]; exact hy

theorem framed_readEach {α : Type} {rd : α → Rd α} (h : ∀ x, Framed (rd x)) (xs : List α) :
    Framed (readEach rd xs) := by
  induction xs with
  | nil => exact framed_pure _
  | cons x xs ih =>
    simp only [readEach]
    exact framed_bind (h x) (fun _ => framed_bind ih (fun _ => framed_pure _))

theorem framed_readArray {α : Type} {rd : α → Rd α} (h : ∀ x, Framed (rd x)) :
    ∀ {n : Nat} (v : Mathlib.Vector α n), Framed (readArray rd v) := by
  intro n
  induction n with
  | zero =>
    intro v
    simp only [readArray]
    exact framed_pure _
  | succ k ih =>
    intro v
    simp only [readArray]
    exact framed_bind (h _) (fun _ => framed_bind (ih _) (fun _ => framed_pure _))

theorem framed_five {α β γ δ ε ζ : Type} (f : α → β → γ → δ → ε → ζ) (a : α) (b : β) (c : γ)
    (d : δ) (e : ε) {da : List Byte → α} {db : List Byte → β} {dc : List Byte → γ}
    {dd : List Byte → δ} {de : List Byte → ε} {na nb nc nd ne : Nat} :
    Framed (do
      let a ← binary.Read na da a
      let b ← binary.Read nb db b
      let c ← binary.Read nc dc c
      let d ← binary.Read nd dd d
      let e ← binary.Read ne de e
      pure (f a b c d e)) :=
  framed_bind (framed_binaryRead _ _ _) (fun _ => framed_bind (framed_binaryRead _ _ _)
    (fun _ => framed_bind (framed_binaryRead _ _ _) (fun _ =>
      framed_bind (framed_binaryRead _ _ _) (fun _ =>
        framed_bind (framed_binaryRead _ _ _) (fun _ => framed_pure _)))))

theorem framed_readSlice {α : Type} (size : Nat) (decode : List Byte → α) (data : List α) :
    Framed (binary.ReadSlice size decode data) :=
  framed_binaryRead _ _ _

theorem framed_readArrayBulk {α : Type} (size : Nat) (decode : List Byte → α) {n : Nat}
    (data : Mathlib.Vector α n) : Framed (binary.ReadArray size decode data) :=
  framed_binaryRead _ _ _

theorem main_string_framed (s : String) : Framed (Main.String.Read s) := by
  unfold Main.String.Read
  repeat (refine framed_bind (by
      first
      | exact framed_binaryRead _ _ _
      | exact framed_make _ _) (fun _ => ?_))
  exact framed_pure _

theorem main_header_framed (header : Header) : Framed (Main.Header.Read header) := by
  unfold Main.Header.Read
  repeat (refine framed_bind (by
      first
      | exact framed_binaryRead _ _ _
      | exact main_string_framed _
      | exact framed_ite framed_fatal (framed_pure _)) (fun _ => ?_))
  exact framed_pure _

theorem main_trigger_framed (x : Trigger) : Framed (Main.Trigger.Read x) := by
  unfold Main.Trigger.Read
  repeat (refine framed_bind (framed_binaryRead _ _ _) (fun _ => ?_))
  exact framed_pure _

theorem main_simpleTrigger_framed (x : SimpleTrigger) : Framed (Main.SimpleTrigger.Read x) := by
  unfold Main.SimpleTrigger.Read
  repeat (refine framed_bind (framed_binaryRead _ _ _) (fun _ => ?_))
  exact framed_pure _

theorem main_note_framed (x : Note) : Framed (Main.Note.Read x) := by
  unfold Main.Note.Read
  repeat (refine framed_bind (by
      first
      | exact framed_binaryRead _ _ _
      | exact main_string_framed _) (fun _ => ?_))
  exact framed_pure _

theorem main_quest_framed (x : Quest) : Framed (Main.Quest.Read x) := by
  unfold Main.Quest.Read
  repeat (refine framed_bind (by
      first
      | exact framed_binaryRead _ _ _
      | exact main_string_framed _
      | exact framed_readArray (fun _ => main_note_framed _) _
      | exact framed_make _ _
      | exact framed_readEach (fun _ => framed_binaryRead _ _ _) _) (fun _ => ?_))
  exact framed_pure _

theorem main_infoPage_framed (x : InfoPage) : Framed (Main.InfoPage.Read x) := by
  unfold Main.InfoPage.Read
  repeat (refine framed_bind (framed_readArray (fun _ => main_note_framed _) _) (fun _ => ?_))
  exact framed_pure _

theorem main_site_framed (x : Site) : Framed (Main.Site.Read x) := by
  unfold Main.Site.Read
  repeat (refine framed_bind (by
      first
      | exact framed_binaryRead _ _ _
      | exact framed_make _ _
      | exact framed_readEach (fun _ => framed_binaryRead _ _ _) _) (fun _ => ?_))
  exact framed_pure _

theorem main_faction_framed (x : Main.Faction) : Framed (Main.Faction.Read x) := by
  unfold Main.Faction.Read
  repeat (refine framed_bind (by
      first
      | exact framed_binaryRead _ _ _
      | exact main_string_framed _
      | exact framed_readArray (fun _ => main_note_framed _) _
      | exact framed_make _ _
      | exact framed_readEach (fun _ => framed_binaryRead _ _ _) _) (fun _ => ?_))
  exact framed_pure _

theorem main_mapTrack_framed (x : MapTrack) : Framed (Main.MapTrack.Read x) := by
  unfold Main.MapTrack.Read
  repeat (refine framed_bind (framed_binaryRead _ _ _) (fun _ => ?_))
  exact framed_pure _

theorem main_template_framed (x : PartyTemplate) : Framed (Main.PartyTemplate.Read x) := by
  unfold Main.PartyTemplate.Read
  repeat (refine framed_bind (by
      first
      | exact framed_binaryRead _ _ _
      | exact framed_make _ _
      | exact framed_readEach (fun _ => framed_binaryRead _ _ _) _) (fun _ => ?_))
  exact framed_pure _

theorem main_stack_framed (x : PartyStack) : Framed (Main.PartyStack.Read x) := by
  unfold Main.PartyStack.Read
  repeat (refine framed_bind (framed_binaryRead _ _ _) (fun _ => ?_))
  exact framed_pure _

theorem main_party_framed (x : Party) (v : Int32) : Framed (Main.Party.Read x v) := by
  unfold Main.Party.Read
  iterate 35 (refine framed_bind (by
      first
      | exact framed_binaryRead _ _ _
      | exact main_string_framed _
      | exact framed_readEach (fun _ => main_stack_framed _) _
      | exact framed_make _ _
      | exact framed_ite (framed_binaryRead _ _ _) (framed_pure _)) (fun _ => ?_))
  refine framed_bind (framed_ite (framed_five _ _ _ _ _ _) (framed_pure _))
    (fun ⟨_, _, _, _, _⟩ => ?_)
  repeat (refine framed_bind (by
      first
      | exact framed_binaryRead _ _ _
      | exact framed_readArray (fun _ => main_note_framed _) _
      | exact framed_make _ _
      | exact framed_readEach (fun _ => framed_binaryRead _ _ _) _
      | exact framed_ite (framed_binaryRead _ _ _) (framed_pure _)) (fun _ => ?_))
  exact framed_pure _

theorem main_record_framed (x : PartyRecord) (v : Int32) : Framed (Main.PartyRecord.Read x v) := by
  unfold Main.PartyRecord.Read
  refine framed_bind (framed_binaryRead _ _ _) (fun _ => framed_ite ?_ (framed_pure _))
  exact framed_bind (framed_binaryRead _ _ _) (fun _ => framed_bind (framed_binaryRead _ _ _)
    (fun _ => framed_bind (main_party_framed _ _) (fun _ => framed_pure _)))

theorem main_game_framed (game : Main.Game) : Framed (Main.Game.Read game) := by
  unfold Main.Game.Read
  iterate 4 (refine framed_bind (by
      first
      | exact framed_binaryRead _ _ _
      | exact main_header_framed _) (fun _ => ?_))
  refine framed_bind (framed_ite (framed_five _ _ _ _ _ _) (framed_pure _))
    (fun ⟨_, _, _, _, _⟩ => ?_)
  repeat (refine framed_bind (by
      first
      | exact framed_binaryRead _ _ _
      | exact main_string_framed _
      | exact framed_readArray (fun _ => main_string_framed _) _
      | exact framed_readEach (fun _ => main_trigger_framed _) _
      | exact framed_readEach (fun _ => main_simpleTrigger_framed _) _
      | exact framed_readEach (fun _ => main_quest_framed _) _
      | exact framed_readEach (fun _ => main_infoPage_framed _) _
      | exact framed_readEach (fun _ => main_site_framed _) _
      | exact framed_readEach
          (fun _ => framed_bind (framed_make _ _) (fun _ => main_faction_framed _)) _
      | exact framed_readEach (fun _ => main_mapTrack_framed _) _
      | exact framed_readEach (fun _ => main_template_framed _) _
      | exact framed_readEach (fun _ => main_record_framed _ _) _
      | exact framed_make _ _
      | exact framed_readEach (fun _ => framed_binaryRead _ _ _) _
      | exact framed_readArray (fun _ => framed_binaryRead _ _ _) _) (fun _ => ?_))
  exact framed_pure _

theorem editor_string_framed (s : String) (nr : List Bool) : Framed (Editor.readString s nr) := by
  unfold Editor.readString
  repeat (refine framed_bind (by
      first
      | exact framed_binaryRead _ _ _
      | exact framed_make _ _) (fun _ => ?_))
  exact framed_pure _

theorem editor_header_framed (header : Header) : Framed (Editor.readHeader header) := by
  unfold Editor.readHeader
  repeat (refine framed_bind (by
      first
      | exact framed_binaryRead _ _ _
      | exact editor_string_framed _ _
      | exact framed_ite framed_fatal (framed_pure _)) (fun _ => ?_))
  exact framed_pure _

theorem editor_note_framed (x : Note) : Framed (Editor.readNote x) := by
  unfold Editor.readNote
  repeat (refine framed_bind (by
      first
      | exact framed_binaryRead _ _ _
      | exact editor_string_framed _ _) (fun _ => ?_))
  exact framed_pure _

theorem editor_quest_framed (x : Quest) : Framed (Editor.readQuest x) := by
  unfold Editor.readQuest
  repeat (refine framed_bind (by
      first
      | exact framed_binaryRead _ _ _
      | exact editor_string_framed _ _
      | exact framed_readArray (fun _ => editor_note_framed _) _
      | exact framed_make _ _) (fun _ => ?_))
  exact framed_pure _

theorem editor_infoPage_framed (x : InfoPage) : Framed (Editor.readInfoPage x) := by
  unfold Editor.readInfoPage
  repeat (refine framed_bind (framed_readArray (fun _ => editor_note_framed _) _) (fun _ => ?_))
  exact framed_pure _

theorem editor_site_framed (x : Site) : Framed (Editor.readSite x) := by
  unfold Editor.readSite
  repeat (refine framed_bind (by
      first
      | exact framed_binaryRead _ _ _
      | exact framed_make _ _) (fun _ => ?_))
  exact framed_pure _

theorem editor_faction_framed (x : Editor.Faction) (n : Int32) :
    Framed (Editor.readFaction x n) := by
  unfold Editor.readFaction
  repeat (refine framed_bind (by
      first
      | exact framed_binaryRead _ _ _
      | exact editor_string_framed _ _
      | exact framed_readArray (fun _ => editor_note_framed _) _
      | exact framed_make _ _) (fun _ => ?_))
  exact framed_pure _

theorem editor_mapTrack_framed (x : MapTrack) : Framed (Editor.readMapTrack x) := by
  unfold Editor.readMapTrack
  repeat (refine framed_bind (framed_binaryRead _ _ _) (fun _ => ?_))
  exact framed_pure _

theorem editor_template_framed (x : PartyTemplate) : Framed (Editor.readPartyTemplate x) := by
  unfold Editor.readPartyTemplate
  repeat (refine framed_bind (by
      first
      | exact framed_binaryRead _ _ _
      | exact framed_make _ _) (fun _ => ?_))
  exact framed_pure _

theorem editor_stack_framed (x : PartyStack) : Framed (Editor.readPartyStack x) := by
  unfold Editor.readPartyStack
  repeat (refine framed_bind (framed_binaryRead _ _ _) (fun _ => ?_))
  exact framed_pure _

theorem editor_party_framed (x : Party) (v : Int32) : Framed (Editor.readParty x v) := by
  unfold Editor.readParty
  iterate 35 (refine framed_bind (by
      first
      | exact framed_binaryRead _ _ _
      | exact editor_string_framed _ _
      | exact framed_readEach (fun _ => editor_stack_framed _) _
      | exact framed_make _ _
      | exact framed_ite (framed_binaryRead _ _ _) (framed_pure _)) (fun _ => ?_))
  refine framed_bind (framed_ite (framed_five _ _ _ _ _ _) (framed_pure _))
    (fun ⟨_, _, _, _, _⟩ => ?_)
  repeat (refine framed_bind (by
      first
      | exact framed_binaryRead _ _ _
      | exact framed_readArray (fun _ => editor_note_framed _) _
      | exact framed_make _ _
      | exact framed_ite (framed_binaryRead _ _ _) (framed_pure _)) (fun _ => ?_))
  exact framed_pure _

theorem editor_record_framed (x : PartyRecord) (v : Int32) :
    Framed (Editor.readPartyRecord x v) := by
  unfold Editor.readPartyRecord
  refine framed_bind (framed_binaryRead _ _ _) (fun _ => framed_ite ?_ (framed_pure _))
  exact framed_bind (framed_binaryRead _ _ _) (fun _ => framed_bind (framed_binaryRead _ _ _)
    (fun _ => framed_bind (editor_party_framed _ _) (fun _ => framed_pure _)))

theorem editor_main_framed : Framed (Editor.main) := by
  unfold Editor.main
  dsimp only
  iterate 4 (refine framed_bind (by
      first
      | exact framed_binaryRead _ _ _
      | exact editor_header_framed _) (fun _ => ?_))
  refine framed_bind (framed_ite (framed_five _ _ _ _ _ _) (framed_pure _))
    (fun ⟨_, _, _, _, _⟩ => ?_)
  repeat (refine framed_bind (by
      first
      | exact framed_binaryRead _ _ _
      | exact editor_string_framed _ _
      | exact framed_readArray (fun _ => editor_string_framed _ _) _
      | exact framed_readEach (fun _ => editor_quest_framed _) _
      | exact framed_readEach (fun _ => editor_infoPage_framed _) _
      | exact framed_readEach (fun _ => editor_site_framed _) _
      | exact framed_readEach (fun _ => editor_faction_framed _ _) _
      | exact framed_readEach (fun _ => editor_mapTrack_framed _) _
      | exact framed_readEach (fun _ => editor_template_framed _) _
      | exact framed_readEach (fun _ => editor_record_framed _ _) _
      | exact framed_make _ _) (fun _ => ?_))
  exact framed_pure _

/-! ### Class names -/

theorem readArray_all_of {α : Type} {rd : α → Rd α} {P0 P : α → Prop}
    (h : ∀ x file, P0 x → (rd x file).Sat (fun y _ => P y)) :
    ∀ {n : Nat} (v : Mathlib.Vector α n) (file : File), (∀ x ∈ v.toList, P0 x) →
      (readArray rd v file).Sat (fun ys _ => ∀ y ∈ ys.toList, P y) := by
  intro n
  induction n with
  | zero =>
    intro v file _
    simp only [readArray]
    apply sat_pure
    intro y hy
    simp at hy
  | succ k ih =>
    intro v file hv
    obtain ⟨a, t, rfl⟩ := v.exists_eq_cons
    simp only [readArray, Mathlib.Vector.head_cons, Mathlib.Vector.tail_cons]
    apply sat_bind_keep; intro y mid hy
    apply sat_bind_keep; intro ys mid2 hys
    apply sat_pure
    intro z hz
    rw [Mathlib.Vector.toList_cons] at hz
    rcases List.mem_cons.1 hz with rfl | hz
    · exact sat_elim (h a file (hv a (by simp [Mathlib.Vector.toList_cons]))) hy
    · exact sat_elim (ih t mid (fun x hx => hv x (by simp [Mathlib.Vector.toList_cons, hx])))
        hys z hz

theorem readArray_all {α : Type} {rd : α → Rd α} {P0 P : α → Prop}
    (h : ∀ x file, P0 x → (rd x file).Sat (fun y _ => P y)) {n : Nat}
    {v ys : Mathlib.Vector α n} {file rest : File} (hv : ∀ x ∈ v.toList, P0 x)
    (hr : readArray rd v file = .ok ys rest) : ∀ y ∈ ys.toList, P y :=
  sat_elim (readArray_all_of h v file hv) hr

theorem main_string_decoded (s : String) (file : File) :
    (Main.String.Read s file).Sat
      (fun t _ => t.Readable = t.Chars ∧ (t.Chars.length : Int) = t.NumChars) :=
  sat_of_eq (fun t rest e => ⟨(mainStringRead_inv s t file rest e).2,
    (mainStringRead_inv s t file rest e).1⟩)

theorem editor_string_readable (s : String) (nr : List Bool) (file : File) :
    (Editor.readString s nr file).Sat
      (fun t _ => t.Readable = (if nr.length = 0 then t.Chars else s.Readable) ∧
        (t.Chars.length : Int) = t.NumChars) := by
  refine sat_of_eq (fun t rest e => ⟨?_, editorReadString_inv s t nr file rest e⟩)
  refine @sat_elim _ _ (fun t _ => t.Readable = (if nr.length = 0 then t.Chars else s.Readable))
    _ _ ?_ e
  unfold Editor.readString
  repeat (apply sat_bind_keep; intro _ _ _)
  apply sat_pure
  rfl

theorem editor_string_raw (s : String) (file : File) (h : s.Readable = []) :
    (Editor.readString s [true] file).Sat
      (fun t _ => t.Readable = [] ∧ (t.Chars.length : Int) = t.NumChars) :=
  sat_mono (editor_string_readable s [true] file) (fun t _ ht => ⟨by
    rw [ht.1, ← h]
    rfl, ht.2⟩)

/-- Counterexample to claim C21: on a 271-byte save whose first class name has
count 2 and payload 0x61, 0x62, `Game.Read` of `src/main.go` returns, having
consumed all 271 bytes, with `ClassNames[0].Readable` equal to the two payload
bytes, not left empty; `main` of `src/backend/editor.go` returns on the same
input with `ClassNames[0]` holding the same count and `Chars` and an empty
`Readable`. -/
theorem class_names_decoded_by_main :
    (Main.Game.Read Main.Game.zero classNameInput).returned.map
        (fun g => g.ClassNames.toList.take 2) =
      some [{ NumChars := 2, Chars := [0x61, 0x62], Readable := [0x61, 0x62] }, String.zero] ∧
    (Editor.main classNameInput).returned.map (fun g => g.ClassNames.toList.take 2) =
      some [{ NumChars := 2, Chars := [0x61, 0x62], Readable := [] }, String.zero] ∧
    consumed (Main.Game.Read Main.Game.zero) classNameInput = 271 ∧
    consumed Editor.main classNameInput = 271 ∧
    classNameInput.length = 271 ∧ (classNameInput.drop 189).take 6 = [2, 0, 0, 0, 0x61, 0x62] :=
  ⟨by decide!, by decide!, by decide!, by decide!, by decide, by decide⟩

/-- Claim C21, amended: class-name texts are raw in `src/backend/editor.go`
only. On every input on which `main` of `editor.go` returns, each of the nine
`ClassNames` texts has its count and `Chars` populated (`len(Chars)` is the
count) and `Readable` left empty. `src/main.go` has no raw mode: on every input
on which `Game.Read` returns, from any receiver, each of the nine `ClassNames`
has `Readable` equal to the byte sequence of `Chars`, like every text that
`String.Read` returns. In `editor.go`, `readString` without the extra argument
(decode mode) returns `Readable` equal to `Chars`, and with the extra argument
(raw mode) it returns `Readable` as it was before the call. -/
theorem class_names_raw_in_editor_only (game : Main.Game) (s : String) (b : Bool)
    (nr : List Bool) (file : File) :
    (Editor.main file).Sat (fun g _ => ∀ c ∈ g.ClassNames.toList,
      c.Readable = [] ∧ (c.Chars.length : Int) = c.NumChars) ∧
    (Main.Game.Read game file).Sat (fun g _ => ∀ c ∈ g.ClassNames.toList,
      c.Readable = c.Chars ∧ (c.Chars.length : Int) = c.NumChars) ∧
    (Main.String.Read s file).Sat
      (fun t _ => t.Readable = t.Chars ∧ (t.Chars.length : Int) = t.NumChars) ∧
    (Editor.readString s [] file).Sat
      (fun t _ => t.Readable = t.Chars ∧ (t.Chars.length : Int) = t.NumChars) ∧
    (Editor.readString s (b :: nr) file).Sat
      (fun t _ => t.Readable = s.Readable ∧ (t.Chars.length : Int) = t.NumChars) := by
  refine ⟨?_, ?_, main_string_decoded s file, ?_, ?_⟩
  · unfold Editor.main
    dsimp only
    iterate 4 (apply sat_bind_keep; intro _ _ _)
    apply sat_bind_keep; rintro ⟨_, _, _, _, _⟩ _ _
    dsimp only
    repeat (apply sat_bind_keep; intro _ _ _)
    apply sat_pure
    dsimp only
    refine @readArray_all _ _ (fun x => x.Readable = []) _
      (fun x f hx => editor_string_raw x f hx) _ _ _ _ _ ?_ (by assumption)
    intro x hx
    have : x = String.zero := by
      simp only [Editor.Save.zero, Mathlib.Vector.replicate, Mathlib.Vector.toList] at hx
      exact List.eq_of_mem_replicate hx
    rw [this]
    rfl
  · unfold Main.Game.Read
    iterate 4 (apply sat_bind_keep; intro _ _ _)
    apply sat_bind_keep; rintro ⟨_, _, _, _, _⟩ _ _
    dsimp only
    repeat (apply sat_bind_keep; intro _ _ _)
    apply sat_pure
    dsimp only
    exact @readArray_all _ _ (fun _ => True) _ (fun x f _ => main_string_decoded x f)
      _ _ _ _ _ (fun _ _ => trivial) (by assumption)
  · exact sat_mono (editor_string_readable s [] file) (fun t _ ht => ⟨by
      rw [ht.1]
      rfl, ht.2⟩)
  · exact sat_mono (editor_string_readable s (b :: nr) file) (fun t _ ht => ⟨by
      rw [ht.1]
      rfl, ht.2⟩)

/-! ### Round trip of a note -/

theorem encodeInt32_decodeInt32 (v : Bytes 4) : encodeInt32 (decodeInt32 v.toList) = v.toList := by
  obtain ⟨l, hl⟩ := v
  match l, hl with
  | [b0, b1, b2, b3], _ =>
    obtain ⟨a0, h0⟩ := b0
    obtain ⟨a1, h1⟩ := b1
    obtain ⟨a2, h2⟩ := b2
    obtain ⟨a3, h3⟩ := b3
    have hu : ((decodeInt32 [⟨a0, h0⟩, ⟨a1, h1⟩, ⟨a2, h2⟩, ⟨a3, h3⟩]) % 2 ^ 32).toNat =
        a0 + 256 * (a1 + 256 * (a2 + 256 * a3)) := by
      simp only [decodeInt32, toInt32, leNat]
      norm_num
      split <;> omega
    simp only [Mathlib.Vector.toList, encodeInt32, hu, leBytes]
    simp only [List.cons.injEq, Fin.mk.injEq, and_true]
    refine ⟨?_, ?_, ?_, ?_⟩ <;> omega

theorem encodeBool_decodeBool (b : Byte) : encodeBool (decodeBool [b]) = [normalBool b] := by
  by_cases h : b = 0
  · subst h; rfl
  · simp [encodeBool, decodeBool, normalBool, h]

theorem decodeBool_normalBool (b : Byte) : decodeBool [normalBool b] = decodeBool [b] := by
  by_cases h : b = 0
  · subst h; rfl
  · simp [decodeBool, normalBool, h]

theorem encodeNote_image (n : NoteImage) (h : n.Text.wf) :
    encodeNote n.note =
      n.Text.bytes ++ n.Value.toList ++ n.TableauMaterialId.toList ++ [normalBool n.Available] := by
  have hc : encodeInt32 (n.Text.chars.length : Int) = n.Text.count.toList := by
    have hw : decodeInt32 n.Text.count.toList = n.Text.chars.length := h
    rw [← hw, encodeInt32_decodeInt32]
  simp only [encodeNote, encodeString, NoteImage.note, TextImage.text, TextImage.bytes, hc,
    encodeInt32_decodeInt32, encodeBool_decodeBool]

theorem binaryRead_inv_ne {α : Type} {size : Nat} {decode : List Byte → α} {data a : α}
    {file mid : File} (h : binary.Read size decode data file = .ok a mid) (hne : mid ≠ []) :
    ∃ v : Bytes size, file = v.toList ++ mid ∧ a = decode v.toList := by
  rcases binaryRead_cases size decode data file with ⟨hle, e⟩ | ⟨_, e⟩
  · rw [e] at h
    cases h
    exact ⟨⟨file.take size, by simp [hle]⟩, (List.take_append_drop size file).symm, rfl⟩
  · rw [e] at h
    cases h
    exact absurd rfl hne

theorem append_ne_nil_right {a b : File} (h : b ≠ []) : a ++ b ≠ [] := by
  intro hc
  exact h (List.append_eq_nil.1 hc).2

theorem text_of_run (s s1 : String) (file rest : File)
    (h : Main.String.Read s file = .ok s1 rest) (hne : rest ≠ []) :
    ∃ t : TextImage, t.wf ∧ file = t.bytes ++ rest ∧ s1 = t.text := by
  simp only [Main.String.Read, bind_run] at h
  obtain ⟨n, f1, hn, h1⟩ := bind_ok _ _ _ _ _ h
  obtain ⟨c0, f2, hm, h2⟩ := bind_ok _ _ _ _ _ h1
  obtain ⟨c1, f3, hr, h3⟩ := bind_ok _ _ _ _ _ h2
  simp only [pure_run] at h3
  cases h3
  obtain ⟨h0, hc0, hf⟩ := make_ok _ _ _ _ _ hm
  subst hf
  obtain ⟨v, hv, hc1⟩ := binaryRead_inv_ne hr hne
  have hf2 : f2 ≠ [] := by rw [hv]; exact append_ne_nil_right hne
  obtain ⟨cnt, hcnt, hnv⟩ := binaryRead_inv_ne hn hf2
  have hlen : (v.toList.length : Int) = n := by
    rw [v.toList_length, hc0, List.length_replicate]
    omega
  refine ⟨{ count := cnt, chars := v.toList }, ?_, ?_, ?_⟩
  · show decodeInt32 cnt.toList = (v.toList.length : Int)
    rw [hlen, hnv]
  · show file = (cnt.toList ++ v.toList) ++ rest
    rw [hcnt, hv, List.append_assoc]
  · subst hc1
    simp only [TextImage.text, id]
    rw [hlen]

theorem note_of_run (old note : Note) (file rest : File)
    (h : Main.Note.Read old file = .ok note rest) (hne : rest ≠ []) :
    ∃ n : NoteImage, n.Text.wf ∧ file = n.bytes ++ rest ∧ note = n.note := by
  simp only [Main.Note.Read, bind_run] at h
  obtain ⟨text, f1, ht, h1⟩ := bind_ok _ _ _ _ _ h
  obtain ⟨value, f2, hv, h2⟩ := bind_ok _ _ _ _ _ h1
  obtain ⟨tab, f3, hb, h3⟩ := bind_ok _ _ _ _ _ h2
  obtain ⟨av, f4, ha, h4⟩ := bind_ok _ _ _ _ _ h3
  simp only [pure_run] at h4
  cases h4
  obtain ⟨a, hfa, hav⟩ := binaryRead_inv_ne ha hne
  have hf3 : f3 ≠ [] := by rw [hfa]; exact append_ne_nil_right hne
  obtain ⟨b, hfb, hbv⟩ := binaryRead_inv_ne hb hf3
  have hf2 : f2 ≠ [] := by rw [hfb]; exact append_ne_nil_right hf3
  obtain ⟨c, hfc, hcv⟩ := binaryRead_inv_ne hv hf2
  have hf1 : f1 ≠ [] := by rw [hfc]; exact append_ne_nil_right hf2
  obtain ⟨t, hwf, hft, htv⟩ := text_of_run _ _ _ _ ht hf1
  have ha1 : a.toList = [a.head] := by
    obtain ⟨l, hl⟩ := a
    match l, hl with
    | [x], _ => rfl
  refine ⟨{ Text := t, Value := c, TableauMaterialId := b, Available := a.head }, hwf, ?_, ?_⟩
  · show file = (t.bytes ++ c.toList ++ b.toList ++ [a.head]) ++ rest
    rw [hft, hfc, hfb, hfa, ha1]
    simp only [List.append_assoc]
  · simp only [NoteImage.note, htv, hcv, hbv, hav, ha1]

/-- Counterexample to claim C22: the 13-byte note with an empty text, value 7,
material id -1 and availability byte 2, followed by one more byte, is decoded
by both note readers without a short read (the byte after it is left unread),
to a note that is available; the mirror encoder writes 1 for its availability,
so the re-encoded note differs from the 13 bytes that were consumed. -/
theorem note_round_trip_fails_on_available_byte :
    Main.Note.Read Note.zero availableTwoInput =
      .ok { Text := String.zero, Value := 7, TableauMaterialId := -1, Available := true }
        [0x41] ∧
    Editor.readNote Note.zero availableTwoInput =
      .ok { Text := String.zero, Value := 7, TableauMaterialId := -1, Available := true }
        [0x41] ∧
    consumed (Main.Note.Read Note.zero) availableTwoInput = 13 ∧
    encodeNote { Text := String.zero, Value := 7, TableauMaterialId := -1, Available := true } =
      [0, 0, 0, 0, 7, 0, 0, 0, 0xff, 0xff, 0xff, 0xff, 1] ∧
    encodeNote { Text := String.zero, Value := 7, TableauMaterialId := -1, Available := true } ≠
      availableTwoInput.take 13 := by
  decide

/-- Claim C22, amended: the round trip of a note holds up to the availability
byte. Whenever a note reader (`Note.Read` of `src/main.go`, which is the same
function as `readNote` of `src/backend/editor.go`) returns a note and leaves
at least one byte unread, the input is the bytes of a note (count, payload of
that length, `Value`, `TableauMaterialId`, availability byte `b`) followed by
the unread bytes; the mirror encoding of the decoded note has the same length
and equals those bytes with `b` replaced by 0 when `b = 0` and by 1 otherwise;
it is equal to the consumed bytes exactly when `b` is 0 or 1; and decoding the
re-encoded note gives the same note again. -/
theorem note_round_trip_up_to_available (old note : Note) (file rest : File)
    (h : Main.Note.Read old file = .ok note rest) (hne : rest ≠ []) :
    Editor.readNote old file = .ok note rest ∧
    ∃ n : NoteImage, n.Text.wf ∧ file = n.bytes ++ rest ∧ note = n.note ∧
      consumed (Main.Note.Read old) file = n.bytes.length ∧
      encodeNote note =
        n.Text.bytes ++ n.Value.toList ++ n.TableauMaterialId.toList ++
          [normalBool n.Available] ∧
      (encodeNote note).length = n.bytes.length ∧
      (encodeNote note = n.bytes ↔ n.Available = 0 ∨ n.Available = 1) ∧
      Main.Note.Read old (encodeNote note ++ rest) = .ok note rest := by
  refine ⟨h, ?_⟩
  obtain ⟨n, hwf, hf, hn⟩ := note_of_run old note file rest h hne
  have henc := encodeNote_image n hwf
  rw [← hn] at henc
  refine ⟨n, hwf, hf, hn, ?_, henc, ?_, ?_, ?_⟩
  · unfold consumed
    rw [h, hf]
    simp only [Outcome.rest, List.length_append]
    omega
  · rw [henc]
    simp only [NoteImage.bytes, List.length_append, List.length_singleton]
  · rw [henc]
    simp only [NoteImage.bytes, List.append_cancel_left_eq, List.cons.injEq, and_true]
    unfold normalBool
    constructor
    · intro hb
      by_cases h0 : n.Available = 0
      · exact Or.inl h0
      · rw [if_neg h0] at hb
        exact Or.inr hb.symm
    · intro hb
      rcases hb with h0 | h1
      · rw [if_pos h0, h0]
      · rw [h1]; rfl
  · have hl := main_note_layout old { n with Available := normalBool n.Available } rest hwf
    rw [henc]
    simp only [NoteImage.bytes] at hl
    rw [hl, hn]
    simp only [NoteImage.note, decodeBool_normalBool]

theorem note_round_trip_up_to_available_witness :
    Editor.readNote Note.zero (sampleNote.bytes ++ [0x41]) = .ok sampleNote.note [0x41] ∧
    ∃ n : NoteImage, n.Text.wf ∧ sampleNote.bytes ++ [0x41] = n.bytes ++ [0x41] ∧
      sampleNote.note = n.note ∧
      consumed (Main.Note.Read Note.zero) (sampleNote.bytes ++ [0x41]) = n.bytes.length ∧
      encodeNote sampleNote.note =
        n.Text.bytes ++ n.Value.toList ++ n.TableauMaterialId.toList ++
          [normalBool n.Available] ∧
      (encodeNote sampleNote.note).length = n.bytes.length ∧
      (encodeNote sampleNote.note = n.bytes ↔ n.Available = 0 ∨ n.Available = 1) ∧
      Main.Note.Read Note.zero (encodeNote sampleNote.note ++ [0x41]) =
        .ok sampleNote.note [0x41] :=
  note_round_trip_up_to_available Note.zero sampleNote.note (sampleNote.bytes ++ [0x41]) [0x41]
    (by decide) (by decide)

/-! ### Trailing data -/

theorem framed_trailing {α : Type} {r : Rd α} (h : Framed r) (x : File) (a : α) (rest : File)
    (k : Nat) (e : r x = .ok a rest) (hne : rest ≠ []) (hk : consumed r x = k) :
    x.length = k + rest.length ∧
      ∀ t, r (x.take k ++ t) = .ok a t ∧ consumed r (x.take k ++ t) = k := by
  obtain ⟨p, hp, hpt⟩ := h x a rest e hne
  have hlen : p.length = k := by
    unfold consumed at hk
    rw [e] at hk
    simp only [Outcome.rest] at hk
    rw [hp, List.length_append] at hk
    omega
  have htake : x.take k = p := by
    rw [hp, ← hlen, List.take_left]
  refine ⟨by rw [hp, List.length_append, hlen], fun t => ?_⟩
  rw [htake]
  refine ⟨hpt t, ?_⟩
  unfold consumed
  rw [hpt t]
  simp only [Outcome.rest, List.length_append]
  omega

/-- Claim C23: trailing data is ignored. When a root decoder (`Game.Read` of
`src/main.go` on any receiver, `main` of `src/backend/editor.go`) returns a
tree on input `x`, has consumed `k` bytes and has left at least one byte
unread (so no read of the run was short: a short read uses up the input),
then `x` has `k` bytes before the unread ones, and on the first `k` bytes of
`x` followed by any byte sequence `t` (the empty one included) the decoder
returns the identical tree, leaves exactly `t` unread and has again consumed
`k` bytes. -/
theorem trailing_data_ignored (game : Main.Game) (x : File) (k : Nat) :
    (∀ g rest, Main.Game.Read game x = .ok g rest → rest ≠ [] →
      consumed (Main.Game.Read game) x = k →
      x.length = k + rest.length ∧
        ∀ t, Main.Game.Read game (x.take k ++ t) = .ok g t ∧
          consumed (Main.Game.Read game) (x.take k ++ t) = k) ∧
    (∀ s rest, Editor.main x = .ok s rest → rest ≠ [] → consumed Editor.main x = k →
      x.length = k + rest.length ∧
        ∀ t, Editor.main (x.take k ++ t) = .ok s t ∧ consumed Editor.main (x.take k ++ t) = k) :=
  ⟨fun g rest e hne hk => framed_trailing (main_game_framed game) x g rest k e hne hk,
    fun s rest e hne hk => framed_trailing editor_main_framed x s rest k e hne hk⟩

theorem trailing_data_ignored_witness :
    (Main.Game.Read Main.Game.zero ((difficultySample 0x70 4).take 269 ++ [1, 2, 3]) =
        .ok { Main.Game.zero with
              Header := { Header.zero with MagicNumber := 0x52445257, GameVersion := 1136 },
              DateTimer := 8589934593, Hour := 3, Day := 4, Week := 5, Month := 9 } [1, 2, 3] ∧
      consumed (Main.Game.Read Main.Game.zero) ((difficultySample 0x70 4).take 269 ++ [1, 2, 3]) =
        269) ∧
    (Editor.main ((difficultySample 0x70 4).take 269 ++ [1, 2, 3]) =
        .ok { Editor.Save.zero with
              Header := { Header.zero with MagicNumber := 0x52445257, GameVersion := 1136 },
              DateTimer := 8589934593, Hour := 3, Day := 4, Week := 5, Month := 9 } [1, 2, 3] ∧
      consumed Editor.main ((difficultySample 0x70 4).take 269 ++ [1, 2, 3]) = 269) :=
  ⟨((trailing_data_ignored Main.Game.zero (difficultySample 0x70 4) 269).1 _
      (List.replicate 20 0) (by decide!) (by decide) (by decide!)).2 [1, 2, 3],
    ((trailing_data_ignored Main.Game.zero (difficultySample 0x70 4) 269).2 _
      (List.replicate 20 0) (by decide!) (by decide) (by decide!)).2 [1, 2, 3]⟩

/-! ### The minimal save -/

theorem decodeInt32_zeroBytes : decodeInt32 (zeroBytes 4).toList = 0 := by decide

theorem make_zero {α : Type} (zero : α) (file : File) : make zero 0 file = .ok [] file := rfl

theorem readSlice_nil {α : Type} (size : Nat) (decode : List Byte → α) (file : File) :
    binary.ReadSlice size decode [] file = .ok [] file := by
  simp [binary.ReadSlice, binary.Read, readFull, decodeSlice]

theorem main_empty_text (s : String) (rest : File) :
    Main.String.Read s ((zeroBytes 4).toList ++ rest) = .ok String.zero rest :=
  mainStringRead_ok s (zeroBytes 4).toList [] rest rfl (by decide)

theorem editor_empty_text (s : String) (rest : File) :
    Editor.readString s [] ((zeroBytes 4).toList ++ rest) = .ok String.zero rest :=
  editorReadString_ok s [] (zeroBytes 4).toList [] rest rfl (by decide)

theorem editor_empty_raw_text (s : String) (rest : File) (h : s.Readable = []) :
    Editor.readString s [true] ((zeroBytes 4).toList ++ rest) = .ok String.zero rest := by
  have e := editorReadString_ok s [true] (zeroBytes 4).toList [] rest rfl (by decide)
  rw [List.nil_append] at e
  rw [e]
  simp [String.zero, h]

theorem main_empty_texts : ∀ (n : Nat) (old : Mathlib.Vector String n) (rest : File),
    readArray Main.String.Read old (zeroCounts n ++ rest) =
      .ok (Mathlib.Vector.replicate n String.zero) rest := by
  intro n
  induction n with
  | zero =>
    intro old rest
    simp only [readArray, zeroCounts, List.nil_append, pure_run]
    rfl
  | succ n ih =>
    intro old rest
    simp only [readArray, zeroCounts, List.append_assoc, bind_run, Rd.bind, main_empty_text, ih,
      pure_run]
    rfl

theorem editor_empty_raw_texts : ∀ (n : Nat) (old : Mathlib.Vector String n) (rest : File),
    (∀ s ∈ old.toList, s.Readable = []) →
    readArray (fun s => Editor.readString s [true]) old (zeroCounts n ++ rest) =
      .ok (Mathlib.Vector.replicate n String.zero) rest := by
  intro n
  induction n with
  | zero =>
    intro old rest _
    simp only [readArray, zeroCounts, List.nil_append, pure_run]
    rfl
  | succ n ih =>
    intro old rest h
    obtain ⟨a, t, rfl⟩ := old.exists_eq_cons
    have ha : a.Readable = [] := h a (by simp [Mathlib.Vector.toList_cons])
    have ht : ∀ s ∈ t.toList, s.Readable = [] :=
      fun s hs => h s (by simp [Mathlib.Vector.toList_cons, hs])
    simp only [readArray, zeroCounts, List.append_assoc, bind_run, Rd.bind,
      Mathlib.Vector.head_cons, Mathlib.Vector.tail_cons, editor_empty_raw_text _ _ ha,
      ih _ _ ht, pure_run]
    rfl

theorem zero_class_names : ∀ s ∈ Editor.Save.zero.ClassNames.toList, s.Readable = [] := by
  intro s hs
  have : s = String.zero := by
    simp only [Editor.Save.zero, Mathlib.Vector.replicate, Mathlib.Vector.toList] at hs
    exact List.eq_of_mem_replicate hs
  rw [this]
  rfl

theorem readArray_int32 {n : Nat} (old : Mathlib.Vector Int32 n)
    (imgs : Mathlib.Vector (Bytes 4) n) (rest : File) :
    readArray Main.Int32.Read old (Bytes.concat imgs.toList ++ rest) =
      .ok (imgs.map (fun e => decodeInt32 e.toList)) rest :=
  readArray_layout Main.Int32.Read (fun (e : Bytes 4) => e.toList)
    (fun e => decodeInt32 e.toList) Bytes.concat (fun _ => True) rfl (fun _ _ => rfl)
    (fun a b r _ => binaryRead_vec decodeInt32 a b r) n old imgs rest (fun _ _ => trivial)

theorem decodeArray_concat {α : Type} {k : Nat} (decode : List Byte → α) :
    ∀ (n : Nat) (imgs : Mathlib.Vector (Bytes k) n),
      decodeArray k decode n (Bytes.concat imgs.toList) = imgs.map (fun e => decode e.toList) := by
  intro n
  induction n with
  | zero =>
    intro imgs
    rw [imgs.eq_nil]
    rfl
  | succ n ih =>
    intro imgs
    obtain ⟨e, es, rfl⟩ := imgs.exists_eq_cons
    simp only [decodeArray, Mathlib.Vector.toList_cons, Bytes.concat, Mathlib.Vector.map_cons]
    rw [List.take_left' e.toList_length, List.drop_left' e.toList_length]
    exact congrArg (Mathlib.Vector.cons (decode e.toList)) (ih es)

theorem concat_vector_length {k n : Nat} (imgs : Mathlib.Vector (Bytes k) n) :
    (Bytes.concat imgs.toList).length = k * n := by
  rw [concat_length, Mathlib.Vector.toList_length]

theorem readArrayBulk_scalars {α : Type} {k n : Nat} (decode : List Byte → α)
    (old : Mathlib.Vector α n) (imgs : Mathlib.Vector (Bytes k) n) (rest : File) :
    binary.ReadArray k decode old (Bytes.concat imgs.toList ++ rest) =
      .ok (imgs.map (fun e => decode e.toList)) rest := by
  unfold binary.ReadArray
  rw [binaryRead_append _ _ _ _ _ (concat_vector_length imgs), decodeArray_concat]

theorem zeroCounts_length (n : Nat) : (zeroCounts n).length = 4 * n := by
  induction n with
  | zero => rfl
  | succ n ih =>
    simp only [zeroCounts, List.length_append, ih, Mathlib.Vector.toList_length]
    omega

theorem minimal_bytes_length (d : Bool) (i : MinimalImage) :
    (i.bytes d).length = 269 + (if d then 20 else 0) := by
  cases d <;>
  simp only [MinimalImage.bytes, MinimalImage.headerBytes, MinimalImage.difficulty,
    MinimalImage.scalars, MinimalImage.sections, List.length_append, List.length_cons,
    List.length_nil, Mathlib.Vector.toList_length, zeroCounts_length, concat_vector_length,
    if_true, if_false, Bool.false_eq_true]

theorem main_minimal_layout (game : Main.Game) (i : MinimalImage) (rest : File) :
    Main.Game.Read game (i.bytes (decide (decodeInt32 i.GameVersion.toList ≥ 1137)) ++ rest) =
      .ok (i.game (decide (decodeInt32 i.GameVersion.toList ≥ 1137)) game) rest := by
  by_cases hv : decodeInt32 i.GameVersion.toList ≥ 1137 <;>
  (simp only [Main.Game.Read, Main.Header.Read, MinimalImage.bytes, MinimalImage.headerBytes,
    MinimalImage.difficulty, MinimalImage.scalars, MinimalImage.sections,
    List.append_assoc, bind_run, Rd.bind, hv, decide_True, decide_False, Bool.false_eq_true,
    if_true, if_false, Main.Int32.Read, Main.Int64.Read, Main.UInt64.Read, Main.Float.Read,
    Main.Bool.Read, binaryRead_vec, binaryRead_cons4, decodeInt32_magic, ne_eq,
    not_true_eq_false, pure_run, main_empty_text, List.singleton_append, List.cons_append,
    List.nil_append, binaryRead_cons1, readArray_int32, main_empty_texts 9 game.ClassNames]
   simp only [zeroCounts, List.append_assoc, List.nil_append, binaryRead_vec,
    decodeInt32_zeroBytes, make_zero, readEach, pure_run, MinimalImage.game,
    MinimalImage.header, hv, decide_True, decide_False, Bool.false_eq_true, if_true, if_false])

theorem editor_minimal_layout (i : MinimalImage) (rest : File) :
    Editor.main (i.bytes (decide (decodeInt32 i.GameVersion.toList ≥ 1137)) ++ rest) =
      .ok (i.save (decide (decodeInt32 i.GameVersion.toList ≥ 1137))) rest := by
  by_cases hv : decodeInt32 i.GameVersion.toList ≥ 1137 <;>
  (simp only [Editor.main, Editor.readHeader, MinimalImage.bytes, MinimalImage.headerBytes,
    MinimalImage.difficulty, MinimalImage.scalars, MinimalImage.sections,
    List.append_assoc, bind_run, Rd.bind, hv, decide_True, decide_False, Bool.false_eq_true,
    if_true, if_false, binaryRead_vec, binaryRead_cons4, decodeInt32_magic, ne_eq,
    not_true_eq_false, pure_run, editor_empty_text, List.singleton_append, List.cons_append,
    List.nil_append, binaryRead_cons1, readArrayBulk_scalars,
    editor_empty_raw_texts 9 Editor.Save.zero.ClassNames _ zero_class_names]
   simp only [zeroCounts, List.append_assoc, List.nil_append, binaryRead_vec,
    decodeInt32_zeroBytes, make_zero, readEach, readSlice_nil, pure_run, MinimalImage.save,
    MinimalImage.header, hv, decide_True, decide_False, Bool.false_eq_true, if_true, if_false])

/-- Claim C26: size of a minimal save. For the bytes of any save with a valid
magic number in which every text is empty (the two header names, `_unused1`,
`GameLog`, the nine class names) and every one of the ten section counts is
zero, whatever its other scalars and whatever follows it, both root decoders
(`Game.Read` of `src/main.go` from any receiver, `main` of
`src/backend/editor.go`) return, leave exactly the following bytes unread and
have consumed 289 bytes when the header's `GameVersion` is at least 1137 and
269 bytes when it is below 1137; in the tree returned every one of the ten
collections is empty and every section count is zero. -/
theorem minimal_save_size (game : Main.Game) (i : MinimalImage) (rest : File) :
    Main.Game.Read game (i.bytes (decide (decodeInt32 i.GameVersion.toList ≥ 1137)) ++ rest) =
      .ok (i.game (decide (decodeInt32 i.GameVersion.toList ≥ 1137)) game) rest ∧
    Editor.main (i.bytes (decide (decodeInt32 i.GameVersion.toList ≥ 1137)) ++ rest) =
      .ok (i.save (decide (decodeInt32 i.GameVersion.toList ≥ 1137))) rest ∧
    consumed (Main.Game.Read game)
        (i.bytes (decide (decodeInt32 i.GameVersion.toList ≥ 1137)) ++ rest) =
      (if decodeInt32 i.GameVersion.toList ≥ 1137 then 289 else 269) ∧
    consumed Editor.main (i.bytes (decide (decodeInt32 i.GameVersion.toList ≥ 1137)) ++ rest) =
      (if decodeInt32 i.GameVersion.toList ≥ 1137 then 289 else 269) ∧
    (i.bytes (decide (decodeInt32 i.GameVersion.toList ≥ 1137))).length =
      (if decodeInt32 i.GameVersion.toList ≥ 1137 then 289 else 269) ∧
    (∀ d,
      (i.game d game).Header.MagicNumber = 0x52445257 ∧
      (i.game d game).Header.GameVersion = decodeInt32 i.GameVersion.toList ∧
      (i.game d game).GlobalVariables = [] ∧ (i.game d game).Triggers = [] ∧
      (i.game d game).SimpleTriggers = [] ∧ (i.game d game).Quests = [] ∧
      (i.game d game).InfoPages = [] ∧ (i.game d game).Sites = [] ∧
      (i.game d game).Factions = [] ∧ (i.game d game).MapTracks = [] ∧
      (i.game d game).PartyTemplates = [] ∧ (i.game d game).PartyRecords = [] ∧
      (i.game d game).NumGlobalVariables = 0 ∧ (i.game d game).NumTriggers = 0 ∧
      (i.game d game).NumSimpleTriggers = 0 ∧ (i.game d game).NumQuests = 0 ∧
      (i.game d game).NumInfoPages = 0 ∧ (i.game d game).NumSites = 0 ∧
      (i.game d game).NumFactions = 0 ∧ (i.game d game).NumMapTracks = 0 ∧
      (i.game d game).NumPartyTemplates = 0 ∧ (i.game d game).NumPartyRecords = 0) ∧
    (∀ d,
      (i.save d).Header.MagicNumber = 0x52445257 ∧
      (i.save d).Header.GameVersion = decodeInt32 i.GameVersion.toList ∧
      (i.save d).GlobalVariables = [] ∧ (i.save d).Triggers = [] ∧
      (i.save d).SimpleTriggers = [] ∧ (i.save d).Quests = [] ∧ (i.save d).InfoPages = [] ∧
      (i.save d).Sites = [] ∧ (i.save d).Factions = [] ∧ (i.save d).MapTracks = [] ∧
      (i.save d).PartyTemplates = [] ∧ (i.save d).PartyRecords = [] ∧
      (i.save d).NumGlobalVariables = 0 ∧ (i.save d).NumTriggers = 0 ∧
      (i.save d).NumSimpleTriggers = 0 ∧ (i.save d).NumQuests = 0 ∧
      (i.save d).NumInfoPages = 0 ∧ (i.save d).NumSites = 0 ∧ (i.save d).NumFactions = 0 ∧
      (i.save d).NumMapTracks = 0 ∧ (i.save d).NumPartyTemplates = 0 ∧
      (i.save d).NumPartyRecords = 0) := by
  have e1 := main_minimal_layout game i rest
  have e2 := editor_minimal_layout i rest
  have hl : ((i.bytes (decide (decodeInt32 i.GameVersion.toList ≥ 1137))).length : Int) =
      (if decodeInt32 i.GameVersion.toList ≥ 1137 then 289 else 269) := by
    rw [minimal_bytes_length]
    by_cases hv : decodeInt32 i.GameVersion.toList ≥ 1137 <;> simp [hv]
  have hn : (i.bytes (decide (decodeInt32 i.GameVersion.toList ≥ 1137))).length =
      (if decodeInt32 i.GameVersion.toList ≥ 1137 then 289 else 269) := by
    rw [minimal_bytes_length]
    by_cases hv : decodeInt32 i.GameVersion.toList ≥ 1137 <;> simp [hv]
  refine ⟨e1, e2, (consumed_of_ok e1).trans hl, (consumed_of_ok e2).trans hl, hn,
    fun d => ?_, fun d => ?_⟩
  · exact ⟨rfl, rfl, rfl, rfl, rfl, rfl, rfl, rfl, rfl, rfl, rfl, rfl, rfl, rfl, rfl, rfl, rfl,
      rfl, rfl, rfl, rfl, rfl⟩
  · exact ⟨rfl, rfl, rfl, rfl, rfl, rfl, rfl, rfl, rfl, rfl, rfl, rfl, rfl, rfl, rfl, rfl, rfl,
      rfl, rfl, rfl, rfl, rfl⟩

/-! ### Agreement of two readers on runs that leave bytes unread -/

theorem agree_of_framed {α : Type} {r : Rd α} (h : Framed r) : Agree r r := by
  intro file a rest e
  refine ⟨?_, fun _ => e⟩
  by_cases hr : rest = []
  · exact ⟨file, by rw [hr, List.append_nil]⟩
  · obtain ⟨p, hp, _⟩ := h file a rest e hr
    exact ⟨p, hp⟩

theorem both_of_framed {α : Type} {r : Rd α} (h : Framed r) : Agree r r ∧ Agree r r :=
  ⟨agree_of_framed h, agree_of_framed h⟩

theorem both_ite {α : Type} {c1 c2 : Prop} [Decidable c1] [Decidable c2] {x1 x2 y1 y2 : Rd α}
    (h : c1 ↔ c2) (hx : Agree x1 x2 ∧ Agree x2 x1) (hy : Agree y1 y2 ∧ Agree y2 y1) :
    Agree (if c1 then x1 else y1) (if c2 then x2 else y2) ∧
      Agree (if c2 then x2 else y2) (if c1 then x1 else y1) := by
  by_cases h1 : c1
  · rw [if_pos h1, if_pos (h.1 h1)]; exact hx
  · rw [if_neg h1, if_neg (fun h2 => h1 (h.2 h2))]; exact hy

theorem readEach_short {α : Type} (k : Nat) (decode : List Byte → α) :
    ∀ (xs : List α) (file : File) (ys : List α) (rest : File),
      file.length < k * xs.length → readEach (binary.Read k decode) xs file = .ok ys rest →
      rest = [] := by
  intro xs
  induction xs with
  | nil => intro file ys rest h _; simp at h
  | cons x xs ih =>
    intro file ys rest h e
    simp only [readEach] at e
    obtain ⟨y, mid, hy, e2⟩ := bind_ok _ _ _ _ _ e
    obtain ⟨ys1, mid1, hys, e3⟩ := bind_ok _ _ _ _ _ e2
    have hr : rest = mid1 := by cases e3; rfl
    subst hr
    rcases binaryRead_cases k decode x file with ⟨hle, e4⟩ | ⟨_, e4⟩
    · rw [e4] at hy
      cases hy
      refine ih (file.drop k) ys1 rest ?_ hys
      have : k * (xs.length + 1) = k * xs.length + k := Nat.mul_succ k xs.length
      simp only [List.length_cons] at h
      simp only [List.length_drop]
      omega
    · rw [e4] at hy
      cases hy
      obtain ⟨⟨p, hp⟩, _⟩ :=
        agree_of_framed (framed_readEach (fun a => framed_binaryRead k decode a) xs) [] ys1
          rest hys
      exact (List.append_eq_nil.1 hp.symm).2

theorem readEach_eq_readSlice {α : Type} (k : Nat) (decode : List Byte → α) (xs : List α)
    (file : File) (h : k * xs.length ≤ file.length) :
    readEach (binary.Read k decode) xs file = binary.ReadSlice k decode xs file := by
  obtain ⟨elems, hl, hf⟩ := exists_elems k xs.length file h
  rw [hf, readEach_scalars decode xs elems _ hl.symm, readSlice_scalars decode xs elems _ hl.symm]

theorem both_each_slice {α : Type} (k : Nat) (decode : List Byte → α) (xs : List α) :
    Agree (readEach (binary.Read k decode) xs) (binary.ReadSlice k decode xs) ∧
      Agree (binary.ReadSlice k decode xs) (readEach (binary.Read k decode) xs) := by
  constructor
  · intro file a rest e
    refine ⟨(agree_of_framed (framed_readEach (fun a => framed_binaryRead k decode a) xs)
      file a rest e).1, fun hne => ?_⟩
    by_cases h : k * xs.length ≤ file.length
    · rw [← readEach_eq_readSlice k decode xs file h]
      exact e
    · exact absurd (readEach_short k decode xs file a rest (by omega) e) hne
  · intro file a rest e
    refine ⟨(agree_of_framed (framed_readSlice k decode xs) file a rest e).1, fun hne => ?_⟩
    by_cases h : k * xs.length ≤ file.length
    · rw [readEach_eq_readSlice k decode xs file h]
      exact e
    · exfalso
      unfold binary.ReadSlice at e
      rcases binaryRead_cases (k * xs.length) (decodeSlice k decode xs.length) xs file with
        ⟨hle, _⟩ | ⟨_, e4⟩
      · exact h hle
      · rw [e4] at e
        cases e
        exact hne rfl

theorem main_string_eq_editor (s : String) : Main.String.Read s = Editor.readString s [] := rfl

theorem main_note_eq_editor : Main.Note.Read = Editor.readNote := rfl

theorem main_stack_eq_editor : Main.PartyStack.Read = Editor.readPartyStack := rfl

theorem quiet_bit_set (u : Nat) (h : u % 8388608 < 4194304) :
    ¬ ((u + 4194304) % 8388608 < 4194304) := by
  omega

theorem quietNaN_idem (u : Float) : quietNaN (quietNaN u) = quietNaN u := by
  unfold quietNaN
  by_cases h : (u / 2 ^ 23) % 2 ^ 8 = 255 ∧ u % 2 ^ 23 ≠ 0 ∧ u % 2 ^ 23 < 2 ^ 22
  · rw [if_pos h]
    have h2 : ¬ ((u + 2 ^ 22) % 2 ^ 23 < 2 ^ 22) := quiet_bit_set u h.2.2
    rw [if_neg (fun hc => h2 hc.2.2)]
  · rw [if_neg h, if_neg h]

theorem upto_of_agree {α : Type} {r1 r2 : Rd α} (h : Agree r1 r2) : AgreeUpTo id r1 r2 := by
  intro file a rest e
  obtain ⟨hp, h2⟩ := h file a rest e
  exact ⟨hp, fun hne => ⟨a, h2 hne, rfl⟩⟩

theorem upto_bind {α β : Type} {qa : α → α} {qb : β → β} {x1 x2 : Rd α} {k1 k2 : α → Rd β}
    (hx : AgreeUpTo qa x1 x2) (hk : ∀ a b, qa a = qa b → AgreeUpTo qb (k1 a) (k2 b)) :
    AgreeUpTo qb (x1 >>= k1) (x2 >>= k2) := by
  intro file c rest h
  obtain ⟨a, mid, ha, hc⟩ := bind_ok _ _ _ _ _ h
  obtain ⟨⟨p, hp⟩, hx2⟩ := hx file a mid ha
  obtain ⟨⟨q, hq⟩, _⟩ := hk a a rfl mid c rest hc
  refine ⟨⟨p ++ q, by rw [hp, hq, List.append_assoc]⟩, fun hne => ?_⟩
  have hmid : mid ≠ [] := by
    rw [hq]
    intro hc2
    exact hne (List.append_eq_nil.1 hc2).2
  obtain ⟨b, hb, hab⟩ := hx2 hmid
  obtain ⟨d, hd, hcd⟩ := (hk a b hab mid c rest hc).2 hne
  exact ⟨d, by rw [bind_of_ok hb]; exact hd, hcd⟩

theorem both_upto_bind {α β : Type} {qa : α → α} {qb : β → β} {x1 x2 : Rd α}
    {k1 k2 : α → Rd β} (hx : AgreeUpTo qa x1 x2 ∧ AgreeUpTo qa x2 x1)
    (hk : ∀ a b, qa a = qa b → AgreeUpTo qb (k1 a) (k2 b) ∧ AgreeUpTo qb (k2 b) (k1 a)) :
    AgreeUpTo qb (x1 >>= k1) (x2 >>= k2) ∧ AgreeUpTo qb (x2 >>= k2) (x1 >>= k1) :=
  ⟨upto_bind hx.1 (fun a b h => (hk a b h).1), upto_bind hx.2 (fun b a h => (hk a b h.symm).2)⟩

theorem both_upto_same {α β : Type} {qb : β → β} {x1 x2 : Rd α} {k1 k2 : α → Rd β}
    (hx : Agree x1 x2 ∧ Agree x2 x1)
    (hk : ∀ a, AgreeUpTo qb (k1 a) (k2 a) ∧ AgreeUpTo qb (k2 a) (k1 a)) :
    AgreeUpTo qb (x1 >>= k1) (x2 >>= k2) ∧ AgreeUpTo qb (x2 >>= k2) (x1 >>= k1) :=
  @both_upto_bind α β id qb x1 x2 k1 k2 ⟨upto_of_agree hx.1, upto_of_agree hx.2⟩
    (fun a b h => by
      have hab : a = b := h
      subst hab
      exact hk a)

theorem both_upto_ite {α : Type} {q : α → α} {c1 c2 : Prop} [Decidable c1] [Decidable c2]
    {x1 x2 y1 y2 : Rd α} (h : c1 ↔ c2) (hx : AgreeUpTo q x1 x2 ∧ AgreeUpTo q x2 x1)
    (hy : AgreeUpTo q y1 y2 ∧ AgreeUpTo q y2 y1) :
    AgreeUpTo q (if c1 then x1 else y1) (if c2 then x2 else y2) ∧
      AgreeUpTo q (if c2 then x2 else y2) (if c1 then x1 else y1) := by
  by_cases h1 : c1
  · rw [if_pos h1, if_pos (h.1 h1)]; exact hx
  · rw [if_neg h1, if_neg (fun h2 => h1 (h.2 h2))]; exact hy

theorem upto_pure {α : Type} {q : α → α} {a b : α} (h : q a = q b) :
    AgreeUpTo q (pure a : Rd α) (pure b) := by
  intro file c rest e
  cases e
  exact ⟨⟨[], rfl⟩, fun _ => ⟨b, rfl, h⟩⟩

theorem both_upto_pure {α : Type} {q : α → α} {a b : α} (h : q a = q b) :
    AgreeUpTo q (pure a : Rd α) (pure b) ∧ AgreeUpTo q (pure b : Rd α) (pure a) :=
  ⟨upto_pure h, upto_pure h.symm⟩

theorem float_upto (x : Float) {d1 d2 : List Byte → Float}
    (h : ∀ bs, quietNaN (d1 bs) = quietNaN (d2 bs)) :
    AgreeUpTo quietNaN (binary.Read 4 d1 x) (binary.Read 4 d2 x) := by
  intro file a rest e
  refine ⟨(agree_of_framed (framed_binaryRead 4 d1 x) file a rest e).1, fun _ => ?_⟩
  rcases binaryRead_cases 4 d1 x file with ⟨hle, e1⟩ | ⟨hlt, e1⟩
  · rcases binaryRead_cases 4 d2 x file with ⟨_, e2⟩ | ⟨hlt, _⟩
    · rw [e1] at e
      cases e
      exact ⟨_, e2, h _⟩
    · omega
  · rcases binaryRead_cases 4 d2 x file with ⟨hle, _⟩ | ⟨_, e2⟩
    · omega
    · rw [e1] at e
      cases e
      exact ⟨_, e2, rfl⟩

theorem float_both (x : Float) :
    AgreeUpTo quietNaN (Main.Float.Read x) (binary.Read 4 decodeFloat x) ∧
      AgreeUpTo quietNaN (binary.Read 4 decodeFloat x) (Main.Float.Read x) :=
  ⟨float_upto x (fun _ => quietNaN_idem _), float_upto x (fun _ => (quietNaN_idem _).symm)⟩

theorem both_party_upto (party : Party) (v : Int32) (hv : v ≠ 1137) :
    AgreeUpTo Party.quiet (Main.Party.Read party v) (Editor.readParty party v) ∧
      AgreeUpTo Party.quiet (Editor.readParty party v) (Main.Party.Read party v) := by
  have hg : v ≥ 1137 ↔ v > 1137 := by
    constructor
    · intro h
      exact lt_of_le_of_ne h (fun hc => hv hc.symm)
    · intro h
      exact le_of_lt h
  unfold Main.Party.Read Editor.readParty
  rw [main_note_eq_editor, main_stack_eq_editor]
  simp only [main_string_eq_editor]
  iterate 35 (first
    | refine both_upto_bind (float_both _) (fun _ _ _ => ?_)
    | refine both_upto_same (by
        first
        | exact both_of_framed (framed_binaryRead _ _ _)
        | exact both_of_framed (editor_string_framed _ _)
        | exact both_of_framed (framed_make _ _)
        | exact both_of_framed (framed_readEach (fun _ => editor_stack_framed _) _)
        | exact both_ite Iff.rfl (both_of_framed (framed_binaryRead _ _ _))
            (both_of_framed (framed_pure _))) (fun _ => ?_))
  refine @both_upto_bind _ _ quietFive Party.quiet _ _ _ _
    (both_upto_ite hg ?_ (both_upto_pure rfl)) ?_
  · refine both_upto_same (both_of_framed (framed_binaryRead _ _ _)) (fun _ => ?_)
    iterate 4 (refine both_upto_bind (float_both _) (fun _ _ _ => ?_))
    exact both_upto_pure (by simp only [quietFive, *])
  rintro ⟨a1, b1, c1, d1, e1⟩ ⟨a2, b2, c2, d2, e2⟩ h5
  simp only [quietFive, Prod.mk.injEq] at h5
  obtain ⟨h50, h51, h52, h53, h54⟩ := h5
  subst h50
  dsimp only
  repeat (refine both_upto_same (by
      first
      | exact both_of_framed (framed_binaryRead _ _ _)
      | exact both_of_framed (framed_make _ _)
      | exact both_each_slice _ _ _
      | exact both_ite Iff.rfl (both_of_framed (framed_binaryRead _ _ _))
          (both_of_framed (framed_pure _))
      | exact both_of_framed (framed_readArray (fun _ => editor_note_framed _) _)) (fun _ => ?_))
  exact both_upto_pure (by simp only [Party.quiet, *])

theorem arraysParty_wf : arraysParty.wf :=
  ⟨emptyText_wf, emptyText_wf, by decide, emptyText_wf, by unfold ArrayImage.wf; decide,
    by unfold ArrayImage.wf; decide, emptyNotes_wf 16, by unfold ArrayImage.wf; decide⟩

theorem party_quiet_layout (m e r : Bool) (old : Party) (i : PartyImage) :
    (i.mainParty m e r old).quiet = (i.editorParty m e r old).quiet := by
  cases e <;>
    simp only [Party.quiet, PartyImage.mainParty, PartyImage.editorParty, PartyImage.partyWith,
      decodeFloatReflect, decodeFloat, quietNaN_idem, if_true, if_false, Bool.false_eq_true]

/-- Claim C27: the two party readers away from version 1137, and the one point
where they differ. On the 387-byte input `nanParty.bytes true true true ++ [0x41]`
at version 1162 (a party with empty texts and arrays whose `BanditAttraction`
bytes are 01 00 80 7f; every read finds its bytes and one byte is left),
`Party.Read` of `src/main.go` returns `BanditAttraction` 0x7fc00001 and
`readParty` of `src/backend/editor.go` returns 0x7f800001, so the two readers
do not produce the same value of every field. Apart from that, for every
version `v` other than 1137 and every receiver: (1) on every input, when one
reader returns and leaves the non-empty rest `rest` unread, the other returns
and leaves the same rest unread, so both consume the same number of bytes,
and the two parties are equal once every `float32` field has been passed
through `quietNaN`, that is, equal in every field that is not a `float32`
(the arrays `Stacks`, `Slots`, `AttachedPartyIds`, `ParticleSystemIds`
included) and equal up to the quieting of a signalling NaN in the others;
(2) on the bytes of any party whose counts equal the lengths of what they
count, followed by any bytes (none included), both readers return, leave
exactly the following bytes unread, and the arrays that `editor.go` reads in
bulk and `main.go` element by element hold the same decoded elements. -/
theorem party_readers_agree_up_to_quieting (party : Party) (v : Int32) (hv : v ≠ 1137) :
    ((nanParty.bytes true true true ++ [0x41]).length = 387 ∧
      nanParty.BanditAttraction.toList = [0x01, 0x00, 0x80, 0x7f] ∧
      (Main.Party.Read Party.zero 1162 (nanParty.bytes true true true ++ [0x41])).returned.map
          (fun p => p.BanditAttraction) = some 0x7fc00001 ∧
      (Editor.readParty Party.zero 1162 (nanParty.bytes true true true ++ [0x41])).returned.map
          (fun p => p.BanditAttraction) = some 0x7f800001 ∧
      (Main.Party.Read Party.zero 1162 (nanParty.bytes true true true ++ [0x41])).rest =
        [0x41] ∧
      (Editor.readParty Party.zero 1162 (nanParty.bytes true true true ++ [0x41])).rest =
        [0x41]) ∧
    (∀ (file : File) (p : Party) (rest : File), rest ≠ [] →
      (Main.Party.Read party v file = .ok p rest →
        ∃ q, Editor.readParty party v file = .ok q rest ∧ p.quiet = q.quiet ∧
          p.Stacks = q.Stacks ∧ p.Slots = q.Slots ∧ p.AttachedPartyIds = q.AttachedPartyIds ∧
          p.ParticleSystemIds = q.ParticleSystemIds ∧
          consumed (Main.Party.Read party v) file = consumed (Editor.readParty party v) file) ∧
      (Editor.readParty party v file = .ok p rest →
        ∃ q, Main.Party.Read party v file = .ok q rest ∧ p.quiet = q.quiet ∧
          p.Stacks = q.Stacks ∧ p.Slots = q.Slots ∧ p.AttachedPartyIds = q.AttachedPartyIds ∧
          p.ParticleSystemIds = q.ParticleSystemIds ∧
          consumed (Editor.readParty party v) file = consumed (Main.Party.Read party v) file)) ∧
    (∀ (i : PartyImage) (rest : File), i.wf →
      Main.Party.Read party v
          (i.bytes (marshallPresent v) (extraMapIconPresent v) (reservedPresent v) ++ rest) =
        .ok (i.mainParty (marshallPresent v) (extraMapIconPresent v) (reservedPresent v) party)
          rest ∧
      Editor.readParty party v
          (i.bytes (marshallPresent v) (extraMapIconPresent v) (reservedPresent v) ++ rest) =
        .ok (i.editorParty (marshallPresent v) (extraMapIconPresent v) (reservedPresent v) party)
          rest ∧
      (i.mainParty (marshallPresent v) (extraMapIconPresent v) (reservedPresent v) party).quiet =
        (i.editorParty (marshallPresent v) (extraMapIconPresent v)
          (reservedPresent v) party).quiet ∧
      (∀ m e r,
        (i.mainParty m e r party).Slots = i.Slots.elems.map (fun x => decodeInt64 x.toList) ∧
        (i.editorParty m e r party).Slots = i.Slots.elems.map (fun x => decodeInt64 x.toList) ∧
        (i.mainParty m e r party).AttachedPartyIds =
          i.AttachedPartyIds.elems.map (fun x => decodeInt32 x.toList) ∧
        (i.editorParty m e r party).AttachedPartyIds =
          i.AttachedPartyIds.elems.map (fun x => decodeInt32 x.toList) ∧
        (i.mainParty m e r party).ParticleSystemIds =
          i.ParticleSystemIds.elems.map (fun x => decodeInt32 x.toList) ∧
        (i.editorParty m e r party).ParticleSystemIds =
          i.ParticleSystemIds.elems.map (fun x => decodeInt32 x.toList))) := by
  have hb := both_party_upto party v hv
  refine ⟨by decide!, fun file p rest hne => ⟨fun e => ?_, fun e => ?_⟩, fun i rest h => ?_⟩
  · obtain ⟨q, hq, hpq⟩ := (hb.1 file p rest e).2 hne
    refine ⟨q, hq, hpq,
      (show p.quiet.Stacks = q.quiet.Stacks from congrArg Party.Stacks hpq),
      (show p.quiet.Slots = q.quiet.Slots from congrArg Party.Slots hpq),
      (show p.quiet.AttachedPartyIds = q.quiet.AttachedPartyIds from
        congrArg Party.AttachedPartyIds hpq),
      (show p.quiet.ParticleSystemIds = q.quiet.ParticleSystemIds from
        congrArg Party.ParticleSystemIds hpq), ?_⟩
    unfold consumed
    rw [e, hq]
    rfl
  · obtain ⟨q, hq, hpq⟩ := (hb.2 file p rest e).2 hne
    refine ⟨q, hq, hpq,
      (show p.quiet.Stacks = q.quiet.Stacks from congrArg Party.Stacks hpq),
      (show p.quiet.Slots = q.quiet.Slots from congrArg Party.Slots hpq),
      (show p.quiet.AttachedPartyIds = q.quiet.AttachedPartyIds from
        congrArg Party.AttachedPartyIds hpq),
      (show p.quiet.ParticleSystemIds = q.quiet.ParticleSystemIds from
        congrArg Party.ParticleSystemIds hpq), ?_⟩
    unfold consumed
    rw [e, hq]
    rfl
  · have hd : decide (v > 1137) = extraMapIconPresent v := by
      unfold extraMapIconPresent
      by_cases hc : v > 1137
      · simp [hc, le_of_lt hc]
      · have hc2 : ¬ v ≥ 1137 := fun h2 => hc (lt_of_le_of_ne h2 (fun h3 => hv h3.symm))
        simp [hc, hc2]
    have e2 := editor_party_layout party v i rest h
    rw [hd] at e2
    exact ⟨main_party_layout party v i rest h, e2, party_quiet_layout _ _ _ _ _,
      fun m e r => ⟨rfl, rfl, rfl, rfl, rfl, rfl⟩⟩

theorem party_readers_agree_up_to_quieting_witness :
    (1162 : Int32) ≠ 1137 ∧ arraysParty.wf ∧
    (∃ q, Editor.readParty Party.zero 1162 (arraysParty.bytes true true true ++ [0x41]) =
        .ok q [0x41] ∧
      (arraysParty.mainParty true true true Party.zero).quiet = q.quiet ∧
      (arraysParty.mainParty true true true Party.zero).Slots = q.Slots) ∧
    consumed (Main.Party.Read Party.zero 1162) (arraysParty.bytes true true true ++ [0x41]) =
      414 ∧
    (arraysParty.mainParty true true true Party.zero).Slots = [1, 2] ∧
    (arraysParty.mainParty true true true Party.zero).AttachedPartyIds = [7] ∧
    (arraysParty.mainParty true true true Party.zero).ParticleSystemIds = [8, 9] ∧
    (arraysParty.editorParty true true true Party.zero).Slots = [1, 2] ∧
    Editor.readParty Party.zero 1162 (arraysParty.bytes true true true ++ [0x41]) =
      .ok (arraysParty.editorParty true true true Party.zero) [0x41] :=
  have w := party_readers_agree_up_to_quieting Party.zero 1162 (by decide)
  have w1 := (w.2.1 (arraysParty.bytes true true true ++ [0x41])
    (arraysParty.mainParty true true true Party.zero) [0x41] (by decide)).1
    ((w.2.2 arraysParty [0x41] arraysParty_wf).1)
  ⟨by decide, arraysParty_wf,
    w1.elim (fun q hq => ⟨q, hq.1, hq.2.1, hq.2.2.2.1⟩),
    by decide!, by decide, by decide, by decide, by decide,
    (w.2.2 arraysParty [0x41] arraysParty_wf).2.1⟩

/-! ### Short reads after the magic number -/

theorem main_header_magic_only (tail : File) (h : tail.length < 4) :
    Main.Header.Read Header.zero ([0x57, 0x52, 0x44, 0x52] ++ tail) =
      .ok { Header.zero with MagicNumber := 0x52445257 } [] := by
  have e0 : binary.Read 4 decodeInt32 (0 : Int32) tail = .ok 0 [] :=
    binaryRead_short 4 decodeInt32 0 tail h
  have e1 : Main.String.Read String.zero [] = .ok String.zero [] := by decide
  have e2 : binary.Read 4 decodeInt32 (0 : Int32) [] = .ok 0 [] := by decide
  have e3 : Main.Float.Read 0 [] = .ok 0 [] := by decide
  simp only [Main.Header.Read, bind_run, Rd.bind, List.cons_append, List.nil_append,
    Main.Int32.Read, binaryRead_cons4, decodeInt32_magic, ne_eq, not_true_eq_false, if_false,
    pure_run, Header.zero, e0]
  simp only [e1, e2, e3]

theorem editor_header_magic_only (tail : File) (h : tail.length < 4) :
    Editor.readHeader Header.zero ([0x57, 0x52, 0x44, 0x52] ++ tail) =
      .ok { Header.zero with MagicNumber := 0x52445257 } [] := by
  have e0 : binary.Read 4 decodeInt32 (0 : Int32) tail = .ok 0 [] :=
    binaryRead_short 4 decodeInt32 0 tail h
  have e1 : Editor.readString String.zero [] [] = .ok String.zero [] := by decide
  have e2 : binary.Read 4 decodeInt32 (0 : Int32) [] = .ok 0 [] := by decide
  have e3 : binary.Read 4 decodeFloat (0 : Float) [] = .ok 0 [] := by decide
  simp only [Editor.readHeader, bind_run, Rd.bind, List.cons_append, List.nil_append,
    binaryRead_cons4, decodeInt32_magic, ne_eq, not_true_eq_false, if_false,
    pure_run, Header.zero, e0]
  simp only [e1, e2, e3]

theorem main_short_magic (tail : File) (h : tail.length < 4) :
    Main.Game.Read Main.Game.zero tail = .fatal [] := by
  have e0 : Main.Int32.Read Main.Game.zero.Header.MagicNumber tail = .ok 0 [] :=
    binaryRead_short 4 decodeInt32 0 tail h
  unfold Main.Game.Read Main.Header.Read
  simp only [bind_run, Rd.bind, e0]
  rfl

theorem editor_short_magic (tail : File) (h : tail.length < 4) :
    Editor.main tail = .fatal [] := by
  have e0 : binary.Read 4 decodeInt32 Editor.Save.zero.Header.MagicNumber tail = .ok 0 [] :=
    binaryRead_short 4 decodeInt32 0 tail h
  unfold Editor.main Editor.readHeader
  simp only [bind_run, Rd.bind, e0]
  rfl

theorem main_game_time_short (hdr : Header) (file tail : File) (ht : tail.length < 8)
    (h : Main.Header.Read Header.zero file = .ok hdr tail) :
    Main.Game.Read Main.Game.zero file = .ok { Main.Game.zero with Header := hdr } [] := by
  have h1 : Main.Header.Read Main.Game.zero.Header file = .ok hdr tail := h
  have e0 : Main.UInt64.Read Main.Game.zero.GameTime tail = .ok 0 [] :=
    binaryRead_short 8 decodeUInt64 0 tail ht
  unfold Main.Game.Read
  rw [bind_of_ok h1, bind_of_ok e0]
  by_cases hv : hdr.GameVersion ≥ 1137
  · simp only [hv, if_true]
    rfl
  · simp only [hv, if_false]
    rfl

theorem editor_game_time_short (hdr : Header) (file tail : File) (ht : tail.length < 8)
    (h : Editor.readHeader Header.zero file = .ok hdr tail) :
    Editor.main file = .ok { Editor.Save.zero with Header := hdr } [] := by
  have h1 : Editor.readHeader Editor.Save.zero.Header file = .ok hdr tail := h
  have e0 : binary.Read 8 decodeUInt64 Editor.Save.zero.GameTime tail = .ok 0 [] :=
    binaryRead_short 8 decodeUInt64 0 tail ht
  unfold Editor.main
  dsimp only
  rw [bind_of_ok h1, bind_of_ok e0]
  by_cases hv : hdr.GameVersion ≥ 1137
  · simp only [hv, if_true]
    rfl
  · simp only [hv, if_false]
    rfl

/-- Counterexample to claim C28: on the 2-byte input 0x57, 0x52 the first
scalar read, that of the magic number, is short: it leaves the field 0 and
uses up the input, but decoding does not continue; the magic check fails and
both root decoders end in `log.Fatal`. -/
theorem short_magic_read_is_fatal :
    Main.Int32.Read Header.zero.MagicNumber [0x57, 0x52] = .ok 0 [] ∧
    Main.Header.Read Header.zero [0x57, 0x52] = .fatal [] ∧
    Main.Game.Read Main.Game.zero [0x57, 0x52] = .fatal [] ∧
    Editor.readHeader Header.zero [0x57, 0x52] = .fatal [] ∧
    Editor.main [0x57, 0x52] = .fatal [] := by
  decide

/-! ### Negative counts at every count site -/

theorem bind_panic {α β : Type} {x : Rd α} {k : α → Rd β} {file rest : File}
    (h : x file = .panic rest) : (x >>= k) file = .panic rest := by
  simp only [bind_run, Rd.bind, h]

theorem bind_gate {α β : Type} {n : Nat} (c : Prop) [Decidable c] (decode : List Byte → α)
    (data : α) (v : Bytes n) (rest : File) (k : α → Rd β) :
    ((if c then binary.Read n decode data else pure data) >>= k)
        ((if c then v.toList else []) ++ rest) =
      k (if c then decode v.toList else data) rest := by
  by_cases h : c
  · simp only [if_pos h, bind_vec]
  · simp only [if_neg h, bind_pure_run, List.nil_append]

theorem bind_append {α β : Type} (n : Nat) (decode : List Byte → α) (data : α) (bs rest : File)
    (k : α → Rd β) (h : bs.length = n) :
    (binary.Read n decode data >>= k) (bs ++ rest) = k (decode bs) rest :=
  bind_of_ok (binaryRead_append n decode data bs rest h)

theorem five_layout {α β γ δ ε : Type} (da : List Byte → α) (db : List Byte → β)
    (dc : List Byte → γ) (dd : List Byte → δ) (de : List Byte → ε) (a : α) (b : β) (c : γ)
    (d : δ) (e : ε) {na nb nc nd ne : Nat} (va : Bytes na) (vb : Bytes nb) (vc : Bytes nc)
    (vd : Bytes nd) (ve : Bytes ne) (rest : File) :
    (do
      let a ← binary.Read na da a
      let b ← binary.Read nb db b
      let c ← binary.Read nc dc c
      let d ← binary.Read nd dd d
      let e ← binary.Read ne de e
      pure (a, b, c, d, e) : Rd (α × β × γ × δ × ε))
        (va.toList ++ (vb.toList ++ (vc.toList ++ (vd.toList ++ (ve.toList ++ rest))))) =
      .ok (da va.toList, db vb.toList, dc vc.toList, dd vd.toList, de ve.toList) rest := by
  iterate 5 rw [bind_vec]
  rfl

theorem main_quest_neg (quest : Quest) (i : QuestImage) (cnt rest : File) (h : i.wf)
    (hcnt : cnt.length = 4) (hneg : decodeInt32 cnt < 0) :
    Main.Quest.Read quest (i.beforeSlots ++ cnt ++ rest) = .panic rest := by
  obtain ⟨h1, h2, h3, hnotes, _⟩ := h
  simp only [Main.Quest.Read, Main.Int32.Read, Main.Int64.Read, Main.Float.Read, QuestImage.beforeSlots, List.append_assoc]
  iterate 4 rw [bind_vec]
  rw [bind_of_ok (main_text_layout _ _ _ h1), bind_of_ok (main_text_layout _ _ _ h2),
    bind_of_ok (main_text_layout _ _ _ h3), bind_of_ok (main_notes_layout _ _ _ hnotes),
    bind_append 4 _ _ _ _ _ hcnt, bind_panic (make_neg _ _ _ hneg)]

theorem editor_quest_neg (quest : Quest) (i : QuestImage) (cnt rest : File) (h : i.wf)
    (hcnt : cnt.length = 4) (hneg : decodeInt32 cnt < 0) :
    Editor.readQuest quest (i.beforeSlots ++ cnt ++ rest) = .panic rest := by
  obtain ⟨h1, h2, h3, hnotes, _⟩ := h
  simp only [Editor.readQuest, QuestImage.beforeSlots, List.append_assoc]
  iterate 4 rw [bind_vec]
  rw [bind_of_ok (editor_text_layout _ _ _ h1), bind_of_ok (editor_text_layout _ _ _ h2),
    bind_of_ok (editor_text_layout _ _ _ h3), bind_of_ok (editor_notes_layout _ _ _ hnotes),
    bind_append 4 _ _ _ _ _ hcnt, bind_panic (make_neg _ _ _ hneg)]

theorem main_party_stacks_neg (party : Party) (v : Int32) (i : PartyImage) (cnt rest : File)
    (h : i.wf) (hcnt : cnt.length = 4) (hneg : decodeInt32 cnt < 0) :
    Main.Party.Read party v (i.beforeStacks ++ cnt ++ rest) = .panic rest := by
  obtain ⟨h1, h2, _⟩ := h
  simp only [Main.Party.Read, Main.Int32.Read, Main.Int64.Read, Main.UInt64.Read,
    Main.Float.Read, Main.Bool.Read, PartyImage.beforeStacks, List.append_assoc]
  rw [bind_of_ok (main_text_layout _ _ _ h1), bind_of_ok (main_text_layout _ _ _ h2)]
  iterate 16 rw [bind_vec]
  rw [bind_append 4 _ _ _ _ _ hcnt, bind_panic (make_neg _ _ _ hneg)]

theorem editor_party_stacks_neg (party : Party) (v : Int32) (i : PartyImage) (cnt rest : File)
    (h : i.wf) (hcnt : cnt.length = 4) (hneg : decodeInt32 cnt < 0) :
    Editor.readParty party v (i.beforeStacks ++ cnt ++ rest) = .panic rest := by
  obtain ⟨h1, h2, _⟩ := h
  simp only [Editor.readParty, PartyImage.beforeStacks, List.append_assoc]
  rw [bind_of_ok (editor_text_layout _ _ _ h1), bind_of_ok (editor_text_layout _ _ _ h2)]
  iterate 16 rw [bind_vec]
  rw [bind_append 4 _ _ _ _ _ hcnt, bind_panic (make_neg _ _ _ hneg)]

theorem main_party_attached_neg (party : Party) (v : Int32) (i : PartyImage) (cnt rest : File)
    (h : i.wf) (hcnt : cnt.length = 4) (hneg : decodeInt32 cnt < 0) :
    Main.Party.Read party v
        (i.beforeAttached (marshallPresent v) (decide (v ≥ 1137)) (reservedPresent v) ++
          cnt ++ rest) = .panic rest := by
  obtain ⟨h1, h2, hst, h3, ha, hp, hnotes, _⟩ := h
  replace ha : decodeInt32 i.AttachedPartyIds.count.toList = i.AttachedPartyIds.elems.length :=
    ha
  replace hp : decodeInt32 i.ParticleSystemIds.count.toList =
      i.ParticleSystemIds.elems.length := hp
  simp only [Main.Party.Read, Main.Int32.Read, Main.Int64.Read, Main.UInt64.Read,
    Main.Float.Read, Main.Bool.Read, PartyImage.beforeAttached, PartyImage.head,
    ArrayImage.bytes, marshallPresent, reservedPresent, decide_eq_true_eq, List.append_assoc,
    List.singleton_append, List.cons_append, List.nil_append]
  rw [bind_of_ok (main_text_layout _ _ _ h1), bind_of_ok (main_text_layout _ _ _ h2)]
  iterate 17 rw [bind_vec]
  rw [hst, bind_of_ok (make_natCast _ _ _),
    bind_of_ok (main_stacks_layout _ _ _ (List.length_replicate _ _)), bind_vec,
    bind_of_ok (binaryRead_cons1 _ _ _ _), bind_of_ok (main_text_layout _ _ _ h3)]
  iterate 8 rw [bind_vec]
  rw [bind_gate, bind_vec, bind_vec]
  by_cases he : v ≥ 1137
  · simp only [if_pos he, PartyImage.extra, List.append_assoc]
    rw [bind_of_ok (five_layout _ _ _ _ _ _ _ _ _ _ _ _ _ _ _ _)]
    dsimp only
    rw [bind_vec, bind_gate, bind_of_ok (binaryRead_cons1 _ _ _ _), bind_append 4 _ _ _ _ _ hcnt,
      bind_panic (make_neg _ _ _ hneg)]
  · simp only [if_neg he, List.nil_append]
    rw [bind_pure_run]
    dsimp only
    rw [bind_vec, bind_gate, bind_of_ok (binaryRead_cons1 _ _ _ _), bind_append 4 _ _ _ _ _ hcnt,
      bind_panic (make_neg _ _ _ hneg)]

theorem main_party_particles_neg (party : Party) (v : Int32) (i : PartyImage) (cnt rest : File)
    (h : i.wf) (hcnt : cnt.length = 4) (hneg : decodeInt32 cnt < 0) :
    Main.Party.Read party v
        (i.beforeAttached (marshallPresent v) (decide (v ≥ 1137)) (reservedPresent v) ++ i.AttachedPartyIds.bytes ++
          cnt ++ rest) = .panic rest := by
  obtain ⟨h1, h2, hst, h3, ha, hp, hnotes, _⟩ := h
  replace ha : decodeInt32 i.AttachedPartyIds.count.toList = i.AttachedPartyIds.elems.length :=
    ha
  replace hp : decodeInt32 i.ParticleSystemIds.count.toList =
      i.ParticleSystemIds.elems.length := hp
  simp only [Main.Party.Read, Main.Int32.Read, Main.Int64.Read, Main.UInt64.Read,
    Main.Float.Read, Main.Bool.Read, PartyImage.beforeAttached, PartyImage.head,
    ArrayImage.bytes, marshallPresent, reservedPresent, decide_eq_true_eq, List.append_assoc,
    List.singleton_append, List.cons_append, List.nil_append]
  rw [bind_of_ok (main_text_layout _ _ _ h1), bind_of_ok (main_text_layout _ _ _ h2)]
  iterate 17 rw [bind_vec]
  rw [hst, bind_of_ok (make_natCast _ _ _),
    bind_of_ok (main_stacks_layout _ _ _ (List.length_replicate _ _)), bind_vec,
    bind_of_ok (binaryRead_cons1 _ _ _ _), bind_of_ok (main_text_layout _ _ _ h3)]
  iterate 8 rw [bind_vec]
  rw [bind_gate, bind_vec, bind_vec]
  by_cases he : v ≥ 1137
  · simp only [if_pos he, PartyImage.extra, List.append_assoc]
    rw [bind_of_ok (five_layout _ _ _ _ _ _ _ _ _ _ _ _ _ _ _ _)]
    dsimp only
    rw [bind_vec, bind_gate, bind_of_ok (binaryRead_cons1 _ _ _ _), bind_vec, ha,
      bind_of_ok (make_natCast _ _ _),
      bind_of_ok (readEach_int32 _ _ _ (List.length_replicate _ _)),
      bind_append 4 _ _ _ _ _ hcnt, bind_panic (make_neg _ _ _ hneg)]
  · simp only [if_neg he, List.nil_append]
    rw [bind_pure_run]
    dsimp only
    rw [bind_vec, bind_gate, bind_of_ok (binaryRead_cons1 _ _ _ _), bind_vec, ha,
      bind_of_ok (make_natCast _ _ _),
      bind_of_ok (readEach_int32 _ _ _ (List.length_replicate _ _)),
      bind_append 4 _ _ _ _ _ hcnt, bind_panic (make_neg _ _ _ hneg)]

theorem main_party_slots_neg (party : Party) (v : Int32) (i : PartyImage) (cnt rest : File)
    (h : i.wf) (hcnt : cnt.length = 4) (hneg : decodeInt32 cnt < 0) :
    Main.Party.Read party v
        (i.beforeAttached (marshallPresent v) (decide (v ≥ 1137)) (reservedPresent v) ++ i.AttachedPartyIds.bytes ++ i.ParticleSystemIds.bytes ++
          NoteImage.block i.Notes.toList ++
          cnt ++ rest) = .panic rest := by
  obtain ⟨h1, h2, hst, h3, ha, hp, hnotes, _⟩ := h
  replace ha : decodeInt32 i.AttachedPartyIds.count.toList = i.AttachedPartyIds.elems.length :=
    ha
  replace hp : decodeInt32 i.ParticleSystemIds.count.toList =
      i.ParticleSystemIds.elems.length := hp
  simp only [Main.Party.Read, Main.Int32.Read, Main.Int64.Read, Main.UInt64.Read,
    Main.Float.Read, Main.Bool.Read, PartyImage.beforeAttached, PartyImage.head,
    ArrayImage.bytes, marshallPresent, reservedPresent, decide_eq_true_eq, List.append_assoc,
    List.singleton_append, List.cons_append, List.nil_append]
  rw [bind_of_ok (main_text_layout _ _ _ h1), bind_of_ok (main_text_layout _ _ _ h2)]
  iterate 17 rw [bind_vec]
  rw [hst, bind_of_ok (make_natCast _ _ _),
    bind_of_ok (main_stacks_layout _ _ _ (List.length_replicate _ _)), bind_vec,
    bind_of_ok (binaryRead_cons1 _ _ _ _), bind_of_ok (main_text_layout _ _ _ h3)]
  iterate 8 rw [bind_vec]
  rw [bind_gate, bind_vec, bind_vec]
  by_cases he : v ≥ 1137
  · simp only [if_pos he, PartyImage.extra, List.append_assoc]
    rw [bind_of_ok (five_layout _ _ _ _ _ _ _ _ _ _ _ _ _ _ _ _)]
    dsimp only
    rw [bind_vec, bind_gate, bind_of_ok (binaryRead_cons1 _ _ _ _), bind_vec, ha,
      bind_of_ok (make_natCast _ _ _),
      bind_of_ok (readEach_int32 _ _ _ (List.length_replicate _ _)), bind_vec, hp,
      bind_of_ok (make_natCast _ _ _),
      bind_of_ok (readEach_int32 _ _ _ (List.length_replicate _ _)),
      bind_of_ok (main_notes_layout _ _ _ hnotes), bind_append 4 _ _ _ _ _ hcnt,
      bind_panic (make_neg _ _ _ hneg)]
  · simp only [if_neg he, List.nil_append]
    rw [bind_pure_run]
    dsimp only
    rw [bind_vec, bind_gate, bind_of_ok (binaryRead_cons1 _ _ _ _), bind_vec, ha,
      bind_of_ok (make_natCast _ _ _),
      bind_of_ok (readEach_int32 _ _ _ (List.length_replicate _ _)), bind_vec, hp,
      bind_of_ok (make_natCast _ _ _),
      bind_of_ok (readEach_int32 _ _ _ (List.length_replicate _ _)),
      bind_of_ok (main_notes_layout _ _ _ hnotes), bind_append 4 _ _ _ _ _ hcnt,
      bind_panic (make_neg _ _ _ hneg)]

theorem editor_party_attached_neg (party : Party) (v : Int32) (i : PartyImage) (cnt rest : File)
    (h : i.wf) (hcnt : cnt.length = 4) (hneg : decodeInt32 cnt < 0) :
    Editor.readParty party v
        (i.beforeAttached (marshallPresent v) (decide (v > 1137)) (reservedPresent v) ++
          cnt ++ rest) = .panic rest := by
  obtain ⟨h1, h2, hst, h3, ha, hp, hnotes, _⟩ := h
  replace ha : decodeInt32 i.AttachedPartyIds.count.toList = i.AttachedPartyIds.elems.length :=
    ha
  replace hp : decodeInt32 i.ParticleSystemIds.count.toList =
      i.ParticleSystemIds.elems.length := hp
  simp only [Editor.readParty, PartyImage.beforeAttached, PartyImage.head,
    ArrayImage.bytes, marshallPresent, reservedPresent, decide_eq_true_eq, List.append_assoc,
    List.singleton_append, List.cons_append, List.nil_append]
  rw [bind_of_ok (editor_text_layout _ _ _ h1), bind_of_ok (editor_text_layout _ _ _ h2)]
  iterate 17 rw [bind_vec]
  rw [hst, bind_of_ok (make_natCast _ _ _),
    bind_of_ok (editor_stacks_layout _ _ _ (List.length_replicate _ _)), bind_vec,
    bind_of_ok (binaryRead_cons1 _ _ _ _), bind_of_ok (editor_text_layout _ _ _ h3)]
  iterate 8 rw [bind_vec]
  rw [bind_gate, bind_vec, bind_vec]
  by_cases he : v > 1137
  · simp only [if_pos he, PartyImage.extra, List.append_assoc]
    rw [bind_of_ok (five_layout _ _ _ _ _ _ _ _ _ _ _ _ _ _ _ _)]
    dsimp only
    rw [bind_vec, bind_gate, bind_of_ok (binaryRead_cons1 _ _ _ _), bind_append 4 _ _ _ _ _ hcnt,
      bind_panic (make_neg _ _ _ hneg)]
  · simp only [if_neg he, List.nil_append]
    rw [bind_pure_run]
    dsimp only
    rw [bind_vec, bind_gate, bind_of_ok (binaryRead_cons1 _ _ _ _), bind_append 4 _ _ _ _ _ hcnt,
      bind_panic (make_neg _ _ _ hneg)]

theorem editor_party_particles_neg (party : Party) (v : Int32) (i : PartyImage) (cnt rest : File)
    (h : i.wf) (hcnt : cnt.length = 4) (hneg : decodeInt32 cnt < 0) :
    Editor.readParty party v
        (i.beforeAttached (marshallPresent v) (decide (v > 1137)) (reservedPresent v) ++ i.AttachedPartyIds.bytes ++
          cnt ++ rest) = .panic rest := by
  obtain ⟨h1, h2, hst, h3, ha, hp, hnotes, _⟩ := h
  replace ha : decodeInt32 i.AttachedPartyIds.count.toList = i.AttachedPartyIds.elems.length :=
    ha
  replace hp : decodeInt32 i.ParticleSystemIds.count.toList =
      i.ParticleSystemIds.elems.length := hp
  simp only [Editor.readParty, PartyImage.beforeAttached, PartyImage.head,
    ArrayImage.bytes, marshallPresent, reservedPresent, decide_eq_true_eq, List.append_assoc,
    List.singleton_append, List.cons_append, List.nil_append]
  rw [bind_of_ok (editor_text_layout _ _ _ h1), bind_of_ok (editor_text_layout _ _ _ h2)]
  iterate 17 rw [bind_vec]
  rw [hst, bind_of_ok (make_natCast _ _ _),
    bind_of_ok (editor_stacks_layout _ _ _ (List.length_replicate _ _)), bind_vec,
    bind_of_ok (binaryRead_cons1 _ _ _ _), bind_of_ok (editor_text_layout _ _ _ h3)]
  iterate 8 rw [bind_vec]
  rw [bind_gate, bind_vec, bind_vec]
  by_cases he : v > 1137
  · simp only [if_pos he, PartyImage.extra, List.append_assoc]
    rw [bind_of_ok (five_layout _ _ _ _ _ _ _ _ _ _ _ _ _ _ _ _)]
    dsimp only
    rw [bind_vec, bind_gate, bind_of_ok (binaryRead_cons1 _ _ _ _), bind_vec, ha,
      bind_of_ok (make_natCast _ _ _),
      bind_of_ok (readSlice_scalars _ _ _ _ (List.length_replicate _ _)),
      bind_append 4 _ _ _ _ _ hcnt, bind_panic (make_neg _ _ _ hneg)]
  · simp only [if_neg he, List.nil_append]
    rw [bind_pure_run]
    dsimp only
    rw [bind_vec, bind_gate, bind_of_ok (binaryRead_cons1 _ _ _ _), bind_vec, ha,
      bind_of_ok (make_natCast _ _ _),
      bind_of_ok (readSlice_scalars _ _ _ _ (List.length_replicate _ _)),
      bind_append 4 _ _ _ _ _ hcnt, bind_panic (make_neg _ _ _ hneg)]

theorem editor_party_slots_neg (party : Party) (v : Int32) (i : PartyImage) (cnt rest : File)
    (h : i.wf) (hcnt : cnt.length = 4) (hneg : decodeInt32 cnt < 0) :
    Editor.readParty party v
        (i.beforeAttached (marshallPresent v) (decide (v > 1137)) (reservedPresent v) ++ i.AttachedPartyIds.bytes ++ i.ParticleSystemIds.bytes ++
          NoteImage.block i.Notes.toList ++
          cnt ++ rest) = .panic rest := by
  obtain ⟨h1, h2, hst, h3, ha, hp, hnotes, _⟩ := h
  replace ha : decodeInt32 i.AttachedPartyIds.count.toList = i.AttachedPartyIds.elems.length :=
    ha
  replace hp : decodeInt32 i.ParticleSystemIds.count.toList =
      i.ParticleSystemIds.elems.length := hp
  simp only [Editor.readParty, PartyImage.beforeAttached, PartyImage.head,
    ArrayImage.bytes, marshallPresent, reservedPresent, decide_eq_true_eq, List.append_assoc,
    List.singleton_append, List.cons_append, List.nil_append]
  rw [bind_of_ok (editor_text_layout _ _ _ h1), bind_of_ok (editor_text_layout _ _ _ h2)]
  iterate 17 rw [bind_vec]
  rw [hst, bind_of_ok (make_natCast _ _ _),
    bind_of_ok (editor_stacks_layout _ _ _ (List.length_replicate _ _)), bind_vec,
    bind_of_ok (binaryRead_cons1 _ _ _ _), bind_of_ok (editor_text_layout _ _ _ h3)]
  iterate 8 rw [bind_vec]
  rw [bind_gate, bind_vec, bind_vec]
  by_cases he : v > 1137
  · simp only [if_pos he, PartyImage.extra, List.append_assoc]
    rw [bind_of_ok (five_layout _ _ _ _ _ _ _ _ _ _ _ _ _ _ _ _)]
    dsimp only
    rw [bind_vec, bind_gate, bind_of_ok (binaryRead_cons1 _ _ _ _), bind_vec, ha,
      bind_of_ok (make_natCast _ _ _),
      bind_of_ok (readSlice_scalars _ _ _ _ (List.length_replicate _ _)), bind_vec, hp,
      bind_of_ok (make_natCast _ _ _),
      bind_of_ok (readSlice_scalars _ _ _ _ (List.length_replicate _ _)),
      bind_of_ok (editor_notes_layout _ _ _ hnotes), bind_append 4 _ _ _ _ _ hcnt,
      bind_panic (make_neg _ _ _ hneg)]
  · simp only [if_neg he, List.nil_append]
    rw [bind_pure_run]
    dsimp only
    rw [bind_vec, bind_gate, bind_of_ok (binaryRead_cons1 _ _ _ _), bind_vec, ha,
      bind_of_ok (make_natCast _ _ _),
      bind_of_ok (readSlice_scalars _ _ _ _ (List.length_replicate _ _)), bind_vec, hp,
      bind_of_ok (make_natCast _ _ _),
      bind_of_ok (readSlice_scalars _ _ _ _ (List.length_replicate _ _)),
      bind_of_ok (editor_notes_layout _ _ _ hnotes), bind_append 4 _ _ _ _ _ hcnt,
      bind_panic (make_neg _ _ _ hneg)]

theorem main_root_count_neg (game : Main.Game) (i : MinimalImage) (created : Bytes 4)
    (cnt rest : File) (hcnt : cnt.length = 4) (hneg : decodeInt32 cnt < 0) (k : Nat)
    (hk : k ≤ 9) :
    Main.Game.Read game
        (i.beforeSections (decide (decodeInt32 i.GameVersion.toList ≥ 1137)) ++ zeroCounts k ++
          cnt ++ (if k = 9 then created.toList else []) ++ rest) = .panic rest := by
  by_cases hv : decodeInt32 i.GameVersion.toList ≥ 1137 <;>
  (simp only [Main.Game.Read, Main.Header.Read, MinimalImage.beforeSections,
    MinimalImage.headerBytes,
    MinimalImage.difficulty, MinimalImage.scalars,
    List.append_assoc, bind_run, Rd.bind, hv, decide_True, decide_False, Bool.false_eq_true,
    if_true, if_false, Main.Int32.Read, Main.Int64.Read, Main.UInt64.Read, Main.Float.Read,
    Main.Bool.Read, binaryRead_vec, binaryRead_cons4, decodeInt32_magic, ne_eq,
    not_true_eq_false, pure_run, main_empty_text, List.singleton_append, List.cons_append,
    List.nil_append, binaryRead_cons1, readArray_int32, main_empty_texts 9 game.ClassNames]
   interval_cases k <;>
   simp only [zeroCounts, List.append_assoc, List.nil_append, binaryRead_vec,
    decodeInt32_zeroBytes, make_zero, readEach, pure_run, Nat.reduceEqDiff,
    if_true, if_false,
    binaryRead_append 4 decodeInt32 _ cnt _ hcnt, make_neg _ _ _ hneg])

theorem editor_root_count_neg (i : MinimalImage) (created : Bytes 4)
    (cnt rest : File) (hcnt : cnt.length = 4) (hneg : decodeInt32 cnt < 0) (k : Nat)
    (hk : k ≤ 9) :
    Editor.main
        (i.beforeSections (decide (decodeInt32 i.GameVersion.toList ≥ 1137)) ++ zeroCounts k ++
          cnt ++ (if k = 9 then created.toList else []) ++ rest) = .panic rest := by
  by_cases hv : decodeInt32 i.GameVersion.toList ≥ 1137 <;>
  (simp only [Editor.main, Editor.readHeader, MinimalImage.beforeSections,
    MinimalImage.headerBytes,
    MinimalImage.difficulty, MinimalImage.scalars,
    List.append_assoc, bind_run, Rd.bind, hv, decide_True, decide_False, Bool.false_eq_true,
    if_true, if_false, binaryRead_vec, binaryRead_cons4, decodeInt32_magic, ne_eq,
    not_true_eq_false, pure_run, editor_empty_text, List.singleton_append, List.cons_append,
    List.nil_append, binaryRead_cons1, readArrayBulk_scalars,
    editor_empty_raw_texts 9 Editor.Save.zero.ClassNames _ zero_class_names]
   interval_cases k <;>
   simp only [zeroCounts, List.append_assoc, List.nil_append, binaryRead_vec,
    decodeInt32_zeroBytes, make_zero, readEach, readSlice_nil, pure_run, Nat.reduceEqDiff,
    if_true, if_false,
    binaryRead_append 4 decodeInt32 _ cnt _ hcnt, make_neg _ _ _ hneg])

/-- Counterexample to claim C6: on the four bytes ff ff ff ff, a count of -1,
the text readers of both implementations do not fail with an error of their
own: no count is checked, the count goes to `make`, and the run is ended by
the Go runtime panic `makeslice: len out of range` (the outcome `panic`,
which is neither a returned result nor the `log.Fatal` of the decoders). The
same happens in both root decoders when the first section count,
`NumGlobalVariables`, is -1. -/
theorem negative_count_is_runtime_panic :
    decodeInt32 [0xff, 0xff, 0xff, 0xff] = -1 ∧
    Main.String.Read String.zero [0xff, 0xff, 0xff, 0xff] = .panic [] ∧
    Editor.readString String.zero [] [0xff, 0xff, 0xff, 0xff] = .panic [] ∧
    make (0 : Byte) (-1) [] = .panic [] ∧
    Main.Game.Read Main.Game.zero
        (zeroMinimal.beforeSections false ++ [0xff, 0xff, 0xff, 0xff]) = .panic [] ∧
    Editor.main (zeroMinimal.beforeSections false ++ [0xff, 0xff, 0xff, 0xff]) = .panic [] := by
  decide!

/-- Claim C6, amended: a negative count stops the decode, by a runtime panic
and not by an error of the decoder. Neither implementation checks
a count; the count goes to `make`, and `make` with a negative length ends the
run in the Go runtime panic `makeslice: len out of range` (the outcome
`panic`), so the decode fails and no result is produced. This holds at every
count site of both implementations: a reader whose input reaches a 4-byte count
that decodes to a negative int32 ends in that panic with exactly the bytes up
to the count consumed. The sites are the text reader; the slot arrays of the
site, faction, party template (after its three counters) and quest (after its
notes) readers; in the party reader the stacks (count after `PositionZ`), the
attached party ids (count after `IsAttached`), the particle system ids and the
slots (after the 16 notes), for every game version; and in the root decoders
each of the nine section counts from `NumGlobalVariables` to
`NumPartyTemplates` (`k` zero counts before it) and `NumPartyRecords` (after
which `NumPartiesCreated` is still read before `make` is called). Moreover no
reader of either implementation ever returns a record one of whose array
counts is negative. -/
theorem negative_count_stops_decode (cnt rest c1 c2 c3 file : File)
    (hcnt : cnt.length = 4) (hneg : decodeInt32 cnt < 0)
    (h1 : c1.length = 4) (h2 : c2.length = 4) (h3 : c3.length = 4)
    (s : String) (nr : List Bool) (site : Site) (mf : Main.Faction) (ef : Editor.Faction)
    (n v : Int32) (template : PartyTemplate) (quest : Quest) (party : Party) (game : Main.Game)
    (qi : QuestImage) (hq : qi.wf) (pi : PartyImage) (hp : pi.wf) (mi : MinimalImage)
    (created : Bytes 4) :
    (Main.String.Read s (cnt ++ rest) = .panic rest ∧
      Editor.readString s nr (cnt ++ rest) = .panic rest ∧
      Main.Site.Read site (cnt ++ rest) = .panic rest ∧
      Editor.readSite site (cnt ++ rest) = .panic rest ∧
      Main.Faction.Read mf (cnt ++ rest) = .panic rest ∧
      Editor.readFaction ef n (cnt ++ rest) = .panic rest ∧
      Main.PartyTemplate.Read template (c1 ++ c2 ++ c3 ++ cnt ++ rest) = .panic rest ∧
      Editor.readPartyTemplate template (c1 ++ c2 ++ c3 ++ cnt ++ rest) = .panic rest) ∧
    (Main.Quest.Read quest (qi.beforeSlots ++ cnt ++ rest) = .panic rest ∧
      Editor.readQuest quest (qi.beforeSlots ++ cnt ++ rest) = .panic rest) ∧
    (Main.Party.Read party v (pi.beforeStacks ++ cnt ++ rest) = .panic rest ∧
      Editor.readParty party v (pi.beforeStacks ++ cnt ++ rest) = .panic rest ∧
      Main.Party.Read party v
          (pi.beforeAttached (marshallPresent v) (decide (v ≥ 1137)) (reservedPresent v) ++
            cnt ++ rest) = .panic rest ∧
      Editor.readParty party v
          (pi.beforeAttached (marshallPresent v) (decide (v > 1137)) (reservedPresent v) ++
            cnt ++ rest) = .panic rest ∧
      Main.Party.Read party v
          (pi.beforeAttached (marshallPresent v) (decide (v ≥ 1137)) (reservedPresent v) ++
            pi.AttachedPartyIds.bytes ++ cnt ++ rest) = .panic rest ∧
      Editor.readParty party v
          (pi.beforeAttached (marshallPresent v) (decide (v > 1137)) (reservedPresent v) ++
            pi.AttachedPartyIds.bytes ++ cnt ++ rest) = .panic rest ∧
      Main.Party.Read party v
          (pi.beforeAttached (marshallPresent v) (decide (v ≥ 1137)) (reservedPresent v) ++
            pi.AttachedPartyIds.bytes ++ pi.ParticleSystemIds.bytes ++
            NoteImage.block pi.Notes.toList ++ cnt ++ rest) = .panic rest ∧
      Editor.readParty party v
          (pi.beforeAttached (marshallPresent v) (decide (v > 1137)) (reservedPresent v) ++
            pi.AttachedPartyIds.bytes ++ pi.ParticleSystemIds.bytes ++
            NoteImage.block pi.Notes.toList ++ cnt ++ rest) = .panic rest) ∧
    (∀ k, k ≤ 8 →
      Main.Game.Read game
          (mi.beforeSections (decide (decodeInt32 mi.GameVersion.toList ≥ 1137)) ++
            zeroCounts k ++ cnt ++ rest) = .panic rest ∧
      Editor.main
          (mi.beforeSections (decide (decodeInt32 mi.GameVersion.toList ≥ 1137)) ++
            zeroCounts k ++ cnt ++ rest) = .panic rest) ∧
    (Main.Game.Read game
        (mi.beforeSections (decide (decodeInt32 mi.GameVersion.toList ≥ 1137)) ++
          zeroCounts 9 ++ cnt ++ created.toList ++ rest) = .panic rest ∧
      Editor.main
        (mi.beforeSections (decide (decodeInt32 mi.GameVersion.toList ≥ 1137)) ++
          zeroCounts 9 ++ cnt ++ created.toList ++ rest) = .panic rest) ∧
    ((Main.String.Read s file).Sat (fun r _ => 0 ≤ r.NumChars) ∧
      (Editor.readString s nr file).Sat (fun r _ => 0 ≤ r.NumChars) ∧
      (Main.Quest.Read quest file).Sat (fun r _ => 0 ≤ r.NumSlots) ∧
      (Editor.readQuest quest file).Sat (fun r _ => 0 ≤ r.NumSlots) ∧
      (Main.Site.Read site file).Sat (fun r _ => 0 ≤ r.NumSlots) ∧
      (Editor.readSite site file).Sat (fun r _ => 0 ≤ r.NumSlots) ∧
      (Main.Faction.Read mf file).Sat (fun r _ => 0 ≤ r.NumSlots) ∧
      (Editor.readFaction ef n file).Sat (fun r _ => 0 ≤ r.NumSlots ∧ 0 ≤ n) ∧
      (Main.PartyTemplate.Read template file).Sat (fun r _ => 0 ≤ r.NumSlots) ∧
      (Editor.readPartyTemplate template file).Sat (fun r _ => 0 ≤ r.NumSlots) ∧
      (Main.Party.Read party v file).Sat (fun r _ => r.countsNonneg) ∧
      (Editor.readParty party v file).Sat (fun r _ => r.countsNonneg) ∧
      (Main.Game.Read game file).Sat (fun r _ => r.countsNonneg) ∧
      (Editor.main file).Sat (fun r _ => r.countsNonneg)) := by
  refine ⟨⟨main_string_neg s cnt rest hcnt hneg, editor_string_neg s nr cnt rest hcnt hneg,
    main_site_neg site cnt rest hcnt hneg, editor_site_neg site cnt rest hcnt hneg,
    main_faction_neg mf cnt rest hcnt hneg, editor_faction_neg ef n cnt rest hcnt hneg, ?_, ?_⟩,
    ⟨main_quest_neg quest qi cnt rest hq hcnt hneg,
      editor_quest_neg quest qi cnt rest hq hcnt hneg⟩,
    ⟨main_party_stacks_neg party v pi cnt rest hp hcnt hneg,
      editor_party_stacks_neg party v pi cnt rest hp hcnt hneg,
      main_party_attached_neg party v pi cnt rest hp hcnt hneg,
      editor_party_attached_neg party v pi cnt rest hp hcnt hneg,
      main_party_particles_neg party v pi cnt rest hp hcnt hneg,
      editor_party_particles_neg party v pi cnt rest hp hcnt hneg,
      main_party_slots_neg party v pi cnt rest hp hcnt hneg,
      editor_party_slots_neg party v pi cnt rest hp hcnt hneg⟩,
    fun k hk => ⟨?_, ?_⟩, ⟨?_, ?_⟩,
    main_string_count s file, editor_string_count s nr file, main_quest_count quest file,
    editor_quest_count quest file, main_site_count site file, editor_site_count site file,
    main_faction_count mf file, editor_faction_count ef n file,
    main_template_count template file, editor_template_count template file,
    main_party_counts party v file, editor_party_counts party v file,
    main_game_counts game file, editor_main_counts file⟩
  · simpa only [List.append_assoc] using
      main_template_neg template c1 c2 c3 cnt rest h1 h2 h3 hcnt hneg
  · simpa only [List.append_assoc] using
      editor_template_neg template c1 c2 c3 cnt rest h1 h2 h3 hcnt hneg
  · have e := main_root_count_neg game mi created cnt rest hcnt hneg k (by omega)
    rwa [if_neg (by omega), List.append_nil] at e
  · have e := editor_root_count_neg mi created cnt rest hcnt hneg k (by omega)
    rwa [if_neg (by omega), List.append_nil] at e
  · have e := main_root_count_neg game mi created cnt rest hcnt hneg 9 (by omega)
    rwa [if_pos rfl] at e
  · have e := editor_root_count_neg mi created cnt rest hcnt hneg 9 (by omega)
    rwa [if_pos rfl] at e

theorem negative_count_stops_decode_witness :
    decodeInt32 [0xff, 0xff, 0xff, 0xff] = -1 ∧
    Main.String.Read String.zero [0xff, 0xff, 0xff, 0xff, 0x41] = .panic [0x41] ∧
    Editor.readSite Site.zero [0xff, 0xff, 0xff, 0xff, 0x41] = .panic [0x41] ∧
    Main.PartyTemplate.Read PartyTemplate.zero
      [1, 0, 0, 0, 2, 0, 0, 0, 3, 0, 0, 0, 0xff, 0xff, 0xff, 0xff, 0x41] = .panic [0x41] ∧
    Editor.readQuest Quest.zero (sampleQuest.beforeSlots ++ [0xff, 0xff, 0xff, 0xff] ++ [0x41]) =
      .panic [0x41] ∧
    Main.Party.Read Party.zero 1162
      (sampleParty.beforeAttached (marshallPresent 1162) (decide ((1162 : Int32) ≥ 1137))
        (reservedPresent 1162) ++ sampleParty.AttachedPartyIds.bytes ++
        [0xff, 0xff, 0xff, 0xff] ++ [0x41]) = .panic [0x41] ∧
    Main.Game.Read Main.Game.zero
      ([0x57, 0x52, 0x44, 0x52] ++ List.replicate 221 0 ++ [0xff, 0xff, 0xff, 0xff, 0x41]) =
        .panic [0x41] ∧
    Editor.main
      ([0x57, 0x52, 0x44, 0x52] ++ List.replicate 221 0 ++ [0xff, 0xff, 0xff, 0xff, 0x41]) =
        .panic [0x41] :=
  have w := negative_count_stops_decode [0xff, 0xff, 0xff, 0xff] [0x41] [1, 0, 0, 0] [2, 0, 0, 0]
    [3, 0, 0, 0] [] rfl (by decide) rfl rfl rfl String.zero [] Site.zero Main.Faction.zero
    Editor.Faction.zero 0 1162 PartyTemplate.zero Quest.zero Party.zero Main.Game.zero
    sampleQuest sampleQuest_wf sampleParty sampleParty_wf zeroMinimal (zeroBytes 4)
  ⟨by decide, w.1.1, w.1.2.2.2.1, w.1.2.2.2.2.2.2.1, w.2.1.2, w.2.2.1.2.2.2.2.1, by decide,
    by decide⟩

/-! ### The end of the root decoders -/

theorem endsIn_bind {α β : Type} {E : β → Rd β} {x : Rd α} {k : α → Rd β} (hx : Framed x)
    (hk : ∀ a, EndsIn E (k a)) : EndsIn E (x >>= k) := by
  intro file b rest h
  obtain ⟨a, mid, ha, hb⟩ := bind_ok _ _ _ _ _ h
  obtain ⟨pre2, m0, hmid, hE, hall⟩ := hk a mid b rest hb
  by_cases hm : mid = []
  · have h0 : pre2 = [] ∧ m0 = [] := List.append_eq_nil.1 (hm ▸ hmid).symm
    refine ⟨file, [], (List.append_nil _).symm, ?_, fun hne => absurd rfl hne⟩
    rw [← h0.2]
    exact hE
  · obtain ⟨pre1, hfile, hx2⟩ := hx file a mid ha hm
    refine ⟨pre1 ++ pre2, m0, by rw [hfile, hmid, List.append_assoc], hE, fun hne t => ?_⟩
    rw [List.append_assoc, bind_of_ok (hx2 (pre2 ++ t))]
    exact hall hne t

theorem main_entity_endsIn (game : Main.Game) (v : Int32)
    (F : Int32 → List PartyTemplate → Int32 → Int32 → List PartyRecord → Main.Game)
    (hF : ∀ nt tp n c rs, (F nt tp n c rs).Header.GameVersion = v ∧
      ∀ nt1 tp1 n1 c1 rs1,
        { F nt tp n c rs with
          NumPartyTemplates := nt1, PartyTemplates := tp1, NumPartyRecords := n1,
          NumPartiesCreated := c1, PartyRecords := rs1 } = F nt1 tp1 n1 c1 rs1) :
    EndsIn (Main.Game.entitySection game) (do
      let NumPartyTemplates ← Main.Int32.Read game.NumPartyTemplates
      let PartyTemplates ← make PartyTemplate.zero NumPartyTemplates
      let PartyTemplates ← readEach Main.PartyTemplate.Read PartyTemplates
      let NumPartyRecords ← Main.Int32.Read game.NumPartyRecords
      let NumPartiesCreated ← Main.Int32.Read game.NumPartiesCreated
      let PartyRecords ← make PartyRecord.zero NumPartyRecords
      let PartyRecords ← readEach
        (fun partyRecord => Main.PartyRecord.Read partyRecord v) PartyRecords
      pure (F NumPartyTemplates PartyTemplates NumPartyRecords NumPartiesCreated
        PartyRecords)) := by
  intro file b rest h
  have hb : ∃ nt tp n c rs, b = F nt tp n c rs := by
    obtain ⟨nt, _, _, e⟩ := bind_ok _ _ _ _ _ h
    obtain ⟨_, _, _, e⟩ := bind_ok _ _ _ _ _ e
    obtain ⟨tp, _, _, e⟩ := bind_ok _ _ _ _ _ e
    obtain ⟨n, _, _, e⟩ := bind_ok _ _ _ _ _ e
    obtain ⟨c, _, _, e⟩ := bind_ok _ _ _ _ _ e
    obtain ⟨_, _, _, e⟩ := bind_ok _ _ _ _ _ e
    obtain ⟨rs, _, _, e⟩ := bind_ok _ _ _ _ _ e
    cases e
    exact ⟨nt, tp, n, c, rs, rfl⟩
  obtain ⟨nt, tp, n, c, rs, rfl⟩ := hb
  have key : Main.Game.entitySection game (F nt tp n c rs) = (do
      let NumPartyTemplates ← Main.Int32.Read game.NumPartyTemplates
      let PartyTemplates ← make PartyTemplate.zero NumPartyTemplates
      let PartyTemplates ← readEach Main.PartyTemplate.Read PartyTemplates
      let NumPartyRecords ← Main.Int32.Read game.NumPartyRecords
      let NumPartiesCreated ← Main.Int32.Read game.NumPartiesCreated
      let PartyRecords ← make PartyRecord.zero NumPartyRecords
      let PartyRecords ← readEach
        (fun partyRecord => Main.PartyRecord.Read partyRecord v) PartyRecords
      pure (F NumPartyTemplates PartyTemplates NumPartyRecords NumPartiesCreated
        PartyRecords)) := by
    simp only [Main.Game.entitySection, (hF nt tp n c rs).1, (hF nt tp n c rs).2]
  refine ⟨[], file, rfl, ?_, fun _ t => ?_⟩
  · rw [key]; exact h
  · rw [key]; rfl

theorem editor_entity_endsIn (v : Int32)
    (F : Int32 → List PartyTemplate → Int32 → Int32 → List PartyRecord → Editor.Save)
    (hF : ∀ nt tp n c rs, (F nt tp n c rs).Header.GameVersion = v ∧
      ∀ nt1 tp1 n1 c1 rs1,
        { F nt tp n c rs with
          NumPartyTemplates := nt1, PartyTemplates := tp1, NumPartyRecords := n1,
          NumPartiesCreated := c1, PartyRecords := rs1 } = F nt1 tp1 n1 c1 rs1) :
    EndsIn Editor.entitySection (do
      let NumPartyTemplates ← binary.Read 4 decodeInt32 Editor.Save.zero.NumPartyTemplates
      let PartyTemplates ← make PartyTemplate.zero NumPartyTemplates
      let PartyTemplates ← readEach Editor.readPartyTemplate PartyTemplates
      let NumPartyRecords ← binary.Read 4 decodeInt32 Editor.Save.zero.NumPartyRecords
      let NumPartiesCreated ← binary.Read 4 decodeInt32 Editor.Save.zero.NumPartiesCreated
      let PartyRecords ← make PartyRecord.zero NumPartyRecords
      let PartyRecords ← readEach
        (fun partyRecord => Editor.readPartyRecord partyRecord v) PartyRecords
      pure (F NumPartyTemplates PartyTemplates NumPartyRecords NumPartiesCreated
        PartyRecords)) := by
  intro file b rest h
  have hb : ∃ nt tp n c rs, b = F nt tp n c rs := by
    obtain ⟨nt, _, _, e⟩ := bind_ok _ _ _ _ _ h
    obtain ⟨_, _, _, e⟩ := bind_ok _ _ _ _ _ e
    obtain ⟨tp, _, _, e⟩ := bind_ok _ _ _ _ _ e
    obtain ⟨n, _, _, e⟩ := bind_ok _ _ _ _ _ e
    obtain ⟨c, _, _, e⟩ := bind_ok _ _ _ _ _ e
    obtain ⟨_, _, _, e⟩ := bind_ok _ _ _ _ _ e
    obtain ⟨rs, _, _, e⟩ := bind_ok _ _ _ _ _ e
    cases e
    exact ⟨nt, tp, n, c, rs, rfl⟩
  obtain ⟨nt, tp, n, c, rs, rfl⟩ := hb
  have key : Editor.entitySection (F nt tp n c rs) = (do
      let NumPartyTemplates ← binary.Read 4 decodeInt32 Editor.Save.zero.NumPartyTemplates
      let PartyTemplates ← make PartyTemplate.zero NumPartyTemplates
      let PartyTemplates ← readEach Editor.readPartyTemplate PartyTemplates
      let NumPartyRecords ← binary.Read 4 decodeInt32 Editor.Save.zero.NumPartyRecords
      let NumPartiesCreated ← binary.Read 4 decodeInt32 Editor.Save.zero.NumPartiesCreated
      let PartyRecords ← make PartyRecord.zero NumPartyRecords
      let PartyRecords ← readEach
        (fun partyRecord => Editor.readPartyRecord partyRecord v) PartyRecords
      pure (F NumPartyTemplates PartyTemplates NumPartyRecords NumPartiesCreated
        PartyRecords)) := by
    simp only [Editor.entitySection, (hF nt tp n c rs).1, (hF nt tp n c rs).2]
  refine ⟨[], file, rfl, ?_, fun _ t => ?_⟩
  · rw [key]; exact h
  · rw [key]; rfl

theorem main_game_endsIn (game : Main.Game) :
    EndsIn (Main.Game.entitySection game) (Main.Game.Read game) := by
  unfold Main.Game.Read
  iterate 4 (refine endsIn_bind (by
      first
      | exact framed_binaryRead _ _ _
      | exact main_header_framed _) (fun _ => ?_))
  refine endsIn_bind (framed_ite (framed_five _ _ _ _ _ _) (framed_pure _))
    (fun ⟨_, _, _, _, _⟩ => ?_)
  iterate 55 (refine endsIn_bind (by
      first
      | exact framed_binaryRead _ _ _
      | exact main_string_framed _
      | exact framed_readArray (fun _ => main_string_framed _) _
      | exact framed_readEach (fun _ => main_trigger_framed _) _
      | exact framed_readEach (fun _ => main_simpleTrigger_framed _) _
      | exact framed_readEach (fun _ => main_quest_framed _) _
      | exact framed_readEach (fun _ => main_infoPage_framed _) _
      | exact framed_readEach (fun _ => main_site_framed _) _
      | exact framed_readEach
          (fun _ => framed_bind (framed_make _ _) (fun _ => main_faction_framed _)) _
      | exact framed_readEach (fun _ => main_mapTrack_framed _) _
      | exact framed_make _ _
      | exact framed_readEach (fun _ => framed_binaryRead _ _ _) _
      | exact framed_readArray (fun _ => framed_binaryRead _ _ _) _) (fun _ => ?_))
  exact main_entity_endsIn game _ _ (fun _ _ _ _ _ => ⟨rfl, fun _ _ _ _ _ => rfl⟩)

theorem editor_main_endsIn : EndsIn Editor.entitySection Editor.main := by
  unfold Editor.main
  dsimp only
  iterate 4 (refine endsIn_bind (by
      first
      | exact framed_binaryRead _ _ _
      | exact editor_header_framed _) (fun _ => ?_))
  refine endsIn_bind (framed_ite (framed_five _ _ _ _ _ _) (framed_pure _))
    (fun ⟨_, _, _, _, _⟩ => ?_)
  iterate 55 (refine endsIn_bind (by
      first
      | exact framed_binaryRead _ _ _
      | exact editor_string_framed _ _
      | exact framed_readArray (fun _ => editor_string_framed _ _) _
      | exact framed_readEach (fun _ => editor_quest_framed _) _
      | exact framed_readEach (fun _ => editor_infoPage_framed _) _
      | exact framed_readEach (fun _ => editor_site_framed _) _
      | exact framed_readEach (fun _ => editor_faction_framed _ _) _
      | exact framed_readEach (fun _ => editor_mapTrack_framed _) _
      | exact framed_make _ _) (fun _ => ?_))
  exact editor_entity_endsIn _ _ (fun _ _ _ _ _ => ⟨rfl, fun _ _ _ _ _ => rfl⟩)


theorem main_entity_inv (game g : Main.Game) (m0 rest : File)
    (h : Main.Game.entitySection game g m0 = .ok g rest) :
    ∃ t0 m1 m2 m3,
      Main.Int32.Read game.NumPartyTemplates m0 = .ok g.NumPartyTemplates t0 ∧
      0 ≤ g.NumPartyTemplates ∧
      readEach Main.PartyTemplate.Read
        (List.replicate g.NumPartyTemplates.toNat PartyTemplate.zero) t0 =
        .ok g.PartyTemplates m1 ∧
      Main.Int32.Read game.NumPartyRecords m1 = .ok g.NumPartyRecords m2 ∧
      Main.Int32.Read game.NumPartiesCreated m2 = .ok g.NumPartiesCreated m3 ∧
      0 ≤ g.NumPartyRecords ∧
      readEach (fun partyRecord => Main.PartyRecord.Read partyRecord g.Header.GameVersion)
        (List.replicate g.NumPartyRecords.toNat PartyRecord.zero) m3 =
        .ok g.PartyRecords rest := by
  unfold Main.Game.entitySection at h
  obtain ⟨nt, t0, h1, e1⟩ := bind_ok _ _ _ _ _ h
  obtain ⟨l1, t1, hm1, e2⟩ := bind_ok _ _ _ _ _ e1
  obtain ⟨tp, m1, h2, e3⟩ := bind_ok _ _ _ _ _ e2
  obtain ⟨n, m2, h3, e4⟩ := bind_ok _ _ _ _ _ e3
  obtain ⟨c, m3, h4, e5⟩ := bind_ok _ _ _ _ _ e4
  obtain ⟨l2, t2, hm2, e6⟩ := bind_ok _ _ _ _ _ e5
  obtain ⟨rs, r, h5, e7⟩ := bind_ok _ _ _ _ _ e6
  clear e1 e2 e3 e4 e5 e6 h
  obtain ⟨hnt, hl1, ht1⟩ := make_ok _ _ _ _ _ hm1
  obtain ⟨hn, hl2, ht2⟩ := make_ok _ _ _ _ _ hm2
  subst hl1 ht1 hl2 ht2
  simp only [pure_run, Outcome.ok.injEq] at e7
  obtain ⟨hg, hr⟩ := e7
  subst hr
  have q1 : nt = g.NumPartyTemplates := congrArg Main.Game.NumPartyTemplates hg
  have q2 : tp = g.PartyTemplates := congrArg Main.Game.PartyTemplates hg
  have q3 : n = g.NumPartyRecords := congrArg Main.Game.NumPartyRecords hg
  have q4 : c = g.NumPartiesCreated := congrArg Main.Game.NumPartiesCreated hg
  have q5 : rs = g.PartyRecords := congrArg Main.Game.PartyRecords hg
  subst q1 q2 q3 q4 q5
  exact ⟨_, _, _, _, h1, hnt, h2, h3, h4, hn, h5⟩

theorem editor_entity_inv (g : Editor.Save) (m0 rest : File)
    (h : Editor.entitySection g m0 = .ok g rest) :
    ∃ t0 m1 m2 m3,
      binary.Read 4 decodeInt32 Editor.Save.zero.NumPartyTemplates m0 = .ok g.NumPartyTemplates t0 ∧
      0 ≤ g.NumPartyTemplates ∧
      readEach Editor.readPartyTemplate
        (List.replicate g.NumPartyTemplates.toNat PartyTemplate.zero) t0 =
        .ok g.PartyTemplates m1 ∧
      binary.Read 4 decodeInt32 Editor.Save.zero.NumPartyRecords m1 = .ok g.NumPartyRecords m2 ∧
      binary.Read 4 decodeInt32 Editor.Save.zero.NumPartiesCreated m2 = .ok g.NumPartiesCreated m3 ∧
      0 ≤ g.NumPartyRecords ∧
      readEach (fun partyRecord => Editor.readPartyRecord partyRecord g.Header.GameVersion)
        (List.replicate g.NumPartyRecords.toNat PartyRecord.zero) m3 =
        .ok g.PartyRecords rest := by
  unfold Editor.entitySection at h
  obtain ⟨nt, t0, h1, e1⟩ := bind_ok _ _ _ _ _ h
  obtain ⟨l1, t1, hm1, e2⟩ := bind_ok _ _ _ _ _ e1
  obtain ⟨tp, m1, h2, e3⟩ := bind_ok _ _ _ _ _ e2
  obtain ⟨n, m2, h3, e4⟩ := bind_ok _ _ _ _ _ e3
  obtain ⟨c, m3, h4, e5⟩ := bind_ok _ _ _ _ _ e4
  obtain ⟨l2, t2, hm2, e6⟩ := bind_ok _ _ _ _ _ e5
  obtain ⟨rs, r, h5, e7⟩ := bind_ok _ _ _ _ _ e6
  clear e1 e2 e3 e4 e5 e6 h
  obtain ⟨hnt, hl1, ht1⟩ := make_ok _ _ _ _ _ hm1
  obtain ⟨hn, hl2, ht2⟩ := make_ok _ _ _ _ _ hm2
  subst hl1 ht1 hl2 ht2
  simp only [pure_run, Outcome.ok.injEq] at e7
  obtain ⟨hg, hr⟩ := e7
  subst hr
  have q1 : nt = g.NumPartyTemplates := congrArg Editor.Save.NumPartyTemplates hg
  have q2 : tp = g.PartyTemplates := congrArg Editor.Save.PartyTemplates hg
  have q3 : n = g.NumPartyRecords := congrArg Editor.Save.NumPartyRecords hg
  have q4 : c = g.NumPartiesCreated := congrArg Editor.Save.NumPartiesCreated hg
  have q5 : rs = g.PartyRecords := congrArg Editor.Save.PartyRecords hg
  subst q1 q2 q3 q4 q5
  exact ⟨_, _, _, _, h1, hnt, h2, h3, h4, hn, h5⟩

/-- Claim C20: the end of the root decoders, for `Game.Read` of `src/main.go`
and for `main` of `src/backend/editor.go`, each on its own. Every run that
returns a tree `g` has read a prefix `pre` of its input and has then, on the
bytes `m0` that follow, run the last statements of the decoder
(`entitySection`): the party templates, after them `NumPartyRecords` (int32),
then `NumPartiesCreated` (int32), and only then the loop that reads exactly
`NumPartyRecords` party records one after the other, each with the
`GameVersion` of the header that the same run has read at the start of the
input. The prefix is tied to the input: as long as `m0` is not empty, the
decoder run on `pre` followed by any other bytes `t` is that block run on `t`.
With `m1` the position where the party templates end, and at least 8 bytes
left there, the two counts are the two int32 values found at `m1` and the
record loop starts at `m1` plus 8, so the first record starts 8 bytes after
the start of its count. -/
theorem entity_section_order (game : Main.Game) (file : File) :
    (∀ g rest, Main.Game.Read game file = .ok g rest →
      (∃ hmid, Main.Header.Read game.Header file = .ok g.Header hmid) ∧
      ∃ pre m0 t0 m1 m2 m3, file = pre ++ m0 ∧
        (m0 ≠ [] → ∀ t, Main.Game.Read game (pre ++ t) = Main.Game.entitySection game g t) ∧
        Main.Game.entitySection game g m0 = .ok g rest ∧
        Main.Int32.Read game.NumPartyTemplates m0 = .ok g.NumPartyTemplates t0 ∧
        readEach Main.PartyTemplate.Read
          (List.replicate g.NumPartyTemplates.toNat PartyTemplate.zero) t0 =
          .ok g.PartyTemplates m1 ∧
        Main.Int32.Read game.NumPartyRecords m1 = .ok g.NumPartyRecords m2 ∧
        Main.Int32.Read game.NumPartiesCreated m2 = .ok g.NumPartiesCreated m3 ∧
        0 ≤ g.NumPartyRecords ∧
        readEach (fun partyRecord => Main.PartyRecord.Read partyRecord g.Header.GameVersion)
          (List.replicate g.NumPartyRecords.toNat PartyRecord.zero) m3 =
          .ok g.PartyRecords rest ∧
        g.PartyRecords.length = g.NumPartyRecords.toNat ∧
        (8 ≤ m1.length →
          g.NumPartyRecords = decodeInt32 (m1.take 4) ∧
          g.NumPartiesCreated = decodeInt32 ((m1.drop 4).take 4) ∧ m3 = m1.drop 8) ∧
        (∀ r rs, g.PartyRecords = r :: rs →
          ∃ m4, Main.PartyRecord.Read PartyRecord.zero g.Header.GameVersion m3 = .ok r m4 ∧
            readEach (fun partyRecord => Main.PartyRecord.Read partyRecord g.Header.GameVersion)
              (List.replicate (g.NumPartyRecords.toNat - 1) PartyRecord.zero) m4 =
              .ok rs rest)) ∧
    (∀ g rest, Editor.main file = .ok g rest →
      (∃ hmid, Editor.readHeader Editor.Save.zero.Header file = .ok g.Header hmid) ∧
      ∃ pre m0 t0 m1 m2 m3, file = pre ++ m0 ∧
        (m0 ≠ [] → ∀ t, Editor.main (pre ++ t) = Editor.entitySection g t) ∧
        Editor.entitySection g m0 = .ok g rest ∧
        binary.Read 4 decodeInt32 Editor.Save.zero.NumPartyTemplates m0 = .ok g.NumPartyTemplates t0 ∧
        readEach Editor.readPartyTemplate
          (List.replicate g.NumPartyTemplates.toNat PartyTemplate.zero) t0 =
          .ok g.PartyTemplates m1 ∧
        binary.Read 4 decodeInt32 Editor.Save.zero.NumPartyRecords m1 = .ok g.NumPartyRecords m2 ∧
        binary.Read 4 decodeInt32 Editor.Save.zero.NumPartiesCreated m2 = .ok g.NumPartiesCreated m3 ∧
        0 ≤ g.NumPartyRecords ∧
        readEach (fun partyRecord => Editor.readPartyRecord partyRecord g.Header.GameVersion)
          (List.replicate g.NumPartyRecords.toNat PartyRecord.zero) m3 =
          .ok g.PartyRecords rest ∧
        g.PartyRecords.length = g.NumPartyRecords.toNat ∧
        (8 ≤ m1.length →
          g.NumPartyRecords = decodeInt32 (m1.take 4) ∧
          g.NumPartiesCreated = decodeInt32 ((m1.drop 4).take 4) ∧ m3 = m1.drop 8) ∧
        (∀ r rs, g.PartyRecords = r :: rs →
          ∃ m4, Editor.readPartyRecord PartyRecord.zero g.Header.GameVersion m3 = .ok r m4 ∧
            readEach (fun partyRecord => Editor.readPartyRecord partyRecord g.Header.GameVersion)
              (List.replicate (g.NumPartyRecords.toNat - 1) PartyRecord.zero) m4 =
              .ok rs rest)) := by
  constructor
  · intro g rest e
    obtain ⟨hmid, _, _, _, _, _, hh, _⟩ := sat_elim (main_game_entity_section game file) e
    obtain ⟨pre, m0, hfile, hE, hall⟩ := main_game_endsIn game file g rest e
    obtain ⟨t0, m1, m2, m3, h1, _, h2, h3, h4, hn, h5⟩ := main_entity_inv game g m0 rest hE
    refine ⟨⟨hmid, hh⟩, pre, m0, t0, m1, m2, m3, hfile, hall, hE, h1, h2, h3, h4, hn, h5, ?_,
      ?_, ?_⟩
    · rw [readEach_length h5, List.length_replicate]
    · intro h8
      exact binaryRead_two decodeInt32 decodeInt32 _ _ _ _ _ _ _ h3 h4 h8
    · intro r rs hr
      rw [hr] at h5
      exact readEach_replicate_head h5
  · intro g rest e
    obtain ⟨hmid, _, _, _, _, _, hh, _⟩ := sat_elim (editor_main_entity_section file) e
    obtain ⟨pre, m0, hfile, hE, hall⟩ := editor_main_endsIn file g rest e
    obtain ⟨t0, m1, m2, m3, h1, _, h2, h3, h4, hn, h5⟩ := editor_entity_inv g m0 rest hE
    refine ⟨⟨hmid, hh⟩, pre, m0, t0, m1, m2, m3, hfile, hall, hE, h1, h2, h3, h4, hn, h5, ?_,
      ?_, ?_⟩
    · rw [readEach_length h5, List.length_replicate]
    · intro h8
      exact binaryRead_two decodeInt32 decodeInt32 _ _ _ _ _ _ _ h3 h4 h8
    · intro r rs hr
      rw [hr] at h5
      exact readEach_replicate_head h5

theorem entity_section_order_witness :
    Main.Game.Read Main.Game.zero twoRecordsInput = .ok Main.twoRecordsGame [] ∧
    Editor.main twoRecordsInput = .ok Editor.twoRecordsSave [] ∧
    (∃ pre m0, twoRecordsInput = pre ++ m0 ∧
      (m0 ≠ [] → ∀ t, Main.Game.Read Main.Game.zero (pre ++ t) =
        Main.Game.entitySection Main.Game.zero Main.twoRecordsGame t) ∧
      Main.Game.entitySection Main.Game.zero Main.twoRecordsGame m0 =
        .ok Main.twoRecordsGame []) ∧
    decodeInt32 ((twoRecordsInput.drop 257).take 4) = 0 ∧
    decodeInt32 ((twoRecordsInput.drop 261).take 4) = 2 ∧
    decodeInt32 ((twoRecordsInput.drop 265).take 4) = 7 ∧
    Main.PartyRecord.Read PartyRecord.zero 0 (twoRecordsInput.drop 269) =
      .ok { Valid := 1, RawId := 3, Id := 4, Party := Party.zero } [0, 0, 0, 0] ∧
    Editor.readPartyRecord PartyRecord.zero 0 (twoRecordsInput.drop 269) =
      .ok { Valid := 1, RawId := 3, Id := 4, Party := Party.zero } [0, 0, 0, 0] ∧
    Main.PartyRecord.Read PartyRecord.zero 0 [0, 0, 0, 0] = .ok PartyRecord.zero [] :=
  ⟨by decide!, by decide!,
    ((entity_section_order Main.Game.zero twoRecordsInput).1 Main.twoRecordsGame []
      (by decide!)).2.elim
      (fun pre ⟨m0, _, _, _, _, hfile, hall, hE, _⟩ => ⟨pre, m0, hfile, hall, hE⟩),
    by decide!, by decide!, by decide!, by decide!, by decide!, by decide⟩

/-! ### Truncated inputs -/

theorem cut_pure {α : Type} (a : α) : Cut (pure a : Rd α) := by
  intro file b rest h n
  cases h
  exact ⟨a, file.take n, rfl, Or.inl ⟨rfl, n, rfl⟩⟩

theorem safe_pure {α : Type} (a : α) : Cut (pure a : Rd α) ∧ Exh (pure a : Rd α) :=
  ⟨cut_pure a, a, rfl⟩

theorem read_take {α : Type} (sz : Nat) (d : List Byte → α) (x : α) (file : File) (a : α)
    (rest : File) (h : binary.Read sz d x file = .ok a rest) (n : Nat) :
    ∃ b rest1, binary.Read sz d x (file.take n) = .ok b rest1 ∧
      ((b = a ∧ ∃ m, rest1 = rest.take m) ∨ (b = x ∧ rest1 = [])) := by
  rcases binaryRead_cases sz d x file with ⟨hle, e⟩ | ⟨hlt, e⟩
  · rw [e] at h
    cases h
    rcases binaryRead_cases sz d x (file.take n) with ⟨hle2, e2⟩ | ⟨_, e2⟩
    · refine ⟨_, _, e2, Or.inl ⟨?_, n - sz, ?_⟩⟩
      · rw [List.length_take] at hle2
        rw [List.take_take, Nat.min_eq_left (by omega)]
      · rw [List.drop_take]
    · exact ⟨_, _, e2, Or.inr ⟨rfl, rfl⟩⟩
  · rw [e] at h
    cases h
    rcases binaryRead_cases sz d x (file.take n) with ⟨hle2, _⟩ | ⟨_, e2⟩
    · rw [List.length_take] at hle2
      omega
    · exact ⟨_, _, e2, Or.inl ⟨rfl, 0, rfl⟩⟩

theorem read_nil {α : Type} (sz : Nat) (d : List Byte → α) (x : α) :
    ∃ a, binary.Read sz d x [] = .ok a [] := by
  rcases binaryRead_cases sz d x [] with ⟨_, e⟩ | ⟨_, e⟩
  · exact ⟨_, by simpa using e⟩
  · exact ⟨_, e⟩

theorem safe_read {α : Type} (sz : Nat) (d : List Byte → α) (x : α) :
    Cut (binary.Read sz d x) ∧ Exh (binary.Read sz d x) := by
  refine ⟨fun file a rest h n => ?_, read_nil sz d x⟩
  obtain ⟨b, rest1, e, hc⟩ := read_take sz d x file a rest h n
  exact ⟨b, rest1, e, hc.imp id (fun h2 => h2.2)⟩

theorem safe_bind {α β : Type} {x : Rd α} {k : α → Rd β} (hx : Cut x ∧ Exh x)
    (hk : ∀ a, Cut (k a) ∧ Exh (k a)) : Cut (x >>= k) ∧ Exh (x >>= k) := by
  constructor
  · intro file b rest h n
    obtain ⟨a, mid, ha, hb⟩ := bind_ok _ _ _ _ _ h
    obtain ⟨a1, rest1, e1, hc⟩ := hx.1 file a mid ha n
    rcases hc with ⟨rfl, m, rfl⟩ | rfl
    · obtain ⟨b1, rest2, e2, hc2⟩ := (hk a1).1 mid b rest hb m
      exact ⟨b1, rest2, by rw [bind_of_ok e1]; exact e2, hc2⟩
    · obtain ⟨b1, e2⟩ := (hk a1).2
      exact ⟨b1, [], by rw [bind_of_ok e1]; exact e2, Or.inr rfl⟩
  · obtain ⟨a, ea⟩ := hx.2
    obtain ⟨b, eb⟩ := (hk a).2
    exact ⟨b, by rw [bind_of_ok ea]; exact eb⟩

theorem safe_ite {α : Type} {c : Prop} [Decidable c] {x y : Rd α} (hx : Cut x ∧ Exh x)
    (hy : Cut y ∧ Exh y) : Cut (if c then x else y) ∧ Exh (if c then x else y) := by
  by_cases h : c
  · rw [if_pos h]; exact hx
  · rw [if_neg h]; exact hy

theorem make_nil {α : Type} (z : α) (n : Int) (h : 0 ≤ n) (file : File) :
    make z n file = .ok (List.replicate n.toNat z) file := by
  unfold make
  rw [if_neg (by omega)]

theorem safe_make_bind {α β : Type} {z : α} {n : Int} {k : List α → Rd β} (h : 0 ≤ n)
    (hk : ∀ l, Cut (k l) ∧ Exh (k l)) : Cut (make z n >>= k) ∧ Exh (make z n >>= k) := by
  refine safe_bind ⟨fun file a rest e m => ?_, _, make_nil z n h []⟩ hk
  obtain ⟨_, rfl, rfl⟩ := make_ok _ _ _ _ _ e
  exact ⟨_, _, make_nil z n h _, Or.inl ⟨rfl, m, rfl⟩⟩

theorem safe_count_make {α β : Type} (z : α) (x : Int32) {k : Int32 → List α → Rd β}
    (h : 0 ≤ x)
    (hk : ∀ n, 0 ≤ n → Cut (k n (List.replicate n.toNat z)) ∧
      Exh (k n (List.replicate n.toNat z))) :
    Cut (binary.Read 4 decodeInt32 x >>= fun n => make z n >>= fun l => k n l) ∧
      Exh (binary.Read 4 decodeInt32 x >>= fun n => make z n >>= fun l => k n l) := by
  have hx : binary.Read 4 decodeInt32 x [] = .ok x [] :=
    binaryRead_short 4 decodeInt32 x [] (by decide)
  constructor
  · intro file b rest e m
    obtain ⟨n, mid, hn, e2⟩ := bind_ok _ _ _ _ _ e
    obtain ⟨l, mid2, hl, e3⟩ := bind_ok _ _ _ _ _ e2
    obtain ⟨hn0, rfl, rfl⟩ := make_ok _ _ _ _ _ hl
    obtain ⟨n1, rest1, e1, hc⟩ := read_take 4 decodeInt32 x file n mid2 hn m
    rcases hc with ⟨rfl, m1, rfl⟩ | ⟨rfl, rfl⟩
    · obtain ⟨b1, rest2, e4, hc2⟩ := (hk n1 hn0).1 mid2 b rest e3 m1
      exact ⟨b1, rest2, by rw [bind_of_ok e1, bind_of_ok (make_nil z n1 hn0 _)]; exact e4, hc2⟩
    · obtain ⟨b1, e4⟩ := (hk n1 h).2
      exact ⟨b1, [], by rw [bind_of_ok e1, bind_of_ok (make_nil z n1 h _)]; exact e4,
        Or.inr rfl⟩
  · obtain ⟨b1, e4⟩ := (hk x h).2
    exact ⟨b1, by rw [bind_of_ok hx, bind_of_ok (make_nil z x h _)]; exact e4⟩

theorem safe_count_skip_make {α β γ : Type} (z : α) (x : Int32) (sz : Nat)
    (d : List Byte → γ) (y : γ) {k : Int32 → γ → List α → Rd β} (h : 0 ≤ x)
    (hk : ∀ n c, 0 ≤ n → Cut (k n c (List.replicate n.toNat z)) ∧
      Exh (k n c (List.replicate n.toNat z))) :
    Cut (binary.Read 4 decodeInt32 x >>= fun n => binary.Read sz d y >>= fun c =>
        make z n >>= fun l => k n c l) ∧
      Exh (binary.Read 4 decodeInt32 x >>= fun n => binary.Read sz d y >>= fun c =>
        make z n >>= fun l => k n c l) := by
  have hx : binary.Read 4 decodeInt32 x [] = .ok x [] :=
    binaryRead_short 4 decodeInt32 x [] (by decide)
  obtain ⟨c0, hc0⟩ := read_nil sz d y
  constructor
  · intro file b rest e m
    obtain ⟨n, mid, hn, e2⟩ := bind_ok _ _ _ _ _ e
    obtain ⟨c, mid1, hc, e2⟩ := bind_ok _ _ _ _ _ e2
    obtain ⟨l, mid2, hl, e3⟩ := bind_ok _ _ _ _ _ e2
    obtain ⟨hn0, rfl, rfl⟩ := make_ok _ _ _ _ _ hl
    obtain ⟨n1, rest1, e1, hcase⟩ := read_take 4 decodeInt32 x file n mid hn m
    rcases hcase with ⟨rfl, m1, rfl⟩ | ⟨rfl, rfl⟩
    · obtain ⟨c1, rest2, e5, hcase2⟩ := read_take sz d y mid c mid2 hc m1
      rcases hcase2 with ⟨rfl, m2, rfl⟩ | ⟨rfl, rfl⟩
      · obtain ⟨b1, rest3, e4, hc2⟩ := (hk n1 c1 hn0).1 mid2 b rest e3 m2
        exact ⟨b1, rest3, by
          rw [bind_of_ok e1, bind_of_ok e5, bind_of_ok (make_nil z n1 hn0 _)]; exact e4, hc2⟩
      · obtain ⟨b1, e4⟩ := (hk n1 c1 hn0).2
        exact ⟨b1, [], by
          rw [bind_of_ok e1, bind_of_ok e5, bind_of_ok (make_nil z n1 hn0 _)]; exact e4,
          Or.inr rfl⟩
    · obtain ⟨b1, e4⟩ := (hk n1 c0 h).2
      exact ⟨b1, [], by
        rw [bind_of_ok e1, bind_of_ok hc0, bind_of_ok (make_nil z n1 h _)]; exact e4,
        Or.inr rfl⟩
  · obtain ⟨b1, e4⟩ := (hk x c0 h).2
    exact ⟨b1, by rw [bind_of_ok hx, bind_of_ok hc0, bind_of_ok (make_nil z x h _)]; exact e4⟩

theorem main_count_make {α β : Type} (z : α) (x : Int32) {k : Int32 → List α → Rd β}
    (h : 0 ≤ x)
    (hk : ∀ n, 0 ≤ n → Cut (k n (List.replicate n.toNat z)) ∧
      Exh (k n (List.replicate n.toNat z))) :
    Cut (Main.Int32.Read x >>= fun n => make z n >>= fun l => k n l) ∧
      Exh (Main.Int32.Read x >>= fun n => make z n >>= fun l => k n l) :=
  safe_count_make z x h hk

theorem main_count_skip_make {α β : Type} (z : α) (x y : Int32)
    {k : Int32 → Int32 → List α → Rd β} (h : 0 ≤ x)
    (hk : ∀ n c, 0 ≤ n → Cut (k n c (List.replicate n.toNat z)) ∧
      Exh (k n c (List.replicate n.toNat z))) :
    Cut (Main.Int32.Read x >>= fun n => Main.Int32.Read y >>= fun c =>
        make z n >>= fun l => k n c l) ∧
      Exh (Main.Int32.Read x >>= fun n => Main.Int32.Read y >>= fun c =>
        make z n >>= fun l => k n c l) :=
  safe_count_skip_make z x 4 decodeInt32 y h hk

theorem safe_readEach {α : Type} {rd : α → Rd α} (xs : List α)
    (h : ∀ x ∈ xs, Cut (rd x) ∧ Exh (rd x)) :
    Cut (readEach rd xs) ∧ Exh (readEach rd xs) := by
  induction xs with
  | nil => exact safe_pure _
  | cons x xs ih =>
    exact safe_bind (h x (List.mem_cons_self _ _)) (fun _ =>
      safe_bind (ih (fun y hy => h y (List.mem_cons_of_mem _ hy))) (fun _ => safe_pure _))

theorem safe_readEach_all {α : Type} {rd : α → Rd α} (xs : List α)
    (h : ∀ x, Cut (rd x) ∧ Exh (rd x)) : Cut (readEach rd xs) ∧ Exh (readEach rd xs) :=
  safe_readEach xs (fun x _ => h x)

theorem safe_readEach_replicate {α : Type} {rd : α → Rd α} {z : α} (n : Nat)
    (h : Cut (rd z) ∧ Exh (rd z)) :
    Cut (readEach rd (List.replicate n z)) ∧ Exh (readEach rd (List.replicate n z)) :=
  safe_readEach _ (fun x hx => by rw [List.eq_of_mem_replicate hx]; exact h)

theorem safe_readArray {α : Type} {rd : α → Rd α} :
    ∀ {n : Nat} (v : Mathlib.Vector α n), (∀ x ∈ v.toList, Cut (rd x) ∧ Exh (rd x)) →
      Cut (readArray rd v) ∧ Exh (readArray rd v) := by
  intro n
  induction n with
  | zero => intro v _; exact safe_pure _
  | succ n ih =>
    intro v h
    have hv : v.toList = v.head :: v.tail.toList := by
      conv_lhs => rw [← Mathlib.Vector.cons_head_tail v]
      rw [Mathlib.Vector.toList_cons]
    refine safe_bind (h _ (by rw [hv]; exact List.mem_cons_self _ _)) (fun _ =>
      safe_bind (ih _ (fun y hy => h y (by rw [hv]; exact List.mem_cons_of_mem _ hy)))
        (fun _ => safe_pure _))

theorem safe_readArray_replicate {α : Type} {rd : α → Rd α} {z : α} (n : Nat)
    (h : Cut (rd z) ∧ Exh (rd z)) :
    Cut (readArray rd (Mathlib.Vector.replicate n z)) ∧
      Exh (readArray rd (Mathlib.Vector.replicate n z)) :=
  safe_readArray _ (fun x hx => by
    simp only [Mathlib.Vector.replicate, Mathlib.Vector.toList] at hx
    rw [List.eq_of_mem_replicate hx]
    exact h)

theorem safe_five {α β γ δ ε ζ : Type} (f : α → β → γ → δ → ε → ζ) (a : α) (b : β) (c : γ)
    (d : δ) (e : ε) {da : List Byte → α} {db : List Byte → β} {dc : List Byte → γ}
    {dd : List Byte → δ} {de : List Byte → ε} {na nb nc nd ne : Nat} :
    Cut (do
      let a ← binary.Read na da a
      let b ← binary.Read nb db b
      let c ← binary.Read nc dc c
      let d ← binary.Read nd dd d
      let e ← binary.Read ne de e
      pure (f a b c d e)) ∧
    Exh (do
      let a ← binary.Read na da a
      let b ← binary.Read nb db b
      let c ← binary.Read nc dc c
      let d ← binary.Read nd dd d
      let e ← binary.Read ne de e
      pure (f a b c d e)) :=
  safe_bind (safe_read _ _ _) (fun _ => safe_bind (safe_read _ _ _)
    (fun _ => safe_bind (safe_read _ _ _) (fun _ =>
      safe_bind (safe_read _ _ _) (fun _ =>
        safe_bind (safe_read _ _ _) (fun _ => safe_pure _)))))

theorem main_string_safe (s : String) (h : 0 ≤ s.NumChars) :
    Cut (Main.String.Read s) ∧ Exh (Main.String.Read s) := by
  unfold Main.String.Read
  refine safe_count_make _ _ h (fun _ _ => ?_)
  exact safe_bind (safe_read _ _ _) (fun _ => safe_pure _)

theorem editor_string_safe (s : String) (nr : List Bool) (h : 0 ≤ s.NumChars) :
    Cut (Editor.readString s nr) ∧ Exh (Editor.readString s nr) := by
  unfold Editor.readString
  refine safe_count_make _ _ h (fun _ _ => ?_)
  exact safe_bind (safe_read _ _ _) (fun _ => safe_pure _)

theorem safe_readArray_all {α : Type} {rd : α → Rd α} {n : Nat} (v : Mathlib.Vector α n)
    (h : ∀ x, Cut (rd x) ∧ Exh (rd x)) : Cut (readArray rd v) ∧ Exh (readArray rd v) :=
  safe_readArray v (fun x _ => h x)

theorem main_trigger_safe (x : Trigger) :
    Cut (Main.Trigger.Read x) ∧ Exh (Main.Trigger.Read x) := by
  unfold Main.Trigger.Read
  repeat (first
    | refine safe_bind (by
        first
        | exact safe_read _ _ _) (fun _ => ?_))
  exact safe_pure _

theorem main_simpleTrigger_safe (x : SimpleTrigger) :
    Cut (Main.SimpleTrigger.Read x) ∧ Exh (Main.SimpleTrigger.Read x) := by
  unfold Main.SimpleTrigger.Read
  repeat (first
    | refine safe_bind (by
        first
        | exact safe_read _ _ _) (fun _ => ?_))
  exact safe_pure _

theorem main_mapTrack_safe (x : MapTrack) :
    Cut (Main.MapTrack.Read x) ∧ Exh (Main.MapTrack.Read x) := by
  unfold Main.MapTrack.Read
  repeat (first
    | refine safe_bind (by
        first
        | exact safe_read _ _ _) (fun _ => ?_))
  exact safe_pure _

theorem main_stack_safe (x : PartyStack) :
    Cut (Main.PartyStack.Read x) ∧ Exh (Main.PartyStack.Read x) := by
  unfold Main.PartyStack.Read
  repeat (first
    | refine safe_bind (by
        first
        | exact safe_read _ _ _) (fun _ => ?_))
  exact safe_pure _

theorem main_note_safe :
    Cut (Main.Note.Read Note.zero) ∧ Exh (Main.Note.Read Note.zero) := by
  unfold Main.Note.Read
  repeat (first
    | refine safe_bind (by
        first
        | exact safe_read _ _ _
        | exact main_string_safe _ (by decide)) (fun _ => ?_))
  exact safe_pure _

theorem main_quest_safe :
    Cut (Main.Quest.Read Quest.zero) ∧ Exh (Main.Quest.Read Quest.zero) := by
  unfold Main.Quest.Read
  repeat (first
    | (with_reducible refine main_count_make _ _ ?_ (fun _ _ => ?_); decide)
    | refine safe_bind (by
        first
        | exact safe_read _ _ _
        | exact main_string_safe _ (by decide)
        | exact safe_readArray_replicate _ main_note_safe
        | exact safe_readEach_all _ (fun _ => safe_read _ _ _)) (fun _ => ?_))
  exact safe_pure _

theorem main_infoPage_safe :
    Cut (Main.InfoPage.Read InfoPage.zero) ∧ Exh (Main.InfoPage.Read InfoPage.zero) := by
  unfold Main.InfoPage.Read
  repeat (first
    | refine safe_bind (by
        first
        | exact safe_readArray_replicate _ main_note_safe) (fun _ => ?_))
  exact safe_pure _

theorem main_site_safe :
    Cut (Main.Site.Read Site.zero) ∧ Exh (Main.Site.Read Site.zero) := by
  unfold Main.Site.Read
  repeat (first
    | (with_reducible refine main_count_make _ _ ?_ (fun _ _ => ?_); decide)
    | refine safe_bind (by
        first
        | exact safe_read _ _ _
        | exact safe_readEach_all _ (fun _ => safe_read _ _ _)) (fun _ => ?_))
  exact safe_pure _

theorem main_faction_safe (rel : List Float) :
    Cut (Main.Faction.Read { Main.Faction.zero with Relations := rel }) ∧ Exh (Main.Faction.Read { Main.Faction.zero with Relations := rel }) := by
  unfold Main.Faction.Read
  dsimp only
  repeat (first
    | (with_reducible refine main_count_make _ _ ?_ (fun _ _ => ?_); decide)
    | refine safe_bind (by
        first
        | exact safe_read _ _ _
        | exact main_string_safe _ (by decide)
        | exact safe_readArray_replicate _ main_note_safe
        | exact safe_readEach_all _ (fun _ => safe_read _ _ _)) (fun _ => ?_))
  exact safe_pure _

theorem main_template_safe :
    Cut (Main.PartyTemplate.Read PartyTemplate.zero) ∧ Exh (Main.PartyTemplate.Read PartyTemplate.zero) := by
  unfold Main.PartyTemplate.Read
  repeat (first
    | (with_reducible refine main_count_make _ _ ?_ (fun _ _ => ?_); decide)
    | refine safe_bind (by
        first
        | exact safe_read _ _ _
        | exact safe_readEach_all _ (fun _ => safe_read _ _ _)) (fun _ => ?_))
  exact safe_pure _

theorem main_party_safe (v : Int32) :
    Cut (Main.Party.Read Party.zero v) ∧ Exh (Main.Party.Read Party.zero v) := by
  unfold Main.Party.Read
  iterate 34 (first
    | (with_reducible refine main_count_make _ _ ?_ (fun _ _ => ?_); decide)
    | refine safe_bind (by
        first
        | exact safe_read _ _ _
        | exact main_string_safe _ (by decide)
        | exact safe_readArray_replicate _ main_note_safe
        | exact safe_readEach_all _ (fun _ => safe_read _ _ _)
        | exact safe_readEach_all _ (fun _ => main_stack_safe _)
        | exact safe_ite (safe_read _ _ _) (safe_pure _)) (fun _ => ?_))
  refine safe_bind (safe_ite (safe_five _ _ _ _ _ _) (safe_pure _))
    (fun ⟨_, _, _, _, _⟩ => ?_)
  repeat (first
    | (with_reducible refine main_count_make _ _ ?_ (fun _ _ => ?_); decide)
    | refine safe_bind (by
        first
        | exact safe_read _ _ _
        | exact main_string_safe _ (by decide)
        | exact safe_readArray_replicate _ main_note_safe
        | exact safe_readEach_all _ (fun _ => safe_read _ _ _)
        | exact safe_readEach_all _ (fun _ => main_stack_safe _)
        | exact safe_ite (safe_read _ _ _) (safe_pure _)) (fun _ => ?_))
  exact safe_pure _

theorem main_record_safe (v : Int32) :
    Cut (Main.PartyRecord.Read PartyRecord.zero v) ∧
      Exh (Main.PartyRecord.Read PartyRecord.zero v) := by
  unfold Main.PartyRecord.Read
  refine safe_bind (safe_read _ _ _) (fun _ => safe_ite ?_ (safe_pure _))
  exact safe_bind (safe_read _ _ _) (fun _ => safe_bind (safe_read _ _ _)
    (fun _ => safe_bind (main_party_safe _) (fun _ => safe_pure _)))

theorem editor_stack_safe (x : PartyStack) :
    Cut (Editor.readPartyStack x) ∧ Exh (Editor.readPartyStack x) := by
  unfold Editor.readPartyStack
  repeat (first
    | refine safe_bind (by
        first
        | exact safe_read _ _ _) (fun _ => ?_))
  exact safe_pure _

theorem editor_mapTrack_safe (x : MapTrack) :
    Cut (Editor.readMapTrack x) ∧ Exh (Editor.readMapTrack x) := by
  unfold Editor.readMapTrack
  repeat (first
    | refine safe_bind (by
        first
        | exact safe_read _ _ _) (fun _ => ?_))
  exact safe_pure _

theorem editor_note_safe :
    Cut (Editor.readNote Note.zero) ∧ Exh (Editor.readNote Note.zero) := by
  unfold Editor.readNote
  repeat (first
    | refine safe_bind (by
        first
        | exact safe_read _ _ _
        | exact editor_string_safe _ _ (by decide)) (fun _ => ?_))
  exact safe_pure _

theorem editor_quest_safe :
    Cut (Editor.readQuest Quest.zero) ∧ Exh (Editor.readQuest Quest.zero) := by
  unfold Editor.readQuest
  repeat (first
    | (with_reducible refine safe_count_make _ _ ?_ (fun _ _ => ?_); decide)
    | refine safe_bind (by
        first
        | exact safe_read _ _ _
        | exact editor_string_safe _ _ (by decide)
        | exact safe_readArray_replicate _ editor_note_safe) (fun _ => ?_))
  exact safe_pure _

theorem editor_infoPage_safe :
    Cut (Editor.readInfoPage InfoPage.zero) ∧ Exh (Editor.readInfoPage InfoPage.zero) := by
  unfold Editor.readInfoPage
  repeat (first
    | refine safe_bind (by
        first
        | exact safe_readArray_replicate _ editor_note_safe) (fun _ => ?_))
  exact safe_pure _

theorem editor_site_safe :
    Cut (Editor.readSite Site.zero) ∧ Exh (Editor.readSite Site.zero) := by
  unfold Editor.readSite
  repeat (first
    | (with_reducible refine safe_count_make _ _ ?_ (fun _ _ => ?_); decide)
    | refine safe_bind (by
        first
        | exact safe_read _ _ _) (fun _ => ?_))
  exact safe_pure _

theorem editor_faction_safe (n : Int32) (h : 0 ≤ n) :
    Cut (Editor.readFaction Editor.Faction.zero n) ∧
      Exh (Editor.readFaction Editor.Faction.zero n) := by
  unfold Editor.readFaction
  refine safe_count_make _ _ (le_refl _) (fun _ _ => ?_)
  refine safe_bind (safe_read _ _ _) (fun _ => ?_)
  refine safe_make_bind h (fun _ => ?_)
  repeat (refine safe_bind (by
      first
      | exact safe_read _ _ _
      | exact editor_string_safe _ _ (by decide)
      | exact safe_readArray_replicate _ editor_note_safe) (fun _ => ?_))
  exact safe_pure _

theorem editor_template_safe :
    Cut (Editor.readPartyTemplate PartyTemplate.zero) ∧ Exh (Editor.readPartyTemplate PartyTemplate.zero) := by
  unfold Editor.readPartyTemplate
  repeat (first
    | (with_reducible refine safe_count_make _ _ ?_ (fun _ _ => ?_); decide)
    | refine safe_bind (by
        first
        | exact safe_read _ _ _) (fun _ => ?_))
  exact safe_pure _

theorem editor_party_safe (v : Int32) :
    Cut (Editor.readParty Party.zero v) ∧ Exh (Editor.readParty Party.zero v) := by
  unfold Editor.readParty
  iterate 34 (first
    | (with_reducible refine safe_count_make _ _ ?_ (fun _ _ => ?_); decide)
    | refine safe_bind (by
        first
        | exact safe_read _ _ _
        | exact editor_string_safe _ _ (by decide)
        | exact safe_readArray_replicate _ editor_note_safe
        | exact safe_readEach_all _ (fun _ => editor_stack_safe _)
        | exact safe_ite (safe_read _ _ _) (safe_pure _)) (fun _ => ?_))
  refine safe_bind (safe_ite (safe_five _ _ _ _ _ _) (safe_pure _))
    (fun ⟨_, _, _, _, _⟩ => ?_)
  repeat (first
    | (with_reducible refine safe_count_make _ _ ?_ (fun _ _ => ?_); decide)
    | refine safe_bind (by
        first
        | exact safe_read _ _ _
        | exact editor_string_safe _ _ (by decide)
        | exact safe_readArray_replicate _ editor_note_safe
        | exact safe_readEach_all _ (fun _ => editor_stack_safe _)
        | exact safe_ite (safe_read _ _ _) (safe_pure _)) (fun _ => ?_))
  exact safe_pure _

theorem editor_record_safe (v : Int32) :
    Cut (Editor.readPartyRecord PartyRecord.zero v) ∧
      Exh (Editor.readPartyRecord PartyRecord.zero v) := by
  unfold Editor.readPartyRecord
  refine safe_bind (safe_read _ _ _) (fun _ => safe_ite ?_ (safe_pure _))
  exact safe_bind (safe_read _ _ _) (fun _ => safe_bind (safe_read _ _ _)
    (fun _ => safe_bind (editor_party_safe _) (fun _ => safe_pure _)))

theorem cutFrom_bind {α β : Type} {j : Nat} {x : Rd α} {k : α → Rd β} (hx : CutFrom j x)
    (hk : ∀ a, Cut (k a) ∧ Exh (k a)) : CutFrom j (x >>= k) := by
  intro file b rest h n hn
  obtain ⟨a, mid, ha, hb⟩ := bind_ok _ _ _ _ _ h
  obtain ⟨a1, rest1, e1, hc⟩ := hx file a mid ha n hn
  rcases hc with ⟨rfl, m, rfl⟩ | rfl
  · obtain ⟨b1, rest2, e2, hc2⟩ := (hk a1).1 mid b rest hb m
    exact ⟨b1, rest2, by rw [bind_of_ok e1]; exact e2, hc2⟩
  · obtain ⟨b1, e2⟩ := (hk a1).2
    exact ⟨b1, [], by rw [bind_of_ok e1]; exact e2, Or.inr rfl⟩

theorem cutFrom_magic {β : Type} {k : Int32 → Rd β} (hk : ∀ m, Cut (k m) ∧ Exh (k m)) :
    CutFrom 4 (binary.Read 4 decodeInt32 0 >>= fun m =>
      (if m ≠ 0x52445257 then log.Fatal else pure ()) >>= fun _ => k m) := by
  intro file b rest h n hn
  obtain ⟨m, mid, hm, e⟩ := bind_ok _ _ _ _ _ h
  obtain ⟨u, mid1, hu, e2⟩ := bind_ok _ _ _ _ _ e
  by_cases hmag : m = 0x52445257
  · rw [if_neg (fun hc => hc hmag)] at hu
    cases hu
    rcases binaryRead_cases 4 decodeInt32 (0 : Int32) file with ⟨hle, e0⟩ | ⟨_, e0⟩
    · rw [e0] at hm
      cases hm
      have hlen : 4 ≤ (file.take n).length := by
        rw [List.length_take]
        omega
      rcases binaryRead_cases 4 decodeInt32 (0 : Int32) (file.take n) with ⟨_, e1⟩ | ⟨hlt, _⟩
      · rw [List.take_take, Nat.min_eq_left hn, List.drop_take] at e1
        obtain ⟨b1, rest2, e3, hc2⟩ := (hk _).1 _ b rest e2 (n - 4)
        refine ⟨b1, rest2, ?_, hc2⟩
        rw [bind_of_ok e1, if_neg (fun hc => hc hmag), bind_pure_run]
        exact e3
      · omega
    · rw [e0] at hm
      cases hm
      exact absurd hmag (by decide)
  · rw [if_pos hmag] at hu
    cases hu

theorem main_root_cut : CutFrom 4 (Main.Game.Read Main.Game.zero) := by
  unfold Main.Game.Read Main.Header.Read
  refine cutFrom_bind (cutFrom_magic (fun _ => ?_)) (fun _ => ?_)
  · repeat (refine safe_bind (by
        first
        | exact safe_read _ _ _
        | exact main_string_safe _ (by decide)) (fun _ => ?_))
    exact safe_pure _
  iterate 3 (refine safe_bind (safe_read _ _ _) (fun _ => ?_))
  refine safe_bind (safe_ite (safe_five _ _ _ _ _ _) (safe_pure _))
    (fun ⟨_, _, _, _, _⟩ => ?_)
  repeat (first
    | (with_reducible refine main_count_skip_make _ _ _ ?_ (fun _ _ _ => ?_); decide)
    | (with_reducible refine main_count_make _ _ ?_ (fun _ _ => ?_); decide)
    | refine safe_bind (by
        first
        | exact safe_read _ _ _
        | exact main_string_safe _ (by decide)
        | exact safe_readArray_replicate _ (main_string_safe _ (by decide))
        | exact safe_readArray_all _ (fun _ => safe_read _ _ _)
        | exact safe_readEach_all _ (fun _ => safe_read _ _ _)
        | exact safe_readEach_all _ (fun _ => main_trigger_safe _)
        | exact safe_readEach_all _ (fun _ => main_simpleTrigger_safe _)
        | exact safe_readEach_replicate _ main_quest_safe
        | exact safe_readEach_replicate _ main_infoPage_safe
        | exact safe_readEach_replicate _ main_site_safe
        | exact safe_readEach_replicate _ (safe_make_bind (by assumption) (fun _ => main_faction_safe _))
        | exact safe_readEach_all _ (fun _ => main_mapTrack_safe _)
        | exact safe_readEach_replicate _ main_template_safe
        | exact safe_readEach_replicate _ (main_record_safe _)) (fun _ => ?_))
  exact safe_pure _

theorem editor_root_cut : CutFrom 4 (Editor.main) := by
  unfold Editor.main Editor.readHeader
  dsimp only
  refine cutFrom_bind (cutFrom_magic (fun _ => ?_)) (fun _ => ?_)
  · repeat (refine safe_bind (by
        first
        | exact safe_read _ _ _
        | exact editor_string_safe _ _ (by decide)) (fun _ => ?_))
    exact safe_pure _
  iterate 3 (refine safe_bind (safe_read _ _ _) (fun _ => ?_))
  refine safe_bind (safe_ite (safe_five _ _ _ _ _ _) (safe_pure _))
    (fun ⟨_, _, _, _, _⟩ => ?_)
  repeat (first
    | (with_reducible refine safe_count_skip_make _ _ _ _ _ ?_ (fun _ _ _ => ?_); decide)
    | (with_reducible refine safe_count_make _ _ ?_ (fun _ _ => ?_); decide)
    | refine safe_bind (by
        first
        | exact safe_read _ _ _
        | exact editor_string_safe _ _ (by decide)
        | exact safe_readArray_replicate _ (editor_string_safe _ _ (by decide))
        | exact safe_readEach_replicate _ editor_quest_safe
        | exact safe_readEach_replicate _ editor_infoPage_safe
        | exact safe_readEach_replicate _ editor_site_safe
        | exact safe_readEach_replicate _ (editor_faction_safe _ (by assumption))
        | exact safe_readEach_all _ (fun _ => editor_mapTrack_safe _)
        | exact safe_readEach_replicate _ editor_template_safe
        | exact safe_readEach_replicate _ (editor_record_safe _)) (fun _ => ?_))
  exact safe_pure _

/-! ### Exhausted input -/

theorem exh_bind {α β : Type} {x : Rd α} {k : α → Rd β} {a : α} {b : β}
    (hx : x [] = .ok a []) (hk : k a [] = .ok b []) : (x >>= k) [] = .ok b [] := by
  rw [bind_of_ok hx]
  exact hk

theorem exh_read {α : Type} (sz : Nat) (d : List Byte → α) (x : α) (h : 0 < sz) :
    binary.Read sz d x [] = .ok x [] :=
  binaryRead_short sz d x [] h

theorem exh_gate {α : Type} (c : Prop) [Decidable c] (sz : Nat) (d : List Byte → α) (x : α)
    (h : 0 < sz) : (if c then binary.Read sz d x else pure x : Rd α) [] = .ok x [] := by
  by_cases hc : c
  · rw [if_pos hc]
    exact exh_read sz d x h
  · rw [if_neg hc]
    rfl

theorem exh_five {α β γ δ ε : Type} (c : Prop) [Decidable c] {r : Rd (α × β × γ × δ × ε)}
    {t : α × β × γ × δ × ε} (h : r [] = .ok t []) :
    (if c then r else pure t : Rd (α × β × γ × δ × ε)) [] = .ok t [] := by
  by_cases hc : c
  · rw [if_pos hc]
    exact h
  · rw [if_neg hc]
    rfl

theorem exh_make {α : Type} (z : α) : make z (0 : Int32) [] = .ok [] [] := rfl

theorem exh_readEach {α : Type} (rd : α → Rd α) : readEach rd [] [] = .ok [] [] := rfl

theorem main_string_exhausted : Main.String.Read String.zero [] = .ok String.zero [] := by
  decide

theorem main_notes_exhausted :
    readArray Main.Note.Read Note.zero16 [] = .ok Note.zero16 [] := by
  decide

theorem main_party_exhausted (v : Int32) :
    Main.Party.Read Party.zero v [] = .ok Party.zero [] := by
  unfold Main.Party.Read
  repeat (refine exh_bind (by
      first
      | exact exh_read _ _ _ (by decide)
      | exact exh_gate _ _ _ _ (by decide)
      | exact main_string_exhausted
      | exact exh_make _
      | exact exh_readEach _) ?_)
  refine exh_bind (@exh_five _ _ _ _ _ _ _ _ (0, 0, 0, 0, 0) (by decide)) ?_
  repeat (refine exh_bind (by
      first
      | exact exh_read _ _ _ (by decide)
      | exact exh_gate _ _ _ _ (by decide)
      | exact main_notes_exhausted
      | exact exh_make _
      | exact exh_readEach _) ?_)
  rfl

theorem main_record_exhausted (v : Int32) :
    Main.PartyRecord.Read PartyRecord.zero v [] = .ok PartyRecord.zero [] := by
  unfold Main.PartyRecord.Read
  exact exh_bind (exh_read 4 decodeInt32 _ (by decide)) rfl

theorem editor_string_exhausted :
    Editor.readString String.zero [] [] = .ok String.zero [] := by
  decide

theorem editor_notes_exhausted :
    readArray Editor.readNote Note.zero16 [] = .ok Note.zero16 [] := by
  decide

theorem editor_party_exhausted (v : Int32) :
    Editor.readParty Party.zero v [] = .ok Party.zero [] := by
  unfold Editor.readParty
  repeat (refine exh_bind (by
      first
      | exact exh_read _ _ _ (by decide)
      | exact exh_gate _ _ _ _ (by decide)
      | exact editor_string_exhausted
      | exact exh_make _
      | exact readSlice_nil _ _ _
      | exact exh_readEach _) ?_)
  refine exh_bind (@exh_five _ _ _ _ _ _ _ _ (0, 0, 0, 0, 0) (by decide)) ?_
  repeat (refine exh_bind (by
      first
      | exact exh_read _ _ _ (by decide)
      | exact exh_gate _ _ _ _ (by decide)
      | exact editor_notes_exhausted
      | exact exh_make _
      | exact readSlice_nil _ _ _) ?_)
  rfl

theorem editor_record_exhausted (v : Int32) :
    Editor.readPartyRecord PartyRecord.zero v [] = .ok PartyRecord.zero [] := by
  unfold Editor.readPartyRecord
  exact exh_bind (exh_read 4 decodeInt32 _ (by decide)) rfl

/-! ### Every truncation of a minimal save -/

theorem binaryRead_vec_take {α : Type} {k : Nat} (decode : List Byte → α) (data : α)
    (v : Bytes k) (rest : File) (m : Nat) :
    binary.Read k decode data ((v.toList ++ rest).take m) =
      .ok (if k ≤ m then decode v.toList else data) (rest.take (m - k)) := by
  by_cases h : k ≤ m
  · rw [if_pos h, List.take_append_eq_append_take, v.toList_length,
      List.take_of_length_le (by rw [v.toList_length]; exact h)]
    exact binaryRead_vec decode data v _
  · rw [if_neg h, Nat.sub_eq_zero_of_le (by omega), List.take_zero]
    refine binaryRead_short k decode data _ ?_
    rw [List.length_take, List.length_append, v.toList_length]
    omega

theorem binaryRead_cons1_take {α : Type} (decode : List Byte → α) (data : α) (b : Byte)
    (rest : File) (m : Nat) :
    binary.Read 1 decode data ((b :: rest).take m) =
      .ok (if 1 ≤ m then decode [b] else data) (rest.take (m - 1)) := by
  cases m with
  | zero => rfl
  | succ m =>
    rw [List.take_succ_cons, binaryRead_cons1]
    simp

theorem take_cons4 (a b c d : Byte) (l : File) (n : Nat) (h : 4 ≤ n) :
    (a :: b :: c :: d :: l).take n = a :: b :: c :: d :: l.take (n - 4) := by
  obtain ⟨m, rfl⟩ : ∃ m, n = m + 4 := ⟨n - 4, by omega⟩
  simp [List.take_succ_cons]

theorem binaryRead_zero {α : Type} (decode : List Byte → α) (data : α) (file : File) :
    binary.Read 0 decode data file = .ok (decode []) file :=
  binaryRead_append 0 decode data [] file rfl

theorem main_empty_text_take (rest : File) (m : Nat) :
    Main.String.Read String.zero (((zeroBytes 4).toList ++ rest).take m) =
      .ok String.zero (rest.take (m - 4)) := by
  simp only [Main.String.Read, Main.Int32.Read, bind_run, Rd.bind, binaryRead_vec_take,
    decodeInt32_zeroBytes, String.zero, ite_self, make_zero, List.length_nil, binaryRead_zero]
  rfl

theorem editor_empty_text_take (nr : List Bool) (rest : File) (m : Nat) :
    Editor.readString String.zero nr (((zeroBytes 4).toList ++ rest).take m) =
      .ok String.zero (rest.take (m - 4)) := by
  simp only [Editor.readString, bind_run, Rd.bind, binaryRead_vec_take,
    decodeInt32_zeroBytes, String.zero, ite_self, make_zero, List.length_nil, binaryRead_zero,
    id_eq]
  rfl

theorem main_empty_texts_take : ∀ (k : Nat) (rest : File) (m : Nat),
    readArray Main.String.Read (Mathlib.Vector.replicate k String.zero)
        ((zeroCounts k ++ rest).take m) =
      .ok (Mathlib.Vector.replicate k String.zero) (rest.take (m - 4 * k)) := by
  intro k
  induction k with
  | zero =>
    intro rest m
    simp only [readArray, zeroCounts, List.nil_append, pure_run]
    rfl
  | succ k ih =>
    intro rest m
    have e : (Mathlib.Vector.replicate (k + 1) String.zero).head = String.zero := rfl
    have e2 : (Mathlib.Vector.replicate (k + 1) String.zero).tail =
        Mathlib.Vector.replicate k String.zero := rfl
    simp only [readArray, zeroCounts, List.append_assoc, bind_run, Rd.bind, e, e2,
      main_empty_text_take, ih, pure_run, Nat.sub_sub]
    rw [show 4 + 4 * k = 4 * (k + 1) by ring]
    rfl

theorem editor_empty_texts_take (nr : List Bool) : ∀ (k : Nat) (rest : File) (m : Nat),
    readArray (fun s => Editor.readString s nr) (Mathlib.Vector.replicate k String.zero)
        ((zeroCounts k ++ rest).take m) =
      .ok (Mathlib.Vector.replicate k String.zero) (rest.take (m - 4 * k)) := by
  intro k
  induction k with
  | zero =>
    intro rest m
    simp only [readArray, zeroCounts, List.nil_append, pure_run]
    rfl
  | succ k ih =>
    intro rest m
    have e : (Mathlib.Vector.replicate (k + 1) String.zero).head = String.zero := rfl
    have e2 : (Mathlib.Vector.replicate (k + 1) String.zero).tail =
        Mathlib.Vector.replicate k String.zero := rfl
    simp only [readArray, zeroCounts, List.append_assoc, bind_run, Rd.bind, e, e2,
      editor_empty_text_take, ih, pure_run, Nat.sub_sub]
    rw [show 4 + 4 * k = 4 * (k + 1) by ring]
    rfl

theorem concat_cons {k n : Nat} (a : Bytes k) (t : Mathlib.Vector (Bytes k) n) :
    Bytes.concat (Mathlib.Vector.cons a t).toList = a.toList ++ Bytes.concat t.toList := by
  rw [Mathlib.Vector.toList_cons]
  rfl

theorem readArray_int32_take : ∀ (k : Nat) (imgs : Mathlib.Vector (Bytes 4) k) (rest : File)
    (m : Nat),
    readArray Main.Int32.Read (Mathlib.Vector.replicate k 0)
        ((Bytes.concat imgs.toList ++ rest).take m) =
      .ok ((Bytes.cutEach m imgs).map (fun e => decodeInt32 e.toList))
        (rest.take (m - 4 * k)) := by
  intro k
  induction k with
  | zero =>
    intro imgs rest m
    rw [imgs.eq_nil]
    simp only [readArray, Mathlib.Vector.toList_nil, Bytes.concat, List.nil_append, pure_run]
    rfl
  | succ k ih =>
    intro imgs rest m
    obtain ⟨a, t, rfl⟩ := imgs.exists_eq_cons
    have e : (Mathlib.Vector.replicate (k + 1) (0 : Int32)).head = 0 := rfl
    have e2 : (Mathlib.Vector.replicate (k + 1) (0 : Int32)).tail =
        Mathlib.Vector.replicate k 0 := rfl
    have ih1 := ih t rest (m - 4)
    simp only [Main.Int32.Read] at ih1
    simp only [readArray, concat_cons, List.append_assoc, bind_run,
      Rd.bind, e, e2, Main.Int32.Read, binaryRead_vec_take, pure_run,
      Bytes.cutEach, Mathlib.Vector.head_cons, Mathlib.Vector.tail_cons,
      Mathlib.Vector.map_cons, ih1]
    rw [Nat.sub_sub, show 4 + 4 * k = 4 * (k + 1) by ring]
    by_cases h : 4 ≤ m
    · simp only [h, if_true, Bytes.keep]
    · simp only [h, if_false, Bytes.keep, decodeInt32_zeroBytes]

theorem readArrayBulk_take {k : Nat} (imgs : Mathlib.Vector (Bytes 4) k) (rest : File)
    (m : Nat) :
    binary.ReadArray 4 decodeInt32 (Mathlib.Vector.replicate k 0)
        ((Bytes.concat imgs.toList ++ rest).take m) =
      .ok ((if 4 * k ≤ m then imgs else Mathlib.Vector.replicate k (zeroBytes 4)).map
        (fun e => decodeInt32 e.toList)) (rest.take (m - 4 * k)) := by
  unfold binary.ReadArray
  by_cases h : 4 * k ≤ m
  · rw [if_pos h, List.take_append_eq_append_take, concat_vector_length,
      List.take_of_length_le (by rw [concat_vector_length]; exact h),
      binaryRead_append _ _ _ _ _ (concat_vector_length imgs), decodeArray_concat]
  · rw [if_neg h, Nat.sub_eq_zero_of_le (by omega), List.take_zero,
      binaryRead_short _ _ _ _ (by
        rw [List.length_take, List.length_append, concat_vector_length]
        omega)]
    congr 1
    apply Mathlib.Vector.eq
    simp [Mathlib.Vector.replicate, Mathlib.Vector.toList_map, decodeInt32_zeroBytes]

theorem decodeInt64_zeroBytes : decodeInt64 (zeroBytes 8).toList = 0 := by decide

theorem decodeUInt64_zeroBytes : decodeUInt64 (zeroBytes 8).toList = 0 := by decide

theorem decodeFloat_zeroBytes : decodeFloat (zeroBytes 4).toList = 0 := by decide

theorem decodeFloatReflect_zeroBytes : decodeFloatReflect (zeroBytes 4).toList = 0 := by decide

theorem decode_keep {α : Type} {k : Nat} (decode : List Byte → α) (c : Prop) [Decidable c]
    (v : Bytes k) :
    decode (Bytes.keep c v).toList = if c then decode v.toList else decode (zeroBytes k).toList := by
  unfold Bytes.keep
  split <;> rfl

theorem decodeBool_keep (c : Prop) [Decidable c] (b : Byte) :
    decodeBool [if c then b else 0] = if c then decodeBool [b] else false := by
  split <;> rfl

theorem main_minimal_cut (i : MinimalImage) (rest : File) (n : Nat) (h8 : 8 ≤ n) :
    Main.Game.Read Main.Game.zero
        ((i.bytes (decide (decodeInt32 i.GameVersion.toList ≥ 1137)) ++ rest).take n) =
      .ok ((i.cut true (decide (decodeInt32 i.GameVersion.toList ≥ 1137)) n).game
          (decide (decodeInt32 i.GameVersion.toList ≥ 1137)) Main.Game.zero)
        (rest.take (n - (269 +
          (if decide (decodeInt32 i.GameVersion.toList ≥ 1137) then 20 else 0)))) := by
  have h4 : 4 ≤ n := by omega
  have h44 : 4 ≤ n - 4 := by omega
  by_cases hv : decodeInt32 i.GameVersion.toList ≥ 1137
  · simp only [Main.Game.Read, Main.Header.Read, MinimalImage.bytes, MinimalImage.headerBytes,
      MinimalImage.difficulty, MinimalImage.scalars, MinimalImage.sections,
      List.append_assoc, bind_run, Rd.bind, hv, decide_True, decide_False, Bool.false_eq_true,
      if_true, if_false, Main.Int32.Read, Main.Int64.Read, Main.UInt64.Read, Main.Float.Read,
      Main.Bool.Read, binaryRead_vec_take, binaryRead_cons4, decodeInt32_magic, ne_eq,
      not_true_eq_false, pure_run, main_empty_text_take, List.singleton_append,
      List.cons_append, List.nil_append, binaryRead_cons1_take, readArray_int32_take,
      main_empty_texts_take, take_cons4 _ _ _ _ _ _ h4, Main.Game.zero, Header.zero, h44,
      Nat.sub_sub, Nat.reduceAdd, Nat.reduceMul]
    simp only [zeroCounts, List.append_assoc, List.nil_append, binaryRead_vec_take,
      decodeInt32_zeroBytes, ite_self, make_zero, readEach, pure_run, Nat.sub_sub,
      Nat.reduceAdd, MinimalImage.game, MinimalImage.header, MinimalImage.cut, hv,
      decide_True, decide_False, Bool.false_eq_true, if_true, if_false, decode_keep,
      decodeBool_keep, decodeInt64_zeroBytes, decodeUInt64_zeroBytes,
      decodeFloatReflect_zeroBytes, h44, Main.Game.zero, Nat.add_zero]
  · simp only [Main.Game.Read, Main.Header.Read, MinimalImage.bytes, MinimalImage.headerBytes,
      MinimalImage.difficulty, MinimalImage.scalars, MinimalImage.sections,
      List.append_assoc, bind_run, Rd.bind, hv, decide_True, decide_False, Bool.false_eq_true,
      if_true, if_false, Main.Int32.Read, Main.Int64.Read, Main.UInt64.Read, Main.Float.Read,
      Main.Bool.Read, binaryRead_vec_take, binaryRead_cons4, decodeInt32_magic, ne_eq,
      not_true_eq_false, pure_run, main_empty_text_take, List.singleton_append,
      List.cons_append, List.nil_append, binaryRead_cons1_take, readArray_int32_take,
      main_empty_texts_take, take_cons4 _ _ _ _ _ _ h4, Main.Game.zero, Header.zero, h44,
      Nat.sub_sub, Nat.reduceAdd, Nat.reduceMul]
    simp only [zeroCounts, List.append_assoc, List.nil_append, binaryRead_vec_take,
      decodeInt32_zeroBytes, ite_self, make_zero, readEach, pure_run, Nat.sub_sub,
      Nat.reduceAdd, MinimalImage.game, MinimalImage.header, MinimalImage.cut, hv,
      decide_True, decide_False, Bool.false_eq_true, if_true, if_false, decode_keep,
      decodeBool_keep, decodeInt64_zeroBytes, decodeUInt64_zeroBytes,
      decodeFloatReflect_zeroBytes, h44, Main.Game.zero, Nat.add_zero]

theorem editor_minimal_cut (i : MinimalImage) (rest : File) (n : Nat) (h8 : 8 ≤ n) :
    Editor.main
        ((i.bytes (decide (decodeInt32 i.GameVersion.toList ≥ 1137)) ++ rest).take n) =
      .ok ((i.cut false (decide (decodeInt32 i.GameVersion.toList ≥ 1137)) n).save
          (decide (decodeInt32 i.GameVersion.toList ≥ 1137)))
        (rest.take (n - (269 +
          (if decide (decodeInt32 i.GameVersion.toList ≥ 1137) then 20 else 0)))) := by
  have h4 : 4 ≤ n := by omega
  have h44 : 4 ≤ n - 4 := by omega
  by_cases hv : decodeInt32 i.GameVersion.toList ≥ 1137
  · simp only [Editor.main, Editor.readHeader, MinimalImage.bytes, MinimalImage.headerBytes,
      MinimalImage.difficulty, MinimalImage.scalars, MinimalImage.sections,
      List.append_assoc, bind_run, Rd.bind, hv, decide_True, decide_False, Bool.false_eq_true,
      if_true, if_false, binaryRead_vec_take, binaryRead_cons4, decodeInt32_magic, ne_eq,
      not_true_eq_false, pure_run, editor_empty_text_take, List.singleton_append,
      List.cons_append, List.nil_append, binaryRead_cons1_take, readArrayBulk_take,
      editor_empty_texts_take, take_cons4 _ _ _ _ _ _ h4, Editor.Save.zero, Header.zero, h44,
      Nat.sub_sub, Nat.reduceAdd, Nat.reduceMul]
    simp only [zeroCounts, List.append_assoc, List.nil_append, binaryRead_vec_take,
      decodeInt32_zeroBytes, ite_self, make_zero, readEach, readSlice_nil, pure_run,
      Nat.sub_sub, Nat.reduceAdd, MinimalImage.save, MinimalImage.header, MinimalImage.cut, hv,
      decide_True, decide_False, Bool.false_eq_true, if_true, if_false, decode_keep,
      decodeBool_keep, decodeInt64_zeroBytes, decodeUInt64_zeroBytes,
      decodeFloat_zeroBytes, h44, Editor.Save.zero, Nat.add_zero]
  · simp only [Editor.main, Editor.readHeader, MinimalImage.bytes, MinimalImage.headerBytes,
      MinimalImage.difficulty, MinimalImage.scalars, MinimalImage.sections,
      List.append_assoc, bind_run, Rd.bind, hv, decide_True, decide_False, Bool.false_eq_true,
      if_true, if_false, binaryRead_vec_take, binaryRead_cons4, decodeInt32_magic, ne_eq,
      not_true_eq_false, pure_run, editor_empty_text_take, List.singleton_append,
      List.cons_append, List.nil_append, binaryRead_cons1_take, readArrayBulk_take,
      editor_empty_texts_take, take_cons4 _ _ _ _ _ _ h4, Editor.Save.zero, Header.zero, h44,
      Nat.sub_sub, Nat.reduceAdd, Nat.reduceMul]
    simp only [zeroCounts, List.append_assoc, List.nil_append, binaryRead_vec_take,
      decodeInt32_zeroBytes, ite_self, make_zero, readEach, readSlice_nil, pure_run,
      Nat.sub_sub, Nat.reduceAdd, MinimalImage.save, MinimalImage.header, MinimalImage.cut, hv,
      decide_True, decide_False, Bool.false_eq_true, if_true, if_false, decode_keep,
      decodeBool_keep, decodeInt64_zeroBytes, decodeUInt64_zeroBytes,
      decodeFloat_zeroBytes, h44, Editor.Save.zero, Nat.add_zero]

/-! ### Claims C7 and C28: what a short read does -/

/-- Claim C7, amended: a short read is not fatal. (1) A `binary.Read` of a
scalar or count with fewer bytes left than it needs keeps the previous value
of its target and empties the input. (2) A text whose payload is shorter than
its count `n` is returned with `n` zero bytes, by either text reader. (3) On a
file that ends inside the payload of the header's `SavegameName` both root
decoders run to the end and return the tree whose header holds the fields read
so far and whose every later field is zero. (4) Whenever a root decoder
returns on an input, it returns on every truncation of that input to four or
more bytes, wherever the cut falls, be it inside a scalar, a count or a text:
either with the same tree, leaving unread a prefix of what the full run left
unread, or with no input left. A truncation to fewer than four bytes cuts the
magic number and is fatal; the allocation of a slice is assumed to succeed, as
in `make`. -/
theorem short_read_keeps_value_and_decode_continues (v mv cnt payload short : File) (n : Nat)
    (hv : v.length = 4) (hmv : mv.length = 4) (hcnt : cnt.length = 4)
    (hn : decodeInt32 cnt = n) (hp : payload.length < n)
    (α : Type) (size : Nat) (decode : List Byte → α) (data : α) (hshort : short.length < size)
    (s : String) :
    binary.Read size decode data short = .ok data [] ∧
    Main.String.Read s (cnt ++ payload) =
      .ok { NumChars := n, Chars := List.replicate n 0, Readable := List.replicate n 0 } [] ∧
    Editor.readString s [] (cnt ++ payload) =
      .ok { NumChars := n, Chars := List.replicate n 0, Readable := List.replicate n 0 } [] ∧
    Main.Game.Read Main.Game.zero ([0x57, 0x52, 0x44, 0x52] ++ v ++ mv ++ cnt ++ payload) =
      .ok { Main.Game.zero with
            Header :=
              { MagicNumber := 0x52445257, GameVersion := decodeInt32 v,
                ModuleVersion := decodeInt32 mv,
                SavegameName :=
                  { NumChars := n, Chars := List.replicate n 0, Readable := List.replicate n 0 },
                PlayerName := String.zero, PlayerLevel := 0, Date := 0 } } [] ∧
    Editor.main ([0x57, 0x52, 0x44, 0x52] ++ v ++ mv ++ cnt ++ payload) =
      .ok { Editor.Save.zero with
            Header :=
              { MagicNumber := 0x52445257, GameVersion := decodeInt32 v,
                ModuleVersion := decodeInt32 mv,
                SavegameName :=
                  { NumChars := n, Chars := List.replicate n 0, Readable := List.replicate n 0 },
                PlayerName := String.zero, PlayerLevel := 0, Date := 0 } } [] ∧
    (∀ (file : File) (g : Main.Game) (rest : File),
      Main.Game.Read Main.Game.zero file = .ok g rest → ∀ k, 4 ≤ k →
        ∃ g1 rest1, Main.Game.Read Main.Game.zero (file.take k) = .ok g1 rest1 ∧
          ((g1 = g ∧ ∃ m, rest1 = rest.take m) ∨ rest1 = [])) ∧
    (∀ (file : File) (sv : Editor.Save) (rest : File),
      Editor.main file = .ok sv rest → ∀ k, 4 ≤ k →
        ∃ sv1 rest1, Editor.main (file.take k) = .ok sv1 rest1 ∧
          ((sv1 = sv ∧ ∃ m, rest1 = rest.take m) ∨ rest1 = [])) := by
  refine ⟨binaryRead_short size decode data short hshort,
    main_string_short s cnt payload n hcnt hn hp, editor_string_short s cnt payload n hcnt hn hp,
    ?_, ?_, main_root_cut, editor_root_cut⟩
  · simp only [List.append_assoc]
    exact main_game_header_only _ _ (main_header_short_name v mv cnt payload n hv hmv hcnt hn hp)
  · simp only [List.append_assoc]
    exact editor_main_header_only _ _
      (editor_header_short_name v mv cnt payload n hv hmv hcnt hn hp)

theorem short_read_keeps_value_and_decode_continues_witness :
    Main.Int32.Read 7 [0x41, 0x42] = .ok 7 [] ∧
    Main.String.Read String.zero [5, 0, 0, 0, 0x41, 0x42] =
      .ok { NumChars := 5, Chars := [0, 0, 0, 0, 0], Readable := [0, 0, 0, 0, 0] } [] ∧
    Main.Game.Read Main.Game.zero
        [0x57, 0x52, 0x44, 0x52, 0x8a, 0x04, 0, 0, 1, 0, 0, 0, 5, 0, 0, 0, 0x41, 0x42] =
      .ok { Main.Game.zero with
            Header :=
              { MagicNumber := 0x52445257, GameVersion := 1162, ModuleVersion := 1,
                SavegameName :=
                  { NumChars := 5, Chars := [0, 0, 0, 0, 0], Readable := [0, 0, 0, 0, 0] },
                PlayerName := String.zero, PlayerLevel := 0, Date := 0 } } [] ∧
    Editor.main
        [0x57, 0x52, 0x44, 0x52, 0x8a, 0x04, 0, 0, 1, 0, 0, 0, 5, 0, 0, 0, 0x41, 0x42] =
      .ok { Editor.Save.zero with
            Header :=
              { MagicNumber := 0x52445257, GameVersion := 1162, ModuleVersion := 1,
                SavegameName :=
                  { NumChars := 5, Chars := [0, 0, 0, 0, 0], Readable := [0, 0, 0, 0, 0] },
                PlayerName := String.zero, PlayerLevel := 0, Date := 0 } } [] ∧
    Main.Game.Read Main.Game.zero twoFactionsInput = .ok Main.twoFactionsGame [] ∧
    (∃ g1 rest1, Main.Game.Read Main.Game.zero (twoFactionsInput.take 100) = .ok g1 rest1 ∧
      ((g1 = Main.twoFactionsGame ∧ ∃ m, rest1 = ([] : File).take m) ∨ rest1 = [])) ∧
    Editor.main twoFactionsInput = .ok Editor.twoFactionsSave [] ∧
    (∃ sv1 rest1, Editor.main (twoFactionsInput.take 100) = .ok sv1 rest1 ∧
      ((sv1 = Editor.twoFactionsSave ∧ ∃ m, rest1 = ([] : File).take m) ∨ rest1 = [])) ∧
    (Main.Game.Read Main.Game.zero (twoFactionsInput.take 100)).returned.map
        (fun g => (g.Hour, g.NumFactions, g.Factions.length)) = some (0, 0, 0) :=
  have w := short_read_keeps_value_and_decode_continues [0x8a, 0x04, 0, 0] [1, 0, 0, 0]
    [5, 0, 0, 0] [0x41, 0x42] [0x41, 0x42] 5 rfl rfl rfl (by decide) (by decide)
    Int32 4 decodeInt32 7 (by decide) String.zero
  have e1 : Main.Game.Read Main.Game.zero twoFactionsInput = .ok Main.twoFactionsGame [] := by
    decide!
  have e2 : Editor.main twoFactionsInput = .ok Editor.twoFactionsSave [] := by
    decide!
  ⟨w.1, w.2.1, w.2.2.2.1, w.2.2.2.2.1, e1,
    w.2.2.2.2.2.1 twoFactionsInput Main.twoFactionsGame [] e1 100 (by decide), e2,
    w.2.2.2.2.2.2 twoFactionsInput Editor.twoFactionsSave [] e2 100 (by decide), by decide!⟩

/-- Claim C28, amended: short reads are silently zero-filled, except that of
the magic number. (1) A `binary.Read` of a scalar of `size` bytes with fewer
bytes left keeps the previous value of its target (zero in a fresh tree) and
leaves no input. (2) On the magic number followed by fewer than 4 bytes, both
root decoders return the tree whose only non-zero field is the magic number.
(3) When the header reader returns with fewer than 8 bytes left (none
included), so that the read of `GameTime` is short, both root decoders return
the tree that holds that header and is zero everywhere else. (4) On an input
of fewer than 4 bytes the magic number stays 0, the check of it fails, and
both root decoders end in `log.Fatal`. (5) On the exhausted input every reader
of both files, given a zero value, returns that zero value: once a read has
been short, every later scalar and count stays zero and every collection
empty. (6) A minimal save (every text empty, every section count zero) cut to
its first `n` bytes, `n` at least 8, wherever the cut falls, is decoded by both
root decoders to the tree of the save `i.cut n`: every field that lies in full
within the first `n` bytes has its value, every other field is zero, since
the decoders map zero bytes to zero. `main.go` fills the array `_unused3`
element by element, `editor.go` as a whole or not at all. (7) Whenever a root
decoder returns on an input, it returns on every truncation of that input to
four or more bytes, the allocation of a slice being assumed to succeed as in
`make`. -/
theorem short_reads_zero_fill_after_magic (α : Type) (size : Nat) (decode : List Byte → α)
    (data : α) (short : File) (hshort : short.length < size) (tail : File)
    (htail : tail.length < 4) :
    binary.Read size decode data short = .ok data [] ∧
    Main.Game.Read Main.Game.zero ([0x57, 0x52, 0x44, 0x52] ++ tail) =
      .ok { Main.Game.zero with Header := { Header.zero with MagicNumber := 0x52445257 } }
        [] ∧
    Editor.main ([0x57, 0x52, 0x44, 0x52] ++ tail) =
      .ok { Editor.Save.zero with Header := { Header.zero with MagicNumber := 0x52445257 } }
        [] ∧
    (∀ (hdr : Header) (file left : File), left.length < 8 →
      (Main.Header.Read Header.zero file = .ok hdr left →
        Main.Game.Read Main.Game.zero file = .ok { Main.Game.zero with Header := hdr } []) ∧
      (Editor.readHeader Header.zero file = .ok hdr left →
        Editor.main file = .ok { Editor.Save.zero with Header := hdr } [])) ∧
    Main.Game.Read Main.Game.zero tail = .fatal [] ∧
    Editor.main tail = .fatal [] ∧
    (∀ gv : Int32,
      Main.String.Read String.zero [] = .ok String.zero [] ∧
      Main.Trigger.Read Trigger.zero [] = .ok Trigger.zero [] ∧
      Main.SimpleTrigger.Read SimpleTrigger.zero [] = .ok SimpleTrigger.zero [] ∧
      Main.Note.Read Note.zero [] = .ok Note.zero [] ∧
      Main.Quest.Read Quest.zero [] = .ok Quest.zero [] ∧
      Main.InfoPage.Read InfoPage.zero [] = .ok InfoPage.zero [] ∧
      Main.Site.Read Site.zero [] = .ok Site.zero [] ∧
      Main.Faction.Read Main.Faction.zero [] = .ok Main.Faction.zero [] ∧
      Main.MapTrack.Read MapTrack.zero [] = .ok MapTrack.zero [] ∧
      Main.PartyTemplate.Read PartyTemplate.zero [] = .ok PartyTemplate.zero [] ∧
      Main.PartyStack.Read PartyStack.zero [] = .ok PartyStack.zero [] ∧
      Main.Party.Read Party.zero gv [] = .ok Party.zero [] ∧
      Main.PartyRecord.Read PartyRecord.zero gv [] = .ok PartyRecord.zero []) ∧
    (∀ gv : Int32,
      Editor.readString String.zero [] [] = .ok String.zero [] ∧
      Editor.readNote Note.zero [] = .ok Note.zero [] ∧
      Editor.readQuest Quest.zero [] = .ok Quest.zero [] ∧
      Editor.readInfoPage InfoPage.zero [] = .ok InfoPage.zero [] ∧
      Editor.readSite Site.zero [] = .ok Site.zero [] ∧
      Editor.readFaction Editor.Faction.zero 0 [] = .ok Editor.Faction.zero [] ∧
      Editor.readMapTrack MapTrack.zero [] = .ok MapTrack.zero [] ∧
      Editor.readPartyTemplate PartyTemplate.zero [] = .ok PartyTemplate.zero [] ∧
      Editor.readPartyStack PartyStack.zero [] = .ok PartyStack.zero [] ∧
      Editor.readParty Party.zero gv [] = .ok Party.zero [] ∧
      Editor.readPartyRecord PartyRecord.zero gv [] = .ok PartyRecord.zero []) ∧
    (∀ (c : Prop) [Decidable c] (b4 : Bytes 4) (b8 : Bytes 8) (b : Byte), ¬ c →
      decodeInt32 (Bytes.keep c b4).toList = 0 ∧ decodeFloat (Bytes.keep c b4).toList = 0 ∧
      decodeFloatReflect (Bytes.keep c b4).toList = 0 ∧
      decodeInt64 (Bytes.keep c b8).toList = 0 ∧ decodeUInt64 (Bytes.keep c b8).toList = 0 ∧
      decodeBool [if c then b else 0] = false) ∧
    (∀ (i : MinimalImage) (rest : File) (n : Nat), 8 ≤ n →
      Main.Game.Read Main.Game.zero
          ((i.bytes (decide (decodeInt32 i.GameVersion.toList ≥ 1137)) ++ rest).take n) =
        .ok ((i.cut true (decide (decodeInt32 i.GameVersion.toList ≥ 1137)) n).game
            (decide (decodeInt32 i.GameVersion.toList ≥ 1137)) Main.Game.zero)
          (rest.take (n - (269 +
            (if decide (decodeInt32 i.GameVersion.toList ≥ 1137) then 20 else 0))))) ∧
    (∀ (i : MinimalImage) (rest : File) (n : Nat), 8 ≤ n →
      Editor.main
          ((i.bytes (decide (decodeInt32 i.GameVersion.toList ≥ 1137)) ++ rest).take n) =
        .ok ((i.cut false (decide (decodeInt32 i.GameVersion.toList ≥ 1137)) n).save
            (decide (decodeInt32 i.GameVersion.toList ≥ 1137)))
          (rest.take (n - (269 +
            (if decide (decodeInt32 i.GameVersion.toList ≥ 1137) then 20 else 0))))) ∧
    (∀ (file : File) (g : Main.Game) (rest : File),
      Main.Game.Read Main.Game.zero file = .ok g rest → ∀ k, 4 ≤ k →
        ∃ g1 rest1, Main.Game.Read Main.Game.zero (file.take k) = .ok g1 rest1 ∧
          ((g1 = g ∧ ∃ m, rest1 = rest.take m) ∨ rest1 = [])) ∧
    (∀ (file : File) (sv : Editor.Save) (rest : File),
      Editor.main file = .ok sv rest → ∀ k, 4 ≤ k →
        ∃ sv1 rest1, Editor.main (file.take k) = .ok sv1 rest1 ∧
          ((sv1 = sv ∧ ∃ m, rest1 = rest.take m) ∨ rest1 = [])) :=
  ⟨binaryRead_short size decode data short hshort,
    main_game_header_only _ _ (main_header_magic_only tail htail),
    editor_main_header_only _ _ (editor_header_magic_only tail htail),
    fun hdr file left hl =>
      ⟨main_game_time_short hdr file left hl, editor_game_time_short hdr file left hl⟩,
    main_short_magic tail htail, editor_short_magic tail htail,
    fun gv => ⟨by decide, by decide, by decide, by decide, by decide, by decide, by decide,
      by decide, by decide, by decide, by decide, main_party_exhausted gv,
      main_record_exhausted gv⟩,
    fun gv => ⟨by decide, by decide, by decide, by decide, by decide, by decide, by decide,
      by decide, by decide, editor_party_exhausted gv, editor_record_exhausted gv⟩,
    fun c _ b4 b8 b hc => by
      simp only [decode_keep, decodeBool_keep, hc, if_false, decodeInt32_zeroBytes,
        decodeFloat_zeroBytes, decodeFloatReflect_zeroBytes, decodeInt64_zeroBytes,
        decodeUInt64_zeroBytes, true_and]
      decide,
    main_minimal_cut, editor_minimal_cut, main_root_cut, editor_root_cut⟩

theorem short_reads_zero_fill_after_magic_witness :
    Main.Int32.Read 0 [0x41, 0x42] = .ok 0 [] ∧
    Main.Game.Read Main.Game.zero [0x57, 0x52, 0x44, 0x52] =
      .ok { Main.Game.zero with Header := { Header.zero with MagicNumber := 0x52445257 } }
        [] ∧
    Editor.main [0x57, 0x52, 0x44, 0x52] =
      .ok { Editor.Save.zero with Header := { Header.zero with MagicNumber := 0x52445257 } }
        [] ∧
    Main.Game.Read Main.Game.zero
        ([0x57, 0x52, 0x44, 0x52, 0x8a, 0x04, 0, 0] ++ List.replicate 20 0 ++ [1, 2, 3]) =
      .ok { Main.Game.zero with
            Header := { Header.zero with MagicNumber := 0x52445257, GameVersion := 1162 } }
        [] ∧
    Main.Game.Read Main.Game.zero [] = .fatal [] ∧
    (Main.Game.Read Main.Game.zero [0x57, 0x52, 0x44, 0x52]).returned.map
        (fun g => (g.Header.GameVersion,
          [g.NumGlobalVariables, g.NumTriggers, g.NumSimpleTriggers, g.NumQuests,
            g.NumInfoPages, g.NumSites, g.NumFactions, g.NumMapTracks, g.NumPartyTemplates,
            g.NumPartyRecords],
          [g.GlobalVariables.length, g.Triggers.length, g.SimpleTriggers.length,
            g.Quests.length, g.InfoPages.length, g.Sites.length, g.Factions.length,
            g.MapTracks.length, g.PartyTemplates.length, g.PartyRecords.length])) =
      some (0, [0, 0, 0, 0, 0, 0, 0, 0, 0, 0], [0, 0, 0, 0, 0, 0, 0, 0, 0, 0]) ∧
    Main.Party.Read Party.zero 1162 [] = .ok Party.zero [] ∧
    (hourMinimal.bytes true).length = 289 ∧
    Main.Game.Read Main.Game.zero ((hourMinimal.bytes true ++ []).take 74) =
      .ok ((hourMinimal.cut true true 74).game true Main.Game.zero) [] ∧
    Editor.main ((hourMinimal.bytes true ++ []).take 78) =
      .ok ((hourMinimal.cut false true 78).save true) [] ∧
    (let g := (hourMinimal.cut true true 74).game true Main.Game.zero
     (g.Header.GameVersion, g.Hour, g.Day, g.NumPartiesCreated)) = (1162, 0, 0, 0) ∧
    (let sv := (hourMinimal.cut false true 78).save true
     (sv.Header.GameVersion, sv.Hour, sv.Day, sv.NumPartiesCreated)) = (1162, 7, 0, 0) ∧
    (let sv := hourMinimal.save true
     (sv.Header.GameVersion, sv.Hour, sv.Day, sv.NumPartiesCreated)) = (1162, 7, 9, 0) ∧
    (∃ g1 rest1, Main.Game.Read Main.Game.zero ((hourMinimal.bytes true).take 74) =
        .ok g1 rest1 ∧
      ((g1 = hourMinimal.game true Main.Game.zero ∧ ∃ m, rest1 = ([] : File).take m) ∨
        rest1 = [])) :=
  have w := short_reads_zero_fill_after_magic Int32 4 decodeInt32 0 [0x41, 0x42] (by decide) []
    (by decide)
  have e1 : Main.Game.Read Main.Game.zero (hourMinimal.bytes true) =
      .ok (hourMinimal.game true Main.Game.zero) [] := by
    have e := main_minimal_layout Main.Game.zero hourMinimal []
    rw [List.append_nil] at e
    exact e
  ⟨w.1, w.2.1, w.2.2.1,
    (w.2.2.2.1 { Header.zero with MagicNumber := 0x52445257, GameVersion := 1162 }
      ([0x57, 0x52, 0x44, 0x52, 0x8a, 0x04, 0, 0] ++ List.replicate 20 0 ++ [1, 2, 3])
      [1, 2, 3] (by decide)).1 (by decide),
    w.2.2.2.2.1, by decide, (w.2.2.2.2.2.2.1 1162).2.2.2.2.2.2.2.2.2.2.2.1, by decide,
    w.2.2.2.2.2.2.2.2.2.1 hourMinimal [] 74 (by decide),
    w.2.2.2.2.2.2.2.2.2.2.1 hourMinimal [] 78 (by decide), by decide, by decide, by decide,
    w.2.2.2.2.2.2.2.2.2.2.2.1 (hourMinimal.bytes true) (hourMinimal.game true Main.Game.zero) []
      e1 74 (by decide)⟩

end Mbw
